import Mathlib

/-! Xolotl reaction-network engine: shallow embedding and verified properties.

The development embeds the super-cluster moment closure of
`xolotlCore/reactants/psiclusters/SuperCluster.cpp` and the rate and id
logic of `xolotlCore/reactants/alloyclusters/AlloyClusterReactionNetwork.cpp`.

Conventions of the embedding.

* A C++ `double` is an element of an arbitrary field `K` (exact arithmetic).
  Every definition is computable once `K` is, for instance at `K = ℚ`.
* A `PSICluster *` is a `ClusterPtr` (a natural number); pointer equality is
  equality of the numbers and `0` plays the role of `NULL`.  The objects the
  pointers designate are given by a heap `ClusterPtr → PSICluster K`.
* A `std::map` keyed by `(heIndex, vIndex)` is the list of its
  `(key, value)` pairs in iteration order; a `std::vector` and a
  `std::forward_list` are lists, `push_front` is list cons.
-/

namespace Xolotl

/-! ## Data model of the super cluster -/

/-- A `PSICluster *`: the identity of a reactant. -/
abbrev ClusterPtr := Nat

/-- The composition key `(heIndex, vIndex)` of the per-cell maps. -/
abbrev CellKey := Int × Int

/-- What `SuperCluster.cpp` reads from a reactant through a `PSICluster *`:
`getId()`, `getHeMomentumId()`, `getVMomentumId()`,
`getConcentration(0.0, 0.0)`, `getHeMomentum()` and `getVMomentum()`.
The class itself (`PSICluster.h`) is not among the sources, so the values
returned by these accessors are the fields of this record. -/
structure PSICluster (K : Type) where
  id : Int
  heMomId : Int
  vMomId : Int
  concentration : K
  heMomentum : K
  vMomentum : K

/-- The micro record `ClusterPair` (declared in `PSICluster.h`) as
`SuperCluster.cpp` uses it for reacting, dissociating and emission pairs. -/
structure ClusterPair (K : Type) where
  first : ClusterPtr
  second : ClusterPtr
  firstHeDistance : K
  firstVDistance : K
  secondHeDistance : K
  secondVDistance : K
  kConstant : K

/-- The micro record `CombiningCluster` (declared in `PSICluster.h`). -/
structure CombiningCluster (K : Type) where
  combining : ClusterPtr
  heDistance : K
  vDistance : K
  kConstant : K

/-- The aggregated record `SuperClusterProductionPair`: the two partners, the
rate constant and the 27 coefficients `a[i][j][k]`, all initialised to zero
by the constructor. -/
structure SuperClusterProductionPair (K : Type) where
  first : ClusterPtr
  second : ClusterPtr
  kConstant : K
  a000 : K
  a001 : K
  a002 : K
  a100 : K
  a101 : K
  a102 : K
  a200 : K
  a201 : K
  a202 : K
  a010 : K
  a011 : K
  a012 : K
  a020 : K
  a021 : K
  a022 : K
  a110 : K
  a111 : K
  a112 : K
  a120 : K
  a121 : K
  a122 : K
  a210 : K
  a211 : K
  a212 : K
  a220 : K
  a221 : K
  a222 : K

/-- The aggregated record `SuperClusterDissociationPair`: nine coefficients. -/
structure SuperClusterDissociationPair (K : Type) where
  first : ClusterPtr
  second : ClusterPtr
  kConstant : K
  a00 : K
  a01 : K
  a02 : K
  a10 : K
  a11 : K
  a12 : K
  a20 : K
  a21 : K
  a22 : K

/-- The members of `SuperCluster` that the embedded functions read or write. -/
structure SuperCluster (K : Type) where
  id : Int
  heMomId : Int
  vMomId : Int
  numHe : K
  numV : K
  nTot : Int
  sectionHeWidth : Int
  sectionVWidth : Int
  l0 : K
  l1He : K
  l1V : K
  dispersionHe : K
  dispersionV : K
  effReactingMap : List (CellKey × List (ClusterPair K))
  effCombiningMap : List (CellKey × List (CombiningCluster K))
  effDissociatingMap : List (CellKey × List (ClusterPair K))
  effEmissionMap : List (CellKey × List (ClusterPair K))
  effReactingList : List (SuperClusterProductionPair K)
  effCombiningList : List (SuperClusterProductionPair K)
  effDissociatingList : List (SuperClusterDissociationPair K)
  effEmissionList : List (SuperClusterDissociationPair K)
  heMomentumFlux : K
  vMomentumFlux : K

section Coalesce

variable {E S : Type}

/-! ## The grouping pass

The four loops of `SuperCluster::optimizeReactions` (lines 425-538, 541-639,
642-713 and 716-789) have the same control flow and differ in the test
"same reaction", in the constructor of the super pair and in the
accumulation.  `coalesceMap` is that control flow; the four instances follow.

In the source `pairs` (line 428) and `pairsBis` (line 450) are copies
(`auto pairs = mapIt->second`), so the iterators `it` and `itBis` range over
different vectors and the guard `itBis == it` (line 503) is never true:
every matching element is erased from `pairsBis`, which is then written back
to the map (line 517), while `pairs` keeps the elements it was copied with. -/

/-- The loop on `itBis` (lines 453-514) over the vector of one cell: a
matching element is accumulated into the super pair and erased, any other
element is kept. -/
def coalesceCell (same : E → Bool) (add : S → E → S) :
    List E → S → S × List E
  | [], superPair => (superPair, [])
  | e :: pairsBis, superPair =>
    if same e then coalesceCell same add pairsBis (add superPair e)
    else
      let r := coalesceCell same add pairsBis superPair
      (r.1, e :: r.2)

/-- The loop on `mapItBis` (lines 440-518) from the current cell to the end
of the map; `add key` is the accumulation with the factors of cell `key`. -/
def coalesceCells (same : E → Bool) (add : CellKey → S → E → S) :
    List (CellKey × List E) → S → S × List (CellKey × List E)
  | [], superPair => (superPair, [])
  | (key, pairsBis) :: rest, superPair =>
    let r := coalesceCell same (add key) pairsBis superPair
    let r2 := coalesceCells same add rest r.1
    (r2.1, (key, r.2) :: r2.2)

/-- The loop on `it` (lines 430-537) over the copy `pairs` of the current
cell: a super pair is created from `*it`, filled from the rest of the map
`cells` (whose first element is the current cell), pushed to the front of
the aggregated list, and `it` is erased from the copy. -/
def coalescePairs (same : E → E → Bool) (init : E → S)
    (add : CellKey → S → E → S) :
    List E → List (CellKey × List E) → List S → List (CellKey × List E) × List S
  | [], cells, superList => (cells, superList)
  | e :: pairs, cells, superList =>
    let r := coalesceCells (same e) add cells (init e)
    coalescePairs same init add pairs r.2 (r.1 :: superList)

/-- The loop on `mapIt` (lines 425-538): `n` counts the cells still to be
visited and `cells` is the part of the map from `mapIt` on.  The cells
already visited are returned in front of the rest. -/
def coalesceFrom (same : E → E → Bool) (init : E → S)
    (add : CellKey → S → E → S) :
    Nat → List (CellKey × List E) → List S → List (CellKey × List E) × List S
  | 0, cells, superList => (cells, superList)
  | _ + 1, [], superList => ([], superList)
  | n + 1, (key, pairs) :: rest, superList =>
    let r := coalescePairs same init add pairs ((key, pairs) :: rest) superList
    let r2 := coalesceFrom same init add n r.1.tail r.2
    (r.1.take 1 ++ r2.1, r2.2)

/-- One of the four loops of `optimizeReactions`: every cell of the map is
visited once. -/
def coalesceMap (same : E → E → Bool) (init : E → S)
    (add : CellKey → S → E → S) (cells : List (CellKey × List E))
    (superList : List S) : List (CellKey × List E) × List S :=
  coalesceFrom same init add cells.length cells superList

end Coalesce

section SuperClusterOps

variable {K : Type} [Field K]

/-! ## Distances and the affine concentration model -/

/-- `SuperCluster::getConcentration` (lines 89-91). -/
def SuperCluster.getConcentration (sc : SuperCluster K) (distHe distV : K) : K :=
  sc.l0 + (distHe * sc.l1He) + (distV * sc.l1V)

/-- `SuperCluster::getHeDistance` (lines 165-169). -/
def SuperCluster.getHeDistance (sc : SuperCluster K) (he : Int) : K :=
  if sc.sectionHeWidth = 1 then 0
  else 2 * ((he : K) - sc.numHe) / ((sc.sectionHeWidth : K) - 1)

/-- `SuperCluster::getVDistance` (lines 171-175). -/
def SuperCluster.getVDistance (sc : SuperCluster K) (v : Int) : K :=
  if sc.sectionVWidth = 1 then 0
  else 2 * ((v : K) - sc.numV) / ((sc.sectionVWidth : K) - 1)

/-- The factor `heFactor = (double) (heIndex - numHe) / dispersionHe` of a
cell (lines 443-444). -/
def SuperCluster.heFactor (sc : SuperCluster K) (key : CellKey) : K :=
  ((key.1 : K) - sc.numHe) / sc.dispersionHe

/-- The factor `vFactor = (double) (vIndex - numV) / dispersionV` of a cell
(lines 446-447). -/
def SuperCluster.vFactor (sc : SuperCluster K) (key : CellKey) : K :=
  ((key.2 : K) - sc.numV) / sc.dispersionV

/-- The dispersion of one axis as `SuperCluster::computeRateConstants`
computes it (lines 388-397 for He, 399-407 for V): `nSquare` is the sum of
the squared indices of the occupied cells and `composition` the entry of
`compositionMap` for the axis. -/
def computeDispersion (sectionWidth nSquare composition nTot : Int) : K :=
  if sectionWidth = 1 then 1
  else 2 * ((nSquare : K) - ((composition : K) * ((composition : K) / (nTot : K))))
    / ((nTot * (sectionWidth - 1) : Int) : K)

/-! ## The four instances of the grouping pass -/

/-- The constructor `SuperClusterProductionPair(first, second, k)`: every
coefficient starts at zero. -/
def SuperClusterProductionPair.new (first second : ClusterPtr) (k : K) :
    SuperClusterProductionPair K :=
  { first := first, second := second, kConstant := k,
    a000 := 0, a001 := 0, a002 := 0, a100 := 0, a101 := 0, a102 := 0,
    a200 := 0, a201 := 0, a202 := 0, a010 := 0, a011 := 0, a012 := 0,
    a020 := 0, a021 := 0, a022 := 0, a110 := 0, a111 := 0, a112 := 0,
    a120 := 0, a121 := 0, a122 := 0, a210 := 0, a211 := 0, a212 := 0,
    a220 := 0, a221 := 0, a222 := 0 }

/-- The constructor `SuperClusterDissociationPair(first, second, k)`. -/
def SuperClusterDissociationPair.new (first second : ClusterPtr) (k : K) :
    SuperClusterDissociationPair K :=
  { first := first, second := second, kConstant := k,
    a00 := 0, a01 := 0, a02 := 0, a10 := 0, a11 := 0, a12 := 0,
    a20 := 0, a21 := 0, a22 := 0 }

/-- The test of line 459: same first and same second reactant. -/
def samePair (e0 e : ClusterPair K) : Bool :=
  decide (e.first = e0.first ∧ e.second = e0.second)

/-- The test of line 577: same combining reactant. -/
def sameCombining (e0 e : CombiningCluster K) : Bool :=
  decide (e.combining = e0.combining)

/-- The accumulation of lines 462-500 (first is A, second is B). -/
def addReacting (heFactor vFactor : K) (sp : SuperClusterProductionPair K)
    (e : ClusterPair K) : SuperClusterProductionPair K :=
  { sp with
    a000 := sp.a000 + 1
    a001 := sp.a001 + heFactor
    a002 := sp.a002 + vFactor
    a100 := sp.a100 + e.firstHeDistance
    a101 := sp.a101 + e.firstHeDistance * heFactor
    a102 := sp.a102 + e.firstHeDistance * vFactor
    a200 := sp.a200 + e.firstVDistance
    a201 := sp.a201 + e.firstVDistance * heFactor
    a202 := sp.a202 + e.firstVDistance * vFactor
    a010 := sp.a010 + e.secondHeDistance
    a011 := sp.a011 + e.secondHeDistance * heFactor
    a012 := sp.a012 + e.secondHeDistance * vFactor
    a020 := sp.a020 + e.secondVDistance
    a021 := sp.a021 + e.secondVDistance * heFactor
    a022 := sp.a022 + e.secondVDistance * vFactor
    a110 := sp.a110 + e.firstHeDistance * e.secondHeDistance
    a111 := sp.a111 + e.firstHeDistance * e.secondHeDistance * heFactor
    a112 := sp.a112 + e.firstHeDistance * e.secondHeDistance * vFactor
    a120 := sp.a120 + e.firstHeDistance * e.secondVDistance
    a121 := sp.a121 + e.firstHeDistance * e.secondVDistance * heFactor
    a122 := sp.a122 + e.firstHeDistance * e.secondVDistance * vFactor
    a210 := sp.a210 + e.firstVDistance * e.secondHeDistance
    a211 := sp.a211 + e.firstVDistance * e.secondHeDistance * heFactor
    a212 := sp.a212 + e.firstVDistance * e.secondHeDistance * vFactor
    a220 := sp.a220 + e.firstVDistance * e.secondVDistance
    a221 := sp.a221 + e.firstVDistance * e.secondVDistance * heFactor
    a222 := sp.a222 + e.firstVDistance * e.secondVDistance * vFactor }

/-- The accumulation of lines 579-613 (this is A, the combining one is B);
`heDistance` and `vDistance` are those of the cell of this cluster. -/
def addCombining (heDistance vDistance heFactor vFactor : K)
    (sp : SuperClusterProductionPair K) (e : CombiningCluster K) :
    SuperClusterProductionPair K :=
  { sp with
    a000 := sp.a000 + 1
    a001 := sp.a001 + heFactor
    a002 := sp.a002 + vFactor
    a010 := sp.a010 + e.heDistance
    a011 := sp.a011 + e.heDistance * heFactor
    a012 := sp.a012 + e.heDistance * vFactor
    a020 := sp.a020 + e.vDistance
    a021 := sp.a021 + e.vDistance * heFactor
    a022 := sp.a022 + e.vDistance * vFactor
    a100 := sp.a100 + heDistance
    a101 := sp.a101 + heDistance * heFactor
    a102 := sp.a102 + heDistance * vFactor
    a200 := sp.a200 + vDistance
    a201 := sp.a201 + vDistance * heFactor
    a202 := sp.a202 + vDistance * vFactor
    a110 := sp.a110 + e.heDistance * heDistance
    a111 := sp.a111 + e.heDistance * heDistance * heFactor
    a112 := sp.a112 + e.heDistance * heDistance * vFactor
    a210 := sp.a210 + e.heDistance * vDistance
    a211 := sp.a211 + e.heDistance * vDistance * heFactor
    a212 := sp.a212 + e.heDistance * vDistance * vFactor
    a120 := sp.a120 + e.vDistance * heDistance
    a121 := sp.a121 + e.vDistance * heDistance * heFactor
    a122 := sp.a122 + e.vDistance * heDistance * vFactor
    a220 := sp.a220 + e.vDistance * vDistance
    a221 := sp.a221 + e.vDistance * vDistance * heFactor
    a222 := sp.a222 + e.vDistance * vDistance * vFactor }

/-- The accumulation of lines 679-687 (A is the dissociating cluster). -/
def addDissociating (heFactor vFactor : K) (sp : SuperClusterDissociationPair K)
    (e : ClusterPair K) : SuperClusterDissociationPair K :=
  { sp with
    a00 := sp.a00 + 1
    a01 := sp.a01 + heFactor
    a02 := sp.a02 + vFactor
    a10 := sp.a10 + e.firstHeDistance
    a11 := sp.a11 + e.firstHeDistance * heFactor
    a12 := sp.a12 + e.firstHeDistance * vFactor
    a20 := sp.a20 + e.firstVDistance
    a21 := sp.a21 + e.firstVDistance * heFactor
    a22 := sp.a22 + e.firstVDistance * vFactor }

/-- The accumulation of lines 755-763 (this cluster is the emitting one);
the micro entry contributes only by being counted. -/
def addEmission (heDistance vDistance heFactor vFactor : K)
    (sp : SuperClusterDissociationPair K) (_e : ClusterPair K) :
    SuperClusterDissociationPair K :=
  { sp with
    a00 := sp.a00 + 1
    a01 := sp.a01 + heFactor
    a02 := sp.a02 + vFactor
    a10 := sp.a10 + heDistance
    a11 := sp.a11 + heDistance * heFactor
    a12 := sp.a12 + heDistance * vFactor
    a20 := sp.a20 + vDistance
    a21 := sp.a21 + vDistance * heFactor
    a22 := sp.a22 + vDistance * vFactor }

/-- The loop on the effective reacting map (lines 425-538). -/
def SuperCluster.optimizeReacting (sc : SuperCluster K) :
    List (CellKey × List (ClusterPair K)) × List (SuperClusterProductionPair K) :=
  coalesceMap samePair
    (fun e => SuperClusterProductionPair.new e.first e.second e.kConstant)
    (fun key => addReacting (sc.heFactor key) (sc.vFactor key))
    sc.effReactingMap sc.effReactingList

/-- The loop on the effective combining map (lines 541-639); the second
cluster of the super pair is `NULL`. -/
def SuperCluster.optimizeCombining (sc : SuperCluster K) :
    List (CellKey × List (CombiningCluster K)) × List (SuperClusterProductionPair K) :=
  coalesceMap sameCombining
    (fun e => SuperClusterProductionPair.new e.combining 0 e.kConstant)
    (fun key => addCombining (sc.getHeDistance key.1) (sc.getVDistance key.2)
      (sc.heFactor key) (sc.vFactor key))
    sc.effCombiningMap sc.effCombiningList

/-- The loop on the effective dissociating map (lines 642-713). -/
def SuperCluster.optimizeDissociating (sc : SuperCluster K) :
    List (CellKey × List (ClusterPair K)) × List (SuperClusterDissociationPair K) :=
  coalesceMap samePair
    (fun e => SuperClusterDissociationPair.new e.first e.second e.kConstant)
    (fun key => addDissociating (sc.heFactor key) (sc.vFactor key))
    sc.effDissociatingMap sc.effDissociatingList

/-- The loop on the effective emission map (lines 716-789). -/
def SuperCluster.optimizeEmission (sc : SuperCluster K) :
    List (CellKey × List (ClusterPair K)) × List (SuperClusterDissociationPair K) :=
  coalesceMap samePair
    (fun e => SuperClusterDissociationPair.new e.first e.second e.kConstant)
    (fun key => addEmission (sc.getHeDistance key.1) (sc.getVDistance key.2)
      (sc.heFactor key) (sc.vFactor key))
    sc.effEmissionMap sc.effEmissionList

/-- `SuperCluster::optimizeReactions` (lines 415-802): the four loops in
turn.  The vectors cleared at lines 792-799 are scratch members that no
embedded function reads. -/
def SuperCluster.optimizeReactions (sc : SuperCluster K) : SuperCluster K :=
  { sc with
    effReactingMap := sc.optimizeReacting.1
    effReactingList := sc.optimizeReacting.2
    effCombiningMap := sc.optimizeCombining.1
    effCombiningList := sc.optimizeCombining.2
    effDissociatingMap := sc.optimizeDissociating.1
    effDissociatingList := sc.optimizeDissociating.2
    effEmissionMap := sc.optimizeEmission.1
    effEmissionList := sc.optimizeEmission.2 }

/-! ## Flux evaluation

Each flux function returns the flux together with the super cluster whose
members `heMomentumFlux` and `vMomentumFlux` have been updated
(`+=` or `-=`), in the order of the aggregated list. -/

/-- The body of the loop of `getDissociationFlux` (lines 935-947): `acc`
holds `flux`, `heMomentumFlux` and `vMomentumFlux`. -/
def dissociationFluxStep (heap : ClusterPtr → PSICluster K)
    (acc : K × K × K) (it : SuperClusterDissociationPair K) : K × K × K :=
  let dissociatingCluster := heap it.first
  let l0A := dissociatingCluster.concentration
  let lHeA := dissociatingCluster.heMomentum
  let lVA := dissociatingCluster.vMomentum
  let value := it.kConstant
  (acc.1 + value * (it.a00 * l0A + it.a10 * lHeA + it.a20 * lVA),
   acc.2.1 + value * (it.a01 * l0A + it.a11 * lHeA + it.a21 * lVA),
   acc.2.2 + value * (it.a02 * l0A + it.a12 * lHeA + it.a22 * lVA))

/-- `SuperCluster::getDissociationFlux` (lines 927-952). -/
def SuperCluster.getDissociationFlux (heap : ClusterPtr → PSICluster K)
    (sc : SuperCluster K) : K × SuperCluster K :=
  let r := sc.effDissociatingList.foldl (dissociationFluxStep heap)
    (0, sc.heMomentumFlux, sc.vMomentumFlux)
  (r.1, { sc with heMomentumFlux := r.2.1, vMomentumFlux := r.2.2 })

/-- The body of the loop of `getEmissionFlux` (lines 960-967). -/
def emissionFluxStep (l0 l1He l1V : K)
    (acc : K × K × K) (it : SuperClusterDissociationPair K) : K × K × K :=
  let value := it.kConstant
  (acc.1 + value * (it.a00 * l0 + it.a10 * l1He + it.a20 * l1V),
   acc.2.1 - value * (it.a01 * l0 + it.a11 * l1He + it.a21 * l1V),
   acc.2.2 - value * (it.a02 * l0 + it.a12 * l1He + it.a22 * l1V))

/-- `SuperCluster::getEmissionFlux` (lines 954-971). -/
def SuperCluster.getEmissionFlux (sc : SuperCluster K) : K × SuperCluster K :=
  let r := sc.effEmissionList.foldl (emissionFluxStep sc.l0 sc.l1He sc.l1V)
    (0, sc.heMomentumFlux, sc.vMomentumFlux)
  (r.1, { sc with heMomentumFlux := r.2.1, vMomentumFlux := r.2.2 })

/-- The body of the loop of `getProductionFlux` (lines 980-1009). -/
def productionFluxStep (heap : ClusterPtr → PSICluster K)
    (acc : K × K × K) (it : SuperClusterProductionPair K) : K × K × K :=
  let firstReactant := heap it.first
  let secondReactant := heap it.second
  let l0A := firstReactant.concentration
  let l0B := secondReactant.concentration
  let lHeA := firstReactant.heMomentum
  let lHeB := secondReactant.heMomentum
  let lVA := firstReactant.vMomentum
  let lVB := secondReactant.vMomentum
  let value := it.kConstant
  (acc.1 + value
      * (it.a000 * l0A * l0B + it.a010 * l0A * lHeB
        + it.a020 * l0A * lVB + it.a100 * lHeA * l0B
        + it.a110 * lHeA * lHeB + it.a120 * lHeA * lVB
        + it.a200 * lVA * l0B + it.a210 * lVA * lHeB
        + it.a220 * lVA * lVB),
   acc.2.1 + value
      * (it.a001 * l0A * l0B + it.a011 * l0A * lHeB
        + it.a021 * l0A * lVB + it.a101 * lHeA * l0B
        + it.a111 * lHeA * lHeB + it.a121 * lHeA * lVB
        + it.a201 * lVA * l0B + it.a211 * lVA * lHeB
        + it.a221 * lVA * lVB),
   acc.2.2 + value
      * (it.a002 * l0A * l0B + it.a012 * l0A * lHeB
        + it.a022 * l0A * lVB + it.a102 * lHeA * l0B
        + it.a112 * lHeA * lHeB + it.a122 * lHeA * lVB
        + it.a202 * lVA * l0B + it.a212 * lVA * lHeB
        + it.a222 * lVA * lVB))

/-- `SuperCluster::getProductionFlux` (lines 973-1014). -/
def SuperCluster.getProductionFlux (heap : ClusterPtr → PSICluster K)
    (sc : SuperCluster K) : K × SuperCluster K :=
  let r := sc.effReactingList.foldl (productionFluxStep heap)
    (0, sc.heMomentumFlux, sc.vMomentumFlux)
  (r.1, { sc with heMomentumFlux := r.2.1, vMomentumFlux := r.2.2 })

/-- The body of the loop of `getCombinationFlux` (lines 1025-1050); `l0`,
`l1He` and `l1V` are the moments of this cluster. -/
def combinationFluxStep (heap : ClusterPtr → PSICluster K) (l0 l1He l1V : K)
    (acc : K × K × K) (it : SuperClusterProductionPair K) : K × K × K :=
  let combiningCluster := heap it.first
  let l0B := combiningCluster.concentration
  let lHeB := combiningCluster.heMomentum
  let lVB := combiningCluster.vMomentum
  let value := it.kConstant
  (acc.1 + value
      * (it.a000 * l0B * l0 + it.a100 * l0B * l1He
        + it.a200 * l0B * l1V + it.a010 * lHeB * l0
        + it.a110 * lHeB * l1He + it.a210 * lHeB * l1V
        + it.a020 * lVB * l0 + it.a120 * lVB * l1He
        + it.a220 * lVB * l1V),
   acc.2.1 - value
      * (it.a001 * l0B * l0 + it.a101 * l0B * l1He
        + it.a201 * l0B * l1V + it.a011 * lHeB * l0
        + it.a111 * lHeB * l1He + it.a211 * lHeB * l1V
        + it.a021 * lVB * l0 + it.a121 * lVB * l1He
        + it.a221 * lVB * l1V),
   acc.2.2 - value
      * (it.a002 * l0B * l0 + it.a102 * l0B * l1He
        + it.a202 * l0B * l1V + it.a012 * lHeB * l0
        + it.a112 * lHeB * l1He + it.a212 * lHeB * l1V
        + it.a022 * lVB * l0 + it.a122 * lVB * l1He
        + it.a222 * lVB * l1V))

/-- `SuperCluster::getCombinationFlux` (lines 1016-1054). -/
def SuperCluster.getCombinationFlux (heap : ClusterPtr → PSICluster K)
    (sc : SuperCluster K) : K × SuperCluster K :=
  let r := sc.effCombiningList.foldl (combinationFluxStep heap sc.l0 sc.l1He sc.l1V)
    (0, sc.heMomentumFlux, sc.vMomentumFlux)
  (r.1, { sc with heMomentumFlux := r.2.1, vMomentumFlux := r.2.2 })

/-! ## Partial derivatives

The vector `partials` and the two file-level vectors `heMomentumPartials`
and `vMomentumPartials` (lines 13 and 18) are functions from the index to
the stored value; `partials[index] += x` is `PartialBuffers.add`. -/

/-- The three dense buffers written by the partial-derivative functions. -/
structure PartialBuffers (K : Type) where
  partials : Int → K
  heMomentumPartials : Int → K
  vMomentumPartials : Int → K

/-- The three statements `partials[index] += x; heMomentumPartials[index] += y;
vMomentumPartials[index] += z`. -/
def PartialBuffers.add (b : PartialBuffers K) (index : Int) (x y z : K) :
    PartialBuffers K :=
  { partials := Function.update b.partials index (b.partials index + x)
    heMomentumPartials :=
      Function.update b.heMomentumPartials index (b.heMomentumPartials index + y)
    vMomentumPartials :=
      Function.update b.vMomentumPartials index (b.vMomentumPartials index + z) }

/-- The three statements `partials[index] -= x; heMomentumPartials[index] -= y;
vMomentumPartials[index] -= z`. -/
def PartialBuffers.sub (b : PartialBuffers K) (index : Int) (x y z : K) :
    PartialBuffers K :=
  { partials := Function.update b.partials index (b.partials index - x)
    heMomentumPartials :=
      Function.update b.heMomentumPartials index (b.heMomentumPartials index - y)
    vMomentumPartials :=
      Function.update b.vMomentumPartials index (b.vMomentumPartials index - z) }

/-- The body of the loop of `getProductionPartialDerivatives` (lines
1087-1141) for one super pair `it`. -/
def productionPartialsStep (heap : ClusterPtr → PSICluster K)
    (b : PartialBuffers K) (it : SuperClusterProductionPair K) : PartialBuffers K :=
  let firstReactant := heap it.first
  let secondReactant := heap it.second
  let l0A := firstReactant.concentration
  let l0B := secondReactant.concentration
  let lHeA := firstReactant.heMomentum
  let lHeB := secondReactant.heMomentum
  let lVA := firstReactant.vMomentum
  let lVB := secondReactant.vMomentum
  let value := it.kConstant
  ((((((b.add (firstReactant.id - 1)
        (value * (it.a000 * l0B + it.a010 * lHeB + it.a020 * lVB))
        (value * (it.a001 * l0B + it.a011 * lHeB + it.a021 * lVB))
        (value * (it.a002 * l0B + it.a012 * lHeB + it.a022 * lVB))).add
      (firstReactant.heMomId - 1)
        (value * (it.a100 * l0B + it.a110 * lHeB + it.a120 * lVB))
        (value * (it.a101 * l0B + it.a111 * lHeB + it.a121 * lVB))
        (value * (it.a102 * l0B + it.a112 * lHeB + it.a122 * lVB))).add
      (firstReactant.vMomId - 1)
        (value * (it.a200 * l0B + it.a210 * lHeB + it.a220 * lVB))
        (value * (it.a201 * l0B + it.a211 * lHeB + it.a221 * lVB))
        (value * (it.a202 * l0B + it.a212 * lHeB + it.a222 * lVB))).add
      (secondReactant.id - 1)
        (value * (it.a000 * l0A + it.a100 * lHeA + it.a200 * lVA))
        (value * (it.a001 * l0A + it.a101 * lHeA + it.a201 * lVA))
        (value * (it.a002 * l0A + it.a102 * lHeA + it.a202 * lVA))).add
      (secondReactant.heMomId - 1)
        (value * (it.a010 * l0A + it.a110 * lHeA + it.a210 * lVA))
        (value * (it.a011 * l0A + it.a111 * lHeA + it.a211 * lVA))
        (value * (it.a012 * l0A + it.a112 * lHeA + it.a212 * lVA))).add
      (secondReactant.vMomId - 1)
        (value * (it.a020 * l0A + it.a120 * lHeA + it.a220 * lVA))
        (value * (it.a021 * l0A + it.a121 * lHeA + it.a221 * lVA))
        (value * (it.a022 * l0A + it.a122 * lHeA + it.a222 * lVA)))

/-- `SuperCluster::getProductionPartialDerivatives` (lines 1070-1145). -/
def SuperCluster.getProductionPartialDerivatives (heap : ClusterPtr → PSICluster K)
    (sc : SuperCluster K) (b : PartialBuffers K) : PartialBuffers K :=
  sc.effReactingList.foldl (productionPartialsStep heap) b

/-- The body of the loop of `getCombinationPartialDerivatives` (lines
1165-1215) for one super pair `it`. -/
def combinationPartialsStep (heap : ClusterPtr → PSICluster K)
    (sc : SuperCluster K) (b : PartialBuffers K)
    (it : SuperClusterProductionPair K) : PartialBuffers K :=
  let cluster := heap it.first
  let l0B := cluster.concentration
  let lHeB := cluster.heMomentum
  let lVB := cluster.vMomentum
  let value := it.kConstant
  ((((((b.sub (cluster.id - 1)
        (value * (it.a000 * sc.l0 + it.a100 * sc.l1He + it.a200 * sc.l1V))
        (value * (it.a001 * sc.l0 + it.a101 * sc.l1He + it.a201 * sc.l1V))
        (value * (it.a002 * sc.l0 + it.a102 * sc.l1He + it.a202 * sc.l1V))).sub
      (cluster.heMomId - 1)
        (value * (it.a010 * sc.l0 + it.a110 * sc.l1He + it.a210 * sc.l1V))
        (value * (it.a011 * sc.l0 + it.a111 * sc.l1He + it.a211 * sc.l1V))
        (value * (it.a012 * sc.l0 + it.a112 * sc.l1He + it.a212 * sc.l1V))).sub
      (cluster.vMomId - 1)
        (value * (it.a020 * sc.l0 + it.a120 * sc.l1He + it.a220 * sc.l1V))
        (value * (it.a021 * sc.l0 + it.a121 * sc.l1He + it.a221 * sc.l1V))
        (value * (it.a022 * sc.l0 + it.a122 * sc.l1He + it.a222 * sc.l1V))).sub
      (sc.id - 1)
        (value * (it.a000 * l0B + it.a010 * lHeB + it.a020 * lVB))
        (value * (it.a001 * l0B + it.a011 * lHeB + it.a021 * lVB))
        (value * (it.a002 * l0B + it.a012 * lHeB + it.a022 * lVB))).sub
      (sc.heMomId - 1)
        (value * (it.a100 * l0B + it.a110 * lHeB + it.a120 * lVB))
        (value * (it.a101 * l0B + it.a111 * lHeB + it.a121 * lVB))
        (value * (it.a102 * l0B + it.a112 * lHeB + it.a122 * lVB))).sub
      (sc.vMomId - 1)
        (value * (it.a200 * l0B + it.a210 * lHeB + it.a220 * lVB))
        (value * (it.a201 * l0B + it.a211 * lHeB + it.a221 * lVB))
        (value * (it.a202 * l0B + it.a212 * lHeB + it.a222 * lVB)))

/-- `SuperCluster::getCombinationPartialDerivatives` (lines 1147-1219). -/
def SuperCluster.getCombinationPartialDerivatives (heap : ClusterPtr → PSICluster K)
    (sc : SuperCluster K) (b : PartialBuffers K) : PartialBuffers K :=
  sc.effCombiningList.foldl (combinationPartialsStep heap sc) b

/-- The body of the loop of `getDissociationPartialDerivatives` (lines
1238-1253) for one super pair `it`. -/
def dissociationPartialsStep (heap : ClusterPtr → PSICluster K)
    (b : PartialBuffers K) (it : SuperClusterDissociationPair K) : PartialBuffers K :=
  let cluster := heap it.first
  let value := it.kConstant
  (((b.add (cluster.id - 1)
        (value * it.a00) (value * it.a01) (value * it.a02)).add
      (cluster.heMomId - 1)
        (value * it.a10) (value * it.a11) (value * it.a12)).add
      (cluster.vMomId - 1)
        (value * it.a20) (value * it.a21) (value * it.a22))

/-- `SuperCluster::getDissociationPartialDerivatives` (lines 1221-1257). -/
def SuperCluster.getDissociationPartialDerivatives (heap : ClusterPtr → PSICluster K)
    (sc : SuperCluster K) (b : PartialBuffers K) : PartialBuffers K :=
  sc.effDissociatingList.foldl (dissociationPartialsStep heap) b

/-- The body of the loop of `getEmissionPartialDerivatives` (lines
1274-1287) for one super pair `it`. -/
def emissionPartialsStep (sc : SuperCluster K)
    (b : PartialBuffers K) (it : SuperClusterDissociationPair K) : PartialBuffers K :=
  let value := it.kConstant
  (((b.sub (sc.id - 1)
        (value * it.a00) (value * it.a01) (value * it.a02)).sub
      (sc.heMomId - 1)
        (value * it.a10) (value * it.a11) (value * it.a12)).sub
      (sc.vMomId - 1)
        (value * it.a20) (value * it.a21) (value * it.a22))

/-- `SuperCluster::getEmissionPartialDerivatives` (lines 1259-1291). -/
def SuperCluster.getEmissionPartialDerivatives (sc : SuperCluster K)
    (b : PartialBuffers K) : PartialBuffers K :=
  sc.effEmissionList.foldl (emissionPartialsStep sc) b

/-- `SuperCluster::getPartialDerivatives` (lines 1056-1068): the two moment
buffers are filled with zeros, then the four contributions are added to the
caller's `partials` and to the moment buffers. -/
def SuperCluster.getPartialDerivatives (heap : ClusterPtr → PSICluster K)
    (sc : SuperCluster K) (b : PartialBuffers K) : PartialBuffers K :=
  let b : PartialBuffers K :=
    { partials := b.partials
      heMomentumPartials := fun _ => 0
      vMomentumPartials := fun _ => 0 }
  let b := sc.getProductionPartialDerivatives heap b
  let b := sc.getCombinationPartialDerivatives heap b
  let b := sc.getDissociationPartialDerivatives heap b
  sc.getEmissionPartialDerivatives b

end SuperClusterOps

/-! ## AlloyClusterReactionNetwork

`AlloyClusterReactionNetwork.cpp` uses the reactants through `IReactant`,
the reactions through `ProductionReaction` and `DissociationReaction`, and
the constants of `Constants.h`; none of these headers is among the sources.
The records below hold the members and accessors that the embedded functions
use.  The library functions `exp` and `pow` are parameters. -/

/-- The reactant types of the alloy network (constructor, lines 15-19) and
the type `He` set by `HeCluster.cpp`. -/
inductive ReactantType where
  | V
  | I
  | Frank
  | Void
  | Perfect
  | Faulted
  | VoidSuper
  | FaultedSuper
  | PerfectSuper
  | FrankSuper
  | He
  deriving DecidableEq, Repr

/-- The constants of `Constants.h` read by the alloy network. -/
structure Constants (K : Type) where
  pi : K
  alloyCoreRadius : K
  alloyLatticeConstant : K
  kBoltzmann : K

/-- An `IReactant` as the alloy network reads and writes it: `getType()`,
`getSize()`, `getId()`, `getMomentId()`, `getReactionRadius()`,
`getDiffusionCoefficient(i)`, `getDiffusionFactor()`, the concentration set
by `setConcentration`, the two moments of a super cluster set by
`setZerothMoment` and `setMoment`, and the vector `getConnectivity()`. -/
structure Reactant (K : Type) where
  type : ReactantType
  size : Int
  id : Int
  momId : Int
  reactionRadius : K
  diffusionCoefficient : Int → K
  diffusionFactor : K
  concentration : K
  zerothMoment : K
  moment : K
  connectivity : List Int

/-- A `ProductionReaction`: the two reactants and the rate constants
`kConstant[i]` cached per grid index. -/
structure ProductionReaction (K : Type) where
  first : Reactant K
  second : Reactant K
  kConstant : Int → K

/-- A `DissociationReaction`: the dissociating reactant, the two emitted
ones and the reverse production reaction its rate derives from. -/
structure DissociationReaction (K : Type) where
  dissociating : Reactant K
  first : Reactant K
  second : Reactant K
  reverseReaction : ProductionReaction K

/-- The members of `AlloyClusterReactionNetwork` (most of them inherited from
`ReactionNetwork`) that the embedded functions use; `clusterTypeCount t` is
`clusterTypeMap[t].size()`. -/
structure AlloyClusterReactionNetwork (K : Type) where
  dissociationsEnabled : Bool
  temperature : K
  maxClusterSizeMap : ReactantType → Int
  clusterTypeCount : ReactantType → Nat
  allReactants : List (Reactant K)

section Alloy

variable {K : Type} [Field K]

/-- The constructor (lines 13-25): an empty network on which the
dissociations are enabled. -/
def AlloyClusterReactionNetwork.new : AlloyClusterReactionNetwork K :=
  { dissociationsEnabled := true
    temperature := 0
    maxClusterSizeMap := fun _ => 0
    clusterTypeCount := fun _ => 0
    allReactants := [] }

/-- `AlloyClusterReactionNetwork::calculateReactionRateConstant`
(lines 27-42). -/
def calculateReactionRateConstant (cst : Constants K)
    (reaction : ProductionReaction K) (i : Int) : K :=
  let r_first := reaction.first.reactionRadius
  let r_second := reaction.second.reactionRadius
  let firstDiffusion := reaction.first.diffusionCoefficient i
  let secondDiffusion := reaction.second.diffusionCoefficient i
  let k_plus := 4 * cst.pi * (r_first + r_second + cst.alloyCoreRadius)
    * (firstDiffusion + secondDiffusion)
  k_plus

/-- The binding energy used by `calculateDissociationConstant` (lines 59-71):
the value of `computeBindingEnergy`, replaced for the smallest faulted loop.
`computeBindingEnergy` belongs to `ReactionNetwork` and is a parameter. -/
def correctedBindingEnergy (pow : K → K → K)
    (computeBindingEnergy : DissociationReaction K → K)
    (net : AlloyClusterReactionNetwork K) (reaction : DissociationReaction K) : K :=
  let bindingEnergy := computeBindingEnergy reaction
  let minFaultedSize : Int := net.maxClusterSizeMap ReactantType.Faulted + 1
    - (net.clusterTypeCount ReactantType.Faulted : Int)
  if reaction.dissociating.type = ReactantType.Faulted
      ∧ reaction.dissociating.size = minFaultedSize then
    3 / 2 - 205211 / 100000
      * (pow (minFaultedSize : K) (2 / 3) - pow ((minFaultedSize - 1 : Int) : K) (2 / 3))
  else bindingEnergy

/-- `AlloyClusterReactionNetwork::calculateDissociationConstant`
(lines 44-90); the literal `0.25` is `1 / 4`. -/
def calculateDissociationConstant (cst : Constants K) (exp : K → K) (pow : K → K → K)
    (computeBindingEnergy : DissociationReaction K → K)
    (net : AlloyClusterReactionNetwork K) (reaction : DissociationReaction K)
    (i : Int) : K :=
  if !net.dissociationsEnabled then 0
  else
    let atomicVolume := 1 / 4 * cst.alloyLatticeConstant * cst.alloyLatticeConstant
      * cst.alloyLatticeConstant
    let kPlus := reaction.reverseReaction.kConstant i
    let bindingEnergy := correctedBindingEnergy pow computeBindingEnergy net reaction
    let k_minus_exp := exp (-1 * bindingEnergy / (cst.kBoltzmann * net.temperature))
    let k_minus := (1 / atomicVolume) * kPlus * k_minus_exp
    k_minus

/-- The test of lines 251-254: the reactant is a super cluster. -/
def ReactantType.isSuper (t : ReactantType) : Bool :=
  t = ReactantType.VoidSuper || t = ReactantType.FaultedSuper
    || t = ReactantType.FrankSuper || t = ReactantType.PerfectSuper

/-- The first `for_each` of `reinitializeNetwork` (lines 236-244), started
with the counter `id`: returns the counter and the updated reactants.  The
call `optimizeReactions()` does not touch the ids. -/
def assignIds : Int → List (Reactant K) → Int × List (Reactant K)
  | id, [] => (id, [])
  | id, currReactant :: rest =>
    let id := id + 1
    let r := assignIds id rest
    (r.1, { currReactant with id := id, momId := id } :: r.2)

/-- The second `for_each` of `reinitializeNetwork` (lines 248-261). -/
def assignMomentIds : Int → List (Reactant K) → Int × List (Reactant K)
  | id, [] => (id, [])
  | id, currReactant :: rest =>
    if currReactant.type.isSuper then
      let id := id + 1
      let r := assignMomentIds id rest
      (r.1, { currReactant with momId := id } :: r.2)
    else
      let r := assignMomentIds id rest
      (r.1, currReactant :: r.2)

/-- `AlloyClusterReactionNetwork::reinitializeNetwork` (lines 234-264). -/
def AlloyClusterReactionNetwork.reinitializeNetwork
    (net : AlloyClusterReactionNetwork K) : AlloyClusterReactionNetwork K :=
  let pass1 := assignIds 0 net.allReactants
  let pass2 := assignMomentIds pass1.1 pass1.2
  { net with allReactants := pass2.2 }

end Alloy

/-! ## Reference sums -/

/-- The sum of `term` over every micro entry of every cell of a map: the
brute-force evaluation that the aggregated records are compared with. -/
def cellSum {E V : Type} [AddCommMonoid V] (term : CellKey → E → V)
    (cells : List (CellKey × List E)) : V :=
  (cells.map (fun c => (c.2.map (term c.1)).sum)).sum

section Reference

variable {K : Type} [Field K]

/-- The concentration `l0 + dHe * l1He + dV * l1V` of a partner at the
distances `(dHe, dV)`, from the values its accessors return. -/
def PSICluster.concentrationAt (p : PSICluster K) (distHe distV : K) : K :=
  p.concentration + distHe * p.heMomentum + distV * p.vMomentum

/-- The reaction `A + B -> this` of one micro entry evaluated on its own:
`k * C_A * C_B` at the distances stored in the entry. -/
def microProduction (heap : ClusterPtr → PSICluster K) (e : ClusterPair K) : K :=
  e.kConstant
    * (heap e.first).concentrationAt e.firstHeDistance e.firstVDistance
    * (heap e.second).concentrationAt e.secondHeDistance e.secondVDistance

/-- Brute-force production flux: the sum of `microProduction` over every
micro entry of every cell. -/
def bruteProductionFlux (heap : ClusterPtr → PSICluster K) (sc : SuperCluster K) : K :=
  cellSum (fun _ e => microProduction heap e) sc.effReactingMap

/-- Brute-force He-moment production flux: every term is weighted by
`(heIndex - numHe) / dispersionHe` of its cell. -/
def bruteProductionHeFlux (heap : ClusterPtr → PSICluster K) (sc : SuperCluster K) : K :=
  cellSum (fun key e => microProduction heap e * (((key.1 : K) - sc.numHe) / sc.dispersionHe))
    sc.effReactingMap

/-- Brute-force V-moment production flux: every term is weighted by
`(vIndex - numV) / dispersionV` of its cell. -/
def bruteProductionVFlux (heap : ClusterPtr → PSICluster K) (sc : SuperCluster K) : K :=
  cellSum (fun key e => microProduction heap e * (((key.2 : K) - sc.numV) / sc.dispersionV))
    sc.effReactingMap

/-- The reaction `this + B -> C` of one micro entry of cell `key` evaluated
on its own: `k * C_this * C_B`, this cluster taken at the distances of the
cell and `B` at the distances stored in the entry. -/
def microCombination (heap : ClusterPtr → PSICluster K) (sc : SuperCluster K)
    (key : CellKey) (e : CombiningCluster K) : K :=
  e.kConstant
    * sc.getConcentration (sc.getHeDistance key.1) (sc.getVDistance key.2)
    * (heap e.combining).concentrationAt e.heDistance e.vDistance

/-- Brute-force combination flux. -/
def bruteCombinationFlux (heap : ClusterPtr → PSICluster K) (sc : SuperCluster K) : K :=
  cellSum (fun key e => microCombination heap sc key e) sc.effCombiningMap

/-- Brute-force He-moment combination flux. -/
def bruteCombinationHeFlux (heap : ClusterPtr → PSICluster K) (sc : SuperCluster K) : K :=
  cellSum (fun key e => microCombination heap sc key e
    * (((key.1 : K) - sc.numHe) / sc.dispersionHe)) sc.effCombiningMap

/-- Brute-force V-moment combination flux. -/
def bruteCombinationVFlux (heap : ClusterPtr → PSICluster K) (sc : SuperCluster K) : K :=
  cellSum (fun key e => microCombination heap sc key e
    * (((key.2 : K) - sc.numV) / sc.dispersionV)) sc.effCombiningMap

/-- The reaction `A -> this + B` of one micro entry evaluated on its own:
`k * C_A` at the distances stored in the entry. -/
def microDissociation (heap : ClusterPtr → PSICluster K) (e : ClusterPair K) : K :=
  e.kConstant * (heap e.first).concentrationAt e.firstHeDistance e.firstVDistance

/-- Brute-force dissociation flux. -/
def bruteDissociationFlux (heap : ClusterPtr → PSICluster K) (sc : SuperCluster K) : K :=
  cellSum (fun _ e => microDissociation heap e) sc.effDissociatingMap

/-- Brute-force He-moment dissociation flux. -/
def bruteDissociationHeFlux (heap : ClusterPtr → PSICluster K) (sc : SuperCluster K) : K :=
  cellSum (fun key e => microDissociation heap e
    * (((key.1 : K) - sc.numHe) / sc.dispersionHe)) sc.effDissociatingMap

/-- Brute-force V-moment dissociation flux. -/
def bruteDissociationVFlux (heap : ClusterPtr → PSICluster K) (sc : SuperCluster K) : K :=
  cellSum (fun key e => microDissociation heap e
    * (((key.2 : K) - sc.numV) / sc.dispersionV)) sc.effDissociatingMap

/-- The reaction `this -> A + B` of one micro entry of cell `key` evaluated
on its own: `k * C_this` at the distances of the cell. -/
def microEmission (sc : SuperCluster K) (key : CellKey) (e : ClusterPair K) : K :=
  e.kConstant * sc.getConcentration (sc.getHeDistance key.1) (sc.getVDistance key.2)

/-- Brute-force emission flux. -/
def bruteEmissionFlux (sc : SuperCluster K) : K :=
  cellSum (fun key e => microEmission sc key e) sc.effEmissionMap

/-- Brute-force He-moment emission flux. -/
def bruteEmissionHeFlux (sc : SuperCluster K) : K :=
  cellSum (fun key e => microEmission sc key e
    * (((key.1 : K) - sc.numHe) / sc.dispersionHe)) sc.effEmissionMap

/-- Brute-force V-moment emission flux. -/
def bruteEmissionVFlux (sc : SuperCluster K) : K :=
  cellSum (fun key e => microEmission sc key e
    * (((key.2 : K) - sc.numV) / sc.dispersionV)) sc.effEmissionMap

/-- Modelled from the spec: `updateConcentrationsFromArray` of the PSI
network is not among the sources.  Following the spec's external interface
(a flat concentration array ordered by reactant ids, then moment ids, from
which every reactant's concentration and moments are set), the accessors of
a reactant return the entries `id - 1`, `heMomId - 1` and `vMomId - 1` of
the array. -/
def PSICluster.withConcentrations (p : PSICluster K) (conc : Int → K) : PSICluster K :=
  { p with
    concentration := conc (p.id - 1)
    heMomentum := conc (p.heMomId - 1)
    vMomentum := conc (p.vMomId - 1) }

/-- The heap whose reactants have been loaded from the concentration array. -/
def loadHeap (heap : ClusterPtr → PSICluster K) (conc : Int → K) :
    ClusterPtr → PSICluster K :=
  fun p => (heap p).withConcentrations conc

/-- Modelled from the spec: the moments `l0`, `l1He`, `l1V` of this super
cluster set from the entries `id - 1`, `heMomId - 1` and `vMomId - 1` of the
concentration array (see `PSICluster.withConcentrations`). -/
def SuperCluster.withConcentrations (sc : SuperCluster K) (conc : Int → K) :
    SuperCluster K :=
  { sc with
    l0 := conc (sc.id - 1)
    l1He := conc (sc.heMomId - 1)
    l1V := conc (sc.vMomId - 1) }

/-- The flux of the cluster: production flux - combination flux
+ dissociation flux - emission flux. -/
def SuperCluster.totalFlux (heap : ClusterPtr → PSICluster K) (sc : SuperCluster K) : K :=
  (sc.getProductionFlux heap).1 - (sc.getCombinationFlux heap).1
    + (sc.getDissociationFlux heap).1 - sc.getEmissionFlux.1

/-- The He and V moment fluxes accumulated by the four flux functions called
in turn on the same cluster. -/
def SuperCluster.momentFluxes (heap : ClusterPtr → PSICluster K) (sc : SuperCluster K) :
    K × K :=
  let s1 := (sc.getProductionFlux heap).2
  let s2 := (s1.getCombinationFlux heap).2
  let s3 := (s2.getDissociationFlux heap).2
  let s4 := s3.getEmissionFlux.2
  (s4.heMomentumFlux, s4.vMomentumFlux)

/-- The three buffers filled with zeros. -/
def PartialBuffers.zero : PartialBuffers K :=
  { partials := fun _ => 0
    heMomentumPartials := fun _ => 0
    vMomentumPartials := fun _ => 0 }

/-- The combination flux of an ordinary single-composition reactant of
concentration `l0`: the sum of `k * l0 * C_B` over the micro entries. -/
def ordinaryCombinationFlux (heap : ClusterPtr → PSICluster K) (sc : SuperCluster K) : K :=
  cellSum (fun _ e => e.kConstant * sc.l0
    * (heap e.combining).concentrationAt e.heDistance e.vDistance) sc.effCombiningMap

/-- The emission flux of an ordinary single-composition reactant of
concentration `l0`: the sum of `k * l0` over the micro entries. -/
def ordinaryEmissionFlux (sc : SuperCluster K) : K :=
  cellSum (fun (_ : CellKey) (e : ClusterPair K) => e.kConstant * sc.l0) sc.effEmissionMap

/-- A production super pair without moment part: the eighteen coefficients
`a..1` and `a..2` vanish. -/
def SuperClusterProductionPair.momentFree (sp : SuperClusterProductionPair K) : Prop :=
  (sp.a001 = 0 ∧ sp.a101 = 0 ∧ sp.a201 = 0 ∧ sp.a011 = 0 ∧ sp.a021 = 0
    ∧ sp.a111 = 0 ∧ sp.a121 = 0 ∧ sp.a211 = 0 ∧ sp.a221 = 0)
  ∧ (sp.a002 = 0 ∧ sp.a102 = 0 ∧ sp.a202 = 0 ∧ sp.a012 = 0 ∧ sp.a022 = 0
    ∧ sp.a112 = 0 ∧ sp.a122 = 0 ∧ sp.a212 = 0 ∧ sp.a222 = 0)

/-- A dissociation super pair without moment part. -/
def SuperClusterDissociationPair.momentFree (sp : SuperClusterDissociationPair K) : Prop :=
  (sp.a01 = 0 ∧ sp.a11 = 0 ∧ sp.a21 = 0) ∧ (sp.a02 = 0 ∧ sp.a12 = 0 ∧ sp.a22 = 0)

end Reference

/-! ## Dispersions and total concentrations of the super cluster -/

section Dispersions

variable {K : Type} [Field K]

/-- The end of `SuperCluster::computeRateConstants` (lines 388-407): the two
dispersions are assigned from the sums `nHeSquare`, `nVSquare` accumulated
over the occupied cells and from the two entries of `compositionMap`. -/
def SuperCluster.setDispersions (sc : SuperCluster K)
    (nHeSquare nVSquare compositionHe compositionV : Int) : SuperCluster K :=
  { sc with
    dispersionHe := computeDispersion sc.sectionHeWidth nHeSquare compositionHe sc.nTot
    dispersionV := computeDispersion sc.sectionVWidth nVSquare compositionV sc.nTot }

/-- The cells `(he, v)` for `he` in `hes` and `v` in `vs`, the vacancy index
varying in the outer loop. -/
def cellGrid (hes vs : List Int) : List CellKey :=
  vs.foldr (fun v acc => hes.map (fun he => (he, v)) ++ acc) []

/-- The test `effReactingMap.find(key) != effReactingMap.end()`. -/
def SuperCluster.isReactingKey (sc : SuperCluster K) (key : CellKey) : Bool :=
  sc.effReactingMap.any (fun c => decide (c.1 = key))

end Dispersions

section Totals

variable {K : Type} [LinearOrderedField K] [FloorRing K]

/-- The conversion `(int) x` of a `double`: truncation toward zero. -/
def castInt (x : K) : Int :=
  if 0 ≤ x then ⌊x⌋ else ⌈x⌉

/-- The helium index of loop counter `j` (lines 114, 146, 239):
`(int) (numHe - (double) sectionHeWidth / 2.0) + j + 1`. -/
def SuperCluster.heIndexAt (sc : SuperCluster K) (j : Nat) : Int :=
  castInt (sc.numHe - (sc.sectionHeWidth : K) / 2) + (j : Int) + 1

/-- The vacancy index of loop counter `k` (lines 109, 141, 234). -/
def SuperCluster.vIndexAt (sc : SuperCluster K) (k : Nat) : Int :=
  castInt (sc.numV - (sc.sectionVWidth : K) / 2) + (k : Int) + 1

/-- `SuperCluster::getTotalConcentration` (lines 101-131): the two loops over
the widths; a cell that is not a key of the effective reacting map is
skipped by `continue`. -/
def SuperCluster.getTotalConcentration (sc : SuperCluster K) : K :=
  (List.range sc.sectionVWidth.toNat).foldl
    (fun conc k =>
      let vIndex := sc.vIndexAt k
      (List.range sc.sectionHeWidth.toNat).foldl
        (fun conc j =>
          let heIndex := sc.heIndexAt j
          if !sc.isReactingKey (heIndex, vIndex) then conc
          else
            let heDistance := sc.getHeDistance heIndex
            let vDistance := sc.getVDistance vIndex
            conc + sc.getConcentration heDistance vDistance)
        conc)
    0

/-- `SuperCluster::getTotalHeliumConcentration` (lines 133-163). -/
def SuperCluster.getTotalHeliumConcentration (sc : SuperCluster K) : K :=
  (List.range sc.sectionVWidth.toNat).foldl
    (fun conc k =>
      let vIndex := sc.vIndexAt k
      (List.range sc.sectionHeWidth.toNat).foldl
        (fun conc j =>
          let heIndex := sc.heIndexAt j
          if !sc.isReactingKey (heIndex, vIndex) then conc
          else
            let heDistance := sc.getHeDistance heIndex
            let vDistance := sc.getVDistance vIndex
            conc + sc.getConcentration heDistance vDistance * (heIndex : K))
        conc)
    0

/-- The cells of the width rectangle of the group, in the order of the two
loops. -/
def SuperCluster.rectangle (sc : SuperCluster K) : List CellKey :=
  cellGrid ((List.range sc.sectionHeWidth.toNat).map sc.heIndexAt)
    ((List.range sc.sectionVWidth.toNat).map sc.vIndexAt)

end Totals

/-! ## Closed-form reaction factors

`productGainFactor` and the functions it calls (lines 1341-1365, 1445-1492,
1517-1538, 1565-1822).  The vectors `bounds`, `m`, `luBounds` and `group` are
lists; a read `v[i]` is `v.getD i 0`. -/

section ClosedForm

variable {K : Type} [Field K]

/-- `SuperCluster::computeIndex` (lines 1517-1527). -/
def computeIndex (m1 m2 m3 axisdir : Int) : Int :=
  let p : Int := 0
  let p := if m1 = axisdir then p + 1 else p
  let p := if m2 = axisdir then p + 2 else p
  let p := if m3 = axisdir then p + 4 else p
  p

/-- The body of `SuperCluster::setReactLimits` (lines 1445-1492).  The
parameters `luBounds` and `group` are declared `std::vector<int> luBounds,
std::vector<double> group`: the function works on its own copies, whose
final values are returned here, and the vectors of the caller are left as
they were. -/
def setReactLimits (aMin aMax bMin bMax cMin cMax : Int) (luBounds : List Int)
    (group : List K) : List Int × List K :=
  let group := group.set 0 (1 / 2 * ((aMax + aMin : Int) : K))
  let group := group.set 1 (1 / 2 * ((bMax + bMin : Int) : K))
  let group := group.set 2 (1 / 2 * ((cMax + cMin : Int) : K))
  let group := group.set 3 (1 / 2 * ((aMax - aMin : Int) : K))
  let group := group.set 4 (1 / 2 * ((bMax - bMin : Int) : K))
  let group := group.set 5 (1 / 2 * ((cMax - cMin : Int) : K))
  let xA := cMin - bMin
  let xD := cMax - bMax
  let xL := cMin - bMax
  let xH := cMax - bMin
  let lA := aMin
  let lA := if xL > lA then xL else lA
  let uA := aMax
  let uA := if xH < uA then xH else uA
  let luBounds := (List.range 4).foldl
    (fun (lu : List Int) i => (lu.set i lA).set (i + 4) uA) luBounds
  let luBounds := if xA - 1 < luBounds.getD 4 0 then luBounds.set 4 (xA - 1) else luBounds
  let luBounds := if xD - 1 < luBounds.getD 4 0 then luBounds.set 4 (xD - 1) else luBounds
  let luBounds := if xA + 1 > luBounds.getD 3 0 then luBounds.set 3 (xA + 1) else luBounds
  let luBounds := if xD + 1 > luBounds.getD 3 0 then luBounds.set 3 (xD + 1) else luBounds
  let luBounds := if xA > luBounds.getD 1 0 then luBounds.set 1 xA else luBounds
  let luBounds := if xD < luBounds.getD 5 0 then luBounds.set 5 xD else luBounds
  let luBounds := if xD > luBounds.getD 2 0 then luBounds.set 2 xD else luBounds
  let luBounds := if xA < luBounds.getD 6 0 then luBounds.set 6 xA else luBounds
  let luBounds :=
    if luBounds.getD 2 0 = luBounds.getD 6 0 ∧ luBounds.getD 1 0 = luBounds.getD 5 0 then
      luBounds.set 6 (luBounds.getD 6 0 - 1)
    else luBounds
  (luBounds, group)

/-- `SuperCluster::ap1` (lines 1565-1662): one primitive of the closed-form product
factor, selected by the index `p`; it is `0` on an empty range. -/
def ap1 (p : Int) (s01 s02 s03 w1 w2 w3 : K) (x1 x2 : Int) : K :=
  if x1 > x2 then 0
  else
    let lb : K := (x1 : K)
    let ub : K := (x2 : K)
    if p = 0 then
      -((-1 + lb - ub) * (2 + 2 * w2 + 2 * w3 + lb + ub + 2 * s02 - 2 * s03)) / 2
    else if p = 1 then
      -((-1 + lb - ub) * (-6 * s01 - 6 * w2 * s01 - 6 * w3 * s01 + 2 * lb + 3 * w2 * lb + 3 * w3
        * lb - 3 * s01 * lb + 2 * lb * lb + 4 * ub + 3 * w2 * ub + 3 * w3 * ub - 3 * s01 * ub +
        2 * lb * ub + 2 * ub * ub - 6 * s01 * s02 + 3 * lb * s02 + 3 * ub * s02 + 6 * s01 * s03
        - 3 * lb * s03 - 3 * ub * s03)) / (6 * (1 + w1))
    else if p = 2 then
      -((-1 + lb - ub) * (3 * w2 + 3 * w2 * w2 - 3 * w3 - 3 * w3 * w3 - lb - 3 * w3 * lb - lb *
        lb - 2 * ub - 3 * w3 * ub - lb * ub - ub * ub - 3 * s02 - 6 * w3 * s02 - 3 * lb * s02 -
        3 * ub * s02 - 3 * s02 * s02 + 3 * s03 + 6 * w3 * s03 + 3 * lb * s03 + 3 * ub * s03 + 6
        * s02 * s03 - 3 * s03 * s03)) / (6 * (1 + w2))
    else if p = 3 then
      -((-1 + lb - ub) * (-12 * w2 * s01 - 12 * w2 * w2 * s01 + 12 * w3 * s01 + 12 * w3 * w3 *
        s01 + 2 * lb + 6 * w2 * lb + 6 * w2 * w2 * lb - 2 * w3 * lb - 6 * w3 * w3 * lb + 4 * s01
        * lb + 12 * w3 * s01 * lb - lb * lb - 8 * w3 * lb * lb + 4 * s01 * lb * lb - 3 * lb * lb
        * lb - 2 * ub + 6 * w2 * ub + 6 * w2 * w2 * ub - 10 * w3 * ub - 6 * w3 * w3 * ub + 8 *
        s01 * ub + 12 * w3 * s01 * ub - 4 * lb * ub - 8 * w3 * lb * ub + 4 * s01 * lb * ub - 3
        * lb * lb * ub - 7 * ub * ub - 8 * w3 * ub * ub + 4 * s01 * ub * ub - 3 * lb * ub * ub
        - 3 * ub * ub * ub + 12 * s01 * s02 + 24 * w3 * s01 * s02 - 2 * lb * s02 - 12 * w3 * lb
        * s02 + 12 * s01 * lb * s02 - 8 * lb * lb * s02 - 10 * ub * s02 - 12 * w3 * ub * s02 +
        12 * s01 * ub * s02 - 8 * lb * ub * s02 - 8 * ub * ub * s02 + 12 * s01 * s02 * s02 - 6
        * lb * s02 * s02 - 6 * ub * s02 * s02 - 12 * s01 * s03 - 24 * w3 * s01 * s03 + 2 * lb *
        s03 + 12 * w3 * lb * s03 - 12 * s01 * lb * s03 + 8 * lb * lb * s03 + 10 * ub * s03 + 12
        * w3 * ub * s03 - 12 * s01 * ub * s03 + 8 * lb * ub * s03 + 8 * ub * ub * s03 - 24 * s01
        * s02 * s03 + 12 * lb * s02 * s03 + 12 * ub * s02 * s03 + 12 * s01 * s03 * s03 - 6 * lb
        * s03 * s03 - 6 * ub * s03 * s03)) / (24 * (1 + w1) * (1 + w2))
    else if p = 4 then
      -((-1 + lb - ub) * (3 * w2 + 3 * w2 * w2 - 3 * w3 - 3 * w3 * w3 + lb + 3 * w2 * lb + lb *
        lb + 2 * ub + 3 * w2 * ub + lb * ub + ub * ub + 3 * s02 + 6 * w2 * s02 + 3 * lb * s02 +
        3 * ub * s02 + 3 * s02 * s02 - 3 * s03 - 6 * w2 * s03 - 3 * lb * s03 - 3 * ub * s03 - 6
        * s02 * s03 + 3 * s03 * s03)) / 6
    else if p = 5 then
      -((-1 + lb - ub) * (-12 * w2 * s01 - 12 * w2 * w2 * s01 + 12 * w3 * s01 + 12 * w3 * w3 *
        s01 - 2 * lb + 2 * w2 * lb + 6 * w2 * w2 * lb - 6 * w3 * lb - 6 * w3 * w3 * lb - 4 * s01
        * lb - 12 * w2 * s01 * lb + lb * lb + 8 * w2 * lb * lb - 4 * s01 * lb * lb + 3 * lb * lb
        * lb + 2 * ub + 10 * w2 * ub + 6 * w2 * w2 * ub - 6 * w3 * ub - 6 * w3 * w3 * ub - 8 *
        s01 * ub - 12 * w2 * s01 * ub + 4 * lb * ub + 8 * w2 * lb * ub - 4 * s01 * lb * ub + 3
        * lb * lb * ub + 7 * ub * ub + 8 * w2 * ub * ub - 4 * s01 * ub * ub + 3 * lb * ub * ub
        + 3 * ub * ub * ub - 12 * s01 * s02 - 24 * w2 * s01 * s02 + 2 * lb * s02 + 12 * w2 * lb
        * s02 - 12 * s01 * lb * s02 + 8 * lb * lb * s02 + 10 * ub * s02 + 12 * w2 * ub * s02 -
        12 * s01 * ub * s02 + 8 * lb * ub * s02 + 8 * ub * ub * s02 - 12 * s01 * s02 * s02 + 6
        * lb * s02 * s02 + 6 * ub * s02 * s02 + 12 * s01 * s03 + 24 * w2 * s01 * s03 - 2 * lb *
        s03 - 12 * w2 * lb * s03 + 12 * s01 * lb * s03 - 8 * lb * lb * s03 - 10 * ub * s03 - 12
        * w2 * ub * s03 + 12 * s01 * ub * s03 - 8 * lb * ub * s03 - 8 * ub * ub * s03 + 24 * s01
        * s02 * s03 - 12 * lb * s02 * s03 - 12 * ub * s02 * s03 - 12 * s01 * s03 * s03 + 6 * lb
        * s03 * s03 + 6 * ub * s03 * s03)) / (24 * (1 + w1))
    else if p = 6 then
      -((-1 + lb - ub) * (4 * w2 + 12 * w2 * w2 + 8 * w2 * w2 * w2 + 4 * w3 + 12 * w3 * w3 + 8
        * w3 * w3 * w3 + 2 * lb + 6 * w2 * lb + 6 * w2 * w2 * lb + 6 * w3 * lb + 6 * w3 * w3 *
        lb + lb * lb - lb * lb * lb + 2 * ub + 6 * w2 * ub + 6 * w2 * w2 * ub + 6 * w3 * ub + 6
        * w3 * w3 * ub - lb * lb * ub - ub * ub - lb * ub * ub - ub * ub * ub + 4 * s02 + 12 *
        w2 * s02 + 12 * w2 * w2 * s02 + 12 * w3 * s02 + 12 * w3 * w3 * s02 + 2 * lb * s02 - 4 *
        lb * lb * s02 - 2 * ub * s02 - 4 * lb * ub * s02 - 4 * ub * ub * s02 - 6 * lb * s02 *
        s02 - 6 * ub * s02 * s02 - 4 * s02 * s02 * s02 - 4 * s03 - 12 * w2 * s03 - 12 * w2 * w2
        * s03 - 12 * w3 * s03 - 12 * w3 * w3 * s03 - 2 * lb * s03 + 4 * lb * lb * s03 + 2 * ub
        * s03 + 4 * lb * ub * s03 + 4 * ub * ub * s03 + 12 * lb * s02 * s03 + 12 * ub * s02 *
        s03 + 12 * s02 * s02 * s03 - 6 * lb * s03 * s03 - 6 * ub * s03 * s03 - 12 * s02 * s03 *
        s03 + 4 * s03 * s03 * s03)) / (24 * (1 + w2))
    else if p = 7 then
      -((-1 + lb - ub) * (-20 * w2 * s01 - 60 * w2 * w2 * s01 - 40 * w2 * w2 * w2 * s01 - 20 *
        w3 * s01 - 60 * w3 * w3 * s01 - 40 * w3 * w3 * w3 * s01 - 4 * lb + 20 * w2 * w2 * lb +
        20 * w2 * w2 * w2 * lb + 20 * w3 * w3 * lb + 20 * w3 * w3 * w3 * lb - 10 * s01 * lb - 30
        * w2 * s01 * lb - 30 * w2 * w2 * s01 * lb - 30 * w3 * s01 * lb - 30 * w3 * w3 * s01 * lb
        + 6 * lb * lb + 20 * w2 * lb * lb + 20 * w2 * w2 * lb * lb + 20 * w3 * lb * lb + 20 * w3
        * w3 * lb * lb - 5 * s01 * lb * lb + 6 * lb * lb * lb + 5 * s01 * lb * lb * lb - 4 * lb
        * lb * lb * lb + 4 * ub + 20 * w2 * ub + 40 * w2 * w2 * ub + 20 * w2 * w2 * w2 * ub + 20
        * w3 * ub + 40 * w3 * w3 * ub + 20 * w3 * w3 * w3 * ub - 10 * s01 * ub - 30 * w2 * s01
        * ub - 30 * w2 * w2 * s01 * ub - 30 * w3 * s01 * ub - 30 * w3 * w3 * s01 * ub + 8 * lb
        * ub + 20 * w2 * lb * ub + 20 * w2 * w2 * lb * ub + 20 * w3 * lb * ub + 20 * w3 * w3 *
        lb * ub + 2 * lb * lb * ub + 5 * s01 * lb * lb * ub - 4 * lb * lb * lb * ub + 6 * ub *
        ub + 20 * w2 * ub * ub + 20 * w2 * w2 * ub * ub + 20 * w3 * ub * ub + 20 * w3 * w3 * ub
        * ub + 5 * s01 * ub * ub - 2 * lb * ub * ub + 5 * s01 * lb * ub * ub - 4 * lb * lb * ub
        * ub - 6 * ub * ub * ub + 5 * s01 * ub * ub * ub - 4 * lb * ub * ub * ub - 4 * ub * ub
        * ub * ub - 20 * s01 * s02 - 60 * w2 * s01 * s02 - 60 * w2 * w2 * s01 * s02 - 60 * w3 *
        s01 * s02 - 60 * w3 * w3 * s01 * s02 + 10 * lb * s02 + 30 * w2 * lb * s02 + 30 * w2 * w2
        * lb * s02 + 30 * w3 * lb * s02 + 30 * w3 * w3 * lb * s02 - 10 * s01 * lb * s02 + 15 *
        lb * lb * s02 + 20 * s01 * lb * lb * s02 - 15 * lb * lb * lb * s02 + 10 * ub * s02 + 30
        * w2 * ub * s02 + 30 * w2 * w2 * ub * s02 + 30 * w3 * ub * s02 + 30 * w3 * w3 * ub * s02
        + 10 * s01 * ub * s02 + 20 * s01 * lb * ub * s02 - 15 * lb * lb * ub * s02 - 15 * ub *
        ub * s02 + 20 * s01 * ub * ub * s02 - 15 * lb * ub * ub * s02 - 15 * ub * ub * ub * s02
        + 10 * lb * s02 * s02 + 30 * s01 * lb * s02 * s02 - 20 * lb * lb * s02 * s02 - 10 * ub
        * s02 * s02 + 30 * s01 * ub * s02 * s02 - 20 * lb * ub * s02 * s02 - 20 * ub * ub * s02
        * s02 + 20 * s01 * s02 * s02 * s02 - 10 * lb * s02 * s02 * s02 - 10 * ub * s02 * s02 *
        s02 + 20 * s01 * s03 + 60 * w2 * s01 * s03 + 60 * w2 * w2 * s01 * s03 + 60 * w3 * s01 *
        s03 + 60 * w3 * w3 * s01 * s03 - 10 * lb * s03 - 30 * w2 * lb * s03 - 30 * w2 * w2 * lb
        * s03 - 30 * w3 * lb * s03 - 30 * w3 * w3 * lb * s03 + 10 * s01 * lb * s03 - 15 * lb *
        lb * s03 - 20 * s01 * lb * lb * s03 + 15 * lb * lb * lb * s03 - 10 * ub * s03 - 30 * w2
        * ub * s03 - 30 * w2 * w2 * ub * s03 - 30 * w3 * ub * s03 - 30 * w3 * w3 * ub * s03 - 10
        * s01 * ub * s03 - 20 * s01 * lb * ub * s03 + 15 * lb * lb * ub * s03 + 15 * ub * ub *
        s03 - 20 * s01 * ub * ub * s03 + 15 * lb * ub * ub * s03 + 15 * ub * ub * ub * s03 - 20
        * lb * s02 * s03 - 60 * s01 * lb * s02 * s03 + 40 * lb * lb * s02 * s03 + 20 * ub * s02
        * s03 - 60 * s01 * ub * s02 * s03 + 40 * lb * ub * s02 * s03 + 40 * ub * ub * s02 * s03
        - 60 * s01 * s02 * s02 * s03 + 30 * lb * s02 * s02 * s03 + 30 * ub * s02 * s02 * s03 +
        10 * lb * s03 * s03 + 30 * s01 * lb * s03 * s03 - 20 * lb * lb * s03 * s03 - 10 * ub *
        s03 * s03 + 30 * s01 * ub * s03 * s03 - 20 * lb * ub * s03 * s03 - 20 * ub * ub * s03 *
        s03 + 60 * s01 * s02 * s03 * s03 - 30 * lb * s02 * s03 * s03 - 30 * ub * s02 * s03 * s03
        - 20 * s01 * s03 * s03 * s03 + 10 * lb * s03 * s03 * s03 + 10 * ub * s03 * s03 * s03))
        / (120 * (1 + w1) * (1 + w2))
    else 0

/-- `SuperCluster::ap2` (lines 1664-1693): one primitive of the closed-form product
factor, selected by the index `p`; it is `0` on an empty range. -/
def ap2 (p : Int) (s01 s02 s03 w1 w2 _w3 : K) (x1 x2 : Int) : K :=
  if x1 > x2 then 0
  else
    let lb : K := (x1 : K)
    let ub : K := (x2 : K)
    if p = 0 then
      (1 + 2 * w2) * (1 - lb + ub)
    else if p = 1 then
      -((1 + 2 * w2) * (-1 + lb - ub) * (-2 * s01 + lb + ub)) / (2 * (1 + w1))
    else if p = 2 then
      0
    else if p = 3 then
      0
    else if p = 4 then
      -((1 + 2 * w2) * (-1 + lb - ub) * (lb + ub + 2 * s02 - 2 * s03)) / 2
    else if p = 5 then
      -((1 + 2 * w2) * (-1 + lb - ub) * (-lb - 3 * s01 * lb + 2 * lb * lb + ub - 3 * s01 * ub +
        2 * lb * ub + 2 * ub * ub - 6 * s01 * s02 + 3 * lb * s02 + 3 * ub * s02 + 6 * s01 * s03
        - 3 * lb * s03 - 3 * ub * s03)) / (6 * (1 + w1))
    else if p = 6 then
      (w2 * (1 + 2 * w2) * (1 - lb + ub)) / 3
    else if p = 7 then
      -(w2 * (1 + 2 * w2) * (-1 + lb - ub) * (-2 * s01 + lb + ub)) / (6 * (1 + w1))
    else 0

/-- `SuperCluster::ap3` (lines 1695-1724): one primitive of the closed-form product
factor, selected by the index `p`; it is `0` on an empty range. -/
def ap3 (p : Int) (s01 s02 s03 w1 w2 w3 : K) (x1 x2 : Int) : K :=
  if x1 > x2 then 0
  else
    let lb : K := (x1 : K)
    let ub : K := (x2 : K)
    if p = 0 then
      (1 + 2 * w3) * (1 - lb + ub)
    else if p = 1 then
      -((1 + 2 * w3) * (-1 + lb - ub) * (-2 * s01 + lb + ub)) / (2 * (1 + w1))
    else if p = 2 then
      ((1 + 2 * w3) * (-1 + lb - ub) * (lb + ub + 2 * s02 - 2 * s03)) / (2 * (1 + w2))
    else if p = 3 then
      ((1 + 2 * w3) * (-1 + lb - ub) * (-lb - 3 * s01 * lb + 2 * lb * lb + ub - 3 * s01 * ub + 2
        * lb * ub + 2 * ub * ub - 6 * s01 * s02 + 3 * lb * s02 + 3 * ub * s02 + 6 * s01 * s03 -
        3 * lb * s03 - 3 * ub * s03)) / (6 * (1 + w1) * (1 + w2))
    else if p = 4 then
      0
    else if p = 5 then
      0
    else if p = 6 then
      ((1 + 2 * w3) * (w3 + w3 * w3) * (1 - lb + ub)) / (3 * (1 + w2))
    else if p = 7 then
      -(w3 * (1 + w3) * (1 + 2 * w3) * (-1 + lb - ub) * (-2 * s01 + lb + ub)) / (6 * (1 + w1) *
        (1 + w2))
    else 0

/-- `SuperCluster::ap4` (lines 1726-1822): one primitive of the closed-form product
factor, selected by the index `p`; it is `0` on an empty range. -/
def ap4 (p : Int) (s01 s02 s03 w1 w2 w3 : K) (x1 x2 : Int) : K :=
  if x1 > x2 then 0
  else
    let lb : K := (x1 : K)
    let ub : K := (x2 : K)
    if p = 0 then
      ((-1 + lb - ub) * (-2 - 2 * w2 - 2 * w3 + lb + ub + 2 * s02 - 2 * s03)) / 2
    else if p = 1 then
      ((-1 + lb - ub) * (6 * s01 + 6 * w2 * s01 + 6 * w3 * s01 - 4 * lb - 3 * w2 * lb - 3 * w3
        * lb - 3 * s01 * lb + 2 * lb * lb - 2 * ub - 3 * w2 * ub - 3 * w3 * ub - 3 * s01 * ub +
        2 * lb * ub + 2 * ub * ub - 6 * s01 * s02 + 3 * lb * s02 + 3 * ub * s02 + 6 * s01 * s03
        - 3 * lb * s03 - 3 * ub * s03)) / (6 * (1 + w1))
    else if p = 2 then
      ((-1 + lb - ub) * (3 * w2 + 3 * w2 * w2 - 3 * w3 - 3 * w3 * w3 + 2 * lb + 3 * w3 * lb - lb
        * lb + ub + 3 * w3 * ub - lb * ub - ub * ub + 3 * s02 + 6 * w3 * s02 - 3 * lb * s02 - 3
        * ub * s02 - 3 * s02 * s02 - 3 * s03 - 6 * w3 * s03 + 3 * lb * s03 + 3 * ub * s03 + 6 *
        s02 * s03 - 3 * s03 * s03)) / (6 * (1 + w2))
    else if p = 3 then
      ((-1 + lb - ub) * (-12 * w2 * s01 - 12 * w2 * w2 * s01 + 12 * w3 * s01 + 12 * w3 * w3 *
        s01 - 2 * lb + 6 * w2 * lb + 6 * w2 * w2 * lb - 10 * w3 * lb - 6 * w3 * w3 * lb - 8 *
        s01 * lb - 12 * w3 * s01 * lb + 7 * lb * lb + 8 * w3 * lb * lb + 4 * s01 * lb * lb - 3
        * lb * lb * lb + 2 * ub + 6 * w2 * ub + 6 * w2 * w2 * ub - 2 * w3 * ub - 6 * w3 * w3 *
        ub - 4 * s01 * ub - 12 * w3 * s01 * ub + 4 * lb * ub + 8 * w3 * lb * ub + 4 * s01 * lb
        * ub - 3 * lb * lb * ub + ub * ub + 8 * w3 * ub * ub + 4 * s01 * ub * ub - 3 * lb * ub
        * ub - 3 * ub * ub * ub - 12 * s01 * s02 - 24 * w3 * s01 * s02 + 10 * lb * s02 + 12 * w3
        * lb * s02 + 12 * s01 * lb * s02 - 8 * lb * lb * s02 + 2 * ub * s02 + 12 * w3 * ub * s02
        + 12 * s01 * ub * s02 - 8 * lb * ub * s02 - 8 * ub * ub * s02 + 12 * s01 * s02 * s02 - 6
        * lb * s02 * s02 - 6 * ub * s02 * s02 + 12 * s01 * s03 + 24 * w3 * s01 * s03 - 10 * lb
        * s03 - 12 * w3 * lb * s03 - 12 * s01 * lb * s03 + 8 * lb * lb * s03 - 2 * ub * s03 - 12
        * w3 * ub * s03 - 12 * s01 * ub * s03 + 8 * lb * ub * s03 + 8 * ub * ub * s03 - 24 * s01
        * s02 * s03 + 12 * lb * s02 * s03 + 12 * ub * s02 * s03 + 12 * s01 * s03 * s03 - 6 * lb
        * s03 * s03 - 6 * ub * s03 * s03)) / (24 * (1 + w1) * (1 + w2))
    else if p = 4 then
      ((-1 + lb - ub) * (3 * w2 + 3 * w2 * w2 - 3 * w3 - 3 * w3 * w3 - 2 * lb - 3 * w2 * lb + lb
        * lb - ub - 3 * w2 * ub + lb * ub + ub * ub - 3 * s02 - 6 * w2 * s02 + 3 * lb * s02 + 3
        * ub * s02 + 3 * s02 * s02 + 3 * s03 + 6 * w2 * s03 - 3 * lb * s03 - 3 * ub * s03 - 6 *
        s02 * s03 + 3 * s03 * s03)) / 6
    else if p = 5 then
      ((-1 + lb - ub) * (-12 * w2 * s01 - 12 * w2 * w2 * s01 + 12 * w3 * s01 + 12 * w3 * w3 *
        s01 + 2 * lb + 10 * w2 * lb + 6 * w2 * w2 * lb - 6 * w3 * lb - 6 * w3 * w3 * lb + 8 *
        s01 * lb + 12 * w2 * s01 * lb - 7 * lb * lb - 8 * w2 * lb * lb - 4 * s01 * lb * lb + 3
        * lb * lb * lb - 2 * ub + 2 * w2 * ub + 6 * w2 * w2 * ub - 6 * w3 * ub - 6 * w3 * w3 *
        ub + 4 * s01 * ub + 12 * w2 * s01 * ub - 4 * lb * ub - 8 * w2 * lb * ub - 4 * s01 * lb
        * ub + 3 * lb * lb * ub - ub * ub - 8 * w2 * ub * ub - 4 * s01 * ub * ub + 3 * lb * ub
        * ub + 3 * ub * ub * ub + 12 * s01 * s02 + 24 * w2 * s01 * s02 - 10 * lb * s02 - 12 * w2
        * lb * s02 - 12 * s01 * lb * s02 + 8 * lb * lb * s02 - 2 * ub * s02 - 12 * w2 * ub * s02
        - 12 * s01 * ub * s02 + 8 * lb * ub * s02 + 8 * ub * ub * s02 - 12 * s01 * s02 * s02 + 6
        * lb * s02 * s02 + 6 * ub * s02 * s02 - 12 * s01 * s03 - 24 * w2 * s01 * s03 + 10 * lb
        * s03 + 12 * w2 * lb * s03 + 12 * s01 * lb * s03 - 8 * lb * lb * s03 + 2 * ub * s03 + 12
        * w2 * ub * s03 + 12 * s01 * ub * s03 - 8 * lb * ub * s03 - 8 * ub * ub * s03 + 24 * s01
        * s02 * s03 - 12 * lb * s02 * s03 - 12 * ub * s02 * s03 - 12 * s01 * s03 * s03 + 6 * lb
        * s03 * s03 + 6 * ub * s03 * s03)) / (24 * (1 + w1))
    else if p = 6 then
      -((-1 + lb - ub) * (4 * w2 + 12 * w2 * w2 + 8 * w2 * w2 * w2 + 4 * w3 + 12 * w3 * w3 + 8
        * w3 * w3 * w3 - 2 * lb - 6 * w2 * lb - 6 * w2 * w2 * lb - 6 * w3 * lb - 6 * w3 * w3 *
        lb - lb * lb + lb * lb * lb - 2 * ub - 6 * w2 * ub - 6 * w2 * w2 * ub - 6 * w3 * ub - 6
        * w3 * w3 * ub + lb * lb * ub + ub * ub + lb * ub * ub + ub * ub * ub - 4 * s02 - 12 *
        w2 * s02 - 12 * w2 * w2 * s02 - 12 * w3 * s02 - 12 * w3 * w3 * s02 - 2 * lb * s02 + 4 *
        lb * lb * s02 + 2 * ub * s02 + 4 * lb * ub * s02 + 4 * ub * ub * s02 + 6 * lb * s02 *
        s02 + 6 * ub * s02 * s02 + 4 * s02 * s02 * s02 + 4 * s03 + 12 * w2 * s03 + 12 * w2 * w2
        * s03 + 12 * w3 * s03 + 12 * w3 * w3 * s03 + 2 * lb * s03 - 4 * lb * lb * s03 - 2 * ub
        * s03 - 4 * lb * ub * s03 - 4 * ub * ub * s03 - 12 * lb * s02 * s03 - 12 * ub * s02 *
        s03 - 12 * s02 * s02 * s03 + 6 * lb * s03 * s03 + 6 * ub * s03 * s03 + 12 * s02 * s03 *
        s03 - 4 * s03 * s03 * s03)) / (24 * (1 + w2))
    else if p = 7 then
      -((-1 + lb - ub) * (-20 * w2 * s01 - 60 * w2 * w2 * s01 - 40 * w2 * w2 * w2 * s01 - 20 *
        w3 * s01 - 60 * w3 * w3 * s01 - 40 * w3 * w3 * w3 * s01 + 4 * lb + 20 * w2 * lb + 40 *
        w2 * w2 * lb + 20 * w2 * w2 * w2 * lb + 20 * w3 * lb + 40 * w3 * w3 * lb + 20 * w3 * w3
        * w3 * lb + 10 * s01 * lb + 30 * w2 * s01 * lb + 30 * w2 * w2 * s01 * lb + 30 * w3 * s01
        * lb + 30 * w3 * w3 * s01 * lb - 6 * lb * lb - 20 * w2 * lb * lb - 20 * w2 * w2 * lb *
        lb - 20 * w3 * lb * lb - 20 * w3 * w3 * lb * lb + 5 * s01 * lb * lb - 6 * lb * lb * lb
        - 5 * s01 * lb * lb * lb + 4 * lb * lb * lb * lb - 4 * ub + 20 * w2 * w2 * ub + 20 * w2
        * w2 * w2 * ub + 20 * w3 * w3 * ub + 20 * w3 * w3 * w3 * ub + 10 * s01 * ub + 30 * w2 *
        s01 * ub + 30 * w2 * w2 * s01 * ub + 30 * w3 * s01 * ub + 30 * w3 * w3 * s01 * ub - 8 *
        lb * ub - 20 * w2 * lb * ub - 20 * w2 * w2 * lb * ub - 20 * w3 * lb * ub - 20 * w3 * w3
        * lb * ub - 2 * lb * lb * ub - 5 * s01 * lb * lb * ub + 4 * lb * lb * lb * ub - 6 * ub
        * ub - 20 * w2 * ub * ub - 20 * w2 * w2 * ub * ub - 20 * w3 * ub * ub - 20 * w3 * w3 *
        ub * ub - 5 * s01 * ub * ub + 2 * lb * ub * ub - 5 * s01 * lb * ub * ub + 4 * lb * lb *
        ub * ub + 6 * ub * ub * ub - 5 * s01 * ub * ub * ub + 4 * lb * ub * ub * ub + 4 * ub *
        ub * ub * ub + 20 * s01 * s02 + 60 * w2 * s01 * s02 + 60 * w2 * w2 * s01 * s02 + 60 * w3
        * s01 * s02 + 60 * w3 * w3 * s01 * s02 - 10 * lb * s02 - 30 * w2 * lb * s02 - 30 * w2 *
        w2 * lb * s02 - 30 * w3 * lb * s02 - 30 * w3 * w3 * lb * s02 + 10 * s01 * lb * s02 - 15
        * lb * lb * s02 - 20 * s01 * lb * lb * s02 + 15 * lb * lb * lb * s02 - 10 * ub * s02 -
        30 * w2 * ub * s02 - 30 * w2 * w2 * ub * s02 - 30 * w3 * ub * s02 - 30 * w3 * w3 * ub *
        s02 - 10 * s01 * ub * s02 - 20 * s01 * lb * ub * s02 + 15 * lb * lb * ub * s02 + 15 * ub
        * ub * s02 - 20 * s01 * ub * ub * s02 + 15 * lb * ub * ub * s02 + 15 * ub * ub * ub *
        s02 - 10 * lb * s02 * s02 - 30 * s01 * lb * s02 * s02 + 20 * lb * lb * s02 * s02 + 10 *
        ub * s02 * s02 - 30 * s01 * ub * s02 * s02 + 20 * lb * ub * s02 * s02 + 20 * ub * ub *
        s02 * s02 - 20 * s01 * s02 * s02 * s02 + 10 * lb * s02 * s02 * s02 + 10 * ub * s02 * s02
        * s02 - 20 * s01 * s03 - 60 * w2 * s01 * s03 - 60 * w2 * w2 * s01 * s03 - 60 * w3 * s01
        * s03 - 60 * w3 * w3 * s01 * s03 + 10 * lb * s03 + 30 * w2 * lb * s03 + 30 * w2 * w2 *
        lb * s03 + 30 * w3 * lb * s03 + 30 * w3 * w3 * lb * s03 - 10 * s01 * lb * s03 + 15 * lb
        * lb * s03 + 20 * s01 * lb * lb * s03 - 15 * lb * lb * lb * s03 + 10 * ub * s03 + 30 *
        w2 * ub * s03 + 30 * w2 * w2 * ub * s03 + 30 * w3 * ub * s03 + 30 * w3 * w3 * ub * s03
        + 10 * s01 * ub * s03 + 20 * s01 * lb * ub * s03 - 15 * lb * lb * ub * s03 - 15 * ub *
        ub * s03 + 20 * s01 * ub * ub * s03 - 15 * lb * ub * ub * s03 - 15 * ub * ub * ub * s03
        + 20 * lb * s02 * s03 + 60 * s01 * lb * s02 * s03 - 40 * lb * lb * s02 * s03 - 20 * ub
        * s02 * s03 + 60 * s01 * ub * s02 * s03 - 40 * lb * ub * s02 * s03 - 40 * ub * ub * s02
        * s03 + 60 * s01 * s02 * s02 * s03 - 30 * lb * s02 * s02 * s03 - 30 * ub * s02 * s02 *
        s03 - 10 * lb * s03 * s03 - 30 * s01 * lb * s03 * s03 + 20 * lb * lb * s03 * s03 + 10 *
        ub * s03 * s03 - 30 * s01 * ub * s03 * s03 + 20 * lb * ub * s03 * s03 + 20 * ub * ub *
        s03 * s03 - 60 * s01 * s02 * s03 * s03 + 30 * lb * s02 * s03 * s03 + 30 * ub * s02 * s03
        * s03 + 20 * s01 * s03 * s03 * s03 - 10 * lb * s03 * s03 * s03 - 10 * ub * s03 * s03 *
        s03)) / (120 * (1 + w1) * (1 + w2))
    else 0

/-- `SuperCluster::analyticProduct` (lines 1529-1538); `active` is unused. -/
def analyticProduct (p : Int) (s01 s02 s03 w1 w2 w3 : K) (luBounds : List Int)
    (_active : Int) : K :=
  let kOut := ap1 p s01 s02 s03 w1 w2 w3 (luBounds.getD 0 0) (luBounds.getD 4 0)
  let kOut := kOut + ap2 p s01 s02 s03 w1 w2 w3 (luBounds.getD 1 0) (luBounds.getD 5 0)
  let kOut := kOut + ap3 p s01 s02 s03 w1 w2 w3 (luBounds.getD 2 0) (luBounds.getD 6 0)
  let kOut := kOut + ap4 p s01 s02 s03 w1 w2 w3 (luBounds.getD 3 0) (luBounds.getD 7 0)
  kOut

/-- `SuperCluster::productGainFactor` (lines 1341-1365).  The two calls of
`setReactLimits` receive copies of `luBounds` and `group`, so both calls of
`analyticProduct` read the vectors as initialised at lines 1344-1345. -/
def productGainFactor (bounds m : List Int) (active : Int) : K :=
  let luBounds : List Int := [0, 0, 0, 0, 0, 0, 0, 0]
  let group : List K := [0, 0, 0, 0, 0, 0]
  let p := computeIndex (m.getD 0 0) (m.getD 1 0) (m.getD 2 0) 1
  let _ := setReactLimits (bounds.getD 0 0) (bounds.getD 1 0) (bounds.getD 4 0)
    (bounds.getD 5 0) (bounds.getD 8 0) (bounds.getD 9 0) luBounds group
  let kOut := analyticProduct p (group.getD 0 0) (group.getD 1 0) (group.getD 2 0)
    (group.getD 3 0) (group.getD 4 0) (group.getD 5 0) luBounds active
  let p := computeIndex (m.getD 0 0) (m.getD 1 0) (m.getD 2 0) 2
  let _ := setReactLimits (bounds.getD 2 0) (bounds.getD 3 0) (bounds.getD 6 0)
    (bounds.getD 7 0) (bounds.getD 10 0) (bounds.getD 11 0) luBounds group
  let kOut := kOut
    * analyticProduct p (group.getD 0 0) (group.getD 1 0) (group.getD 2 0)
        (group.getD 3 0) (group.getD 4 0) (group.getD 5 0) luBounds active
  kOut

end ClosedForm

/-- The integers `lo, lo + 1, ..., hi`. -/
def intRange (lo hi : Int) : List Int :=
  (List.range (hi - lo + 1).toNat).map (fun (k : Nat) => lo + (k : Int))

/-- The number of pairs `(a, b)` with `a` in `[aMin, aMax]`, `b` in
`[bMin, bMax]` and `a + b` in `[cMin, cMax]`: the coefficient `a000` that the
grouping pass accumulates along one axis for three fully occupied groups. -/
def pairCount (aMin aMax bMin bMax cMin cMax : Int) : Nat :=
  ((intRange aMin aMax).map (fun a =>
    ((intRange bMin bMax).filter
      (fun b => decide (cMin ≤ a + b ∧ a + b ≤ cMax))).length)).sum

/-- The aggregated zeroth coefficient for a bounds vector `(aMinHe, aMaxHe,
aMinV, aMaxV, bMinHe, bMaxHe, bMinV, bMaxV, cMinHe, cMaxHe, cMinV, cMaxV)`:
the count along He times the count along V. -/
def aggregatedCount (bounds : List Int) : Nat :=
  pairCount (bounds.getD 0 0) (bounds.getD 1 0) (bounds.getD 4 0) (bounds.getD 5 0)
      (bounds.getD 8 0) (bounds.getD 9 0)
    * pairCount (bounds.getD 2 0) (bounds.getD 3 0) (bounds.getD 6 0) (bounds.getD 7 0)
      (bounds.getD 10 0) (bounds.getD 11 0)

/-! ## Reaction connectivity of the alloy network

`createReactionConnectivity` (lines 100-217) reads the reaction templates of
`AlloyCases.h` and calls `participateIn`, `resultFrom` and `emitFrom` on the
clusters; neither the templates nor these methods are among the sources.
The templates are parameters, and the effect of the function is the list of
the calls it makes, in order. -/

/-- A forward template: `getFirstReactant()`, `getSecondReactant()` and
`getProducts()`. -/
structure ForwardReaction where
  firstReactant : ReactantType
  secondReactant : ReactantType
  products : List ReactantType

/-- A backward template: `getParent()`, `getMonomer()` and `getProducts()`. -/
structure BackwardReaction where
  parent : ReactantType
  monomer : ReactantType
  products : List ReactantType

/-- One call made by `createReactionConnectivity` on a cluster, with the
reaction object passed to it. -/
inductive ConnectivityCall (K : Type) where
  | participateIn (cluster : Reactant K) (reaction : ProductionReaction K)
  | resultFrom (cluster : Reactant K) (reaction : ProductionReaction K)
  | participateInDissociation (cluster : Reactant K) (reaction : DissociationReaction K)
  | emitFrom (cluster : Reactant K) (reaction : DissociationReaction K)

/-- `AlloyClusterReactionNetwork::typeSwitch` (lines 92-98). -/
def typeSwitch (typeName : ReactantType) : Int :=
  if typeName = ReactantType.V ∨ typeName = ReactantType.Void
      ∨ typeName = ReactantType.Faulted then -1
  else 1

section Connectivity

variable {K : Type} [Field K] [DecidableEq K]

/-- Modelled from the spec: `ReactionNetwork::getAll(type)` is not among the
sources; it is the exact lookup of the reactants of one type, here in the
order of `allReactants`. -/
def AlloyClusterReactionNetwork.getAll (net : AlloyClusterReactionNetwork K)
    (type : ReactantType) : List (Reactant K) :=
  net.allReactants.filter (fun r => decide (r.type = type))

/-- Modelled from the spec: `ReactionNetwork::get(species, size)` and
`toSpecies` are not among the sources; `get(toSpecies(type), size)` is the
exact lookup of the reactant of the given type and size, and an absent
composition gives the null result `none`. -/
def AlloyClusterReactionNetwork.get (net : AlloyClusterReactionNetwork K)
    (type : ReactantType) (size : Int) : Option (Reactant K) :=
  net.allReactants.find? (fun r => decide (r.type = type ∧ r.size = size))

/-- The constructor `ProductionReaction(first, second)`: no rate constant has
been computed yet. -/
def ProductionReaction.new (first second : Reactant K) : ProductionReaction K :=
  { first := first, second := second, kConstant := fun _ => 0 }

/-- The loop over the accepted products (lines 134-171) for the pair
`(cluster1, cluster2)` of signed size `productSize`. -/
def productLoop (net : AlloyClusterReactionNetwork K) (cluster1 cluster2 : Reactant K)
    (productSize : Int) : List ReactantType → List (ConnectivityCall K)
  | [] => []
  | productName :: rest =>
    if productSize = 0 then
      let reaction := ProductionReaction.new cluster1 cluster2
      [ConnectivityCall.participateIn cluster1 reaction,
       ConnectivityCall.participateIn cluster2 reaction]
    else
      let size := productSize * typeSwitch productName
      match net.get productName size with
      | some product =>
        let reaction := ProductionReaction.new cluster1 cluster2
        [ConnectivityCall.participateIn cluster1 reaction,
         ConnectivityCall.participateIn cluster2 reaction,
         ConnectivityCall.resultFrom product reaction]
      | none => productLoop net cluster1 cluster2 productSize rest

/-- The body of the two loops over the reactants (lines 116-171) for one
ordered pair of one forward template. -/
def forwardPair (net : AlloyClusterReactionNetwork K) (forwardReaction : ForwardReaction)
    (cluster1 cluster2 : Reactant K) : List (ConnectivityCall K) :=
  if cluster1.type = cluster2.type ∧ cluster2.size > cluster1.size then []
  else if cluster1.diffusionFactor = 0 ∧ cluster2.diffusionFactor = 0 then []
  else
    let size1 := cluster1.size * typeSwitch cluster1.type
    let size2 := cluster2.size * typeSwitch cluster2.type
    let productSize := size1 + size2
    productLoop net cluster1 cluster2 productSize forwardReaction.products

/-- The forward pass (lines 104-174). -/
def forwardPass (net : AlloyClusterReactionNetwork K)
    (forwardReactions : List ForwardReaction) : List (ConnectivityCall K) :=
  forwardReactions.flatMap (fun forwardReaction =>
    (net.getAll forwardReaction.firstReactant).flatMap (fun cluster1 =>
      (net.getAll forwardReaction.secondReactant).flatMap (fun cluster2 =>
        forwardPair net forwardReaction cluster1 cluster2)))

/-- The dissociation built at lines 196-205 with its reverse reaction. -/
def DissociationReaction.new (parentCluster monomer product : Reactant K) :
    DissociationReaction K :=
  { dissociating := parentCluster, first := monomer, second := product
    reverseReaction := ProductionReaction.new monomer product }

/-- The loop over the accepted products of a backward template (lines
192-211) for one parent. -/
def backwardProductLoop (net : AlloyClusterReactionNetwork K)
    (parentCluster monomer : Reactant K) (productSize : Int) :
    List ReactantType → List (ConnectivityCall K)
  | [] => []
  | productName :: rest =>
    let size := productSize * typeSwitch productName
    match net.get productName size with
    | some product =>
      let dissociationReaction := DissociationReaction.new parentCluster monomer product
      [ConnectivityCall.participateInDissociation monomer dissociationReaction,
       ConnectivityCall.participateInDissociation product dissociationReaction,
       ConnectivityCall.emitFrom parentCluster dissociationReaction]
    | none => backwardProductLoop net parentCluster monomer productSize rest

/-- The body of the loop over the parents (lines 184-211). -/
def backwardParent (net : AlloyClusterReactionNetwork K)
    (backwardReaction : BackwardReaction) (monomer parentCluster : Reactant K) :
    List (ConnectivityCall K) :=
  let parentSize := parentCluster.size * typeSwitch parentCluster.type
  let monomerSize := monomer.size * typeSwitch monomer.type
  let productSize := parentSize - monomerSize
  backwardProductLoop net parentCluster monomer productSize backwardReaction.products

/-- The body of the loop over the backward templates (lines 178-213). -/
def backwardTemplate (net : AlloyClusterReactionNetwork K)
    (backwardReaction : BackwardReaction) : List (ConnectivityCall K) :=
  match net.get backwardReaction.monomer 1 with
  | some monomer =>
    (net.getAll backwardReaction.parent).flatMap
      (backwardParent net backwardReaction monomer)
  | none => []

/-- `AlloyClusterReactionNetwork::createReactionConnectivity` (lines 100-217):
the calls of the forward pass followed by those of the backward pass. -/
def AlloyClusterReactionNetwork.createReactionConnectivity
    (net : AlloyClusterReactionNetwork K) (forwardReactions : List ForwardReaction)
    (backwardReactions : List BackwardReaction) : List (ConnectivityCall K) :=
  forwardPass net forwardReactions ++ backwardReactions.flatMap (backwardTemplate net)

end Connectivity

/-! ## Concentrations and the diagonal fill of the alloy network -/

section AlloyArrays

variable {K : Type}

/-- The body of the `for_each` of `updateConcentrationsFromArray` (lines
280-293). -/
def updateConcentrationStep (concentrations : Int → K) (currReactant : Reactant K) :
    Reactant K :=
  let id := currReactant.id - 1
  let currReactant := { currReactant with concentration := concentrations id }
  if currReactant.type = ReactantType.VoidSuper
      ∨ currReactant.type = ReactantType.FaultedSuper
      ∨ currReactant.type = ReactantType.FrankSuper
      ∨ currReactant.type = ReactantType.PerfectSuper then
    { currReactant with
      zerothMoment := concentrations id
      moment := concentrations (currReactant.momId - 1) }
  else currReactant

/-- `AlloyClusterReactionNetwork::updateConcentrationsFromArray` (lines
276-296): the network and the array `concentrations` after the call; the
function only reads the array. -/
def AlloyClusterReactionNetwork.updateConcentrationsFromArray
    (net : AlloyClusterReactionNetwork K) (concentrations : Int → K) :
    AlloyClusterReactionNetwork K × (Int → K) :=
  ({ net with
     allReactants := net.allReactants.map (updateConcentrationStep concentrations) },
   concentrations)

/-- The argument `fillMap` and the member `dFillMap` of `getDiagonalFill`:
maps from a row to its column ids, `none` where the map has no entry. -/
structure FillMaps where
  fillMap : Int → Option (List Int)
  dFillMap : Int → Option (List Int)

/-- The body of the loop over `j` (lines 333-338 and 375-380): the state is
`fillMap` and the local `columnIds`; `fillMap[id]` creates the row when it is
absent. -/
def fillColumnStep (connectivity : List Int) (id : Int)
    (st : (Int → Option (List Int)) × List Int) (j : Nat) :
    (Int → Option (List Int)) × List Int :=
  if connectivity.getD j 0 = 1 then
    (Function.update st.1 id (some ((st.1 id).getD [] ++ [(j : Int)])), st.2 ++ [(j : Int)])
  else st

/-- The body of the loops over the reactants (lines 325-341 and 363-383) for
a connectivity and a row `id`. -/
def fillRow (connectivity : List Int) (id : Int) (maps : FillMaps) : FillMaps :=
  let r := (List.range connectivity.length).foldl (fillColumnStep connectivity id)
    (maps.fillMap, [])
  { fillMap := r.1, dFillMap := Function.update maps.dFillMap id (some r.2) }

/-- `AlloyClusterReactionNetwork::getDiagonalFill` (lines 318-387): the rows
of the reactants, then those of the moments of the super types in the order
of `typeVec`. -/
def AlloyClusterReactionNetwork.getDiagonalFill (net : AlloyClusterReactionNetwork K)
    (maps : FillMaps) : FillMaps :=
  let maps := net.allReactants.foldl
    (fun m reactant => fillRow reactant.connectivity (reactant.id - 1) m) maps
  [ReactantType.PerfectSuper, ReactantType.FaultedSuper, ReactantType.FrankSuper,
    ReactantType.VoidSuper].foldl
    (fun m currType => (net.getAll currType).foldl
      (fun m reactant => fillRow reactant.connectivity (reactant.momId - 1) m) m) maps

/-- The column indices `j`, in increasing order, at which `connectivity`
holds 1. -/
def connectedColumns (connectivity : List Int) : List Int :=
  ((List.range connectivity.length).filter
    (fun j => decide (connectivity.getD j 0 = 1))).map (fun (j : Nat) => (j : Int))

/-- The rows written by `getDiagonalFill`, in the order of the writes, each
with the connectivity it is built from. -/
def AlloyClusterReactionNetwork.fillRows (net : AlloyClusterReactionNetwork K) :
    List (List Int × Int) :=
  net.allReactants.map (fun r => (r.connectivity, r.id - 1))
    ++ [ReactantType.PerfectSuper, ReactantType.FaultedSuper, ReactantType.FrankSuper,
        ReactantType.VoidSuper].flatMap
      (fun t => (net.getAll t).map (fun r => (r.connectivity, r.momId - 1)))

end AlloyArrays

/-! ## The performance handler registry

`xolotlPerf.cpp`: the file-level pointer `theHandlerRegistry` (line 14) and
the two functions that write and read it.  The classes of the registries and
the enumeration `IHandlerRegistry::RegistryType` are declared in headers that
are not among the sources; the macro `HAVE_PAPI` is a parameter. -/

/-- `IHandlerRegistry::RegistryType`: the four enumerators named by the
`switch` of lines 18-44; `unrecognized value` stands for any other value of
the enumeration type, which the `default` label receives. -/
inductive RegistryType where
  | dummy
  | std
  | os
  | papi
  | unrecognized (value : Nat)
  deriving DecidableEq, Repr

/-- The classes of the registries created by lines 20, 24, 28 and 33. -/
inductive RegistryClass where
  | DummyHandlerRegistry
  | OSHandlerRegistry
  | PAPIHandlerRegistry
  deriving DecidableEq, Repr

/-- An object created by `std::make_shared`: its class and the serial number
of its creation, which tells two objects of one class apart. -/
structure HandlerRegistry where
  registryClass : RegistryClass
  serial : Nat
  deriving DecidableEq, Repr

/-- The two exceptions thrown by `xolotlPerf.cpp`. -/
inductive PerfError where
  | invalid_argument
  | runtime_error
  deriving DecidableEq, Repr

/-- The state of the library: the pointer `theHandlerRegistry`, `none` being
the null pointer, and the number of registries created so far. -/
structure PerfState where
  theHandlerRegistry : Option HandlerRegistry
  created : Nat
  deriving DecidableEq, Repr

/-- The state at program start: a static `shared_ptr` is null. -/
def PerfState.start : PerfState :=
  { theHandlerRegistry := none, created := 0 }

/-- The statement `theHandlerRegistry = std::make_shared<C>()`. -/
def PerfState.makeShared (s : PerfState) (c : RegistryClass) : PerfState :=
  { theHandlerRegistry := some { registryClass := c, serial := s.created }
    created := s.created + 1 }

/-- `xolotlPerf::initialize` (lines 17-45): the outcome of the call and the
state it leaves. -/
def initializeRegistry (havePapi : Bool) (rtype : RegistryType) (s : PerfState) :
    Except PerfError Unit × PerfState :=
  match rtype with
  | RegistryType.dummy =>
    (Except.ok (), s.makeShared RegistryClass.DummyHandlerRegistry)
  | RegistryType.std =>
    (Except.ok (), s.makeShared RegistryClass.OSHandlerRegistry)
  | RegistryType.os =>
    (Except.ok (), s.makeShared RegistryClass.OSHandlerRegistry)
  | RegistryType.papi =>
    if havePapi then (Except.ok (), s.makeShared RegistryClass.PAPIHandlerRegistry)
    else (Except.error PerfError.invalid_argument, s)
  | RegistryType.unrecognized _ => (Except.error PerfError.invalid_argument, s)

/-- `xolotlPerf::getHandlerRegistry` (lines 48-54). -/
def getHandlerRegistry (s : PerfState) : Except PerfError HandlerRegistry :=
  match s.theHandlerRegistry with
  | none => Except.error PerfError.runtime_error
  | some registry => Except.ok registry

/-- The state left by a sequence of calls of `initialize`, a caller going on
after a failed call. -/
def initializeAll (havePapi : Bool) (calls : List RegistryType) (s : PerfState) :
    PerfState :=
  calls.foldl (fun st rtype => (initializeRegistry havePapi rtype st).2) s

/-- The call `initialize(rtype)` returns normally. -/
def initializeSucceeds (havePapi : Bool) (rtype : RegistryType) (s : PerfState) : Prop :=
  (initializeRegistry havePapi rtype s).1 = Except.ok ()

/-! ## Fluxes of the alloy network

`computeAllFluxes` (lines 389-431) calls `getTotalFlux(i)` on every reactant
and `getMomentFlux()` on every super cluster; the cluster classes are not
among the sources, so the two methods are parameters.  `getTotalFlux` is not
`const`: it returns the flux together with the cluster it leaves. -/

section AlloyFluxes

variable {K : Type} [Field K]

/-- The body of the `for_each` of `computeAllFluxes` (lines 394-402): the
state is the list of the clusters already visited and the array
`updatedConcOffset`. -/
def totalFluxStep (getTotalFlux : Reactant K → Int → K × Reactant K) (i : Int)
    (st : List (Reactant K) × (Int → K)) (cluster : Reactant K) :
    List (Reactant K) × (Int → K) :=
  let r := getTotalFlux cluster i
  let flux := r.1
  let cluster := r.2
  let reactantIndex := cluster.id - 1
  (st.1 ++ [cluster],
    Function.update st.2 reactantIndex (st.2 reactantIndex + flux))

/-- The body of the loop over the super clusters of one type (lines
419-427). -/
def momentFluxStep (getMomentFlux : Reactant K → K) (updatedConcOffset : Int → K)
    (superCluster : Reactant K) : Int → K :=
  let flux := getMomentFlux superCluster
  let reactantIndex := superCluster.momId - 1
  Function.update updatedConcOffset reactantIndex (updatedConcOffset reactantIndex + flux)

/-- `AlloyClusterReactionNetwork::computeAllFluxes` (lines 389-431): the
network with the clusters as `getTotalFlux` leaves them, and the array
`updatedConcOffset` after the call. -/
def AlloyClusterReactionNetwork.computeAllFluxes (net : AlloyClusterReactionNetwork K)
    (getTotalFlux : Reactant K → Int → K × Reactant K)
    (getMomentFlux : Reactant K → K) (updatedConcOffset : Int → K) (i : Int) :
    AlloyClusterReactionNetwork K × (Int → K) :=
  let r := net.allReactants.foldl (totalFluxStep getTotalFlux i) ([], updatedConcOffset)
  let net : AlloyClusterReactionNetwork K := { net with allReactants := r.1 }
  let updatedConcOffset :=
    [ReactantType.PerfectSuper, ReactantType.FaultedSuper, ReactantType.FrankSuper,
      ReactantType.VoidSuper].foldl
      (fun conc currType => (net.getAll currType).foldl (momentFluxStep getMomentFlux) conc)
      r.2
  (net, updatedConcOffset)

/-- The statements `array[index] += amount` for a list of pairs
`(index, amount)`, in order. -/
def accumulate (contributions : List (Int × K)) (array : Int → K) : Int → K :=
  contributions.foldl (fun a p => Function.update a p.1 (a p.1 + p.2)) array

/-- The contributions of `computeAllFluxes`, in the order of the writes: for
every reactant the pair of its row `id - 1` and its total flux, then for every
super cluster, as `getTotalFlux` left it, the pair of its row `momentId - 1`
and its moment flux. -/
def AlloyClusterReactionNetwork.fluxContributions (net : AlloyClusterReactionNetwork K)
    (getTotalFlux : Reactant K → Int → K × Reactant K)
    (getMomentFlux : Reactant K → K) (i : Int) : List (Int × K) :=
  net.allReactants.map (fun r => ((getTotalFlux r i).2.id - 1, (getTotalFlux r i).1))
    ++ [ReactantType.PerfectSuper, ReactantType.FaultedSuper, ReactantType.FrankSuper,
        ReactantType.VoidSuper].flatMap
      (fun t => ((net.allReactants.map (fun r => (getTotalFlux r i).2)).filter
          (fun r => decide (r.type = t))).map
        (fun r => (r.momId - 1, getMomentFlux r)))

end AlloyFluxes

/-! ## Jacobian values of the alloy network

`computeAllPartials` (lines 433-547).  The methods `getPartialDerivatives`
and `getMomentPartialDerivatives` of the cluster classes are not among the
sources and are parameters: each takes the scratch vector `clusterPartials`
and returns it as the call leaves it.  The member `dFillMap` is the map
filled by `getDiagonalFill`.  The argument `indices` is never read. -/

/-- A loop whose body can throw: the state after the last element, or `none`
as soon as one body throws. -/
def foldOption {S A : Type} (f : S → A → Option S) : List A → S → Option S
  | [], s => some s
  | a :: l, s =>
    match f s a with
    | none => none
    | some s' => foldOption f l s'

section AlloyPartials

variable {K : Type} [Field K]

/-- The loop over `j` (lines 470-477, 503-511 and 523-531), started at
counter `j`: the state is `vals` and `clusterPartials`. -/
def writeRow (myStartingIdx : Int) :
    Nat → List Int → (Int → K) × (Int → K) → (Int → K) × (Int → K)
  | _, [], st => st
  | j, col :: rest, st =>
    writeRow myStartingIdx (j + 1) rest
      (Function.update st.1 (myStartingIdx + (j : Int)) (st.2 col),
       Function.update st.2 col 0)

/-- One block "get the partial derivatives, get the column ids, copy the row
out" (lines 461-477, 495-512 and 514-532): `fill` is the call that fills the
scratch vector and `reactantIndex` the row.  `dFillMap.at` throws when the
row is absent. -/
def partialsRow (dFillMap : Int → Option (List Int)) (startingIdx : Int → Int)
    (st : (Int → K) × (Int → K)) (task : ((Int → K) → (Int → K)) × Int) :
    Option ((Int → K) × (Int → K)) :=
  let reactantIndex := task.2
  let clusterPartials := task.1 st.2
  match dFillMap reactantIndex with
  | none => none
  | some pdColIdsVector =>
    let myStartingIdx := startingIdx reactantIndex
    some (writeRow myStartingIdx 0 pdColIdsVector (st.1, clusterPartials))

/-- The block of an ordinary reactant (lines 455-478). -/
def ordinaryTasks (getPartialDerivatives : Reactant K → (Int → K) → Int → (Int → K))
    (i : Int) (reactant : Reactant K) : List (((Int → K) → (Int → K)) × Int) :=
  [(fun clusterPartials => getPartialDerivatives reactant clusterPartials i,
    reactant.id - 1)]

/-- The two blocks of a super cluster (lines 489-532): its own row, then its
moment row. -/
def superTasks (getPartialDerivatives : Reactant K → (Int → K) → Int → (Int → K))
    (getMomentPartialDerivatives : Reactant K → (Int → K) → (Int → K))
    (i : Int) (reactant : Reactant K) : List (((Int → K) → (Int → K)) × Int) :=
  [(fun clusterPartials => getPartialDerivatives reactant clusterPartials i,
    reactant.id - 1),
   (fun clusterPartials => getMomentPartialDerivatives reactant clusterPartials,
    reactant.momId - 1)]

/-- `AlloyClusterReactionNetwork::computeAllPartials` (lines 433-547): `vals`
and the local vector `clusterPartials` at the return, or `none` when
`dFillMap.at` throws. -/
def AlloyClusterReactionNetwork.computeAllPartials (net : AlloyClusterReactionNetwork K)
    (getPartialDerivatives : Reactant K → (Int → K) → Int → (Int → K))
    (getMomentPartialDerivatives : Reactant K → (Int → K) → (Int → K))
    (dFillMap : Int → Option (List Int)) (startingIdx : Int → Int)
    (vals : Int → K) (i : Int) : Option ((Int → K) × (Int → K)) :=
  let clusterPartials : Int → K := fun _ => 0
  match foldOption
      (fun st currType => foldOption
        (fun st reactant => foldOption (partialsRow dFillMap startingIdx)
          (ordinaryTasks getPartialDerivatives i reactant) st)
        (net.getAll currType) st)
      [ReactantType.V, ReactantType.I, ReactantType.Void, ReactantType.Perfect,
        ReactantType.Faulted, ReactantType.Frank]
      (vals, clusterPartials) with
  | none => none
  | some st =>
    foldOption
      (fun st currType => foldOption
        (fun st reactant => foldOption (partialsRow dFillMap startingIdx)
          (superTasks getPartialDerivatives getMomentPartialDerivatives i reactant) st)
        (net.getAll currType) st)
      [ReactantType.PerfectSuper, ReactantType.FaultedSuper, ReactantType.FrankSuper,
        ReactantType.VoidSuper]
      st

/-- The blocks of `computeAllPartials` in the order in which they run. -/
def AlloyClusterReactionNetwork.partialsTasks (net : AlloyClusterReactionNetwork K)
    (getPartialDerivatives : Reactant K → (Int → K) → Int → (Int → K))
    (getMomentPartialDerivatives : Reactant K → (Int → K) → (Int → K)) (i : Int) :
    List (((Int → K) → (Int → K)) × Int) :=
  [ReactantType.V, ReactantType.I, ReactantType.Void, ReactantType.Perfect,
      ReactantType.Faulted, ReactantType.Frank].flatMap
      (fun t => (net.getAll t).flatMap (ordinaryTasks getPartialDerivatives i))
    ++ [ReactantType.PerfectSuper, ReactantType.FaultedSuper, ReactantType.FrankSuper,
        ReactantType.VoidSuper].flatMap
      (fun t => (net.getAll t).flatMap
        (superTasks getPartialDerivatives getMomentPartialDerivatives i))

/-- The statements `vals[index] = value` for a list of pairs, in order. -/
def assignAll (writes : List (Int × K)) (vals : Int → K) : Int → K :=
  writes.foldl (fun v p => Function.update v p.1 p.2) vals

/-- The entries that copying a row out of the scratch vector `clusterPartials`
writes: `vals[myStartingIdx + j] = clusterPartials[cols[j]]`, the counter
starting at `j`. -/
def rowWrites (myStartingIdx : Int) (clusterPartials : Int → K) :
    Nat → List Int → List (Int × K)
  | _, [] => []
  | j, col :: rest =>
    (myStartingIdx + (j : Int), clusterPartials col)
      :: rowWrites myStartingIdx clusterPartials (j + 1) rest

/-- The entries written by one block run on a zeroed scratch vector. -/
def taskWrites (dFillMap : Int → Option (List Int)) (startingIdx : Int → Int)
    (task : ((Int → K) → (Int → K)) × Int) : List (Int × K) :=
  rowWrites (startingIdx task.2) (task.1 (fun _ => 0)) 0 ((dFillMap task.2).getD [])

end AlloyPartials

/-! ## Rate constants of the super cluster

`SuperCluster::computeRateConstants` (lines 219-413).  The four maps filled
by `createReactionConnectivity` and `createDissociationConnectivity`, the
two entries of `compositionMap` and `biggestRate` are members that only this
function uses; they are held in `SuperClusterMaps`.  A `std::map` is the list
of its entries in increasing key order.

`calculateReactionRateConstant` and `calculateDissociationConstant` belong to
`PSICluster` and `xolotlCore::equal` to `MathUtils.h`, none of them among the
sources: they are the parameters `kPlus`, `kMinus` and `equal`; `self` is the
pointer `this`. -/

/-- The members of `SuperCluster` used by `computeRateConstants` only. -/
structure SuperClusterMaps (K : Type) where
  reactingMap : List (CellKey × List (ClusterPair K))
  combiningMap : List (CellKey × List (CombiningCluster K))
  dissociatingMap : List (CellKey × List (ClusterPair K))
  emissionMap : List (CellKey × List (ClusterPair K))
  compositionHe : Int
  compositionV : Int
  biggestRate : K

/-- The order `key < other` of `std::pair<int, int>`. -/
def keyLt (key other : CellKey) : Bool :=
  decide (key.1 < other.1) || (decide (key.1 = other.1) && decide (key.2 < other.2))

/-- The test `map.find(key) != map.end()`. -/
def mapHas {V : Type} (key : CellKey) (cells : List (CellKey × V)) : Bool :=
  cells.any (fun c => decide (c.1 = key))

/-- The read `map[key]` of a map of vectors: the vector stored under `key`,
empty when there is none. -/
def mapGet {V : Type} (key : CellKey) (cells : List (CellKey × List V)) : List V :=
  match cells.find? (fun c => decide (c.1 = key)) with
  | some c => c.2
  | none => []

/-- The assignment `map[key] = value`: the entry of `key` is replaced, or
inserted at its place in the key order. -/
def mapAssign {V : Type} (key : CellKey) (value : V) :
    List (CellKey × V) → List (CellKey × V)
  | [] => [(key, value)]
  | (k, v) :: rest =>
    if k = key then (key, value) :: rest
    else if keyLt key k then (key, value) :: (k, v) :: rest
    else (k, v) :: mapAssign key value rest

/-- The state of the two loops over the widths (lines 232-377): the super
cluster with its effective maps, the four maps, and the locals
`biggestProductionRate`, `nHeSquare` and `nVSquare`. -/
structure RateLoopState (K : Type) where
  sc : SuperCluster K
  maps : SuperClusterMaps K
  biggestProductionRate : K
  nHeSquare : Int
  nVSquare : Int

section RateConstants

variable {K : Type} [LinearOrderedField K]

/-- The loop on the reacting pairs of one cell (lines 262-279): the vector
with the rate constants set, the effective vector, and the biggest rate. -/
def reactingRateLoop (kPlus : ClusterPtr → ClusterPtr → K) (equal : K → K → Bool)
    (nTot : Int) : List (ClusterPair K) → K → List (ClusterPair K) × List (ClusterPair K) × K
  | [], biggestProductionRate => ([], [], biggestProductionRate)
  | pair :: rest, biggestProductionRate =>
    let rate := kPlus pair.first pair.second
    let pair := { pair with kConstant := rate / (nTot : K) }
    if !equal rate 0 then
      let biggestProductionRate :=
        if rate > biggestProductionRate then rate else biggestProductionRate
      let r := reactingRateLoop kPlus equal nTot rest biggestProductionRate
      (pair :: r.1, pair :: r.2.1, r.2.2)
    else
      let r := reactingRateLoop kPlus equal nTot rest biggestProductionRate
      (pair :: r.1, r.2.1, r.2.2)

/-- The loop on the combining reactants of one cell (lines 285-301): a
reactant whose id is the id of the super cluster enters the effective vector
twice. -/
def combiningRateLoop (kPlus : ClusterPtr → ClusterPtr → K) (equal : K → K → Bool)
    (heap : ClusterPtr → PSICluster K) (self : ClusterPtr) (id nTot : Int) :
    List (CombiningCluster K) → List (CombiningCluster K) × List (CombiningCluster K)
  | [] => ([], [])
  | combining :: rest =>
    let rate := kPlus self combining.combining
    let combining := { combining with kConstant := rate / (nTot : K) }
    let r := combiningRateLoop kPlus equal heap self id nTot rest
    if !equal rate 0 then
      if id = (heap combining.combining).id then (combining :: r.1, combining :: combining :: r.2)
      else (combining :: r.1, combining :: r.2)
    else (combining :: r.1, r.2)

/-- The loop on the dissociating pairs of one cell (lines 307-330). -/
def dissociatingRateLoop (kMinus : ClusterPtr → ClusterPtr → ClusterPtr → K)
    (equal : K → K → Bool) (heap : ClusterPtr → PSICluster K) (self : ClusterPtr)
    (id nTot : Int) :
    List (ClusterPair K) → List (ClusterPair K) × List (ClusterPair K)
  | [] => ([], [])
  | pair :: rest =>
    let rate := kMinus pair.first pair.second self
    let pair := { pair with kConstant := rate / (nTot : K) }
    let r := dissociatingRateLoop kMinus equal heap self id nTot rest
    if !equal rate 0 then
      if id = (heap pair.second).id then (pair :: r.1, pair :: pair :: r.2)
      else (pair :: r.1, pair :: r.2)
    else (pair :: r.1, r.2)

/-- The loop on the emission pairs of one cell (lines 336-348). -/
def emissionRateLoop (kMinus : ClusterPtr → ClusterPtr → ClusterPtr → K)
    (equal : K → K → Bool) (self : ClusterPtr) (nTot : Int) :
    List (ClusterPair K) → List (ClusterPair K) × List (ClusterPair K)
  | [] => ([], [])
  | pair :: rest =>
    let rate := kMinus self pair.first pair.second
    let pair := { pair with kConstant := rate / (nTot : K) }
    let r := emissionRateLoop kMinus equal self nTot rest
    if !equal rate 0 then (pair :: r.1, pair :: r.2)
    else (pair :: r.1, r.2)

/-- The body of the two loops for an occupied cell (lines 246-376). -/
def rateCell (kPlus : ClusterPtr → ClusterPtr → K)
    (kMinus : ClusterPtr → ClusterPtr → ClusterPtr → K) (equal : K → K → Bool)
    (heap : ClusterPtr → PSICluster K) (self : ClusterPtr)
    (st : RateLoopState K) (key : CellKey) : RateLoopState K :=
  let nHeSquare := st.nHeSquare + key.1 * key.1
  let nVSquare := st.nVSquare + key.2 * key.2
  let reacting := reactingRateLoop kPlus equal st.sc.nTot
    (mapGet key st.maps.reactingMap) st.biggestProductionRate
  let combining := combiningRateLoop kPlus equal heap self st.sc.id st.sc.nTot
    (mapGet key st.maps.combiningMap)
  let dissociating := dissociatingRateLoop kMinus equal heap self st.sc.id st.sc.nTot
    (mapGet key st.maps.dissociatingMap)
  let emission := emissionRateLoop kMinus equal self st.sc.nTot
    (mapGet key st.maps.emissionMap)
  { sc :=
      { st.sc with
        effReactingMap := mapAssign key reacting.2.1 st.sc.effReactingMap
        effCombiningMap := mapAssign key combining.2 st.sc.effCombiningMap
        effDissociatingMap := mapAssign key dissociating.2 st.sc.effDissociatingMap
        effEmissionMap := mapAssign key emission.2 st.sc.effEmissionMap }
    maps :=
      { st.maps with
        reactingMap := mapAssign key reacting.1 st.maps.reactingMap
        combiningMap := mapAssign key combining.1 st.maps.combiningMap
        dissociatingMap := mapAssign key dissociating.1 st.maps.dissociatingMap
        emissionMap := mapAssign key emission.1 st.maps.emissionMap }
    biggestProductionRate := reacting.2.2
    nHeSquare := nHeSquare
    nVSquare := nVSquare }

/-- The body of the two loops (lines 239-376): a cell that is not a key of
the reacting map is skipped by `continue`. -/
def rateCellStep (kPlus : ClusterPtr → ClusterPtr → K)
    (kMinus : ClusterPtr → ClusterPtr → ClusterPtr → K) (equal : K → K → Bool)
    (heap : ClusterPtr → PSICluster K) (self : ClusterPtr)
    (st : RateLoopState K) (key : CellKey) : RateLoopState K :=
  if !mapHas key st.maps.reactingMap then st
  else rateCell kPlus kMinus equal heap self st key

end RateConstants

section RateConstantsLoop

variable {K : Type} [LinearOrderedField K] [FloorRing K]

/-- Lines 219-407 of `computeRateConstants`: the two loops over the widths,
the assignment of `biggestRate` and the two dispersions. -/
def SuperCluster.computeRates (kPlus : ClusterPtr → ClusterPtr → K)
    (kMinus : ClusterPtr → ClusterPtr → ClusterPtr → K) (equal : K → K → Bool)
    (heap : ClusterPtr → PSICluster K) (self : ClusterPtr)
    (sc : SuperCluster K) (maps : SuperClusterMaps K) :
    SuperCluster K × SuperClusterMaps K :=
  let st := (List.range sc.sectionVWidth.toNat).foldl
    (fun st k =>
      let vIndex := sc.vIndexAt k
      (List.range sc.sectionHeWidth.toNat).foldl
        (fun st j =>
          let heIndex := sc.heIndexAt j
          rateCellStep kPlus kMinus equal heap self st (heIndex, vIndex))
        st)
    { sc := sc, maps := maps, biggestProductionRate := 0, nHeSquare := 0, nVSquare := 0 }
  let maps := { st.maps with biggestRate := st.biggestProductionRate }
  (st.sc.setDispersions st.nHeSquare st.nVSquare maps.compositionHe maps.compositionV, maps)

/-- `SuperCluster::computeRateConstants` (lines 219-413): the rates, then
`optimizeReactions`. -/
def SuperCluster.computeRateConstants (kPlus : ClusterPtr → ClusterPtr → K)
    (kMinus : ClusterPtr → ClusterPtr → ClusterPtr → K) (equal : K → K → Bool)
    (heap : ClusterPtr → PSICluster K) (self : ClusterPtr)
    (sc : SuperCluster K) (maps : SuperClusterMaps K) :
    SuperCluster K × SuperClusterMaps K :=
  let r := sc.computeRates kPlus kMinus equal heap self maps
  (r.1.optimizeReactions, r.2)

end RateConstantsLoop

/-! ### What the rate computation leaves in a cell -/

/-- The eight vectors stored under one key: those of the four maps and those
of the four effective maps. -/
structure CellView (K : Type) where
  reacting : List (ClusterPair K)
  combining : List (CombiningCluster K)
  dissociating : List (ClusterPair K)
  emission : List (ClusterPair K)
  effReacting : List (ClusterPair K)
  effCombining : List (CombiningCluster K)
  effDissociating : List (ClusterPair K)
  effEmission : List (ClusterPair K)

/-- The vectors stored under `key`. -/
def cellView {K : Type} (sc : SuperCluster K) (maps : SuperClusterMaps K) (key : CellKey) :
    CellView K :=
  { reacting := mapGet key maps.reactingMap
    combining := mapGet key maps.combiningMap
    dissociating := mapGet key maps.dissociatingMap
    emission := mapGet key maps.emissionMap
    effReacting := mapGet key sc.effReactingMap
    effCombining := mapGet key sc.effCombiningMap
    effDissociating := mapGet key sc.effDissociatingMap
    effEmission := mapGet key sc.effEmissionMap }

section RatedCell

variable {K : Type} [LinearOrderedField K]

/-- The cell with which the rate computation is compared: every micro entry
holds `kConstant = rate / nTot`, and the effective vectors hold the entries
whose rate is not numerically 0, an entry whose partner is the super cluster
itself being listed twice in the combining and dissociating vectors. -/
def ratedCell (kPlus : ClusterPtr → ClusterPtr → K)
    (kMinus : ClusterPtr → ClusterPtr → ClusterPtr → K) (equal : K → K → Bool)
    (heap : ClusterPtr → PSICluster K) (self : ClusterPtr) (id nTot : Int)
    (v : CellView K) : CellView K :=
  { reacting := v.reacting.map
      (fun p => { p with kConstant := kPlus p.first p.second / (nTot : K) })
    combining := v.combining.map
      (fun c => { c with kConstant := kPlus self c.combining / (nTot : K) })
    dissociating := v.dissociating.map
      (fun p => { p with kConstant := kMinus p.first p.second self / (nTot : K) })
    emission := v.emission.map
      (fun p => { p with kConstant := kMinus self p.first p.second / (nTot : K) })
    effReacting := (v.reacting.map
      (fun p => { p with kConstant := kPlus p.first p.second / (nTot : K) })).filter
      (fun p => !equal (kPlus p.first p.second) 0)
    effCombining := (v.combining.map
      (fun c => { c with kConstant := kPlus self c.combining / (nTot : K) })).flatMap
      (fun c => if equal (kPlus self c.combining) 0 then []
        else if id = (heap c.combining).id then [c, c] else [c])
    effDissociating := (v.dissociating.map
      (fun p => { p with kConstant := kMinus p.first p.second self / (nTot : K) })).flatMap
      (fun p => if equal (kMinus p.first p.second self) 0 then []
        else if id = (heap p.second).id then [p, p] else [p])
    effEmission := (v.emission.map
      (fun p => { p with kConstant := kMinus self p.first p.second / (nTot : K) })).filter
      (fun p => !equal (kMinus self p.first p.second) 0) }

/-- The un-normalised rates of the effective reacting pairs of a cell. -/
def effectiveRates (kPlus : ClusterPtr → ClusterPtr → K) (equal : K → K → Bool)
    (pairs : List (ClusterPair K)) : List K :=
  (pairs.map (fun p => kPlus p.first p.second)).filter (fun rate => !equal rate 0)

/-- The statement `if (rate > biggest) biggest = rate` over a list of
rates. -/
def biggestOf (rates : List K) (biggest : K) : K :=
  rates.foldl (fun b rate => if rate > b then rate else b) biggest

end RatedCell

/-! ## The time histogram of the memory-usage library

`TimeHistogram.cpp` (lines 11-149).  The class is a template over the sample
type, the running-value type, the metric type and the clock; the header
`TimeHistogram.h` with the declarations is not among the sources.  Samples
and running values are the elements of an additive monoid `R`, time stamps
and durations those of an ordered field `K`, the vector `bins` is a list and
an iterator into it is an index, `bins.end()` being the length. -/

/-- The record `TimeHistogram::BinData` as the methods use it: the members
`runningValue` and `nSamples`. -/
structure BinData (R : Type) where
  runningValue : R
  nSamples : Nat

/-- The members of `TimeHistogram`. -/
structure TimeHistogram (K R : Type) where
  nBins : Nat
  binWidth : K
  startTimestamp : K
  bins : List (BinData R)

/-- The ways in which a method of the histogram does not return normally:
the exception of the constructor, the `assert` of `HandleSample`, an access
outside the vector `bins`, and a loop that has not left within the number of
iterations granted to it. -/
inductive HistogramError where
  | runtime_error
  | assertion
  | outOfRange
  | outOfFuel
  deriving DecidableEq, Repr

section Histogram

variable {K R : Type}

/-- `BinData::Reset` (lines 86-92). -/
def BinData.Reset [Zero R] (_b : BinData R) : BinData R :=
  { runningValue := 0, nSamples := 0 }

/-- `BinData::HandleSample` (lines 143-149). -/
def BinData.HandleSample [Add R] (b : BinData R) (s : R) : BinData R :=
  { runningValue := b.runningValue + s, nSamples := b.nSamples + 1 }

/-- The constructor (lines 11-26): `bins(nBins)` creates `nBins` bins, each
holding the running value 0 and no sample, and an odd number of bins is
refused with a `std::runtime_error`. -/
def TimeHistogram.new [Zero R] (nBins : Nat) (binWidth startTimestamp : K) :
    Except HistogramError (TimeHistogram K R) :=
  if nBins % 2 ≠ 0 then Except.error HistogramError.runtime_error
  else
    Except.ok
      { nBins := nBins, binWidth := binWidth, startTimestamp := startTimestamp
        bins := List.replicate nBins { runningValue := 0, nSamples := 0 } }

/-- `TimeHistogram::FindBin` (lines 29-34): the floor of the quotient,
converted to `unsigned int`.  The conversion of a value outside the range of
`unsigned int` is undefined in the source; the index is kept as it is. -/
def TimeHistogram.FindBin [LinearOrderedField K] [FloorRing K] (h : TimeHistogram K R)
    (timestamp : K) : Nat :=
  (⌊(timestamp - h.startTimestamp) / h.binWidth⌋).toNat

/-- The loop of `SetToCombinationOf` (lines 119-123) over the indices
`currIter`: the bin `self` of the vector accumulates the bin `currIter`. -/
def combineLoop [Add R] (self : Nat) :
    List Nat → List (BinData R) → Except HistogramError (List (BinData R))
  | [], bins => Except.ok bins
  | currIter :: rest, bins =>
    match bins[self]?, bins[currIter]? with
    | some me, some curr =>
      combineLoop self rest
        (bins.set self
          { runningValue := me.runningValue + curr.runningValue
            nSamples := me.nSamples + curr.nSamples })
    | _, _ => Except.error HistogramError.outOfRange

/-- `BinData::SetToCombinationOf` (lines 97-124) called on the bin `self` of
the vector with the iterators `firstIter` and `lastIter`: the bin is reset
unless it is the first bin of the range, then it accumulates the other bins
of the range. -/
def SetToCombinationOf [Zero R] [Add R] (bins : List (BinData R))
    (self firstIter lastIter : Nat) : Except HistogramError (List (BinData R)) :=
  match bins[self]?, bins[firstIter]? with
  | some me, some _ =>
    let involved := decide (firstIter = self)
    let bins := if !involved then bins.set self me.Reset else bins
    let actualFirstIter := if involved then firstIter + 1 else firstIter
    combineLoop self (List.range' actualFirstIter (lastIter - actualFirstIter)) bins
  | _, _ => Except.error HistogramError.outOfRange

/-- The first loop of `Fold` (lines 59-72), run for at most `fuel`
iterations: it returns `newBinIter` and the vector. -/
def foldPairs [Zero R] [Add R] :
    Nat → Nat → Nat → List (BinData R) → Except HistogramError (Nat × List (BinData R))
  | 0, oldBinIter, newBinIter, bins =>
    if oldBinIter = bins.length then Except.ok (newBinIter, bins)
    else Except.error HistogramError.outOfFuel
  | fuel + 1, oldBinIter, newBinIter, bins =>
    if oldBinIter = bins.length then Except.ok (newBinIter, bins)
    else
      let nextOldBinIter := oldBinIter + 2
      match SetToCombinationOf bins newBinIter oldBinIter nextOldBinIter with
      | Except.ok bins => foldPairs fuel nextOldBinIter (newBinIter + 1) bins
      | Except.error e => Except.error e

/-- The second loop of `Fold` (lines 74-79): the bins from `newBinIter` to
the end are reset. -/
def resetFrom [Zero R] (newBinIter : Nat) (bins : List (BinData R)) : List (BinData R) :=
  (List.range' newBinIter (bins.length - newBinIter)).foldl
    (fun bins i => bins.set i { runningValue := 0, nSamples := 0 }) bins

/-- `TimeHistogram::Fold` (lines 55-83).  The first loop advances
`oldBinIter` by two from the beginning, so the length of the vector bounds
the number of its iterations. -/
def TimeHistogram.Fold [Zero R] [Add R] [Mul K] [OfNat K 2] (h : TimeHistogram K R) :
    Except HistogramError (TimeHistogram K R) :=
  match foldPairs h.bins.length 0 0 h.bins with
  | Except.ok r =>
    Except.ok { h with bins := resetFrom r.1 r.2, binWidth := h.binWidth * 2 }
  | Except.error e => Except.error e

/-- The loop of `HandleSample` (lines 44-49), run for at most `fuel` calls of
`Fold`: it returns the histogram and `binIdx`. -/
def handleSampleLoop [Zero R] [Add R] [LinearOrderedField K] [FloorRing K] :
    Nat → TimeHistogram K R → K → Except HistogramError (TimeHistogram K R × Nat)
  | fuel, h, timestamp =>
    let binIdx := h.FindBin timestamp
    if binIdx ≥ h.nBins then
      match fuel with
      | 0 => Except.error HistogramError.outOfFuel
      | fuel + 1 =>
        match h.Fold with
        | Except.ok h => handleSampleLoop fuel h timestamp
        | Except.error e => Except.error e
    else Except.ok (h, binIdx)

/-- `TimeHistogram::HandleSample` (lines 37-51) with at most `fuel` calls of
`Fold`. -/
def TimeHistogram.HandleSample [Zero R] [Add R] [LinearOrderedField K] [FloorRing K]
    (fuel : Nat) (h : TimeHistogram K R) (timestamp : K) (sample : R) :
    Except HistogramError (TimeHistogram K R) :=
  if ¬ (timestamp ≥ h.startTimestamp) then Except.error HistogramError.assertion
  else
    match handleSampleLoop fuel h timestamp with
    | Except.ok r =>
      match r.1.bins[r.2]? with
      | some bin => Except.ok { r.1 with bins := r.1.bins.set r.2 (bin.HandleSample sample) }
      | none => Except.error HistogramError.outOfRange
    | Except.error e => Except.error e

/-- The histogram after `k` calls of `Fold`. -/
def foldTimes [Zero R] [Add R] [Mul K] [OfNat K 2] :
    Nat → TimeHistogram K R → Except HistogramError (TimeHistogram K R)
  | 0, h => Except.ok h
  | k + 1, h =>
    match h.Fold with
    | Except.ok h => foldTimes k h
    | Except.error e => Except.error e

/-- The number of samples held by all the bins. -/
def TimeHistogram.totalSamples (h : TimeHistogram K R) : Nat :=
  (h.bins.map (fun b => b.nSamples)).sum

/-- The sum of the running values of all the bins. -/
def TimeHistogram.totalValue [AddCommMonoid R] (h : TimeHistogram K R) : R :=
  (h.bins.map (fun b => b.runningValue)).sum

/-- The combination of the bins `2 k` and `2 k + 1` of a vector. -/
def pairOf [Zero R] [Add R] (bins : List (BinData R)) (k : Nat) : BinData R :=
  { runningValue :=
      (bins.getD (2 * k) ⟨0, 0⟩).runningValue + (bins.getD (2 * k + 1) ⟨0, 0⟩).runningValue
    nSamples := (bins.getD (2 * k) ⟨0, 0⟩).nSamples + (bins.getD (2 * k + 1) ⟨0, 0⟩).nSamples }

end Histogram

/-! ## The helium cluster

`HeCluster.cpp` (lines 9-31).  The base class `PSICluster` and the constants
`xolotlCore::pi` and `xolotlCore::tungstenLatticeConstant` of `Constants.h`
are not among the sources: the constants and the library function `pow` are
parameters of the constructor. -/

/-- The members that the constructor of `HeCluster` sets: `size`, the helium
entry of `composition`, `type` and `reactionRadius`. -/
structure HeCluster (K : Type) where
  size : Int
  compositionHe : Int
  type : ReactantType
  reactionRadius : K

/-- The constructor `HeCluster::HeCluster` (lines 9-31). -/
def HeCluster.new {K : Type} [Field K] (pow : K → K → K) (pi tungstenLatticeConstant : K)
    (nHe : Int) : HeCluster K :=
  let size := nHe
  let FourPi := 4 * pi
  let aCubed := pow tungstenLatticeConstant 3
  let termOne := pow ((3 / FourPi) * (1 / 10) * aCubed * (size : K)) (1 / 3)
  let termTwo := pow ((3 / FourPi) * (1 / 10) * aCubed) (1 / 3)
  { size := size
    compositionHe := size
    type := ReactantType.He
    reactionRadius := 3 / 10 + termOne - termTwo }

/-! ## Closed-form loss and emission factors

`reactantLossFactor`, `analyticReact` and the primitives `a1r1` to `a2r4`,
`ae`, `am` and `ad` (lines 1315-1339, 1540-1563, 1824-2434). -/

section ClosedFormReact

variable {K : Type} [Field K]

/-- `SuperCluster::a1r1` (lines 1824-1922): one primitive of the closed-form
reactant loss factor with the first reactant active, selected by the index `p`; it is `0` on an
empty range. -/
def a1r1 (p : Int) (s01 s02 s03 w1 w2 w3 : K) (x1 x2 : Int) : K :=
  if x1 > x2 then 0
  else
    let lb : K := (x1 : K)
    let ub : K := (x2 : K)
    if p = 0 then
      -((-1 + lb - ub) * (2 + 2 * w2 + 2 * w3 + lb + ub + 2 * s02 - 2 * s03)) / 2
    else if p = 1 then
      -((-1 + lb - ub) * (-6 * s01 - 6 * w2 * s01 - 6 * w3 * s01 + 2 * lb + 3 * w2 * lb + 3 * w3
        * lb - 3 * s01 * lb + 2 * lb * lb + 4 * ub + 3 * w2 * ub + 3 * w3 * ub - 3 * s01 * ub +
        2 * lb * ub + 2 * ub * ub - 6 * s01 * s02 + 3 * lb * s02 + 3 * ub * s02 + 6 * s01 * s03
        - 3 * lb * s03 - 3 * ub * s03)) / (6 * (1 + w1))
    else if p = 2 then
      -((-1 + lb - ub) * (3 * w2 + 3 * w2 * w2 - 3 * w3 - 3 * w3 * w3 - lb - 3 * w3 * lb - lb *
        lb - 2 * ub - 3 * w3 * ub - lb * ub - ub * ub - 3 * s02 - 6 * w3 * s02 - 3 * lb * s02 -
        3 * ub * s02 - 3 * s02 * s02 + 3 * s03 + 6 * w3 * s03 + 3 * lb * s03 + 3 * ub * s03 + 6
        * s02 * s03 - 3 * s03 * s03)) / (6 * (1 + w2))
    else if p = 3 then
      -((-1 + lb - ub) * (-12 * w2 * s01 - 12 * w2 * w2 * s01 + 12 * w3 * s01 + 12 * w3 * w3 *
        s01 + 2 * lb + 6 * w2 * lb + 6 * w2 * w2 * lb - 2 * w3 * lb - 6 * w3 * w3 * lb + 4 * s01
        * lb + 12 * w3 * s01 * lb - lb * lb - 8 * w3 * lb * lb + 4 * s01 * lb * lb - 3 * lb * lb
        * lb - 2 * ub + 6 * w2 * ub + 6 * w2 * w2 * ub - 10 * w3 * ub - 6 * w3 * w3 * ub + 8 *
        s01 * ub + 12 * w3 * s01 * ub - 4 * lb * ub - 8 * w3 * lb * ub + 4 * s01 * lb * ub - 3
        * lb * lb * ub - 7 * ub * ub - 8 * w3 * ub * ub + 4 * s01 * ub * ub - 3 * lb * ub * ub
        - 3 * ub * ub * ub + 12 * s01 * s02 + 24 * w3 * s01 * s02 - 2 * lb * s02 - 12 * w3 * lb
        * s02 + 12 * s01 * lb * s02 - 8 * lb * lb * s02 - 10 * ub * s02 - 12 * w3 * ub * s02 +
        12 * s01 * ub * s02 - 8 * lb * ub * s02 - 8 * ub * ub * s02 + 12 * s01 * s02 * s02 - 6
        * lb * s02 * s02 - 6 * ub * s02 * s02 - 12 * s01 * s03 - 24 * w3 * s01 * s03 + 2 * lb *
        s03 + 12 * w3 * lb * s03 - 12 * s01 * lb * s03 + 8 * lb * lb * s03 + 10 * ub * s03 + 12
        * w3 * ub * s03 - 12 * s01 * ub * s03 + 8 * lb * ub * s03 + 8 * ub * ub * s03 - 24 * s01
        * s02 * s03 + 12 * lb * s02 * s03 + 12 * ub * s02 * s03 + 12 * s01 * s03 * s03 - 6 * lb
        * s03 * s03 - 6 * ub * s03 * s03)) / (24 * (1 + w1) * (1 + w2))
    else if p = 4 then
      -((-1 + lb - ub) * (-6 * s01 - 6 * w2 * s01 - 6 * w3 * s01 + 2 * lb + 3 * w2 * lb + 3 * w3
        * lb - 3 * s01 * lb + 2 * lb * lb + 4 * ub + 3 * w2 * ub + 3 * w3 * ub - 3 * s01 * ub +
        2 * lb * ub + 2 * ub * ub - 6 * s01 * s02 + 3 * lb * s02 + 3 * ub * s02 + 6 * s01 * s03
        - 3 * lb * s03 - 3 * ub * s03)) / 6
    else if p = 5 then
      -((-1 + lb - ub) * (12 * s01 * s01 + 12 * w2 * s01 * s01 + 12 * w3 * s01 * s01 - 2 * lb -
        2 * w2 * lb - 2 * w3 * lb - 8 * s01 * lb - 12 * w2 * s01 * lb - 12 * w3 * s01 * lb + 6
        * s01 * s01 * lb + lb * lb + 4 * w2 * lb * lb + 4 * w3 * lb * lb - 8 * s01 * lb * lb + 3
        * lb * lb * lb + 2 * ub + 2 * w2 * ub + 2 * w3 * ub - 16 * s01 * ub - 12 * w2 * s01 * ub
        - 12 * w3 * s01 * ub + 6 * s01 * s01 * ub + 4 * lb * ub + 4 * w2 * lb * ub + 4 * w3 * lb
        * ub - 8 * s01 * lb * ub + 3 * lb * lb * ub + 7 * ub * ub + 4 * w2 * ub * ub + 4 * w3 *
        ub * ub - 8 * s01 * ub * ub + 3 * lb * ub * ub + 3 * ub * ub * ub + 12 * s01 * s01 * s02
        - 2 * lb * s02 - 12 * s01 * lb * s02 + 4 * lb * lb * s02 + 2 * ub * s02 - 12 * s01 * ub
        * s02 + 4 * lb * ub * s02 + 4 * ub * ub * s02 - 12 * s01 * s01 * s03 + 2 * lb * s03 + 12
        * s01 * lb * s03 - 4 * lb * lb * s03 - 2 * ub * s03 + 12 * s01 * ub * s03 - 4 * lb * ub
        * s03 - 4 * ub * ub * s03)) / (12 * (1 + w1))
    else if p = 6 then
      -((-1 + lb - ub) * (-12 * w2 * s01 - 12 * w2 * w2 * s01 + 12 * w3 * s01 + 12 * w3 * w3 *
        s01 + 2 * lb + 6 * w2 * lb + 6 * w2 * w2 * lb - 2 * w3 * lb - 6 * w3 * w3 * lb + 4 * s01
        * lb + 12 * w3 * s01 * lb - lb * lb - 8 * w3 * lb * lb + 4 * s01 * lb * lb - 3 * lb * lb
        * lb - 2 * ub + 6 * w2 * ub + 6 * w2 * w2 * ub - 10 * w3 * ub - 6 * w3 * w3 * ub + 8 *
        s01 * ub + 12 * w3 * s01 * ub - 4 * lb * ub - 8 * w3 * lb * ub + 4 * s01 * lb * ub - 3
        * lb * lb * ub - 7 * ub * ub - 8 * w3 * ub * ub + 4 * s01 * ub * ub - 3 * lb * ub * ub
        - 3 * ub * ub * ub + 12 * s01 * s02 + 24 * w3 * s01 * s02 - 2 * lb * s02 - 12 * w3 * lb
        * s02 + 12 * s01 * lb * s02 - 8 * lb * lb * s02 - 10 * ub * s02 - 12 * w3 * ub * s02 +
        12 * s01 * ub * s02 - 8 * lb * ub * s02 - 8 * ub * ub * s02 + 12 * s01 * s02 * s02 - 6
        * lb * s02 * s02 - 6 * ub * s02 * s02 - 12 * s01 * s03 - 24 * w3 * s01 * s03 + 2 * lb *
        s03 + 12 * w3 * lb * s03 - 12 * s01 * lb * s03 + 8 * lb * lb * s03 + 10 * ub * s03 + 12
        * w3 * ub * s03 - 12 * s01 * ub * s03 + 8 * lb * ub * s03 + 8 * ub * ub * s03 - 24 * s01
        * s02 * s03 + 12 * lb * s02 * s03 + 12 * ub * s02 * s03 + 12 * s01 * s03 * s03 - 6 * lb
        * s03 * s03 - 6 * ub * s03 * s03)) / (24 * (1 + w2))
    else if p = 7 then
      -((-1 + lb - ub) * (60 * w2 * s01 * s01 + 60 * w2 * w2 * s01 * s01 - 60 * w3 * s01 * s01
        - 60 * w3 * w3 * s01 * s01 - 2 * lb - 10 * w2 * lb - 10 * w2 * w2 * lb + 10 * w3 * lb +
        10 * w3 * w3 * lb - 20 * s01 * lb - 60 * w2 * s01 * lb - 60 * w2 * w2 * s01 * lb + 20 *
        w3 * s01 * lb + 60 * w3 * w3 * s01 * lb - 20 * s01 * s01 * lb - 60 * w3 * s01 * s01 * lb
        + 13 * lb * lb + 20 * w2 * lb * lb + 20 * w2 * w2 * lb * lb + 10 * w3 * lb * lb - 20 *
        w3 * w3 * lb * lb + 10 * s01 * lb * lb + 80 * w3 * s01 * lb * lb - 20 * s01 * s01 * lb
        * lb + 3 * lb * lb * lb - 30 * w3 * lb * lb * lb + 30 * s01 * lb * lb * lb - 12 * lb *
        lb * lb * lb + 2 * ub + 10 * w2 * ub + 10 * w2 * w2 * ub - 10 * w3 * ub - 10 * w3 * w3
        * ub + 20 * s01 * ub - 60 * w2 * s01 * ub - 60 * w2 * w2 * s01 * ub + 100 * w3 * s01 *
        ub + 60 * w3 * w3 * s01 * ub - 40 * s01 * s01 * ub - 60 * w3 * s01 * s01 * ub + 4 * lb
        * ub + 20 * w2 * lb * ub + 20 * w2 * w2 * lb * ub - 20 * w3 * lb * ub - 20 * w3 * w3 *
        lb * ub + 40 * s01 * lb * ub + 80 * w3 * s01 * lb * ub - 20 * s01 * s01 * lb * ub - 9 *
        lb * lb * ub - 30 * w3 * lb * lb * ub + 30 * s01 * lb * lb * ub - 12 * lb * lb * lb * ub
        - 17 * ub * ub + 20 * w2 * ub * ub + 20 * w2 * w2 * ub * ub - 50 * w3 * ub * ub - 20 *
        w3 * w3 * ub * ub + 70 * s01 * ub * ub + 80 * w3 * s01 * ub * ub - 20 * s01 * s01 * ub
        * ub - 21 * lb * ub * ub - 30 * w3 * lb * ub * ub + 30 * s01 * lb * ub * ub - 12 * lb *
        lb * ub * ub - 33 * ub * ub * ub - 30 * w3 * ub * ub * ub + 30 * s01 * ub * ub * ub - 12
        * lb * ub * ub * ub - 12 * ub * ub * ub * ub - 60 * s01 * s01 * s02 - 120 * w3 * s01 *
        s01 * s02 + 10 * lb * s02 + 20 * w3 * lb * s02 + 20 * s01 * lb * s02 + 120 * w3 * s01 *
        lb * s02 - 60 * s01 * s01 * lb * s02 + 10 * lb * lb * s02 - 40 * w3 * lb * lb * s02 + 80
        * s01 * lb * lb * s02 - 30 * lb * lb * lb * s02 - 10 * ub * s02 - 20 * w3 * ub * s02 +
        100 * s01 * ub * s02 + 120 * w3 * s01 * ub * s02 - 60 * s01 * s01 * ub * s02 - 20 * lb
        * ub * s02 - 40 * w3 * lb * ub * s02 + 80 * s01 * lb * ub * s02 - 30 * lb * lb * ub *
        s02 - 50 * ub * ub * s02 - 40 * w3 * ub * ub * s02 + 80 * s01 * ub * ub * s02 - 30 * lb
        * ub * ub * s02 - 30 * ub * ub * ub * s02 - 60 * s01 * s01 * s02 * s02 + 10 * lb * s02
        * s02 + 60 * s01 * lb * s02 * s02 - 20 * lb * lb * s02 * s02 - 10 * ub * s02 * s02 + 60
        * s01 * ub * s02 * s02 - 20 * lb * ub * s02 * s02 - 20 * ub * ub * s02 * s02 + 60 * s01
        * s01 * s03 + 120 * w3 * s01 * s01 * s03 - 10 * lb * s03 - 20 * w3 * lb * s03 - 20 * s01
        * lb * s03 - 120 * w3 * s01 * lb * s03 + 60 * s01 * s01 * lb * s03 - 10 * lb * lb * s03
        + 40 * w3 * lb * lb * s03 - 80 * s01 * lb * lb * s03 + 30 * lb * lb * lb * s03 + 10 * ub
        * s03 + 20 * w3 * ub * s03 - 100 * s01 * ub * s03 - 120 * w3 * s01 * ub * s03 + 60 * s01
        * s01 * ub * s03 + 20 * lb * ub * s03 + 40 * w3 * lb * ub * s03 - 80 * s01 * lb * ub *
        s03 + 30 * lb * lb * ub * s03 + 50 * ub * ub * s03 + 40 * w3 * ub * ub * s03 - 80 * s01
        * ub * ub * s03 + 30 * lb * ub * ub * s03 + 30 * ub * ub * ub * s03 + 120 * s01 * s01 *
        s02 * s03 - 20 * lb * s02 * s03 - 120 * s01 * lb * s02 * s03 + 40 * lb * lb * s02 * s03
        + 20 * ub * s02 * s03 - 120 * s01 * ub * s02 * s03 + 40 * lb * ub * s02 * s03 + 40 * ub
        * ub * s02 * s03 - 60 * s01 * s01 * s03 * s03 + 10 * lb * s03 * s03 + 60 * s01 * lb *
        s03 * s03 - 20 * lb * lb * s03 * s03 - 10 * ub * s03 * s03 + 60 * s01 * ub * s03 * s03
        - 20 * lb * ub * s03 * s03 - 20 * ub * ub * s03 * s03)) / (120 * (1 + w1) * (1 + w2))
    else 0

/-- `SuperCluster::a1r2` (lines 1924-1952): one primitive of the closed-form
reactant loss factor with the first reactant active, selected by the index `p`; it is `0` on an
empty range. -/
def a1r2 (p : Int) (s01 _s02 _s03 w1 w2 _w3 : K) (x1 x2 : Int) : K :=
  if x1 > x2 then 0
  else
    let lb : K := (x1 : K)
    let ub : K := (x2 : K)
    if p = 0 then
      (1 + 2 * w2) * (1 - lb + ub)
    else if p = 1 then
      -((1 + 2 * w2) * (-1 + lb - ub) * (-2 * s01 + lb + ub)) / (2 * (1 + w1))
    else if p = 2 then
      0
    else if p = 3 then
      0
    else if p = 4 then
      -((1 + 2 * w2) * (-1 + lb - ub) * (-2 * s01 + lb + ub)) / 2
    else if p = 5 then
      -((1 + 2 * w2) * (-1 + lb - ub) * (6 * s01 * s01 - lb - 6 * s01 * lb + 2 * lb * lb + ub -
        6 * s01 * ub + 2 * lb * ub + 2 * ub * ub)) / (6 * (1 + w1))
    else if p = 6 then
      0
    else if p = 7 then
      0
    else 0

/-- `SuperCluster::a1r3` (lines 1954-1991): one primitive of the closed-form
reactant loss factor with the first reactant active, selected by the index `p`; it is `0` on an
empty range. -/
def a1r3 (p : Int) (s01 s02 s03 w1 w2 w3 : K) (x1 x2 : Int) : K :=
  if x1 > x2 then 0
  else
    let lb : K := (x1 : K)
    let ub : K := (x2 : K)
    if p = 0 then
      (1 + 2 * w3) * (1 - lb + ub)
    else if p = 1 then
      -((1 + 2 * w3) * (-1 + lb - ub) * (-2 * s01 + lb + ub)) / (2 * (1 + w1))
    else if p = 2 then
      ((1 + 2 * w3) * (-1 + lb - ub) * (lb + ub + 2 * s02 - 2 * s03)) / (2 * (1 + w2))
    else if p = 3 then
      ((1 + 2 * w3) * (-1 + lb - ub) * (-lb - 3 * s01 * lb + 2 * lb * lb + ub - 3 * s01 * ub + 2
        * lb * ub + 2 * ub * ub - 6 * s01 * s02 + 3 * lb * s02 + 3 * ub * s02 + 6 * s01 * s03 -
        3 * lb * s03 - 3 * ub * s03)) / (6 * (1 + w1) * (1 + w2))
    else if p = 4 then
      -((1 + 2 * w3) * (-1 + lb - ub) * (-2 * s01 + lb + ub)) / 2
    else if p = 5 then
      -((1 + 2 * w3) * (-1 + lb - ub) * (6 * s01 * s01 - lb - 6 * s01 * lb + 2 * lb * lb + ub -
        6 * s01 * ub + 2 * lb * ub + 2 * ub * ub)) / (6 * (1 + w1))
    else if p = 6 then
      ((1 + 2 * w3) * (-1 + lb - ub) * (-lb - 3 * s01 * lb + 2 * lb * lb + ub - 3 * s01 * ub + 2
        * lb * ub + 2 * ub * ub - 6 * s01 * s02 + 3 * lb * s02 + 3 * ub * s02 + 6 * s01 * s03 -
        3 * lb * s03 - 3 * ub * s03)) / (6 * (1 + w2))
    else if p = 7 then
      ((1 + 2 * w3) * (-1 + lb - ub) * (4 * s01 * lb + 6 * s01 * s01 * lb - 3 * lb * lb - 8 *
        s01 * lb * lb + 3 * lb * lb * lb - 4 * s01 * ub + 6 * s01 * s01 * ub - 8 * s01 * lb * ub
        + 3 * lb * lb * ub + 3 * ub * ub - 8 * s01 * ub * ub + 3 * lb * ub * ub + 3 * ub * ub *
        ub + 12 * s01 * s01 * s02 - 2 * lb * s02 - 12 * s01 * lb * s02 + 4 * lb * lb * s02 + 2
        * ub * s02 - 12 * s01 * ub * s02 + 4 * lb * ub * s02 + 4 * ub * ub * s02 - 12 * s01 *
        s01 * s03 + 2 * lb * s03 + 12 * s01 * lb * s03 - 4 * lb * lb * s03 - 2 * ub * s03 + 12
        * s01 * ub * s03 - 4 * lb * ub * s03 - 4 * ub * ub * s03)) / (12 * (1 + w1) * (1 + w2))
    else 0

/-- `SuperCluster::a1r4` (lines 1993-2091): one primitive of the closed-form
reactant loss factor with the first reactant active, selected by the index `p`; it is `0` on an
empty range. -/
def a1r4 (p : Int) (s01 s02 s03 w1 w2 w3 : K) (x1 x2 : Int) : K :=
  if x1 > x2 then 0
  else
    let lb : K := (x1 : K)
    let ub : K := (x2 : K)
    if p = 0 then
      ((-1 + lb - ub) * (-2 - 2 * w2 - 2 * w3 + lb + ub + 2 * s02 - 2 * s03)) / 2
    else if p = 1 then
      ((-1 + lb - ub) * (6 * s01 + 6 * w2 * s01 + 6 * w3 * s01 - 4 * lb - 3 * w2 * lb - 3 * w3
        * lb - 3 * s01 * lb + 2 * lb * lb - 2 * ub - 3 * w2 * ub - 3 * w3 * ub - 3 * s01 * ub +
        2 * lb * ub + 2 * ub * ub - 6 * s01 * s02 + 3 * lb * s02 + 3 * ub * s02 + 6 * s01 * s03
        - 3 * lb * s03 - 3 * ub * s03)) / (6 * (1 + w1))
    else if p = 2 then
      ((-1 + lb - ub) * (3 * w2 + 3 * w2 * w2 - 3 * w3 - 3 * w3 * w3 + 2 * lb + 3 * w3 * lb - lb
        * lb + ub + 3 * w3 * ub - lb * ub - ub * ub + 3 * s02 + 6 * w3 * s02 - 3 * lb * s02 - 3
        * ub * s02 - 3 * s02 * s02 - 3 * s03 - 6 * w3 * s03 + 3 * lb * s03 + 3 * ub * s03 + 6 *
        s02 * s03 - 3 * s03 * s03)) / (6 * (1 + w2))
    else if p = 3 then
      ((-1 + lb - ub) * (-12 * w2 * s01 - 12 * w2 * w2 * s01 + 12 * w3 * s01 + 12 * w3 * w3 *
        s01 - 2 * lb + 6 * w2 * lb + 6 * w2 * w2 * lb - 10 * w3 * lb - 6 * w3 * w3 * lb - 8 *
        s01 * lb - 12 * w3 * s01 * lb + 7 * lb * lb + 8 * w3 * lb * lb + 4 * s01 * lb * lb - 3
        * lb * lb * lb + 2 * ub + 6 * w2 * ub + 6 * w2 * w2 * ub - 2 * w3 * ub - 6 * w3 * w3 *
        ub - 4 * s01 * ub - 12 * w3 * s01 * ub + 4 * lb * ub + 8 * w3 * lb * ub + 4 * s01 * lb
        * ub - 3 * lb * lb * ub + ub * ub + 8 * w3 * ub * ub + 4 * s01 * ub * ub - 3 * lb * ub
        * ub - 3 * ub * ub * ub - 12 * s01 * s02 - 24 * w3 * s01 * s02 + 10 * lb * s02 + 12 * w3
        * lb * s02 + 12 * s01 * lb * s02 - 8 * lb * lb * s02 + 2 * ub * s02 + 12 * w3 * ub * s02
        + 12 * s01 * ub * s02 - 8 * lb * ub * s02 - 8 * ub * ub * s02 + 12 * s01 * s02 * s02 - 6
        * lb * s02 * s02 - 6 * ub * s02 * s02 + 12 * s01 * s03 + 24 * w3 * s01 * s03 - 10 * lb
        * s03 - 12 * w3 * lb * s03 - 12 * s01 * lb * s03 + 8 * lb * lb * s03 - 2 * ub * s03 - 12
        * w3 * ub * s03 - 12 * s01 * ub * s03 + 8 * lb * ub * s03 + 8 * ub * ub * s03 - 24 * s01
        * s02 * s03 + 12 * lb * s02 * s03 + 12 * ub * s02 * s03 + 12 * s01 * s03 * s03 - 6 * lb
        * s03 * s03 - 6 * ub * s03 * s03)) / (24 * (1 + w1) * (1 + w2))
    else if p = 4 then
      ((-1 + lb - ub) * (6 * s01 + 6 * w2 * s01 + 6 * w3 * s01 - 4 * lb - 3 * w2 * lb - 3 * w3
        * lb - 3 * s01 * lb + 2 * lb * lb - 2 * ub - 3 * w2 * ub - 3 * w3 * ub - 3 * s01 * ub +
        2 * lb * ub + 2 * ub * ub - 6 * s01 * s02 + 3 * lb * s02 + 3 * ub * s02 + 6 * s01 * s03
        - 3 * lb * s03 - 3 * ub * s03)) / 6
    else if p = 5 then
      ((-1 + lb - ub) * (-12 * s01 * s01 - 12 * w2 * s01 * s01 - 12 * w3 * s01 * s01 + 2 * lb +
        2 * w2 * lb + 2 * w3 * lb + 16 * s01 * lb + 12 * w2 * s01 * lb + 12 * w3 * s01 * lb + 6
        * s01 * s01 * lb - 7 * lb * lb - 4 * w2 * lb * lb - 4 * w3 * lb * lb - 8 * s01 * lb * lb
        + 3 * lb * lb * lb - 2 * ub - 2 * w2 * ub - 2 * w3 * ub + 8 * s01 * ub + 12 * w2 * s01
        * ub + 12 * w3 * s01 * ub + 6 * s01 * s01 * ub - 4 * lb * ub - 4 * w2 * lb * ub - 4 * w3
        * lb * ub - 8 * s01 * lb * ub + 3 * lb * lb * ub - ub * ub - 4 * w2 * ub * ub - 4 * w3
        * ub * ub - 8 * s01 * ub * ub + 3 * lb * ub * ub + 3 * ub * ub * ub + 12 * s01 * s01 *
        s02 - 2 * lb * s02 - 12 * s01 * lb * s02 + 4 * lb * lb * s02 + 2 * ub * s02 - 12 * s01
        * ub * s02 + 4 * lb * ub * s02 + 4 * ub * ub * s02 - 12 * s01 * s01 * s03 + 2 * lb * s03
        + 12 * s01 * lb * s03 - 4 * lb * lb * s03 - 2 * ub * s03 + 12 * s01 * ub * s03 - 4 * lb
        * ub * s03 - 4 * ub * ub * s03)) / (12 * (1 + w1))
    else if p = 6 then
      ((-1 + lb - ub) * (-12 * w2 * s01 - 12 * w2 * w2 * s01 + 12 * w3 * s01 + 12 * w3 * w3 *
        s01 - 2 * lb + 6 * w2 * lb + 6 * w2 * w2 * lb - 10 * w3 * lb - 6 * w3 * w3 * lb - 8 *
        s01 * lb - 12 * w3 * s01 * lb + 7 * lb * lb + 8 * w3 * lb * lb + 4 * s01 * lb * lb - 3
        * lb * lb * lb + 2 * ub + 6 * w2 * ub + 6 * w2 * w2 * ub - 2 * w3 * ub - 6 * w3 * w3 *
        ub - 4 * s01 * ub - 12 * w3 * s01 * ub + 4 * lb * ub + 8 * w3 * lb * ub + 4 * s01 * lb
        * ub - 3 * lb * lb * ub + ub * ub + 8 * w3 * ub * ub + 4 * s01 * ub * ub - 3 * lb * ub
        * ub - 3 * ub * ub * ub - 12 * s01 * s02 - 24 * w3 * s01 * s02 + 10 * lb * s02 + 12 * w3
        * lb * s02 + 12 * s01 * lb * s02 - 8 * lb * lb * s02 + 2 * ub * s02 + 12 * w3 * ub * s02
        + 12 * s01 * ub * s02 - 8 * lb * ub * s02 - 8 * ub * ub * s02 + 12 * s01 * s02 * s02 - 6
        * lb * s02 * s02 - 6 * ub * s02 * s02 + 12 * s01 * s03 + 24 * w3 * s01 * s03 - 10 * lb
        * s03 - 12 * w3 * lb * s03 - 12 * s01 * lb * s03 + 8 * lb * lb * s03 - 2 * ub * s03 - 12
        * w3 * ub * s03 - 12 * s01 * ub * s03 + 8 * lb * ub * s03 + 8 * ub * ub * s03 - 24 * s01
        * s02 * s03 + 12 * lb * s02 * s03 + 12 * ub * s02 * s03 + 12 * s01 * s03 * s03 - 6 * lb
        * s03 * s03 - 6 * ub * s03 * s03)) / (24 * (1 + w2))
    else if p = 7 then
      ((-1 + lb - ub) * (60 * w2 * s01 * s01 + 60 * w2 * w2 * s01 * s01 - 60 * w3 * s01 * s01 -
        60 * w3 * w3 * s01 * s01 - 2 * lb - 10 * w2 * lb - 10 * w2 * w2 * lb + 10 * w3 * lb + 10
        * w3 * w3 * lb + 20 * s01 * lb - 60 * w2 * s01 * lb - 60 * w2 * w2 * s01 * lb + 100 * w3
        * s01 * lb + 60 * w3 * w3 * s01 * lb + 40 * s01 * s01 * lb + 60 * w3 * s01 * s01 * lb -
        17 * lb * lb + 20 * w2 * lb * lb + 20 * w2 * w2 * lb * lb - 50 * w3 * lb * lb - 20 * w3
        * w3 * lb * lb - 70 * s01 * lb * lb - 80 * w3 * s01 * lb * lb - 20 * s01 * s01 * lb * lb
        + 33 * lb * lb * lb + 30 * w3 * lb * lb * lb + 30 * s01 * lb * lb * lb - 12 * lb * lb *
        lb * lb + 2 * ub + 10 * w2 * ub + 10 * w2 * w2 * ub - 10 * w3 * ub - 10 * w3 * w3 * ub
        - 20 * s01 * ub - 60 * w2 * s01 * ub - 60 * w2 * w2 * s01 * ub + 20 * w3 * s01 * ub + 60
        * w3 * w3 * s01 * ub + 20 * s01 * s01 * ub + 60 * w3 * s01 * s01 * ub + 4 * lb * ub + 20
        * w2 * lb * ub + 20 * w2 * w2 * lb * ub - 20 * w3 * lb * ub - 20 * w3 * w3 * lb * ub -
        40 * s01 * lb * ub - 80 * w3 * s01 * lb * ub - 20 * s01 * s01 * lb * ub + 21 * lb * lb
        * ub + 30 * w3 * lb * lb * ub + 30 * s01 * lb * lb * ub - 12 * lb * lb * lb * ub + 13 *
        ub * ub + 20 * w2 * ub * ub + 20 * w2 * w2 * ub * ub + 10 * w3 * ub * ub - 20 * w3 * w3
        * ub * ub - 10 * s01 * ub * ub - 80 * w3 * s01 * ub * ub - 20 * s01 * s01 * ub * ub + 9
        * lb * ub * ub + 30 * w3 * lb * ub * ub + 30 * s01 * lb * ub * ub - 12 * lb * lb * ub *
        ub - 3 * ub * ub * ub + 30 * w3 * ub * ub * ub + 30 * s01 * ub * ub * ub - 12 * lb * ub
        * ub * ub - 12 * ub * ub * ub * ub + 60 * s01 * s01 * s02 + 120 * w3 * s01 * s01 * s02
        - 10 * lb * s02 - 20 * w3 * lb * s02 - 100 * s01 * lb * s02 - 120 * w3 * s01 * lb * s02
        - 60 * s01 * s01 * lb * s02 + 50 * lb * lb * s02 + 40 * w3 * lb * lb * s02 + 80 * s01 *
        lb * lb * s02 - 30 * lb * lb * lb * s02 + 10 * ub * s02 + 20 * w3 * ub * s02 - 20 * s01
        * ub * s02 - 120 * w3 * s01 * ub * s02 - 60 * s01 * s01 * ub * s02 + 20 * lb * ub * s02
        + 40 * w3 * lb * ub * s02 + 80 * s01 * lb * ub * s02 - 30 * lb * lb * ub * s02 - 10 * ub
        * ub * s02 + 40 * w3 * ub * ub * s02 + 80 * s01 * ub * ub * s02 - 30 * lb * ub * ub *
        s02 - 30 * ub * ub * ub * s02 - 60 * s01 * s01 * s02 * s02 + 10 * lb * s02 * s02 + 60 *
        s01 * lb * s02 * s02 - 20 * lb * lb * s02 * s02 - 10 * ub * s02 * s02 + 60 * s01 * ub *
        s02 * s02 - 20 * lb * ub * s02 * s02 - 20 * ub * ub * s02 * s02 - 60 * s01 * s01 * s03
        - 120 * w3 * s01 * s01 * s03 + 10 * lb * s03 + 20 * w3 * lb * s03 + 100 * s01 * lb * s03
        + 120 * w3 * s01 * lb * s03 + 60 * s01 * s01 * lb * s03 - 50 * lb * lb * s03 - 40 * w3
        * lb * lb * s03 - 80 * s01 * lb * lb * s03 + 30 * lb * lb * lb * s03 - 10 * ub * s03 -
        20 * w3 * ub * s03 + 20 * s01 * ub * s03 + 120 * w3 * s01 * ub * s03 + 60 * s01 * s01 *
        ub * s03 - 20 * lb * ub * s03 - 40 * w3 * lb * ub * s03 - 80 * s01 * lb * ub * s03 + 30
        * lb * lb * ub * s03 + 10 * ub * ub * s03 - 40 * w3 * ub * ub * s03 - 80 * s01 * ub * ub
        * s03 + 30 * lb * ub * ub * s03 + 30 * ub * ub * ub * s03 + 120 * s01 * s01 * s02 * s03
        - 20 * lb * s02 * s03 - 120 * s01 * lb * s02 * s03 + 40 * lb * lb * s02 * s03 + 20 * ub
        * s02 * s03 - 120 * s01 * ub * s02 * s03 + 40 * lb * ub * s02 * s03 + 40 * ub * ub * s02
        * s03 - 60 * s01 * s01 * s03 * s03 + 10 * lb * s03 * s03 + 60 * s01 * lb * s03 * s03 -
        20 * lb * lb * s03 * s03 - 10 * ub * s03 * s03 + 60 * s01 * ub * s03 * s03 - 20 * lb *
        ub * s03 * s03 - 20 * ub * ub * s03 * s03)) / (120 * (1 + w1) * (1 + w2))
    else 0

/-- `SuperCluster::a2r1` (lines 2093-2194): one primitive of the closed-form
reactant loss factor with the second reactant active, selected by the index `p`; it is `0` on an
empty range. -/
def a2r1 (p : Int) (s01 s02 s03 w1 w2 w3 : K) (x1 x2 : Int) : K :=
  if x1 > x2 then 0
  else
    let lb : K := (x1 : K)
    let ub : K := (x2 : K)
    if p = 0 then
      -((-1 + lb - ub) * (2 + 2 * w2 + 2 * w3 + lb + ub + 2 * s02 - 2 * s03)) / 2
    else if p = 1 then
      -((-1 + lb - ub) * (-6 * s01 - 6 * w2 * s01 - 6 * w3 * s01 + 2 * lb + 3 * w2 * lb + 3 * w3
        * lb - 3 * s01 * lb + 2 * lb * lb + 4 * ub + 3 * w2 * ub + 3 * w3 * ub - 3 * s01 * ub +
        2 * lb * ub + 2 * ub * ub - 6 * s01 * s02 + 3 * lb * s02 + 3 * ub * s02 + 6 * s01 * s03
        - 3 * lb * s03 - 3 * ub * s03)) / (6 * (1 + w1))
    else if p = 2 then
      -((-1 + lb - ub) * (3 * w2 + 3 * w2 * w2 - 3 * w3 - 3 * w3 * w3 - lb - 3 * w3 * lb - lb *
        lb - 2 * ub - 3 * w3 * ub - lb * ub - ub * ub - 3 * s02 - 6 * w3 * s02 - 3 * lb * s02 -
        3 * ub * s02 - 3 * s02 * s02 + 3 * s03 + 6 * w3 * s03 + 3 * lb * s03 + 3 * ub * s03 + 6
        * s02 * s03 - 3 * s03 * s03)) / (6 * (1 + w2))
    else if p = 3 then
      -((-1 + lb - ub) * (-12 * w2 * s01 - 12 * w2 * w2 * s01 + 12 * w3 * s01 + 12 * w3 * w3 *
        s01 + 2 * lb + 6 * w2 * lb + 6 * w2 * w2 * lb - 2 * w3 * lb - 6 * w3 * w3 * lb + 4 * s01
        * lb + 12 * w3 * s01 * lb - lb * lb - 8 * w3 * lb * lb + 4 * s01 * lb * lb - 3 * lb * lb
        * lb - 2 * ub + 6 * w2 * ub + 6 * w2 * w2 * ub - 10 * w3 * ub - 6 * w3 * w3 * ub + 8 *
        s01 * ub + 12 * w3 * s01 * ub - 4 * lb * ub - 8 * w3 * lb * ub + 4 * s01 * lb * ub - 3
        * lb * lb * ub - 7 * ub * ub - 8 * w3 * ub * ub + 4 * s01 * ub * ub - 3 * lb * ub * ub
        - 3 * ub * ub * ub + 12 * s01 * s02 + 24 * w3 * s01 * s02 - 2 * lb * s02 - 12 * w3 * lb
        * s02 + 12 * s01 * lb * s02 - 8 * lb * lb * s02 - 10 * ub * s02 - 12 * w3 * ub * s02 +
        12 * s01 * ub * s02 - 8 * lb * ub * s02 - 8 * ub * ub * s02 + 12 * s01 * s02 * s02 - 6
        * lb * s02 * s02 - 6 * ub * s02 * s02 - 12 * s01 * s03 - 24 * w3 * s01 * s03 + 2 * lb *
        s03 + 12 * w3 * lb * s03 - 12 * s01 * lb * s03 + 8 * lb * lb * s03 + 10 * ub * s03 + 12
        * w3 * ub * s03 - 12 * s01 * ub * s03 + 8 * lb * ub * s03 + 8 * ub * ub * s03 - 24 * s01
        * s02 * s03 + 12 * lb * s02 * s03 + 12 * ub * s02 * s03 + 12 * s01 * s03 * s03 - 6 * lb
        * s03 * s03 - 6 * ub * s03 * s03)) / (24 * (1 + w1) * (1 + w2))
    else if p = 4 then
      ((-1 + lb - ub) * (-3 * w2 - 3 * w2 * w2 + 3 * w3 + 3 * w3 * w3 + lb + 3 * w3 * lb + lb *
        lb + 2 * ub + 3 * w3 * ub + lb * ub + ub * ub + 3 * s02 + 6 * w3 * s02 + 3 * lb * s02 +
        3 * ub * s02 + 3 * s02 * s02 - 3 * s03 - 6 * w3 * s03 - 3 * lb * s03 - 3 * ub * s03 - 6
        * s02 * s03 + 3 * s03 * s03)) / 6
    else if p = 5 then
      ((-1 + lb - ub) * (12 * w2 * s01 + 12 * w2 * w2 * s01 - 12 * w3 * s01 - 12 * w3 * w3 * s01
        - 2 * lb - 6 * w2 * lb - 6 * w2 * w2 * lb + 2 * w3 * lb + 6 * w3 * w3 * lb - 4 * s01 *
        lb - 12 * w3 * s01 * lb + lb * lb + 8 * w3 * lb * lb - 4 * s01 * lb * lb + 3 * lb * lb
        * lb + 2 * ub - 6 * w2 * ub - 6 * w2 * w2 * ub + 10 * w3 * ub + 6 * w3 * w3 * ub - 8 *
        s01 * ub - 12 * w3 * s01 * ub + 4 * lb * ub + 8 * w3 * lb * ub - 4 * s01 * lb * ub + 3
        * lb * lb * ub + 7 * ub * ub + 8 * w3 * ub * ub - 4 * s01 * ub * ub + 3 * lb * ub * ub
        + 3 * ub * ub * ub - 12 * s01 * s02 - 24 * w3 * s01 * s02 + 2 * lb * s02 + 12 * w3 * lb
        * s02 - 12 * s01 * lb * s02 + 8 * lb * lb * s02 + 10 * ub * s02 + 12 * w3 * ub * s02 -
        12 * s01 * ub * s02 + 8 * lb * ub * s02 + 8 * ub * ub * s02 - 12 * s01 * s02 * s02 + 6
        * lb * s02 * s02 + 6 * ub * s02 * s02 + 12 * s01 * s03 + 24 * w3 * s01 * s03 - 2 * lb *
        s03 - 12 * w3 * lb * s03 + 12 * s01 * lb * s03 - 8 * lb * lb * s03 - 10 * ub * s03 - 12
        * w3 * ub * s03 + 12 * s01 * ub * s03 - 8 * lb * ub * s03 - 8 * ub * ub * s03 + 24 * s01
        * s02 * s03 - 12 * lb * s02 * s03 - 12 * ub * s02 * s03 - 12 * s01 * s03 * s03 + 6 * lb
        * s03 * s03 + 6 * ub * s03 * s03)) / (24 * (1 + w1))
    else if p = 6 then
      -((-1 + lb - ub) * (2 * w2 + 6 * w2 * w2 + 4 * w2 * w2 * w2 + 2 * w3 + 6 * w3 * w3 + 4 *
        w3 * w3 * w3 + 4 * w3 * lb + 6 * w3 * w3 * lb + lb * lb + 4 * w3 * lb * lb + lb * lb *
        lb + 2 * ub + 8 * w3 * ub + 6 * w3 * w3 * ub + 2 * lb * ub + 4 * w3 * lb * ub + lb * lb
        * ub + 3 * ub * ub + 4 * w3 * ub * ub + lb * ub * ub + ub * ub * ub + 2 * s02 + 12 * w3
        * s02 + 12 * w3 * w3 * s02 + 4 * lb * s02 + 12 * w3 * lb * s02 + 4 * lb * lb * s02 + 8
        * ub * s02 + 12 * w3 * ub * s02 + 4 * lb * ub * s02 + 4 * ub * ub * s02 + 6 * s02 * s02
        + 12 * w3 * s02 * s02 + 6 * lb * s02 * s02 + 6 * ub * s02 * s02 + 4 * s02 * s02 * s02 -
        2 * s03 - 12 * w3 * s03 - 12 * w3 * w3 * s03 - 4 * lb * s03 - 12 * w3 * lb * s03 - 4 *
        lb * lb * s03 - 8 * ub * s03 - 12 * w3 * ub * s03 - 4 * lb * ub * s03 - 4 * ub * ub *
        s03 - 12 * s02 * s03 - 24 * w3 * s02 * s03 - 12 * lb * s02 * s03 - 12 * ub * s02 * s03
        - 12 * s02 * s02 * s03 + 6 * s03 * s03 + 12 * w3 * s03 * s03 + 6 * lb * s03 * s03 + 6 *
        ub * s03 * s03 + 12 * s02 * s03 * s03 - 4 * s03 * s03 * s03)) / (12 * (1 + w2))
    else if p = 7 then
      -((-1 + lb - ub) * (-20 * w2 * s01 - 60 * w2 * w2 * s01 - 40 * w2 * w2 * w2 * s01 - 20 *
        w3 * s01 - 60 * w3 * w3 * s01 - 40 * w3 * w3 * w3 * s01 - 2 * lb + 10 * w2 * lb + 30 *
        w2 * w2 * lb + 20 * w2 * w2 * w2 * lb - 10 * w3 * lb + 10 * w3 * w3 * lb + 20 * w3 * w3
        * w3 * lb - 40 * w3 * s01 * lb - 60 * w3 * w3 * s01 * lb - 7 * lb * lb + 10 * w3 * lb *
        lb + 40 * w3 * w3 * lb * lb - 10 * s01 * lb * lb - 40 * w3 * s01 * lb * lb + 3 * lb * lb
        * lb + 30 * w3 * lb * lb * lb - 10 * s01 * lb * lb * lb + 8 * lb * lb * lb * lb + 2 * ub
        + 10 * w2 * ub + 30 * w2 * w2 * ub + 20 * w2 * w2 * w2 * ub + 30 * w3 * ub + 50 * w3 *
        w3 * ub + 20 * w3 * w3 * w3 * ub - 20 * s01 * ub - 80 * w3 * s01 * ub - 60 * w3 * w3 *
        s01 * ub + 4 * lb * ub + 40 * w3 * lb * ub + 40 * w3 * w3 * lb * ub - 20 * s01 * lb * ub
        - 40 * w3 * s01 * lb * ub + 11 * lb * lb * ub + 30 * w3 * lb * lb * ub - 10 * s01 * lb
        * lb * ub + 8 * lb * lb * lb * ub + 23 * ub * ub + 70 * w3 * ub * ub + 40 * w3 * w3 * ub
        * ub - 30 * s01 * ub * ub - 40 * w3 * s01 * ub * ub + 19 * lb * ub * ub + 30 * w3 * lb
        * ub * ub - 10 * s01 * lb * ub * ub + 8 * lb * lb * ub * ub + 27 * ub * ub * ub + 30 *
        w3 * ub * ub * ub - 10 * s01 * ub * ub * ub + 8 * lb * ub * ub * ub + 8 * ub * ub * ub
        * ub - 20 * s01 * s02 - 120 * w3 * s01 * s02 - 120 * w3 * w3 * s01 * s02 - 10 * lb * s02
        + 20 * w3 * lb * s02 + 60 * w3 * w3 * lb * s02 - 40 * s01 * lb * s02 - 120 * w3 * s01 *
        lb * s02 + 10 * lb * lb * s02 + 80 * w3 * lb * lb * s02 - 40 * s01 * lb * lb * s02 + 30
        * lb * lb * lb * s02 + 30 * ub * s02 + 100 * w3 * ub * s02 + 60 * w3 * w3 * ub * s02 -
        80 * s01 * ub * s02 - 120 * w3 * s01 * ub * s02 + 40 * lb * ub * s02 + 80 * w3 * lb * ub
        * s02 - 40 * s01 * lb * ub * s02 + 30 * lb * lb * ub * s02 + 70 * ub * ub * s02 + 80 *
        w3 * ub * ub * s02 - 40 * s01 * ub * ub * s02 + 30 * lb * ub * ub * s02 + 30 * ub * ub
        * ub * s02 - 60 * s01 * s02 * s02 - 120 * w3 * s01 * s02 * s02 + 10 * lb * s02 * s02 +
        60 * w3 * lb * s02 * s02 - 60 * s01 * lb * s02 * s02 + 40 * lb * lb * s02 * s02 + 50 *
        ub * s02 * s02 + 60 * w3 * ub * s02 * s02 - 60 * s01 * ub * s02 * s02 + 40 * lb * ub *
        s02 * s02 + 40 * ub * ub * s02 * s02 - 40 * s01 * s02 * s02 * s02 + 20 * lb * s02 * s02
        * s02 + 20 * ub * s02 * s02 * s02 + 20 * s01 * s03 + 120 * w3 * s01 * s03 + 120 * w3 *
        w3 * s01 * s03 + 10 * lb * s03 - 20 * w3 * lb * s03 - 60 * w3 * w3 * lb * s03 + 40 * s01
        * lb * s03 + 120 * w3 * s01 * lb * s03 - 10 * lb * lb * s03 - 80 * w3 * lb * lb * s03 +
        40 * s01 * lb * lb * s03 - 30 * lb * lb * lb * s03 - 30 * ub * s03 - 100 * w3 * ub * s03
        - 60 * w3 * w3 * ub * s03 + 80 * s01 * ub * s03 + 120 * w3 * s01 * ub * s03 - 40 * lb *
        ub * s03 - 80 * w3 * lb * ub * s03 + 40 * s01 * lb * ub * s03 - 30 * lb * lb * ub * s03
        - 70 * ub * ub * s03 - 80 * w3 * ub * ub * s03 + 40 * s01 * ub * ub * s03 - 30 * lb * ub
        * ub * s03 - 30 * ub * ub * ub * s03 + 120 * s01 * s02 * s03 + 240 * w3 * s01 * s02 *
        s03 - 20 * lb * s02 * s03 - 120 * w3 * lb * s02 * s03 + 120 * s01 * lb * s02 * s03 - 80
        * lb * lb * s02 * s03 - 100 * ub * s02 * s03 - 120 * w3 * ub * s02 * s03 + 120 * s01 *
        ub * s02 * s03 - 80 * lb * ub * s02 * s03 - 80 * ub * ub * s02 * s03 + 120 * s01 * s02
        * s02 * s03 - 60 * lb * s02 * s02 * s03 - 60 * ub * s02 * s02 * s03 - 60 * s01 * s03 *
        s03 - 120 * w3 * s01 * s03 * s03 + 10 * lb * s03 * s03 + 60 * w3 * lb * s03 * s03 - 60
        * s01 * lb * s03 * s03 + 40 * lb * lb * s03 * s03 + 50 * ub * s03 * s03 + 60 * w3 * ub
        * s03 * s03 - 60 * s01 * ub * s03 * s03 + 40 * lb * ub * s03 * s03 + 40 * ub * ub * s03
        * s03 - 120 * s01 * s02 * s03 * s03 + 60 * lb * s02 * s03 * s03 + 60 * ub * s02 * s03 *
        s03 + 40 * s01 * s03 * s03 * s03 - 20 * lb * s03 * s03 * s03 - 20 * ub * s03 * s03 * s03
        )) / (120 * (1 + w1) * (1 + w2))
    else 0

/-- `SuperCluster::a2r2` (lines 2196-2223): one primitive of the closed-form
reactant loss factor with the second reactant active, selected by the index `p`; it is `0` on an
empty range. -/
def a2r2 (p : Int) (s01 _s02 _s03 w1 w2 _w3 : K) (x1 x2 : Int) : K :=
  if x1 > x2 then 0
  else
    let lb : K := (x1 : K)
    let ub : K := (x2 : K)
    if p = 0 then
      (1 + 2 * w2) * (1 - lb + ub)
    else if p = 1 then
      -((1 + 2 * w2) * (-1 + lb - ub) * (-2 * s01 + lb + ub)) / (2 * (1 + w1))
    else if p = 2 then
      0
    else if p = 3 then
      0
    else if p = 4 then
      0
    else if p = 5 then
      0
    else if p = 6 then
      ((1 + 2 * w2) * (w2 + w2 * w2) * (1 - lb + ub)) / (3 * (1 + w2))
    else if p = 7 then
      -((1 + 2 * w2) * (w2 + w2 * w2) * (-1 + lb - ub) * (-2 * s01 + lb + ub)) / (6 * (1 + w1)
        * (1 + w2))
    else 0

/-- `SuperCluster::a2r3` (lines 2225-2265): one primitive of the closed-form
reactant loss factor with the second reactant active, selected by the index `p`; it is `0` on an
empty range. -/
def a2r3 (p : Int) (s01 s02 s03 w1 w2 w3 : K) (x1 x2 : Int) : K :=
  if x1 > x2 then 0
  else
    let lb : K := (x1 : K)
    let ub : K := (x2 : K)
    if p = 0 then
      (1 + 2 * w3) * (1 - lb + ub)
    else if p = 1 then
      -((1 + 2 * w3) * (-1 + lb - ub) * (-2 * s01 + lb + ub)) / (2 * (1 + w1))
    else if p = 2 then
      ((1 + 2 * w3) * (-1 + lb - ub) * (lb + ub + 2 * s02 - 2 * s03)) / (2 * (1 + w2))
    else if p = 3 then
      ((1 + 2 * w3) * (-1 + lb - ub) * (-lb - 3 * s01 * lb + 2 * lb * lb + ub - 3 * s01 * ub + 2
        * lb * ub + 2 * ub * ub - 6 * s01 * s02 + 3 * lb * s02 + 3 * ub * s02 + 6 * s01 * s03 -
        3 * lb * s03 - 3 * ub * s03)) / (6 * (1 + w1) * (1 + w2))
    else if p = 4 then
      ((1 + 2 * w3) * (-1 + lb - ub) * (lb + ub + 2 * s02 - 2 * s03)) / 2
    else if p = 5 then
      ((1 + 2 * w3) * (-1 + lb - ub) * (-lb - 3 * s01 * lb + 2 * lb * lb + ub - 3 * s01 * ub + 2
        * lb * ub + 2 * ub * ub - 6 * s01 * s02 + 3 * lb * s02 + 3 * ub * s02 + 6 * s01 * s03 -
        3 * lb * s03 - 3 * ub * s03)) / (6 * (1 + w1))
    else if p = 6 then
      -((1 + 2 * w3) * (-1 + lb - ub) * (2 * w3 + 2 * w3 * w3 - lb + 2 * lb * lb + ub + 2 * lb
        * ub + 2 * ub * ub + 6 * lb * s02 + 6 * ub * s02 + 6 * s02 * s02 - 6 * lb * s03 - 6 * ub
        * s03 - 12 * s02 * s03 + 6 * s03 * s03)) / (6 * (1 + w2))
    else if p = 7 then
      -((1 + 2 * w3) * (-1 + lb - ub) * (-4 * w3 * s01 - 4 * w3 * w3 * s01 + 2 * w3 * lb + 2 *
        w3 * w3 * lb + 2 * s01 * lb - 3 * lb * lb - 4 * s01 * lb * lb + 3 * lb * lb * lb + 2 *
        w3 * ub + 2 * w3 * w3 * ub - 2 * s01 * ub - 4 * s01 * lb * ub + 3 * lb * lb * ub + 3 *
        ub * ub - 4 * s01 * ub * ub + 3 * lb * ub * ub + 3 * ub * ub * ub - 4 * lb * s02 - 12 *
        s01 * lb * s02 + 8 * lb * lb * s02 + 4 * ub * s02 - 12 * s01 * ub * s02 + 8 * lb * ub *
        s02 + 8 * ub * ub * s02 - 12 * s01 * s02 * s02 + 6 * lb * s02 * s02 + 6 * ub * s02 * s02
        + 4 * lb * s03 + 12 * s01 * lb * s03 - 8 * lb * lb * s03 - 4 * ub * s03 + 12 * s01 * ub
        * s03 - 8 * lb * ub * s03 - 8 * ub * ub * s03 + 24 * s01 * s02 * s03 - 12 * lb * s02 *
        s03 - 12 * ub * s02 * s03 - 12 * s01 * s03 * s03 + 6 * lb * s03 * s03 + 6 * ub * s03 *
        s03)) / (12 * (1 + w1) * (1 + w2))
    else 0

/-- `SuperCluster::a2r4` (lines 2267-2369): one primitive of the closed-form
reactant loss factor with the second reactant active, selected by the index `p`; it is `0` on an
empty range. -/
def a2r4 (p : Int) (s01 s02 s03 w1 w2 w3 : K) (x1 x2 : Int) : K :=
  if x1 > x2 then 0
  else
    let lb : K := (x1 : K)
    let ub : K := (x2 : K)
    if p = 0 then
      ((-1 + lb - ub) * (-2 - 2 * w2 - 2 * w3 + lb + ub + 2 * s02 - 2 * s03)) / 2
    else if p = 1 then
      ((-1 + lb - ub) * (6 * s01 + 6 * w2 * s01 + 6 * w3 * s01 - 4 * lb - 3 * w2 * lb - 3 * w3
        * lb - 3 * s01 * lb + 2 * lb * lb - 2 * ub - 3 * w2 * ub - 3 * w3 * ub - 3 * s01 * ub +
        2 * lb * ub + 2 * ub * ub - 6 * s01 * s02 + 3 * lb * s02 + 3 * ub * s02 + 6 * s01 * s03
        - 3 * lb * s03 - 3 * ub * s03)) / (6 * (1 + w1))
    else if p = 2 then
      ((-1 + lb - ub) * (3 * w2 + 3 * w2 * w2 - 3 * w3 - 3 * w3 * w3 + 2 * lb + 3 * w3 * lb - lb
        * lb + ub + 3 * w3 * ub - lb * ub - ub * ub + 3 * s02 + 6 * w3 * s02 - 3 * lb * s02 - 3
        * ub * s02 - 3 * s02 * s02 - 3 * s03 - 6 * w3 * s03 + 3 * lb * s03 + 3 * ub * s03 + 6 *
        s02 * s03 - 3 * s03 * s03)) / (6 * (1 + w2))
    else if p = 3 then
      ((-1 + lb - ub) * (-12 * w2 * s01 - 12 * w2 * w2 * s01 + 12 * w3 * s01 + 12 * w3 * w3 *
        s01 - 2 * lb + 6 * w2 * lb + 6 * w2 * w2 * lb - 10 * w3 * lb - 6 * w3 * w3 * lb - 8 *
        s01 * lb - 12 * w3 * s01 * lb + 7 * lb * lb + 8 * w3 * lb * lb + 4 * s01 * lb * lb - 3
        * lb * lb * lb + 2 * ub + 6 * w2 * ub + 6 * w2 * w2 * ub - 2 * w3 * ub - 6 * w3 * w3 *
        ub - 4 * s01 * ub - 12 * w3 * s01 * ub + 4 * lb * ub + 8 * w3 * lb * ub + 4 * s01 * lb
        * ub - 3 * lb * lb * ub + ub * ub + 8 * w3 * ub * ub + 4 * s01 * ub * ub - 3 * lb * ub
        * ub - 3 * ub * ub * ub - 12 * s01 * s02 - 24 * w3 * s01 * s02 + 10 * lb * s02 + 12 * w3
        * lb * s02 + 12 * s01 * lb * s02 - 8 * lb * lb * s02 + 2 * ub * s02 + 12 * w3 * ub * s02
        + 12 * s01 * ub * s02 - 8 * lb * ub * s02 - 8 * ub * ub * s02 + 12 * s01 * s02 * s02 - 6
        * lb * s02 * s02 - 6 * ub * s02 * s02 + 12 * s01 * s03 + 24 * w3 * s01 * s03 - 10 * lb
        * s03 - 12 * w3 * lb * s03 - 12 * s01 * lb * s03 + 8 * lb * lb * s03 - 2 * ub * s03 - 12
        * w3 * ub * s03 - 12 * s01 * ub * s03 + 8 * lb * ub * s03 + 8 * ub * ub * s03 - 24 * s01
        * s02 * s03 + 12 * lb * s02 * s03 + 12 * ub * s02 * s03 + 12 * s01 * s03 * s03 - 6 * lb
        * s03 * s03 - 6 * ub * s03 * s03)) / (24 * (1 + w1) * (1 + w2))
    else if p = 4 then
      -((-1 + lb - ub) * (-3 * w2 - 3 * w2 * w2 + 3 * w3 + 3 * w3 * w3 - 2 * lb - 3 * w3 * lb +
        lb * lb - ub - 3 * w3 * ub + lb * ub + ub * ub - 3 * s02 - 6 * w3 * s02 + 3 * lb * s02
        + 3 * ub * s02 + 3 * s02 * s02 + 3 * s03 + 6 * w3 * s03 - 3 * lb * s03 - 3 * ub * s03 -
        6 * s02 * s03 + 3 * s03 * s03)) / 6
    else if p = 5 then
      -((-1 + lb - ub) * (12 * w2 * s01 + 12 * w2 * w2 * s01 - 12 * w3 * s01 - 12 * w3 * w3 *
        s01 + 2 * lb - 6 * w2 * lb - 6 * w2 * w2 * lb + 10 * w3 * lb + 6 * w3 * w3 * lb + 8 *
        s01 * lb + 12 * w3 * s01 * lb - 7 * lb * lb - 8 * w3 * lb * lb - 4 * s01 * lb * lb + 3
        * lb * lb * lb - 2 * ub - 6 * w2 * ub - 6 * w2 * w2 * ub + 2 * w3 * ub + 6 * w3 * w3 *
        ub + 4 * s01 * ub + 12 * w3 * s01 * ub - 4 * lb * ub - 8 * w3 * lb * ub - 4 * s01 * lb
        * ub + 3 * lb * lb * ub - ub * ub - 8 * w3 * ub * ub - 4 * s01 * ub * ub + 3 * lb * ub
        * ub + 3 * ub * ub * ub + 12 * s01 * s02 + 24 * w3 * s01 * s02 - 10 * lb * s02 - 12 * w3
        * lb * s02 - 12 * s01 * lb * s02 + 8 * lb * lb * s02 - 2 * ub * s02 - 12 * w3 * ub * s02
        - 12 * s01 * ub * s02 + 8 * lb * ub * s02 + 8 * ub * ub * s02 - 12 * s01 * s02 * s02 + 6
        * lb * s02 * s02 + 6 * ub * s02 * s02 - 12 * s01 * s03 - 24 * w3 * s01 * s03 + 10 * lb
        * s03 + 12 * w3 * lb * s03 + 12 * s01 * lb * s03 - 8 * lb * lb * s03 + 2 * ub * s03 + 12
        * w3 * ub * s03 + 12 * s01 * ub * s03 - 8 * lb * ub * s03 - 8 * ub * ub * s03 + 24 * s01
        * s02 * s03 - 12 * lb * s02 * s03 - 12 * ub * s02 * s03 - 12 * s01 * s03 * s03 + 6 * lb
        * s03 * s03 + 6 * ub * s03 * s03)) / (24 * (1 + w1))
    else if p = 6 then
      -((-1 + lb - ub) * (2 * w2 + 6 * w2 * w2 + 4 * w2 * w2 * w2 + 2 * w3 + 6 * w3 * w3 + 4 *
        w3 * w3 * w3 - 2 * lb - 8 * w3 * lb - 6 * w3 * w3 * lb + 3 * lb * lb + 4 * w3 * lb * lb
        - lb * lb * lb - 4 * w3 * ub - 6 * w3 * w3 * ub + 2 * lb * ub + 4 * w3 * lb * ub - lb *
        lb * ub + ub * ub + 4 * w3 * ub * ub - lb * ub * ub - ub * ub * ub - 2 * s02 - 12 * w3
        * s02 - 12 * w3 * w3 * s02 + 8 * lb * s02 + 12 * w3 * lb * s02 - 4 * lb * lb * s02 + 4
        * ub * s02 + 12 * w3 * ub * s02 - 4 * lb * ub * s02 - 4 * ub * ub * s02 + 6 * s02 * s02
        + 12 * w3 * s02 * s02 - 6 * lb * s02 * s02 - 6 * ub * s02 * s02 - 4 * s02 * s02 * s02 +
        2 * s03 + 12 * w3 * s03 + 12 * w3 * w3 * s03 - 8 * lb * s03 - 12 * w3 * lb * s03 + 4 *
        lb * lb * s03 - 4 * ub * s03 - 12 * w3 * ub * s03 + 4 * lb * ub * s03 + 4 * ub * ub *
        s03 - 12 * s02 * s03 - 24 * w3 * s02 * s03 + 12 * lb * s02 * s03 + 12 * ub * s02 * s03
        + 12 * s02 * s02 * s03 + 6 * s03 * s03 + 12 * w3 * s03 * s03 - 6 * lb * s03 * s03 - 6 *
        ub * s03 * s03 - 12 * s02 * s03 * s03 + 4 * s03 * s03 * s03)) / (12 * (1 + w2))
    else if p = 7 then
      -((-1 + lb - ub) * (-20 * w2 * s01 - 60 * w2 * w2 * s01 - 40 * w2 * w2 * w2 * s01 - 20 *
        w3 * s01 - 60 * w3 * w3 * s01 - 40 * w3 * w3 * w3 * s01 + 2 * lb + 10 * w2 * lb + 30 *
        w2 * w2 * lb + 20 * w2 * w2 * w2 * lb + 30 * w3 * lb + 50 * w3 * w3 * lb + 20 * w3 * w3
        * w3 * lb + 20 * s01 * lb + 80 * w3 * s01 * lb + 60 * w3 * w3 * s01 * lb - 23 * lb * lb
        - 70 * w3 * lb * lb - 40 * w3 * w3 * lb * lb - 30 * s01 * lb * lb - 40 * w3 * s01 * lb
        * lb + 27 * lb * lb * lb + 30 * w3 * lb * lb * lb + 10 * s01 * lb * lb * lb - 8 * lb *
        lb * lb * lb - 2 * ub + 10 * w2 * ub + 30 * w2 * w2 * ub + 20 * w2 * w2 * w2 * ub - 10
        * w3 * ub + 10 * w3 * w3 * ub + 20 * w3 * w3 * w3 * ub + 40 * w3 * s01 * ub + 60 * w3 *
        w3 * s01 * ub - 4 * lb * ub - 40 * w3 * lb * ub - 40 * w3 * w3 * lb * ub - 20 * s01 * lb
        * ub - 40 * w3 * s01 * lb * ub + 19 * lb * lb * ub + 30 * w3 * lb * lb * ub + 10 * s01
        * lb * lb * ub - 8 * lb * lb * lb * ub + 7 * ub * ub - 10 * w3 * ub * ub - 40 * w3 * w3
        * ub * ub - 10 * s01 * ub * ub - 40 * w3 * s01 * ub * ub + 11 * lb * ub * ub + 30 * w3
        * lb * ub * ub + 10 * s01 * lb * ub * ub - 8 * lb * lb * ub * ub + 3 * ub * ub * ub + 30
        * w3 * ub * ub * ub + 10 * s01 * ub * ub * ub - 8 * lb * ub * ub * ub - 8 * ub * ub * ub
        * ub + 20 * s01 * s02 + 120 * w3 * s01 * s02 + 120 * w3 * w3 * s01 * s02 - 30 * lb * s02
        - 100 * w3 * lb * s02 - 60 * w3 * w3 * lb * s02 - 80 * s01 * lb * s02 - 120 * w3 * s01
        * lb * s02 + 70 * lb * lb * s02 + 80 * w3 * lb * lb * s02 + 40 * s01 * lb * lb * s02 -
        30 * lb * lb * lb * s02 + 10 * ub * s02 - 20 * w3 * ub * s02 - 60 * w3 * w3 * ub * s02
        - 40 * s01 * ub * s02 - 120 * w3 * s01 * ub * s02 + 40 * lb * ub * s02 + 80 * w3 * lb *
        ub * s02 + 40 * s01 * lb * ub * s02 - 30 * lb * lb * ub * s02 + 10 * ub * ub * s02 + 80
        * w3 * ub * ub * s02 + 40 * s01 * ub * ub * s02 - 30 * lb * ub * ub * s02 - 30 * ub * ub
        * ub * s02 - 60 * s01 * s02 * s02 - 120 * w3 * s01 * s02 * s02 + 50 * lb * s02 * s02 +
        60 * w3 * lb * s02 * s02 + 60 * s01 * lb * s02 * s02 - 40 * lb * lb * s02 * s02 + 10 *
        ub * s02 * s02 + 60 * w3 * ub * s02 * s02 + 60 * s01 * ub * s02 * s02 - 40 * lb * ub *
        s02 * s02 - 40 * ub * ub * s02 * s02 + 40 * s01 * s02 * s02 * s02 - 20 * lb * s02 * s02
        * s02 - 20 * ub * s02 * s02 * s02 - 20 * s01 * s03 - 120 * w3 * s01 * s03 - 120 * w3 *
        w3 * s01 * s03 + 30 * lb * s03 + 100 * w3 * lb * s03 + 60 * w3 * w3 * lb * s03 + 80 *
        s01 * lb * s03 + 120 * w3 * s01 * lb * s03 - 70 * lb * lb * s03 - 80 * w3 * lb * lb *
        s03 - 40 * s01 * lb * lb * s03 + 30 * lb * lb * lb * s03 - 10 * ub * s03 + 20 * w3 * ub
        * s03 + 60 * w3 * w3 * ub * s03 + 40 * s01 * ub * s03 + 120 * w3 * s01 * ub * s03 - 40
        * lb * ub * s03 - 80 * w3 * lb * ub * s03 - 40 * s01 * lb * ub * s03 + 30 * lb * lb * ub
        * s03 - 10 * ub * ub * s03 - 80 * w3 * ub * ub * s03 - 40 * s01 * ub * ub * s03 + 30 *
        lb * ub * ub * s03 + 30 * ub * ub * ub * s03 + 120 * s01 * s02 * s03 + 240 * w3 * s01 *
        s02 * s03 - 100 * lb * s02 * s03 - 120 * w3 * lb * s02 * s03 - 120 * s01 * lb * s02 *
        s03 + 80 * lb * lb * s02 * s03 - 20 * ub * s02 * s03 - 120 * w3 * ub * s02 * s03 - 120
        * s01 * ub * s02 * s03 + 80 * lb * ub * s02 * s03 + 80 * ub * ub * s02 * s03 - 120 * s01
        * s02 * s02 * s03 + 60 * lb * s02 * s02 * s03 + 60 * ub * s02 * s02 * s03 - 60 * s01 *
        s03 * s03 - 120 * w3 * s01 * s03 * s03 + 50 * lb * s03 * s03 + 60 * w3 * lb * s03 * s03
        + 60 * s01 * lb * s03 * s03 - 40 * lb * lb * s03 * s03 + 10 * ub * s03 * s03 + 60 * w3
        * ub * s03 * s03 + 60 * s01 * ub * s03 * s03 - 40 * lb * ub * s03 * s03 - 40 * ub * ub
        * s03 * s03 + 120 * s01 * s02 * s03 * s03 - 60 * lb * s02 * s03 * s03 - 60 * ub * s02 *
        s03 * s03 - 40 * s01 * s03 * s03 * s03 + 20 * lb * s03 * s03 * s03 + 20 * ub * s03 * s03
        * s03)) / (120 * (1 + w1) * (1 + w2))
    else 0

/-- `SuperCluster::ae` (lines 2371-2391): one primitive of the closed-form
emission factor, selected by the index `p`; it is `0` on an
empty range. -/
def ae (p : Int) (s01 _s02 _s03 w1 _w2 _w3 : K) (x1 x2 : Int) : K :=
  if x1 > x2 then 0
  else
    let lb : K := (x1 : K)
    let ub : K := (x2 : K)
    if p = 0 then
      1 - lb + ub
    else if p = 1 then
      -((-1 + lb - ub) * (lb + ub - 2 * s01)) / (2 * (1 + w1))
    else if p = 2 then
      -((-1 + lb - ub) * (lb + ub - 2 * s01)) / 2
    else if p = 3 then
      -((-1 + lb - ub) * (-lb + 2 * lb * lb + ub + 2 * lb * ub + 2 * ub * ub - 6 * lb * s01 - 6
        * ub * s01 + 6 * s01 * s01)) / (6 * (1 + w1))
    else 0

/-- `SuperCluster::am` (lines 2393-2412): one primitive of the closed-form
monomer factor, selected by the index `p`; it is `0` on an
empty range. -/
def am (p : Int) (s01 s02 _s03 w1 _w2 _w3 : K) (x1 x2 : Int) : K :=
  if x1 > x2 then 0
  else
    let lb : K := (x1 : K)
    let ub : K := (x2 : K)
    let sM : K := s02
    if p = 0 then
      1 - lb + ub
    else if p = 1 then
      -((-1 + lb - ub) * (lb + ub - 2 * s01)) / (2 * (1 + w1))
    else if p = 2 then
      (1 - lb + ub) * (sM - s02)
    else if p = 3 then
      -((-1 + lb - ub) * (lb + ub - 2 * s01) * (sM - s02)) / (2 * (1 + w1))
    else 0

/-- `SuperCluster::ad` (lines 2414-2434): one primitive of the closed-form
daughter factor, selected by the index `p`; it is `0` on an
empty range. -/
def ad (p : Int) (s01 s02 s03 w1 _w2 _w3 : K) (x1 x2 : Int) : K :=
  if x1 > x2 then 0
  else
    let lb : K := (x1 : K)
    let ub : K := (x2 : K)
    let sM : K := s02
    if p = 0 then
      1 - lb + ub
    else if p = 1 then
      -((-1 + lb - ub) * (lb + ub - 2 * s01)) / (2 * (1 + w1))
    else if p = 2 then
      -((-1 + lb - ub) * (lb + ub - 2 * sM - 2 * s03)) / 2
    else if p = 3 then
      -((-1 + lb - ub) * (-lb + 2 * lb * lb + ub + 2 * lb * ub + 2 * ub * ub - 3 * lb * s01 - 3
        * ub * s01 - 3 * lb * sM - 3 * ub * sM + 6 * s01 * sM - 3 * lb * s03 - 3 * ub * s03 + 6
        * s01 * s03)) / (6 * (1 + w1))
    else 0

/-- `SuperCluster::analyticReact` (lines 1540-1563). -/
def analyticReact (p : Int) (s01 s02 s03 w1 w2 w3 : K) (luBounds : List Int)
    (active : Int) : K :=
  if active = 1 then
    let kOut := a1r1 p s01 s02 s03 w1 w2 w3 (luBounds.getD 0 0) (luBounds.getD 4 0)
    let kOut := kOut + a1r2 p s01 s02 s03 w1 w2 w3 (luBounds.getD 1 0) (luBounds.getD 5 0)
    let kOut := kOut + a1r3 p s01 s02 s03 w1 w2 w3 (luBounds.getD 2 0) (luBounds.getD 6 0)
    let kOut := kOut + a1r4 p s01 s02 s03 w1 w2 w3 (luBounds.getD 3 0) (luBounds.getD 7 0)
    kOut
  else
    let kOut := a2r1 p s01 s02 s03 w1 w2 w3 (luBounds.getD 0 0) (luBounds.getD 4 0)
    let kOut := kOut + a2r2 p s01 s02 s03 w1 w2 w3 (luBounds.getD 1 0) (luBounds.getD 5 0)
    let kOut := kOut + a2r3 p s01 s02 s03 w1 w2 w3 (luBounds.getD 2 0) (luBounds.getD 6 0)
    let kOut := kOut + a2r4 p s01 s02 s03 w1 w2 w3 (luBounds.getD 3 0) (luBounds.getD 7 0)
    kOut

/-- `SuperCluster::reactantLossFactor` (lines 1315-1339).  As in
`productGainFactor`, the two calls of `setReactLimits` receive copies of
`luBounds` and `group`, so both calls of `analyticReact` read the vectors as
initialised at lines 1318-1319. -/
def reactantLossFactor (bounds m : List Int) (active : Int) : K :=
  let luBounds : List Int := [0, 0, 0, 0, 0, 0, 0, 0]
  let group : List K := [0, 0, 0, 0, 0, 0]
  let p := computeIndex (m.getD 0 0) (m.getD 1 0) (m.getD 2 0) 1
  let _ := setReactLimits (bounds.getD 0 0) (bounds.getD 1 0) (bounds.getD 4 0)
    (bounds.getD 5 0) (bounds.getD 8 0) (bounds.getD 9 0) luBounds group
  let kOut := analyticReact p (group.getD 0 0) (group.getD 1 0) (group.getD 2 0)
    (group.getD 3 0) (group.getD 4 0) (group.getD 5 0) luBounds active
  let p := computeIndex (m.getD 0 0) (m.getD 1 0) (m.getD 2 0) 2
  let _ := setReactLimits (bounds.getD 2 0) (bounds.getD 3 0) (bounds.getD 6 0)
    (bounds.getD 7 0) (bounds.getD 10 0) (bounds.getD 11 0) luBounds group
  let kOut := kOut
    * analyticReact p (group.getD 0 0) (group.getD 1 0) (group.getD 2 0)
        (group.getD 3 0) (group.getD 4 0) (group.getD 5 0) luBounds active
  kOut

end ClosedFormReact

/-! ## Connectivity of the super cluster

`SuperCluster::resetConnectivities` (lines 874-925).  The two sets
`reactionConnectivitySet` and `dissociationConnectivitySet` of `Reactant`
are the lists of the ids inserted by `setReactionConnectivity` and
`setDissociationConnectivity`.  The final `resize` of the two moment buffers
(lines 920-922) has no counterpart, the buffers being functions of the
index. -/

/-- The two connectivity sets of a reactant. -/
structure ConnectivitySets where
  reactionConnectivitySet : List Int
  dissociationConnectivitySet : List Int

section SuperConnectivity

variable {K : Type}

/-- `SuperCluster::resetConnectivities` (lines 874-925). -/
def SuperCluster.resetConnectivities (heap : ClusterPtr → PSICluster K)
    (sc : SuperCluster K) : ConnectivitySets :=
  let reaction : List Int := []
  let dissociation : List Int := []
  let reaction := reaction ++ [sc.id]
  let dissociation := dissociation ++ [sc.id]
  let reaction := reaction ++ [sc.heMomId]
  let dissociation := dissociation ++ [sc.heMomId]
  let reaction := reaction ++ [sc.vMomId]
  let dissociation := dissociation ++ [sc.vMomId]
  let reaction := sc.effReactingList.foldl
    (fun reaction it =>
      reaction ++ [(heap it.first).id, (heap it.first).heMomId, (heap it.first).vMomId,
        (heap it.second).id, (heap it.second).heMomId, (heap it.second).vMomId])
    reaction
  let reaction := sc.effCombiningList.foldl
    (fun reaction it =>
      reaction ++ [(heap it.first).id, (heap it.first).heMomId, (heap it.first).vMomId])
    reaction
  let dissociation := sc.effDissociatingList.foldl
    (fun dissociation it =>
      dissociation ++ [(heap it.first).id, (heap it.first).heMomId, (heap it.first).vMomId])
    dissociation
  { reactionConnectivitySet := reaction, dissociationConnectivitySet := dissociation }

/-- The values stored at `index` in the three buffers. -/
def PartialBuffers.entries (b : PartialBuffers K) (index : Int) : K × K × K :=
  (b.partials index, b.heMomentumPartials index, b.vMomentumPartials index)

end SuperConnectivity

section ListedOnce

variable {E I : Type} [DecidableEq I]

end ListedOnce

/-! ## Concrete data used to exercise the statements -/

/-- Three reactants: `1` and `2` are ordinary clusters, `3` is lumped. -/
def sampleHeap : ClusterPtr → PSICluster ℚ
  | 1 => { id := 1, heMomId := 1, vMomId := 1, concentration := 2, heMomentum := 0, vMomentum := 0 }
  | 2 => { id := 2, heMomId := 2, vMomId := 2, concentration := 3, heMomentum := 0, vMomentum := 0 }
  | _ => { id := 3, heMomId := 5, vMomId := 6, concentration := 5, heMomentum := 1 / 2, vMomentum := 1 / 3 }

/-- A super cluster covering the cells `(1, 1)` and `(2, 1)`, as left by the
first part of `computeRateConstants`: the per-cell effective lists are
filled and the aggregated lists are still empty. -/
def sampleSuper : SuperCluster ℚ :=
  { id := 4, heMomId := 7, vMomId := 8
    numHe := 3 / 2, numV := 1, nTot := 2
    sectionHeWidth := 2, sectionVWidth := 1
    l0 := 7, l1He := 1 / 4, l1V := 0
    dispersionHe := 1 / 2, dispersionV := 1
    effReactingMap :=
      [((1, 1), [⟨1, 2, 0, 0, 0, 0, 3⟩, ⟨1, 3, 0, 0, -1, 0, 5⟩]),
       ((2, 1), [⟨1, 2, 0, 0, 0, 0, 3⟩, ⟨1, 3, 0, 0, 1, 0, 5⟩])]
    effCombiningMap :=
      [((1, 1), [⟨1, 0, 0, 2⟩, ⟨3, -1, 0, 4⟩]),
       ((2, 1), [⟨3, 1, 0, 4⟩])]
    effDissociatingMap :=
      [((1, 1), [⟨3, 1, 1, 0, 0, 0, 6⟩]),
       ((2, 1), [⟨3, 1, -1, 0, 0, 0, 6⟩])]
    effEmissionMap :=
      [((1, 1), [⟨1, 2, 0, 0, 0, 0, 9⟩]),
       ((2, 1), [⟨1, 2, 0, 0, 0, 0, 9⟩])]
    effReactingList := [], effCombiningList := []
    effDissociatingList := [], effEmissionList := []
    heMomentumFlux := 0, vMomentumFlux := 0 }

/-- A super cluster of width 1 on both axes: the single cell `(2, 3)`. -/
def sampleDegenerate : SuperCluster ℚ :=
  { id := 4, heMomId := 7, vMomId := 8
    numHe := 2, numV := 3, nTot := 1
    sectionHeWidth := 1, sectionVWidth := 1
    l0 := 7, l1He := 1 / 4, l1V := 1 / 5
    dispersionHe := 1, dispersionV := 1
    effReactingMap := [((2, 3), [⟨1, 2, 0, 0, 0, 0, 3⟩, ⟨1, 3, 0, 0, -1, 0, 5⟩])]
    effCombiningMap := [((2, 3), [⟨1, 0, 0, 2⟩, ⟨3, -1, 0, 4⟩])]
    effDissociatingMap := [((2, 3), [⟨3, 1, 1, 0, 0, 0, 6⟩])]
    effEmissionMap := [((2, 3), [⟨1, 2, 0, 0, 0, 0, 9⟩])]
    effReactingList := [], effCombiningList := []
    effDissociatingList := [], effEmissionList := []
    heMomentumFlux := 11, vMomentumFlux := 13 }

/-- Zeroed `partials`, arbitrary prior content of the two moment buffers. -/
def sampleBuffers : PartialBuffers ℚ :=
  { partials := fun _ => 0
    heMomentumPartials := fun _ => 17
    vMomentumPartials := fun _ => 19 }

section AlloySamples

variable (K : Type) [Field K]

/-- Values standing for the constants of `Constants.h`. -/
def sampleConstants : Constants K :=
  { pi := 22 / 7, alloyCoreRadius := 1 / 10, alloyLatticeConstant := 2, kBoltzmann := 1 }

/-- An immobile reactant of radius 1. -/
def sampleImmobile : Reactant K :=
  { type := ReactantType.Void, size := 3, id := 0, momId := 0
    reactionRadius := 1, diffusionCoefficient := fun _ => 0
    diffusionFactor := 0, concentration := 0, zerothMoment := 0, moment := 0
    connectivity := [1, 0, 1, 1] }

/-- A mobile vacancy of radius 1/2. -/
def sampleVacancy : Reactant K :=
  { type := ReactantType.V, size := 1, id := 0, momId := 0
    reactionRadius := 1 / 2, diffusionCoefficient := fun _ => 5
    diffusionFactor := 3, concentration := 0, zerothMoment := 0, moment := 0
    connectivity := [1, 1, 0, 0] }

/-- The dissociation `Void_3 -> V + Void_2` with reverse rate constant 7. -/
def sampleDissociation : DissociationReaction K :=
  { dissociating := sampleImmobile K
    first := sampleVacancy K
    second := { sampleImmobile K with size := 2 }
    reverseReaction :=
      { first := sampleVacancy K
        second := { sampleImmobile K with size := 2 }
        kConstant := fun _ => 7 } }

/-- A network at temperature `t` with the dissociation flag `enabled`. -/
def sampleNetwork (enabled : Bool) (t : K) : AlloyClusterReactionNetwork K :=
  { dissociationsEnabled := enabled
    temperature := t
    maxClusterSizeMap := fun _ => 4
    clusterTypeCount := fun _ => 2
    allReactants :=
      [sampleVacancy K, { sampleImmobile K with type := ReactantType.VoidSuper },
       sampleImmobile K, { sampleImmobile K with type := ReactantType.FrankSuper }] }

end AlloySamples

section ConnectivitySamples

variable (K : Type) [Field K]

/-- A mobile interstitial of size 1. -/
def sampleInterstitial : Reactant K :=
  { sampleVacancy K with type := ReactantType.I }

/-- The network `V_1, I_1, Void_2, Void_3`. -/
def connectivityNetwork : AlloyClusterReactionNetwork K :=
  { sampleNetwork K true 0 with
    allReactants :=
      [sampleVacancy K, sampleInterstitial K, { sampleImmobile K with size := 2 },
       sampleImmobile K] }

/-- The forward template `V + Void -> Faulted | Void`. -/
def sampleForward : ForwardReaction :=
  { firstReactant := ReactantType.V, secondReactant := ReactantType.Void
    products := [ReactantType.Faulted, ReactantType.Void] }

/-- The backward template `Void -> V + (Faulted | Void)`. -/
def sampleBackward : BackwardReaction :=
  { parent := ReactantType.Void, monomer := ReactantType.V
    products := [ReactantType.Faulted, ReactantType.Void] }

end ConnectivitySamples

section FillSamples

variable (K : Type) [Field K]

/-- The sample network after `reinitializeNetwork`: ids 1 to 4, moment ids 5
and 6 for the two super reactants. -/
def sampleFillNetwork : AlloyClusterReactionNetwork K :=
  (sampleNetwork K true 0).reinitializeNetwork

/-- The fill maps without any row. -/
def emptyFillMaps : FillMaps :=
  { fillMap := fun _ => none, dFillMap := fun _ => none }

end FillSamples

section FaultedSamples

variable (K : Type) [Field K]

/-- A network whose faulted loops have the sizes 3 and 4, the largest size
being 4. -/
def faultedNetwork : AlloyClusterReactionNetwork K :=
  { sampleNetwork K true 1 with
    maxClusterSizeMap := fun _ => 4
    clusterTypeCount := fun _ => 2
    allReactants :=
      [sampleVacancy K, { sampleImmobile K with type := ReactantType.Faulted, size := 4 },
       { sampleImmobile K with type := ReactantType.Faulted }] }

/-- The dissociation `Faulted_3 -> V + Faulted_2`. -/
def faultedDissociation : DissociationReaction K :=
  { sampleDissociation K with
    dissociating := { sampleImmobile K with type := ReactantType.Faulted } }

end FaultedSamples

/-- The reactants of `sampleHeap` and, under the pointer 4, the super cluster
of id 4 itself. -/
def rateHeap : ClusterPtr → PSICluster ℚ
  | 4 => { id := 4, heMomId := 7, vMomId := 8, concentration := 7, heMomentum := 1 / 4,
           vMomentum := 1 / 5 }
  | n => sampleHeap n

/-- The super cluster `sampleDegenerate` before the rate computation: the
effective maps are empty. -/
def rateSuper : SuperCluster ℚ :=
  { sampleDegenerate with
    effReactingMap := [], effCombiningMap := [], effDissociatingMap := []
    effEmissionMap := [] }

/-- The maps of `rateSuper`: in its single cell `(2, 3)` one reacting pair and
one combining reactant, the super cluster itself. -/
def rateMaps : SuperClusterMaps ℚ :=
  { reactingMap := [((2, 3), [⟨1, 2, 0, 0, 0, 0, 0⟩])]
    combiningMap := [((2, 3), [⟨4, 0, 0, 0⟩])]
    dissociatingMap := [((2, 3), [])]
    emissionMap := [((2, 3), [])]
    compositionHe := 2, compositionV := 3, biggestRate := 0 }

/-- A histogram of four bins of width 1 starting at 0, holding the seven
samples `1, 2, 2, 3, 3, 3, 4`. -/
def sampleHistogram : TimeHistogram ℚ Int :=
  { nBins := 4, binWidth := 1, startTimestamp := 0
    bins := [⟨1, 1⟩, ⟨4, 2⟩, ⟨9, 3⟩, ⟨4, 1⟩] }

/-- The histogram without any bin: the constructor accepts `nBins = 0`. -/
def emptyHistogram : TimeHistogram ℚ Int :=
  { nBins := 0, binWidth := 1, startTimestamp := 0, bins := [] }

/-- A super cluster whose helium axis is the range `[0, 1]`: width 2 and
centroid `1 / 2`. -/
def zeroAxisSuper : SuperCluster ℚ :=
  { rateSuper with numHe := 1 / 2, sectionHeWidth := 2 }

/-- A super cluster of helium width 2 with a single member, the cell
`(2, 3)`: `numHe = 2`, `numV = 3`, `nTot = 1`. -/
def singleColumnSuper : SuperCluster ℚ :=
  { rateSuper with sectionHeWidth := 2, dispersionHe := 0 }

/-- The maps of `sampleSuper`: its two cells `(1, 1)` and `(2, 1)` are keys
of the reacting map, and the compositions are the sums of the indices. -/
def spreadMaps : SuperClusterMaps ℚ :=
  { reactingMap := [((1, 1), [⟨1, 2, 0, 0, 0, 0, 0⟩]), ((2, 1), [⟨1, 2, 0, 0, 0, 0, 0⟩])]
    combiningMap := [((1, 1), []), ((2, 1), [])]
    dissociatingMap := [((1, 1), []), ((2, 1), [])]
    emissionMap := [((1, 1), []), ((2, 1), [])]
    compositionHe := 3, compositionV := 2, biggestRate := 0 }

/-- The super cluster `sampleDegenerate` with one record in each of its four
aggregated lists. -/
def connectedSuper : SuperCluster ℚ :=
  { sampleDegenerate with
    effReactingList := [{ SuperClusterProductionPair.new 1 2 3 with a000 := 1 }]
    effCombiningList := [{ SuperClusterProductionPair.new 3 0 4 with a000 := 1 }]
    effDissociatingList := [{ SuperClusterDissociationPair.new 3 1 6 with a00 := 1 }]
    effEmissionList := [{ SuperClusterDissociationPair.new 1 2 9 with a00 := 1 }] }

section CoalesceLemmas

variable {E S V : Type} [AddCommMonoid V]

theorem coalesceCell_spec (same : E → Bool) (add : S → E → S) (val : S → V)
    (term : E → V) (G : S → Prop) (P : E → Prop)
    (hadd : ∀ sp e, P e → G sp → same e = true →
      G (add sp e) ∧ val (add sp e) = val sp + term e) :
    ∀ (es : List E) (sp : S), (∀ e ∈ es, P e) → G sp →
      G (coalesceCell same add es sp).1
      ∧ (coalesceCell same add es sp).2 = es.filter (fun e => !same e)
      ∧ val (coalesceCell same add es sp).1
          + ((coalesceCell same add es sp).2.map term).sum
        = val sp + (es.map term).sum := by
  intro es
  induction es with
  | nil => intro sp _ h; simp [coalesceCell, h]
  | cons e es ih =>
    intro sp hP h
    have hPe : P e := hP e (List.mem_cons_self _ _)
    have hPes : ∀ x ∈ es, P x := fun x hx => hP x (List.mem_cons_of_mem _ hx)
    by_cases hs : same e = true
    · obtain ⟨h1, h2⟩ := hadd sp e hPe h hs
      obtain ⟨i1, i2, i3⟩ := ih (add sp e) hPes h1
      simp only [coalesceCell, hs, if_true]
      refine ⟨i1, ?_, ?_⟩
      · simp [i2, hs]
      · rw [i3, h2, List.map_cons, List.sum_cons, add_assoc]
    · obtain ⟨i1, i2, i3⟩ := ih sp hPes h
      simp only [Bool.not_eq_true] at hs
      simp only [coalesceCell, hs, Bool.false_eq_true, if_false]
      refine ⟨i1, ?_, ?_⟩
      · simp [i2, hs]
      · rw [List.map_cons, List.sum_cons, List.map_cons, List.sum_cons,
          add_left_comm, i3, add_left_comm]

theorem cellSum_cons (term : CellKey → E → V) (c : CellKey × List E)
    (cells : List (CellKey × List E)) :
    cellSum term (c :: cells) = (c.2.map (term c.1)).sum + cellSum term cells := by
  simp [cellSum]

theorem coalesceCells_spec (same : E → Bool) (add : CellKey → S → E → S)
    (val : S → V) (term : CellKey → E → V) (G : S → Prop) (P : E → Prop)
    (hadd : ∀ key sp e, P e → G sp → same e = true →
      G (add key sp e) ∧ val (add key sp e) = val sp + term key e) :
    ∀ (cells : List (CellKey × List E)) (sp : S),
      (∀ c ∈ cells, ∀ e ∈ c.2, P e) → G sp →
      G (coalesceCells same add cells sp).1
      ∧ (coalesceCells same add cells sp).2
          = cells.map (fun c => (c.1, c.2.filter (fun e => !same e)))
      ∧ val (coalesceCells same add cells sp).1
          + cellSum term (coalesceCells same add cells sp).2
        = val sp + cellSum term cells := by
  intro cells
  induction cells with
  | nil => intro sp _ h; simp [coalesceCells, h]
  | cons c cells ih =>
    intro sp hP h
    obtain ⟨key, es⟩ := c
    obtain ⟨c1, c2, c3⟩ :=
      coalesceCell_spec same (add key) val (term key) G P (hadd key) es sp
        (hP (key, es) (List.mem_cons_self _ _)) h
    obtain ⟨i1, i2, i3⟩ :=
      ih _ (fun c hc => hP c (List.mem_cons_of_mem _ hc)) c1
    simp only [coalesceCells]
    refine ⟨i1, ?_, ?_⟩
    · simp [i2, c2]
    · rw [cellSum_cons, cellSum_cons, add_left_comm, i3]
      show (List.map (term key) (coalesceCell same (add key) es sp).2).sum
          + (val (coalesceCell same (add key) es sp).1 + cellSum term cells)
        = val sp + ((List.map (term key) es).sum + cellSum term cells)
      rw [← add_assoc, add_comm _ (val _), c3, add_assoc]

/-- The loop on `it`: the map keeps, in every cell, the entries that match
no element of `pairs`, and the value of the aggregated list together with
the value left in the map is preserved. -/
theorem coalescePairs_spec (same : E → E → Bool) (init : E → S)
    (add : CellKey → S → E → S) (val : S → V) (term : CellKey → E → V)
    (G : E → S → Prop) (ok : E → E → Prop)
    (hinit : ∀ e0, G e0 (init e0) ∧ val (init e0) = 0)
    (hadd : ∀ e0 key sp e, ok e0 e → G e0 sp → same e0 e = true →
      G e0 (add key sp e) ∧ val (add key sp e) = val sp + term key e) :
    ∀ (pairs : List E) (cells : List (CellKey × List E)) (superList : List S),
      (∀ e0 ∈ pairs, ∀ c ∈ cells, ∀ e ∈ c.2, ok e0 e) →
      (coalescePairs same init add pairs cells superList).1
          = cells.map (fun c =>
              (c.1, c.2.filter (fun e => pairs.all (fun e0 => !same e0 e))))
      ∧ ((coalescePairs same init add pairs cells superList).2.map val).sum
          + cellSum term (coalescePairs same init add pairs cells superList).1
        = (superList.map val).sum + cellSum term cells := by
  intro pairs
  induction pairs with
  | nil =>
    intro cells superList _
    refine ⟨?_, rfl⟩
    simp only [coalescePairs, List.all_nil, List.filter_true]
    exact (List.map_id _).symm
  | cons e0 pairs ih =>
    intro cells superList hok
    obtain ⟨_, c2, c3⟩ :=
      coalesceCells_spec (same e0) add val term (G e0) (ok e0)
        (fun key sp e h1 h2 h3 => hadd e0 key sp e h1 h2 h3) cells (init e0)
        (fun c hc e he => hok e0 (List.mem_cons_self _ _) c hc e he) (hinit e0).1
    have hok2 : ∀ x ∈ pairs, ∀ c ∈ (coalesceCells (same e0) add cells (init e0)).2,
        ∀ e ∈ c.2, ok x e := by
      intro x hx c hc e he
      rw [c2] at hc
      obtain ⟨c0, hc0, rfl⟩ := List.mem_map.1 hc
      exact hok x (List.mem_cons_of_mem _ hx) c0 hc0 e (List.mem_filter.1 he).1
    obtain ⟨i1, i2⟩ := ih (coalesceCells (same e0) add cells (init e0)).2
      ((coalesceCells (same e0) add cells (init e0)).1 :: superList) hok2
    simp only [coalescePairs]
    refine ⟨?_, ?_⟩
    · rw [i1, c2, List.map_map]
      apply List.map_congr_left
      intro c _
      simp only [Function.comp, List.filter_filter, List.all_cons]
      congr 1
      apply List.filter_congr
      intro x _
      rw [Bool.and_comm]
    · rw [i2, List.map_cons, List.sum_cons, add_right_comm, c3, (hinit e0).2, zero_add,
        add_comm]

/-- The loop on `mapIt`: afterwards every cell is empty and the aggregated
list has gained exactly the value of the micro entries of the map. -/
theorem coalesceFrom_spec (same : E → E → Bool) (init : E → S)
    (add : CellKey → S → E → S) (val : S → V) (term : CellKey → E → V)
    (G : E → S → Prop) (ok : E → E → Prop)
    (hrefl : ∀ e, same e e = true)
    (hinit : ∀ e0, G e0 (init e0) ∧ val (init e0) = 0)
    (hadd : ∀ e0 key sp e, ok e0 e → G e0 sp → same e0 e = true →
      G e0 (add key sp e) ∧ val (add key sp e) = val sp + term key e) :
    ∀ (n : Nat) (cells : List (CellKey × List E)) (superList : List S),
      cells.length ≤ n →
      (∀ c0 ∈ cells, ∀ e0 ∈ c0.2, ∀ c ∈ cells, ∀ e ∈ c.2, ok e0 e) →
      (coalesceFrom same init add n cells superList).1
          = cells.map (fun c => (c.1, []))
      ∧ ((coalesceFrom same init add n cells superList).2.map val).sum
        = (superList.map val).sum + cellSum term cells := by
  intro n
  induction n with
  | zero =>
    intro cells superList hlen _
    have hnil : cells = [] := List.length_eq_zero.1 (Nat.le_zero.1 hlen)
    subst hnil
    simp [coalesceFrom, cellSum]
  | succ n ih =>
    intro cells superList hlen hok
    cases cells with
    | nil => simp [coalesceFrom, cellSum]
    | cons c rest =>
      obtain ⟨key, pairs⟩ := c
      obtain ⟨p1, p2⟩ := coalescePairs_spec same init add val term G ok hinit hadd
        pairs ((key, pairs) :: rest) superList
        (fun e0 he0 c hc e he => hok (key, pairs) (List.mem_cons_self _ _) e0 he0 c hc e he)
      have hhead : pairs.filter (fun e => pairs.all (fun e0 => !same e0 e)) = [] := by
        apply List.filter_eq_nil_iff.2
        intro e he hall
        have := List.all_eq_true.1 hall e he
        simp [hrefl e] at this
      rw [List.map_cons] at p1
      simp only [hhead] at p1
      have hlen2 : (rest.map (fun c => (c.1, c.2.filter
          (fun e => pairs.all (fun e0 => !same e0 e))))).length ≤ n := by
        simpa using Nat.le_of_succ_le_succ hlen
      have hok2 : ∀ c0 ∈ rest.map (fun c => (c.1, c.2.filter
            (fun e => pairs.all (fun e0 => !same e0 e)))),
          ∀ e0 ∈ c0.2, ∀ c ∈ rest.map (fun c => (c.1, c.2.filter
            (fun e => pairs.all (fun e0 => !same e0 e)))),
          ∀ e ∈ c.2, ok e0 e := by
        intro c0 hc0 e0 he0 c hc e he
        obtain ⟨d0, hd0, rfl⟩ := List.mem_map.1 hc0
        obtain ⟨d, hd, rfl⟩ := List.mem_map.1 hc
        exact hok d0 (List.mem_cons_of_mem _ hd0) e0 (List.mem_filter.1 he0).1
          d (List.mem_cons_of_mem _ hd) e (List.mem_filter.1 he).1
      obtain ⟨i1, i2⟩ := ih _
        (coalescePairs same init add pairs ((key, pairs) :: rest) superList).2 hlen2 hok2
      simp only [coalesceFrom, p1, List.tail_cons]
      refine ⟨?_, ?_⟩
      · rw [i1]
        simp [List.map_map, Function.comp]
      · rw [i2]
        rw [p1, cellSum_cons] at p2
        simp only [List.map_nil, List.sum_nil, zero_add] at p2
        exact p2

/-- One loop of `optimizeReactions` on a map whose entries are pairwise
consistent: every cell is emptied and the value is moved to the list. -/
theorem coalesceMap_spec (same : E → E → Bool) (init : E → S)
    (add : CellKey → S → E → S) (val : S → V) (term : CellKey → E → V)
    (G : E → S → Prop) (ok : E → E → Prop)
    (hrefl : ∀ e, same e e = true)
    (hinit : ∀ e0, G e0 (init e0) ∧ val (init e0) = 0)
    (hadd : ∀ e0 key sp e, ok e0 e → G e0 sp → same e0 e = true →
      G e0 (add key sp e) ∧ val (add key sp e) = val sp + term key e)
    (cells : List (CellKey × List E)) (superList : List S)
    (hok : ∀ c0 ∈ cells, ∀ e0 ∈ c0.2, ∀ c ∈ cells, ∀ e ∈ c.2, ok e0 e) :
    (coalesceMap same init add cells superList).1 = cells.map (fun c => (c.1, []))
    ∧ ((coalesceMap same init add cells superList).2.map val).sum
      = (superList.map val).sum + cellSum term cells :=
  coalesceFrom_spec same init add val term G ok hrefl hinit hadd
    cells.length cells superList (Nat.le_refl _) hok

theorem coalesceCell_inv (same : E → Bool) (add : S → E → S) (Q : S → Prop)
    (hadd : ∀ sp e, Q sp → Q (add sp e)) :
    ∀ (es : List E) (sp : S), Q sp → Q (coalesceCell same add es sp).1 := by
  intro es
  induction es with
  | nil => intro sp h; exact h
  | cons e es ih =>
    intro sp h
    by_cases hs : same e = true
    · simp only [coalesceCell, hs, if_true]
      exact ih _ (hadd sp e h)
    · simp only [Bool.not_eq_true] at hs
      simp only [coalesceCell, hs, Bool.false_eq_true, if_false]
      exact ih _ h

theorem coalesceCells_inv (same : E → Bool) (add : CellKey → S → E → S)
    (Q : S → Prop) (Pk : CellKey → Prop)
    (hadd : ∀ key sp e, Pk key → Q sp → Q (add key sp e)) :
    ∀ (cells : List (CellKey × List E)) (sp : S), (∀ c ∈ cells, Pk c.1) → Q sp →
      Q (coalesceCells same add cells sp).1
      ∧ ∀ c ∈ (coalesceCells same add cells sp).2, Pk c.1 := by
  intro cells
  induction cells with
  | nil => intro sp _ h; simp [coalesceCells, h]
  | cons c cells ih =>
    intro sp hP h
    obtain ⟨key, es⟩ := c
    have hkey : Pk key := hP (key, es) (List.mem_cons_self _ _)
    have h1 := coalesceCell_inv same (add key) Q (fun sp e => hadd key sp e hkey) es sp h
    obtain ⟨i1, i2⟩ := ih _ (fun c hc => hP c (List.mem_cons_of_mem _ hc)) h1
    simp only [coalesceCells]
    refine ⟨i1, ?_⟩
    intro c hc
    rcases List.mem_cons.1 hc with rfl | hc
    · exact hkey
    · exact i2 c hc

theorem coalescePairs_inv (same : E → E → Bool) (init : E → S)
    (add : CellKey → S → E → S) (Q : S → Prop) (Pk : CellKey → Prop)
    (hinit : ∀ e0, Q (init e0))
    (hadd : ∀ key sp e, Pk key → Q sp → Q (add key sp e)) :
    ∀ (pairs : List E) (cells : List (CellKey × List E)) (superList : List S),
      (∀ c ∈ cells, Pk c.1) → (∀ s ∈ superList, Q s) →
      (∀ s ∈ (coalescePairs same init add pairs cells superList).2, Q s)
      ∧ ∀ c ∈ (coalescePairs same init add pairs cells superList).1, Pk c.1 := by
  intro pairs
  induction pairs with
  | nil => intro cells superList hP hQ; exact ⟨hQ, hP⟩
  | cons e0 pairs ih =>
    intro cells superList hP hQ
    obtain ⟨c1, c2⟩ := coalesceCells_inv (same e0) add Q Pk hadd cells (init e0) hP (hinit e0)
    simp only [coalescePairs]
    apply ih _ _ c2
    intro s hs
    rcases List.mem_cons.1 hs with rfl | hs
    · exact c1
    · exact hQ s hs

/-- A property of super pairs that the constructor establishes and the
accumulation preserves on the cells of the map holds of every record of the
aggregated list. -/
theorem coalesceMap_inv (same : E → E → Bool) (init : E → S)
    (add : CellKey → S → E → S) (Q : S → Prop) (Pk : CellKey → Prop)
    (hinit : ∀ e0, Q (init e0))
    (hadd : ∀ key sp e, Pk key → Q sp → Q (add key sp e))
    (cells : List (CellKey × List E)) (superList : List S)
    (hP : ∀ c ∈ cells, Pk c.1) (hQ : ∀ s ∈ superList, Q s) :
    ∀ s ∈ (coalesceMap same init add cells superList).2, Q s := by
  have hfrom : ∀ (n : Nat) (cells : List (CellKey × List E)) (superList : List S),
      (∀ c ∈ cells, Pk c.1) → (∀ s ∈ superList, Q s) →
      ∀ s ∈ (coalesceFrom same init add n cells superList).2, Q s := by
    intro n
    induction n with
    | zero => intro cells superList _ hQ; simpa [coalesceFrom] using hQ
    | succ n ih =>
      intro cells superList hP hQ
      cases cells with
      | nil => simpa [coalesceFrom] using hQ
      | cons c rest =>
        obtain ⟨key, pairs⟩ := c
        obtain ⟨p1, p2⟩ := coalescePairs_inv same init add Q Pk hinit hadd pairs
          ((key, pairs) :: rest) superList hP hQ
        simp only [coalesceFrom]
        exact ih _ _ (fun c hc => p2 c (List.mem_of_mem_tail hc)) p1
  exact hfrom cells.length cells superList hP hQ

end CoalesceLemmas

section FluxLemmas

variable {K : Type} [Field K] {S : Type}

/-- A loop that adds to the three accumulators amounts depending only on the
current record computes the three sums of those amounts. -/
theorem foldl_triple (step : K × K × K → S → K × K × K)
    (hstep : ∀ acc s, step acc s
      = (acc.1 + (step (0, 0, 0) s).1, acc.2.1 + (step (0, 0, 0) s).2.1,
          acc.2.2 + (step (0, 0, 0) s).2.2)) :
    ∀ (l : List S) (acc : K × K × K),
      l.foldl step acc
        = (acc.1 + (l.map (fun s => (step (0, 0, 0) s).1)).sum,
           acc.2.1 + (l.map (fun s => (step (0, 0, 0) s).2.1)).sum,
           acc.2.2 + (l.map (fun s => (step (0, 0, 0) s).2.2)).sum) := by
  intro l
  induction l with
  | nil => intro acc; simp
  | cons s l ih =>
    intro acc
    rw [List.foldl_cons, ih, hstep acc s]
    simp only [List.map_cons, List.sum_cons, add_assoc]

theorem productionFluxStep_acc (heap : ClusterPtr → PSICluster K) (acc : K × K × K)
    (s : SuperClusterProductionPair K) :
    productionFluxStep heap acc s
      = (acc.1 + (productionFluxStep heap (0, 0, 0) s).1,
         acc.2.1 + (productionFluxStep heap (0, 0, 0) s).2.1,
         acc.2.2 + (productionFluxStep heap (0, 0, 0) s).2.2) := by
  simp [productionFluxStep]

/-- A loop that adds to the first accumulator and subtracts from the two
others. -/
theorem foldl_triple_sub (step : K × K × K → S → K × K × K)
    (hstep : ∀ acc s, step acc s
      = (acc.1 + (step (0, 0, 0) s).1, acc.2.1 - (-(step (0, 0, 0) s).2.1),
          acc.2.2 - (-(step (0, 0, 0) s).2.2))) :
    ∀ (l : List S) (acc : K × K × K),
      l.foldl step acc
        = (acc.1 + (l.map (fun s => (step (0, 0, 0) s).1)).sum,
           acc.2.1 - (l.map (fun s => -(step (0, 0, 0) s).2.1)).sum,
           acc.2.2 - (l.map (fun s => -(step (0, 0, 0) s).2.2)).sum) := by
  intro l
  induction l with
  | nil => intro acc; simp
  | cons s l ih =>
    intro acc
    rw [List.foldl_cons, ih, hstep acc s]
    simp only [List.map_cons, List.sum_cons, add_assoc, sub_sub]

theorem combinationFluxStep_acc (heap : ClusterPtr → PSICluster K) (l0 l1He l1V : K)
    (acc : K × K × K) (s : SuperClusterProductionPair K) :
    combinationFluxStep heap l0 l1He l1V acc s
      = (acc.1 + (combinationFluxStep heap l0 l1He l1V (0, 0, 0) s).1,
         acc.2.1 - (-(combinationFluxStep heap l0 l1He l1V (0, 0, 0) s).2.1),
         acc.2.2 - (-(combinationFluxStep heap l0 l1He l1V (0, 0, 0) s).2.2)) := by
  simp [combinationFluxStep]

theorem dissociationFluxStep_acc (heap : ClusterPtr → PSICluster K) (acc : K × K × K)
    (s : SuperClusterDissociationPair K) :
    dissociationFluxStep heap acc s
      = (acc.1 + (dissociationFluxStep heap (0, 0, 0) s).1,
         acc.2.1 + (dissociationFluxStep heap (0, 0, 0) s).2.1,
         acc.2.2 + (dissociationFluxStep heap (0, 0, 0) s).2.2) := by
  simp [dissociationFluxStep]

theorem emissionFluxStep_acc (l0 l1He l1V : K)
    (acc : K × K × K) (s : SuperClusterDissociationPair K) :
    emissionFluxStep l0 l1He l1V acc s
      = (acc.1 + (emissionFluxStep l0 l1He l1V (0, 0, 0) s).1,
         acc.2.1 - (-(emissionFluxStep l0 l1He l1V (0, 0, 0) s).2.1),
         acc.2.2 - (-(emissionFluxStep l0 l1He l1V (0, 0, 0) s).2.2)) := by
  simp [emissionFluxStep]

/-- The grouping pass applied to the reacting map: the three sums that
`getProductionFlux` forms over the aggregated list. -/
theorem optimizeReacting_sums (heap : ClusterPtr → PSICluster K) (sc : SuperCluster K)
    (hk : ∀ c ∈ sc.effReactingMap, ∀ e ∈ c.2, ∀ c' ∈ sc.effReactingMap, ∀ e' ∈ c'.2,
      e'.first = e.first → e'.second = e.second → e'.kConstant = e.kConstant) :
    (sc.optimizeReacting.2.map (fun s => (productionFluxStep heap (0, 0, 0) s).1)).sum
        = (sc.effReactingList.map (fun s => (productionFluxStep heap (0, 0, 0) s).1)).sum
          + bruteProductionFlux heap sc
    ∧ (sc.optimizeReacting.2.map (fun s => (productionFluxStep heap (0, 0, 0) s).2.1)).sum
        = (sc.effReactingList.map (fun s => (productionFluxStep heap (0, 0, 0) s).2.1)).sum
          + bruteProductionHeFlux heap sc
    ∧ (sc.optimizeReacting.2.map (fun s => (productionFluxStep heap (0, 0, 0) s).2.2)).sum
        = (sc.effReactingList.map (fun s => (productionFluxStep heap (0, 0, 0) s).2.2)).sum
          + bruteProductionVFlux heap sc := by
  have hspec := fun (val : SuperClusterProductionPair K → K) (term : CellKey → ClusterPair K → K)
      (hinit : ∀ e0 : ClusterPair K,
        val (SuperClusterProductionPair.new e0.first e0.second e0.kConstant) = 0)
      (hadd : ∀ (e0 : ClusterPair K) key sp (e : ClusterPair K),
        (e.first = e0.first → e.second = e0.second → e.kConstant = e0.kConstant) →
        (sp.first = e0.first ∧ sp.second = e0.second ∧ sp.kConstant = e0.kConstant) →
        samePair e0 e = true →
        (((addReacting (sc.heFactor key) (sc.vFactor key) sp e).first = e0.first
          ∧ (addReacting (sc.heFactor key) (sc.vFactor key) sp e).second = e0.second
          ∧ (addReacting (sc.heFactor key) (sc.vFactor key) sp e).kConstant = e0.kConstant)
        ∧ val (addReacting (sc.heFactor key) (sc.vFactor key) sp e) = val sp + term key e)) =>
    (coalesceMap_spec samePair
      (fun e => SuperClusterProductionPair.new e.first e.second e.kConstant)
      (fun key => addReacting (sc.heFactor key) (sc.vFactor key)) val term
      (fun e0 sp => sp.first = e0.first ∧ sp.second = e0.second ∧ sp.kConstant = e0.kConstant)
      (fun e0 e => e.first = e0.first → e.second = e0.second → e.kConstant = e0.kConstant)
      (fun e => by simp [samePair])
      (fun e0 => ⟨⟨rfl, rfl, rfl⟩, hinit e0⟩) hadd
      sc.effReactingMap sc.effReactingList hk).2
  refine ⟨?_, ?_, ?_⟩
  · refine hspec _ (fun _ e => microProduction heap e) ?_ ?_
    · intro e0
      simp [productionFluxStep, SuperClusterProductionPair.new]
    · intro e0 key sp e hok hG hsame
      simp only [samePair, decide_eq_true_eq] at hsame
      refine ⟨hG, ?_⟩
      obtain ⟨g1, g2, g3⟩ := hG
      have hk2 := hok hsame.1 hsame.2
      simp only [productionFluxStep, addReacting, microProduction,
        PSICluster.concentrationAt, g1, g2, g3, hsame.1, hsame.2, hk2]
      ring
  · refine hspec _ (fun key e => microProduction heap e
      * (((key.1 : K) - sc.numHe) / sc.dispersionHe)) ?_ ?_
    · intro e0
      simp [productionFluxStep, SuperClusterProductionPair.new]
    · intro e0 key sp e hok hG hsame
      simp only [samePair, decide_eq_true_eq] at hsame
      refine ⟨hG, ?_⟩
      obtain ⟨g1, g2, g3⟩ := hG
      have hk2 := hok hsame.1 hsame.2
      simp only [productionFluxStep, addReacting, microProduction, SuperCluster.heFactor,
        PSICluster.concentrationAt, g1, g2, g3, hsame.1, hsame.2, hk2]
      ring
  · refine hspec _ (fun key e => microProduction heap e
      * (((key.2 : K) - sc.numV) / sc.dispersionV)) ?_ ?_
    · intro e0
      simp [productionFluxStep, SuperClusterProductionPair.new]
    · intro e0 key sp e hok hG hsame
      simp only [samePair, decide_eq_true_eq] at hsame
      refine ⟨hG, ?_⟩
      obtain ⟨g1, g2, g3⟩ := hG
      have hk2 := hok hsame.1 hsame.2
      simp only [productionFluxStep, addReacting, microProduction, SuperCluster.vFactor,
        PSICluster.concentrationAt, g1, g2, g3, hsame.1, hsame.2, hk2]
      ring

/-- The grouping pass applied to the combining map: the three sums that
`getCombinationFlux` forms over the aggregated list. -/
theorem optimizeCombining_sums (heap : ClusterPtr → PSICluster K) (sc : SuperCluster K)
    (hk : ∀ c ∈ sc.effCombiningMap, ∀ e ∈ c.2, ∀ c' ∈ sc.effCombiningMap, ∀ e' ∈ c'.2,
      e'.combining = e.combining → e'.kConstant = e.kConstant) :
    (sc.optimizeCombining.2.map
        (fun s => (combinationFluxStep heap sc.l0 sc.l1He sc.l1V (0, 0, 0) s).1)).sum
        = (sc.effCombiningList.map
            (fun s => (combinationFluxStep heap sc.l0 sc.l1He sc.l1V (0, 0, 0) s).1)).sum
          + bruteCombinationFlux heap sc
    ∧ (sc.optimizeCombining.2.map
        (fun s => -(combinationFluxStep heap sc.l0 sc.l1He sc.l1V (0, 0, 0) s).2.1)).sum
        = (sc.effCombiningList.map
            (fun s => -(combinationFluxStep heap sc.l0 sc.l1He sc.l1V (0, 0, 0) s).2.1)).sum
          + bruteCombinationHeFlux heap sc
    ∧ (sc.optimizeCombining.2.map
        (fun s => -(combinationFluxStep heap sc.l0 sc.l1He sc.l1V (0, 0, 0) s).2.2)).sum
        = (sc.effCombiningList.map
            (fun s => -(combinationFluxStep heap sc.l0 sc.l1He sc.l1V (0, 0, 0) s).2.2)).sum
          + bruteCombinationVFlux heap sc := by
  have hspec := fun (val : SuperClusterProductionPair K → K)
      (term : CellKey → CombiningCluster K → K)
      (hinit : ∀ e0 : CombiningCluster K,
        val (SuperClusterProductionPair.new e0.combining 0 e0.kConstant) = 0)
      (hadd : ∀ (e0 : CombiningCluster K) key sp (e : CombiningCluster K),
        (e.combining = e0.combining → e.kConstant = e0.kConstant) →
        (sp.first = e0.combining ∧ sp.kConstant = e0.kConstant) →
        sameCombining e0 e = true →
        (((addCombining (sc.getHeDistance key.1) (sc.getVDistance key.2)
              (sc.heFactor key) (sc.vFactor key) sp e).first = e0.combining
          ∧ (addCombining (sc.getHeDistance key.1) (sc.getVDistance key.2)
              (sc.heFactor key) (sc.vFactor key) sp e).kConstant = e0.kConstant)
        ∧ val (addCombining (sc.getHeDistance key.1) (sc.getVDistance key.2)
              (sc.heFactor key) (sc.vFactor key) sp e) = val sp + term key e)) =>
    (coalesceMap_spec sameCombining
      (fun e => SuperClusterProductionPair.new e.combining 0 e.kConstant)
      (fun key => addCombining (sc.getHeDistance key.1) (sc.getVDistance key.2)
        (sc.heFactor key) (sc.vFactor key)) val term
      (fun e0 sp => sp.first = e0.combining ∧ sp.kConstant = e0.kConstant)
      (fun e0 e => e.combining = e0.combining → e.kConstant = e0.kConstant)
      (fun e => by simp [sameCombining])
      (fun e0 => ⟨⟨rfl, rfl⟩, hinit e0⟩) hadd
      sc.effCombiningMap sc.effCombiningList hk).2
  refine ⟨?_, ?_, ?_⟩
  · refine hspec _ (fun key e => microCombination heap sc key e) ?_ ?_
    · intro e0
      simp [combinationFluxStep, SuperClusterProductionPair.new]
    · intro e0 key sp e hok hG hsame
      simp only [sameCombining, decide_eq_true_eq] at hsame
      refine ⟨hG, ?_⟩
      obtain ⟨g1, g2⟩ := hG
      have hk2 := hok hsame
      simp only [combinationFluxStep, addCombining, microCombination,
        SuperCluster.getConcentration, PSICluster.concentrationAt, g1, g2, hsame, hk2]
      ring
  · refine hspec _ (fun key e => microCombination heap sc key e
      * (((key.1 : K) - sc.numHe) / sc.dispersionHe)) ?_ ?_
    · intro e0
      simp [combinationFluxStep, SuperClusterProductionPair.new]
    · intro e0 key sp e hok hG hsame
      simp only [sameCombining, decide_eq_true_eq] at hsame
      refine ⟨hG, ?_⟩
      obtain ⟨g1, g2⟩ := hG
      have hk2 := hok hsame
      simp only [combinationFluxStep, addCombining, microCombination, SuperCluster.heFactor,
        SuperCluster.getConcentration, PSICluster.concentrationAt, g1, g2, hsame, hk2]
      ring
  · refine hspec _ (fun key e => microCombination heap sc key e
      * (((key.2 : K) - sc.numV) / sc.dispersionV)) ?_ ?_
    · intro e0
      simp [combinationFluxStep, SuperClusterProductionPair.new]
    · intro e0 key sp e hok hG hsame
      simp only [sameCombining, decide_eq_true_eq] at hsame
      refine ⟨hG, ?_⟩
      obtain ⟨g1, g2⟩ := hG
      have hk2 := hok hsame
      simp only [combinationFluxStep, addCombining, microCombination, SuperCluster.vFactor,
        SuperCluster.getConcentration, PSICluster.concentrationAt, g1, g2, hsame, hk2]
      ring

/-- The grouping pass applied to the dissociating map: the three sums that
`getDissociationFlux` forms over the aggregated list. -/
theorem optimizeDissociating_sums (heap : ClusterPtr → PSICluster K) (sc : SuperCluster K)
    (hk : ∀ c ∈ sc.effDissociatingMap, ∀ e ∈ c.2, ∀ c' ∈ sc.effDissociatingMap,
      ∀ e' ∈ c'.2,
      e'.first = e.first → e'.second = e.second → e'.kConstant = e.kConstant) :
    (sc.optimizeDissociating.2.map (fun s => (dissociationFluxStep heap (0, 0, 0) s).1)).sum
        = (sc.effDissociatingList.map
            (fun s => (dissociationFluxStep heap (0, 0, 0) s).1)).sum
          + bruteDissociationFlux heap sc
    ∧ (sc.optimizeDissociating.2.map
        (fun s => (dissociationFluxStep heap (0, 0, 0) s).2.1)).sum
        = (sc.effDissociatingList.map
            (fun s => (dissociationFluxStep heap (0, 0, 0) s).2.1)).sum
          + bruteDissociationHeFlux heap sc
    ∧ (sc.optimizeDissociating.2.map
        (fun s => (dissociationFluxStep heap (0, 0, 0) s).2.2)).sum
        = (sc.effDissociatingList.map
            (fun s => (dissociationFluxStep heap (0, 0, 0) s).2.2)).sum
          + bruteDissociationVFlux heap sc := by
  have hspec := fun (val : SuperClusterDissociationPair K → K)
      (term : CellKey → ClusterPair K → K)
      (hinit : ∀ e0 : ClusterPair K,
        val (SuperClusterDissociationPair.new e0.first e0.second e0.kConstant) = 0)
      (hadd : ∀ (e0 : ClusterPair K) key sp (e : ClusterPair K),
        (e.first = e0.first → e.second = e0.second → e.kConstant = e0.kConstant) →
        (sp.first = e0.first ∧ sp.kConstant = e0.kConstant) →
        samePair e0 e = true →
        (((addDissociating (sc.heFactor key) (sc.vFactor key) sp e).first = e0.first
          ∧ (addDissociating (sc.heFactor key) (sc.vFactor key) sp e).kConstant
              = e0.kConstant)
        ∧ val (addDissociating (sc.heFactor key) (sc.vFactor key) sp e)
            = val sp + term key e)) =>
    (coalesceMap_spec samePair
      (fun e => SuperClusterDissociationPair.new e.first e.second e.kConstant)
      (fun key => addDissociating (sc.heFactor key) (sc.vFactor key)) val term
      (fun e0 sp => sp.first = e0.first ∧ sp.kConstant = e0.kConstant)
      (fun e0 e => e.first = e0.first → e.second = e0.second → e.kConstant = e0.kConstant)
      (fun e => by simp [samePair])
      (fun e0 => ⟨⟨rfl, rfl⟩, hinit e0⟩) hadd
      sc.effDissociatingMap sc.effDissociatingList hk).2
  refine ⟨?_, ?_, ?_⟩
  · refine hspec _ (fun _ e => microDissociation heap e) ?_ ?_
    · intro e0
      simp [dissociationFluxStep, SuperClusterDissociationPair.new]
    · intro e0 key sp e hok hG hsame
      simp only [samePair, decide_eq_true_eq] at hsame
      refine ⟨hG, ?_⟩
      obtain ⟨g1, g2⟩ := hG
      have hk2 := hok hsame.1 hsame.2
      simp only [dissociationFluxStep, addDissociating, microDissociation,
        PSICluster.concentrationAt, g1, g2, hsame.1, hk2]
      ring
  · refine hspec _ (fun key e => microDissociation heap e
      * (((key.1 : K) - sc.numHe) / sc.dispersionHe)) ?_ ?_
    · intro e0
      simp [dissociationFluxStep, SuperClusterDissociationPair.new]
    · intro e0 key sp e hok hG hsame
      simp only [samePair, decide_eq_true_eq] at hsame
      refine ⟨hG, ?_⟩
      obtain ⟨g1, g2⟩ := hG
      have hk2 := hok hsame.1 hsame.2
      simp only [dissociationFluxStep, addDissociating, microDissociation,
        SuperCluster.heFactor, PSICluster.concentrationAt, g1, g2, hsame.1, hk2]
      ring
  · refine hspec _ (fun key e => microDissociation heap e
      * (((key.2 : K) - sc.numV) / sc.dispersionV)) ?_ ?_
    · intro e0
      simp [dissociationFluxStep, SuperClusterDissociationPair.new]
    · intro e0 key sp e hok hG hsame
      simp only [samePair, decide_eq_true_eq] at hsame
      refine ⟨hG, ?_⟩
      obtain ⟨g1, g2⟩ := hG
      have hk2 := hok hsame.1 hsame.2
      simp only [dissociationFluxStep, addDissociating, microDissociation,
        SuperCluster.vFactor, PSICluster.concentrationAt, g1, g2, hsame.1, hk2]
      ring

/-- The grouping pass applied to the emission map: the three sums that
`getEmissionFlux` forms over the aggregated list. -/
theorem optimizeEmission_sums (sc : SuperCluster K)
    (hk : ∀ c ∈ sc.effEmissionMap, ∀ e ∈ c.2, ∀ c' ∈ sc.effEmissionMap, ∀ e' ∈ c'.2,
      e'.first = e.first → e'.second = e.second → e'.kConstant = e.kConstant) :
    (sc.optimizeEmission.2.map
        (fun s => (emissionFluxStep sc.l0 sc.l1He sc.l1V (0, 0, 0) s).1)).sum
        = (sc.effEmissionList.map
            (fun s => (emissionFluxStep sc.l0 sc.l1He sc.l1V (0, 0, 0) s).1)).sum
          + bruteEmissionFlux sc
    ∧ (sc.optimizeEmission.2.map
        (fun s => -(emissionFluxStep sc.l0 sc.l1He sc.l1V (0, 0, 0) s).2.1)).sum
        = (sc.effEmissionList.map
            (fun s => -(emissionFluxStep sc.l0 sc.l1He sc.l1V (0, 0, 0) s).2.1)).sum
          + bruteEmissionHeFlux sc
    ∧ (sc.optimizeEmission.2.map
        (fun s => -(emissionFluxStep sc.l0 sc.l1He sc.l1V (0, 0, 0) s).2.2)).sum
        = (sc.effEmissionList.map
            (fun s => -(emissionFluxStep sc.l0 sc.l1He sc.l1V (0, 0, 0) s).2.2)).sum
          + bruteEmissionVFlux sc := by
  have hspec := fun (val : SuperClusterDissociationPair K → K)
      (term : CellKey → ClusterPair K → K)
      (hinit : ∀ e0 : ClusterPair K,
        val (SuperClusterDissociationPair.new e0.first e0.second e0.kConstant) = 0)
      (hadd : ∀ (e0 : ClusterPair K) key sp (e : ClusterPair K),
        (e.first = e0.first → e.second = e0.second → e.kConstant = e0.kConstant) →
        (sp.kConstant = e0.kConstant) →
        samePair e0 e = true →
        ((addEmission (sc.getHeDistance key.1) (sc.getVDistance key.2)
              (sc.heFactor key) (sc.vFactor key) sp e).kConstant = e0.kConstant
        ∧ val (addEmission (sc.getHeDistance key.1) (sc.getVDistance key.2)
              (sc.heFactor key) (sc.vFactor key) sp e) = val sp + term key e)) =>
    (coalesceMap_spec samePair
      (fun e => SuperClusterDissociationPair.new e.first e.second e.kConstant)
      (fun key => addEmission (sc.getHeDistance key.1) (sc.getVDistance key.2)
        (sc.heFactor key) (sc.vFactor key)) val term
      (fun e0 sp => sp.kConstant = e0.kConstant)
      (fun e0 e => e.first = e0.first → e.second = e0.second → e.kConstant = e0.kConstant)
      (fun e => by simp [samePair])
      (fun e0 => ⟨rfl, hinit e0⟩) hadd
      sc.effEmissionMap sc.effEmissionList hk).2
  refine ⟨?_, ?_, ?_⟩
  · refine hspec _ (fun key e => microEmission sc key e) ?_ ?_
    · intro e0
      simp [emissionFluxStep, SuperClusterDissociationPair.new]
    · intro e0 key sp e hok hG hsame
      simp only [samePair, decide_eq_true_eq] at hsame
      refine ⟨hG, ?_⟩
      have hk2 := hok hsame.1 hsame.2
      simp only [emissionFluxStep, addEmission, microEmission,
        SuperCluster.getConcentration, hG, hk2]
      ring
  · refine hspec _ (fun key e => microEmission sc key e
      * (((key.1 : K) - sc.numHe) / sc.dispersionHe)) ?_ ?_
    · intro e0
      simp [emissionFluxStep, SuperClusterDissociationPair.new]
    · intro e0 key sp e hok hG hsame
      simp only [samePair, decide_eq_true_eq] at hsame
      refine ⟨hG, ?_⟩
      have hk2 := hok hsame.1 hsame.2
      simp only [emissionFluxStep, addEmission, microEmission, SuperCluster.heFactor,
        SuperCluster.getConcentration, hG, hk2]
      ring
  · refine hspec _ (fun key e => microEmission sc key e
      * (((key.2 : K) - sc.numV) / sc.dispersionV)) ?_ ?_
    · intro e0
      simp [emissionFluxStep, SuperClusterDissociationPair.new]
    · intro e0 key sp e hok hG hsame
      simp only [samePair, decide_eq_true_eq] at hsame
      refine ⟨hG, ?_⟩
      have hk2 := hok hsame.1 hsame.2
      simp only [emissionFluxStep, addEmission, microEmission, SuperCluster.vFactor,
        SuperCluster.getConcentration, hG, hk2]
      ring

theorem cellSum_congr {E V : Type} [AddCommMonoid V] (term term2 : CellKey → E → V)
    (cells : List (CellKey × List E))
    (h : ∀ c ∈ cells, ∀ e ∈ c.2, term c.1 e = term2 c.1 e) :
    cellSum term cells = cellSum term2 cells := by
  unfold cellSum
  congr 1
  apply List.map_congr_left
  intro c hc
  congr 1
  exact List.map_congr_left (h c hc)

theorem cellSum_zero {E V : Type} [AddCommMonoid V] (cells : List (CellKey × List E)) :
    cellSum (fun (_ : CellKey) (_ : E) => (0 : V)) cells = 0 := by
  induction cells with
  | nil => rfl
  | cons c cells ih => rw [cellSum_cons, ih]; simp

/-- A pass over an aggregated production list whose records have no moment
part leaves the two moment buffers as they are. -/
theorem production_partials_momentFree (heap : ClusterPtr → PSICluster K) :
    ∀ (l : List (SuperClusterProductionPair K)) (b : PartialBuffers K),
      (∀ s ∈ l, s.momentFree) →
      (l.foldl (productionPartialsStep heap) b).heMomentumPartials = b.heMomentumPartials
      ∧ (l.foldl (productionPartialsStep heap) b).vMomentumPartials
          = b.vMomentumPartials := by
  intro l
  induction l with
  | nil => intro b _; exact ⟨rfl, rfl⟩
  | cons s l ih =>
    intro b h
    obtain ⟨⟨h1, h2, h3, h4, h5, h6, h7, h8, h9⟩, ⟨v1, v2, v3, v4, v5, v6, v7, v8, v9⟩⟩ :=
      h s (List.mem_cons_self _ _)
    obtain ⟨i1, i2⟩ := ih (productionPartialsStep heap b s)
      (fun x hx => h x (List.mem_cons_of_mem _ hx))
    rw [List.foldl_cons, i1, i2]
    constructor
    · simp [productionPartialsStep, PartialBuffers.add, h1, h2, h3, h4, h5, h6, h7, h8, h9]
    · simp [productionPartialsStep, PartialBuffers.add, v1, v2, v3, v4, v5, v6, v7, v8, v9]

theorem combination_partials_momentFree (heap : ClusterPtr → PSICluster K)
    (sc : SuperCluster K) :
    ∀ (l : List (SuperClusterProductionPair K)) (b : PartialBuffers K),
      (∀ s ∈ l, s.momentFree) →
      (l.foldl (combinationPartialsStep heap sc) b).heMomentumPartials
          = b.heMomentumPartials
      ∧ (l.foldl (combinationPartialsStep heap sc) b).vMomentumPartials
          = b.vMomentumPartials := by
  intro l
  induction l with
  | nil => intro b _; exact ⟨rfl, rfl⟩
  | cons s l ih =>
    intro b h
    obtain ⟨⟨h1, h2, h3, h4, h5, h6, h7, h8, h9⟩, ⟨v1, v2, v3, v4, v5, v6, v7, v8, v9⟩⟩ :=
      h s (List.mem_cons_self _ _)
    obtain ⟨i1, i2⟩ := ih (combinationPartialsStep heap sc b s)
      (fun x hx => h x (List.mem_cons_of_mem _ hx))
    rw [List.foldl_cons, i1, i2]
    constructor
    · simp [combinationPartialsStep, PartialBuffers.sub, h1, h2, h3, h4, h5, h6, h7, h8, h9]
    · simp [combinationPartialsStep, PartialBuffers.sub, v1, v2, v3, v4, v5, v6, v7, v8, v9]

theorem dissociation_partials_momentFree (heap : ClusterPtr → PSICluster K) :
    ∀ (l : List (SuperClusterDissociationPair K)) (b : PartialBuffers K),
      (∀ s ∈ l, s.momentFree) →
      (l.foldl (dissociationPartialsStep heap) b).heMomentumPartials = b.heMomentumPartials
      ∧ (l.foldl (dissociationPartialsStep heap) b).vMomentumPartials
          = b.vMomentumPartials := by
  intro l
  induction l with
  | nil => intro b _; exact ⟨rfl, rfl⟩
  | cons s l ih =>
    intro b h
    obtain ⟨⟨h1, h2, h3⟩, ⟨v1, v2, v3⟩⟩ := h s (List.mem_cons_self _ _)
    obtain ⟨i1, i2⟩ := ih (dissociationPartialsStep heap b s)
      (fun x hx => h x (List.mem_cons_of_mem _ hx))
    rw [List.foldl_cons, i1, i2]
    constructor
    · simp [dissociationPartialsStep, PartialBuffers.add, h1, h2, h3]
    · simp [dissociationPartialsStep, PartialBuffers.add, v1, v2, v3]

theorem emission_partials_momentFree (sc : SuperCluster K) :
    ∀ (l : List (SuperClusterDissociationPair K)) (b : PartialBuffers K),
      (∀ s ∈ l, s.momentFree) →
      (l.foldl (emissionPartialsStep sc) b).heMomentumPartials = b.heMomentumPartials
      ∧ (l.foldl (emissionPartialsStep sc) b).vMomentumPartials = b.vMomentumPartials := by
  intro l
  induction l with
  | nil => intro b _; exact ⟨rfl, rfl⟩
  | cons s l ih =>
    intro b h
    obtain ⟨⟨h1, h2, h3⟩, ⟨v1, v2, v3⟩⟩ := h s (List.mem_cons_self _ _)
    obtain ⟨i1, i2⟩ := ih (emissionPartialsStep sc b s)
      (fun x hx => h x (List.mem_cons_of_mem _ hx))
    rw [List.foldl_cons, i1, i2]
    constructor
    · simp [emissionPartialsStep, PartialBuffers.sub, h1, h2, h3]
    · simp [emissionPartialsStep, PartialBuffers.sub, v1, v2, v3]

/-- On a map whose only cell is the centroid, the four aggregated lists of
`optimizeReactions` have no moment part. -/
theorem optimizeReactions_momentFree (sc : SuperCluster K)
    (hlists : sc.effReactingList = [] ∧ sc.effCombiningList = []
      ∧ sc.effDissociatingList = [] ∧ sc.effEmissionList = [])
    (hcell : (∀ c ∈ sc.effReactingMap, (c.1.1 : K) = sc.numHe ∧ (c.1.2 : K) = sc.numV)
      ∧ (∀ c ∈ sc.effCombiningMap, (c.1.1 : K) = sc.numHe ∧ (c.1.2 : K) = sc.numV)
      ∧ (∀ c ∈ sc.effDissociatingMap, (c.1.1 : K) = sc.numHe ∧ (c.1.2 : K) = sc.numV)
      ∧ (∀ c ∈ sc.effEmissionMap, (c.1.1 : K) = sc.numHe ∧ (c.1.2 : K) = sc.numV)) :
    (∀ s ∈ sc.optimizeReactions.effReactingList, s.momentFree)
    ∧ (∀ s ∈ sc.optimizeReactions.effCombiningList, s.momentFree)
    ∧ (∀ s ∈ sc.optimizeReactions.effDissociatingList, s.momentFree)
    ∧ (∀ s ∈ sc.optimizeReactions.effEmissionList, s.momentFree) := by
  obtain ⟨l1, l2, l3, l4⟩ := hlists
  obtain ⟨c1, c2, c3, c4⟩ := hcell
  have hf : ∀ key : CellKey, ((key.1 : K) = sc.numHe ∧ (key.2 : K) = sc.numV) →
      sc.heFactor key = 0 ∧ sc.vFactor key = 0 := by
    intro key hkey
    simp [SuperCluster.heFactor, SuperCluster.vFactor, hkey.1, hkey.2]
  refine ⟨?_, ?_, ?_, ?_⟩
  · show ∀ s ∈ sc.optimizeReacting.2, s.momentFree
    refine coalesceMap_inv samePair _ _ (fun s => SuperClusterProductionPair.momentFree s)
      (fun key => (key.1 : K) = sc.numHe ∧ (key.2 : K) = sc.numV) ?_ ?_ _ _ c1
      (by rw [l1]; intro s hs; cases hs)
    · intro e0
      simp [SuperClusterProductionPair.momentFree, SuperClusterProductionPair.new]
    · intro key sp e hkey hQ
      obtain ⟨f1, f2⟩ := hf key hkey
      simp only [SuperClusterProductionPair.momentFree] at hQ
      obtain ⟨⟨h1, h2, h3, h4, h5, h6, h7, h8, h9⟩,
        ⟨v1, v2, v3, v4, v5, v6, v7, v8, v9⟩⟩ := hQ
      simp [SuperClusterProductionPair.momentFree, addReacting, f1, f2,
        h1, h2, h3, h4, h5, h6, h7, h8, h9, v1, v2, v3, v4, v5, v6, v7, v8, v9]
  · show ∀ s ∈ sc.optimizeCombining.2, s.momentFree
    refine coalesceMap_inv sameCombining _ _ (fun s => SuperClusterProductionPair.momentFree s)
      (fun key => (key.1 : K) = sc.numHe ∧ (key.2 : K) = sc.numV) ?_ ?_ _ _ c2
      (by rw [l2]; intro s hs; cases hs)
    · intro e0
      simp [SuperClusterProductionPair.momentFree, SuperClusterProductionPair.new]
    · intro key sp e hkey hQ
      obtain ⟨f1, f2⟩ := hf key hkey
      simp only [SuperClusterProductionPair.momentFree] at hQ
      obtain ⟨⟨h1, h2, h3, h4, h5, h6, h7, h8, h9⟩,
        ⟨v1, v2, v3, v4, v5, v6, v7, v8, v9⟩⟩ := hQ
      simp [SuperClusterProductionPair.momentFree, addCombining, f1, f2,
        h1, h2, h3, h4, h5, h6, h7, h8, h9, v1, v2, v3, v4, v5, v6, v7, v8, v9]
  · show ∀ s ∈ sc.optimizeDissociating.2, s.momentFree
    refine coalesceMap_inv samePair _ _ (fun s => SuperClusterDissociationPair.momentFree s)
      (fun key => (key.1 : K) = sc.numHe ∧ (key.2 : K) = sc.numV) ?_ ?_ _ _ c3
      (by rw [l3]; intro s hs; cases hs)
    · intro e0
      simp [SuperClusterDissociationPair.momentFree, SuperClusterDissociationPair.new]
    · intro key sp e hkey hQ
      obtain ⟨f1, f2⟩ := hf key hkey
      simp only [SuperClusterDissociationPair.momentFree] at hQ
      obtain ⟨⟨h1, h2, h3⟩, ⟨v1, v2, v3⟩⟩ := hQ
      simp [SuperClusterDissociationPair.momentFree, addDissociating, f1, f2,
        h1, h2, h3, v1, v2, v3]
  · show ∀ s ∈ sc.optimizeEmission.2, s.momentFree
    refine coalesceMap_inv samePair _ _ (fun s => SuperClusterDissociationPair.momentFree s)
      (fun key => (key.1 : K) = sc.numHe ∧ (key.2 : K) = sc.numV) ?_ ?_ _ _ c4
      (by rw [l4]; intro s hs; cases hs)
    · intro e0
      simp [SuperClusterDissociationPair.momentFree, SuperClusterDissociationPair.new]
    · intro key sp e hkey hQ
      obtain ⟨f1, f2⟩ := hf key hkey
      simp only [SuperClusterDissociationPair.momentFree] at hQ
      obtain ⟨⟨h1, h2, h3⟩, ⟨v1, v2, v3⟩⟩ := hQ
      simp [SuperClusterDissociationPair.momentFree, addEmission, f1, f2,
        h1, h2, h3, v1, v2, v3]

end FluxLemmas

section Ids

variable {K : Type}

theorem assignIds_spec : ∀ (rs : List (Reactant K)) (id : Int),
    (assignIds id rs).1 = id + rs.length
    ∧ (assignIds id rs).2.map (fun r => r.id)
        = (List.range rs.length).map (fun (k : Nat) => id + 1 + (k : Int))
    ∧ (assignIds id rs).2.map (fun r => r.type) = rs.map (fun r => r.type)
    ∧ (assignIds id rs).2.length = rs.length := by
  intro rs
  induction rs with
  | nil => intro id; simp [assignIds]
  | cons r rs ih =>
    intro id
    obtain ⟨i1, i2, i3, i4⟩ := ih (id + 1)
    simp only [assignIds, List.map_cons, List.length_cons, i1, i2, i3, i4]
    refine ⟨by push_cast; ring, ?_, trivial, trivial⟩
    rw [List.range_succ_eq_map, List.map_cons, List.map_map]
    simp only [Nat.cast_zero, add_zero, List.cons.injEq, true_and]
    apply List.map_congr_left
    intro k _
    simp only [Function.comp, Nat.succ_eq_add_one]
    push_cast
    ring

theorem assignMomentIds_spec : ∀ (rs : List (Reactant K)) (id : Int),
    (assignMomentIds id rs).2.map (fun r => r.id) = rs.map (fun r => r.id)
    ∧ (assignMomentIds id rs).2.map (fun r => r.type) = rs.map (fun r => r.type)
    ∧ (assignMomentIds id rs).2.length = rs.length
    ∧ ((assignMomentIds id rs).2.filter (fun r => r.type.isSuper)).map (fun r => r.momId)
        = (List.range (rs.filter (fun r => r.type.isSuper)).length).map
            (fun (k : Nat) => id + 1 + (k : Int)) := by
  intro rs
  induction rs with
  | nil => intro id; simp [assignMomentIds]
  | cons r rs ih =>
    intro id
    by_cases hsup : r.type.isSuper = true
    · obtain ⟨i1, i2, i3, i4⟩ := ih (id + 1)
      simp only [assignMomentIds, hsup, if_true, List.map_cons, List.length_cons, i1, i2, i3,
        List.filter_cons_of_pos, i4]
      refine ⟨trivial, trivial, trivial, ?_⟩
      rw [List.range_succ_eq_map, List.map_cons, List.map_map]
      simp only [Nat.cast_zero, add_zero, List.cons.injEq, true_and]
      apply List.map_congr_left
      intro k _
      simp only [Function.comp, Nat.succ_eq_add_one]
      push_cast
      ring
    · obtain ⟨i1, i2, i3, i4⟩ := ih id
      simp only [Bool.not_eq_true] at hsup
      simp [assignMomentIds, hsup, i1, i2, i3, i4]

/-- C9 (id contiguity).  After `reinitializeNetwork` on a network holding
`N` reactants of which `M` have a super type, the reactants and their types
are in the same order as before, the reactant ids are `1, 2, ..., N` in that
order, and the moment ids of the super reactants are
`N + 1, N + 2, ..., N + M` in that order. -/
theorem id_contiguity (net : AlloyClusterReactionNetwork K) :
    net.reinitializeNetwork.allReactants.map (fun r => r.type)
        = net.allReactants.map (fun r => r.type)
    ∧ net.reinitializeNetwork.allReactants.map (fun r => r.id)
        = (List.range net.allReactants.length).map (fun (k : Nat) => (k : Int) + 1)
    ∧ (net.reinitializeNetwork.allReactants.filter (fun r => r.type.isSuper)).map
          (fun r => r.momId)
        = (List.range (net.allReactants.filter (fun r => r.type.isSuper)).length).map
            (fun (k : Nat) => (net.allReactants.length : Int) + (k : Int) + 1) := by
  obtain ⟨a1, a2, a3, a4⟩ := assignIds_spec net.allReactants 0
  obtain ⟨m1, m2, m3, m4⟩ :=
    assignMomentIds_spec (assignIds 0 net.allReactants).2 (assignIds 0 net.allReactants).1
  have hfilter : ((assignIds 0 net.allReactants).2.filter (fun r => r.type.isSuper)).length
      = (net.allReactants.filter (fun r => r.type.isSuper)).length := by
    have h := congrArg (fun l => (l.filter ReactantType.isSuper).length) a3
    simpa [List.filter_map, Function.comp] using h
  simp only [AlloyClusterReactionNetwork.reinitializeNetwork]
  refine ⟨?_, ?_, ?_⟩
  · rw [m2, a3]
  · rw [m1, a2]
    apply List.map_congr_left
    intro k _
    ring
  · rw [m4, hfilter, a1]
    apply List.map_congr_left
    intro k _
    ring

end Ids

section DerivativeLemmas

variable {S : Type}

theorem hasDerivAt_update (conc : Int → ℝ) (j i : Int) (x : ℝ) :
    HasDerivAt (fun t => Function.update conc j t i) (if i = j then 1 else 0) x := by
  by_cases h : i = j
  · subst h
    simp only [Function.update_same, if_true]
    exact hasDerivAt_id x
  · simp only [Function.update_noteq h, if_neg h]
    exact hasDerivAt_const x _

/-- Derivative of `k` times a bilinear form in two triples of functions. -/
theorem hasDerivAt_bilinear (k c00 c01 c02 c10 c11 c12 c20 c21 c22 : ℝ)
    (x1 x2 x3 y1 y2 y3 : ℝ → ℝ) (dx1 dx2 dx3 dy1 dy2 dy3 x : ℝ)
    (hx1 : HasDerivAt x1 dx1 x) (hx2 : HasDerivAt x2 dx2 x) (hx3 : HasDerivAt x3 dx3 x)
    (hy1 : HasDerivAt y1 dy1 x) (hy2 : HasDerivAt y2 dy2 x) (hy3 : HasDerivAt y3 dy3 x) :
    HasDerivAt
      (fun t => k * (c00 * x1 t * y1 t + c01 * x1 t * y2 t + c02 * x1 t * y3 t
        + c10 * x2 t * y1 t + c11 * x2 t * y2 t + c12 * x2 t * y3 t
        + c20 * x3 t * y1 t + c21 * x3 t * y2 t + c22 * x3 t * y3 t))
      (dx1 * (k * (c00 * y1 x + c01 * y2 x + c02 * y3 x))
        + dx2 * (k * (c10 * y1 x + c11 * y2 x + c12 * y3 x))
        + dx3 * (k * (c20 * y1 x + c21 * y2 x + c22 * y3 x))
        + dy1 * (k * (c00 * x1 x + c10 * x2 x + c20 * x3 x))
        + dy2 * (k * (c01 * x1 x + c11 * x2 x + c21 * x3 x))
        + dy3 * (k * (c02 * x1 x + c12 * x2 x + c22 * x3 x))) x := by
  have h := ((((((((((hx1.const_mul c00).mul hy1).add ((hx1.const_mul c01).mul hy2)).add
    ((hx1.const_mul c02).mul hy3)).add ((hx2.const_mul c10).mul hy1)).add
    ((hx2.const_mul c11).mul hy2)).add ((hx2.const_mul c12).mul hy3)).add
    ((hx3.const_mul c20).mul hy1)).add ((hx3.const_mul c21).mul hy2)).add
    ((hx3.const_mul c22).mul hy3)).const_mul k
  convert h using 1
  ring

/-- Derivative of `k` times a linear form in a triple of functions. -/
theorem hasDerivAt_linear (k c0 c1 c2 : ℝ) (x1 x2 x3 : ℝ → ℝ) (dx1 dx2 dx3 x : ℝ)
    (hx1 : HasDerivAt x1 dx1 x) (hx2 : HasDerivAt x2 dx2 x) (hx3 : HasDerivAt x3 dx3 x) :
    HasDerivAt (fun t => k * (c0 * x1 t + c1 * x2 t + c2 * x3 t))
      (dx1 * (k * c0) + dx2 * (k * c1) + dx3 * (k * c2)) x := by
  have h := (((hx1.const_mul c0).add (hx2.const_mul c1)).add (hx3.const_mul c2)).const_mul k
  convert h using 1
  ring

theorem hasDerivAt_list_sum (f : ℝ → S → ℝ) (f' : S → ℝ) (x : ℝ) :
    ∀ l : List S, (∀ s ∈ l, HasDerivAt (fun t => f t s) (f' s) x) →
      HasDerivAt (fun t => (l.map (f t)).sum) ((l.map f').sum) x := by
  intro l
  induction l with
  | nil => intro _; simpa using hasDerivAt_const x (0 : ℝ)
  | cons s l ih =>
    intro h
    have h1 := h s (List.mem_cons_self _ _)
    have h2 := ih (fun s hs => h s (List.mem_cons_of_mem _ hs))
    simpa using h1.add h2

theorem sum_map_neg (f : S → ℝ) (l : List S) :
    (l.map (fun s => -f s)).sum = -(l.map f).sum := by
  induction l with
  | nil => simp
  | cons s l ih => simp [ih, neg_add, add_comm]

end DerivativeLemmas

section BufferLemmas

variable {K : Type} [Field K] {S : Type}

theorem add_partials (b : PartialBuffers K) (i j : Int) (x y z : K) :
    (b.add i x y z).partials j = b.partials j + (if i = j then 1 else 0) * x := by
  by_cases h : i = j
  · subst h; simp [PartialBuffers.add]
  · have h2 : j ≠ i := fun e => h e.symm
    simp [PartialBuffers.add, Function.update_noteq h2, h]

theorem add_hePartials (b : PartialBuffers K) (i j : Int) (x y z : K) :
    (b.add i x y z).heMomentumPartials j
      = b.heMomentumPartials j + (if i = j then 1 else 0) * y := by
  by_cases h : i = j
  · subst h; simp [PartialBuffers.add]
  · have h2 : j ≠ i := fun e => h e.symm
    simp [PartialBuffers.add, Function.update_noteq h2, h]

theorem add_vPartials (b : PartialBuffers K) (i j : Int) (x y z : K) :
    (b.add i x y z).vMomentumPartials j
      = b.vMomentumPartials j + (if i = j then 1 else 0) * z := by
  by_cases h : i = j
  · subst h; simp [PartialBuffers.add]
  · have h2 : j ≠ i := fun e => h e.symm
    simp [PartialBuffers.add, Function.update_noteq h2, h]

theorem sub_partials (b : PartialBuffers K) (i j : Int) (x y z : K) :
    (b.sub i x y z).partials j = b.partials j - (if i = j then 1 else 0) * x := by
  by_cases h : i = j
  · subst h; simp [PartialBuffers.sub]
  · have h2 : j ≠ i := fun e => h e.symm
    simp [PartialBuffers.sub, Function.update_noteq h2, h]

theorem sub_hePartials (b : PartialBuffers K) (i j : Int) (x y z : K) :
    (b.sub i x y z).heMomentumPartials j
      = b.heMomentumPartials j - (if i = j then 1 else 0) * y := by
  by_cases h : i = j
  · subst h; simp [PartialBuffers.sub]
  · have h2 : j ≠ i := fun e => h e.symm
    simp [PartialBuffers.sub, Function.update_noteq h2, h]

theorem sub_vPartials (b : PartialBuffers K) (i j : Int) (x y z : K) :
    (b.sub i x y z).vMomentumPartials j
      = b.vMomentumPartials j - (if i = j then 1 else 0) * z := by
  by_cases h : i = j
  · subst h; simp [PartialBuffers.sub]
  · have h2 : j ≠ i := fun e => h e.symm
    simp [PartialBuffers.sub, Function.update_noteq h2, h]

/-- A loop whose body adds to one observed entry an amount that does not
depend on the buffers adds the sum of these amounts. -/
theorem foldl_entry (step : PartialBuffers K → S → PartialBuffers K)
    (entry : PartialBuffers K → K)
    (hstep : ∀ b s, entry (step b s) = entry b + entry (step PartialBuffers.zero s)) :
    ∀ (l : List S) (b : PartialBuffers K),
      entry (l.foldl step b)
        = entry b + (l.map (fun s => entry (step PartialBuffers.zero s))).sum := by
  intro l
  induction l with
  | nil => intro b; simp
  | cons s l ih =>
    intro b
    rw [List.foldl_cons, ih, hstep b s, List.map_cons, List.sum_cons, add_assoc]

theorem productionPartialsStep_entry (heap : ClusterPtr → PSICluster K) (j : Int)
    (b : PartialBuffers K) (s : SuperClusterProductionPair K) :
    (productionPartialsStep heap b s).partials j
        = b.partials j + (productionPartialsStep heap PartialBuffers.zero s).partials j
    ∧ (productionPartialsStep heap b s).heMomentumPartials j
        = b.heMomentumPartials j
          + (productionPartialsStep heap PartialBuffers.zero s).heMomentumPartials j
    ∧ (productionPartialsStep heap b s).vMomentumPartials j
        = b.vMomentumPartials j
          + (productionPartialsStep heap PartialBuffers.zero s).vMomentumPartials j := by
  refine ⟨?_, ?_, ?_⟩
  · simp only [productionPartialsStep, add_partials, PartialBuffers.zero]; ring
  · simp only [productionPartialsStep, add_hePartials, PartialBuffers.zero]; ring
  · simp only [productionPartialsStep, add_vPartials, PartialBuffers.zero]; ring

theorem combinationPartialsStep_entry (heap : ClusterPtr → PSICluster K)
    (sc : SuperCluster K) (j : Int)
    (b : PartialBuffers K) (s : SuperClusterProductionPair K) :
    (combinationPartialsStep heap sc b s).partials j
        = b.partials j + (combinationPartialsStep heap sc PartialBuffers.zero s).partials j
    ∧ (combinationPartialsStep heap sc b s).heMomentumPartials j
        = b.heMomentumPartials j
          + (combinationPartialsStep heap sc PartialBuffers.zero s).heMomentumPartials j
    ∧ (combinationPartialsStep heap sc b s).vMomentumPartials j
        = b.vMomentumPartials j
          + (combinationPartialsStep heap sc PartialBuffers.zero s).vMomentumPartials j := by
  refine ⟨?_, ?_, ?_⟩
  · simp only [combinationPartialsStep, sub_partials, PartialBuffers.zero]; ring
  · simp only [combinationPartialsStep, sub_hePartials, PartialBuffers.zero]; ring
  · simp only [combinationPartialsStep, sub_vPartials, PartialBuffers.zero]; ring

theorem dissociationPartialsStep_entry (heap : ClusterPtr → PSICluster K) (j : Int)
    (b : PartialBuffers K) (s : SuperClusterDissociationPair K) :
    (dissociationPartialsStep heap b s).partials j
        = b.partials j + (dissociationPartialsStep heap PartialBuffers.zero s).partials j
    ∧ (dissociationPartialsStep heap b s).heMomentumPartials j
        = b.heMomentumPartials j
          + (dissociationPartialsStep heap PartialBuffers.zero s).heMomentumPartials j
    ∧ (dissociationPartialsStep heap b s).vMomentumPartials j
        = b.vMomentumPartials j
          + (dissociationPartialsStep heap PartialBuffers.zero s).vMomentumPartials j := by
  refine ⟨?_, ?_, ?_⟩
  · simp only [dissociationPartialsStep, add_partials, PartialBuffers.zero]; ring
  · simp only [dissociationPartialsStep, add_hePartials, PartialBuffers.zero]; ring
  · simp only [dissociationPartialsStep, add_vPartials, PartialBuffers.zero]; ring

theorem emissionPartialsStep_entry (sc : SuperCluster K) (j : Int)
    (b : PartialBuffers K) (s : SuperClusterDissociationPair K) :
    (emissionPartialsStep sc b s).partials j
        = b.partials j + (emissionPartialsStep sc PartialBuffers.zero s).partials j
    ∧ (emissionPartialsStep sc b s).heMomentumPartials j
        = b.heMomentumPartials j
          + (emissionPartialsStep sc PartialBuffers.zero s).heMomentumPartials j
    ∧ (emissionPartialsStep sc b s).vMomentumPartials j
        = b.vMomentumPartials j
          + (emissionPartialsStep sc PartialBuffers.zero s).vMomentumPartials j := by
  refine ⟨?_, ?_, ?_⟩
  · simp only [emissionPartialsStep, sub_partials, PartialBuffers.zero]; ring
  · simp only [emissionPartialsStep, sub_hePartials, PartialBuffers.zero]; ring
  · simp only [emissionPartialsStep, sub_vPartials, PartialBuffers.zero]; ring

end BufferLemmas

section RecordDerivatives

/-- One production super pair: the derivative of its three contributions
with respect to entry `j` of the concentration array is what
`getProductionPartialDerivatives` adds at index `j`. -/
theorem production_record_deriv (heap : ClusterPtr → PSICluster ℝ) (conc : Int → ℝ)
    (j : Int) (s : SuperClusterProductionPair ℝ) :
    HasDerivAt
        (fun t => (productionFluxStep (loadHeap heap (Function.update conc j t))
          (0, 0, 0) s).1)
        ((productionPartialsStep (loadHeap heap conc) PartialBuffers.zero s).partials j)
        (conc j)
    ∧ HasDerivAt
        (fun t => (productionFluxStep (loadHeap heap (Function.update conc j t))
          (0, 0, 0) s).2.1)
        ((productionPartialsStep (loadHeap heap conc)
          PartialBuffers.zero s).heMomentumPartials j)
        (conc j)
    ∧ HasDerivAt
        (fun t => (productionFluxStep (loadHeap heap (Function.update conc j t))
          (0, 0, 0) s).2.2)
        ((productionPartialsStep (loadHeap heap conc)
          PartialBuffers.zero s).vMomentumPartials j)
        (conc j) := by
  have hA0 := hasDerivAt_update conc j ((heap s.first).id - 1) (conc j)
  have hA1 := hasDerivAt_update conc j ((heap s.first).heMomId - 1) (conc j)
  have hA2 := hasDerivAt_update conc j ((heap s.first).vMomId - 1) (conc j)
  have hB0 := hasDerivAt_update conc j ((heap s.second).id - 1) (conc j)
  have hB1 := hasDerivAt_update conc j ((heap s.second).heMomId - 1) (conc j)
  have hB2 := hasDerivAt_update conc j ((heap s.second).vMomId - 1) (conc j)
  refine ⟨?_, ?_, ?_⟩
  · have h := hasDerivAt_bilinear s.kConstant s.a000 s.a010 s.a020 s.a100 s.a110 s.a120
      s.a200 s.a210 s.a220 _ _ _ _ _ _ _ _ _ _ _ _ (conc j) hA0 hA1 hA2 hB0 hB1 hB2
    convert h using 1
    · funext t
      simp [productionFluxStep, loadHeap, PSICluster.withConcentrations]
    · simp only [productionPartialsStep, add_partials, PartialBuffers.zero, loadHeap,
        PSICluster.withConcentrations, Function.update_eq_self]
      ring
  · have h := hasDerivAt_bilinear s.kConstant s.a001 s.a011 s.a021 s.a101 s.a111 s.a121
      s.a201 s.a211 s.a221 _ _ _ _ _ _ _ _ _ _ _ _ (conc j) hA0 hA1 hA2 hB0 hB1 hB2
    convert h using 1
    · funext t
      simp [productionFluxStep, loadHeap, PSICluster.withConcentrations]
    · simp only [productionPartialsStep, add_hePartials, PartialBuffers.zero, loadHeap,
        PSICluster.withConcentrations, Function.update_eq_self]
      ring
  · have h := hasDerivAt_bilinear s.kConstant s.a002 s.a012 s.a022 s.a102 s.a112 s.a122
      s.a202 s.a212 s.a222 _ _ _ _ _ _ _ _ _ _ _ _ (conc j) hA0 hA1 hA2 hB0 hB1 hB2
    convert h using 1
    · funext t
      simp [productionFluxStep, loadHeap, PSICluster.withConcentrations]
    · simp only [productionPartialsStep, add_vPartials, PartialBuffers.zero, loadHeap,
        PSICluster.withConcentrations, Function.update_eq_self]
      ring

/-- One combination super pair: the flux is subtracted from the total, and
its three contributions have the derivatives that
`getCombinationPartialDerivatives` leaves at index `j`. -/
theorem combination_record_deriv (heap : ClusterPtr → PSICluster ℝ) (sc : SuperCluster ℝ)
    (conc : Int → ℝ) (j : Int) (s : SuperClusterProductionPair ℝ) :
    HasDerivAt
        (fun t => -(combinationFluxStep (loadHeap heap (Function.update conc j t))
          (Function.update conc j t (sc.id - 1)) (Function.update conc j t (sc.heMomId - 1))
          (Function.update conc j t (sc.vMomId - 1)) (0, 0, 0) s).1)
        ((combinationPartialsStep (loadHeap heap conc) (sc.withConcentrations conc)
          PartialBuffers.zero s).partials j)
        (conc j)
    ∧ HasDerivAt
        (fun t => (combinationFluxStep (loadHeap heap (Function.update conc j t))
          (Function.update conc j t (sc.id - 1)) (Function.update conc j t (sc.heMomId - 1))
          (Function.update conc j t (sc.vMomId - 1)) (0, 0, 0) s).2.1)
        ((combinationPartialsStep (loadHeap heap conc) (sc.withConcentrations conc)
          PartialBuffers.zero s).heMomentumPartials j)
        (conc j)
    ∧ HasDerivAt
        (fun t => (combinationFluxStep (loadHeap heap (Function.update conc j t))
          (Function.update conc j t (sc.id - 1)) (Function.update conc j t (sc.heMomId - 1))
          (Function.update conc j t (sc.vMomId - 1)) (0, 0, 0) s).2.2)
        ((combinationPartialsStep (loadHeap heap conc) (sc.withConcentrations conc)
          PartialBuffers.zero s).vMomentumPartials j)
        (conc j) := by
  have hB0 := hasDerivAt_update conc j ((heap s.first).id - 1) (conc j)
  have hB1 := hasDerivAt_update conc j ((heap s.first).heMomId - 1) (conc j)
  have hB2 := hasDerivAt_update conc j ((heap s.first).vMomId - 1) (conc j)
  have hA0 := hasDerivAt_update conc j (sc.id - 1) (conc j)
  have hA1 := hasDerivAt_update conc j (sc.heMomId - 1) (conc j)
  have hA2 := hasDerivAt_update conc j (sc.vMomId - 1) (conc j)
  refine ⟨?_, ?_, ?_⟩
  · have h := hasDerivAt_bilinear (-s.kConstant) s.a000 s.a100 s.a200 s.a010 s.a110 s.a210
      s.a020 s.a120 s.a220 _ _ _ _ _ _ _ _ _ _ _ _ (conc j) hB0 hB1 hB2 hA0 hA1 hA2
    convert h using 1
    · funext t
      simp [combinationFluxStep, loadHeap, PSICluster.withConcentrations]
    · simp only [combinationPartialsStep, sub_partials, PartialBuffers.zero, loadHeap,
        PSICluster.withConcentrations, SuperCluster.withConcentrations,
        Function.update_eq_self]
      ring
  · have h := hasDerivAt_bilinear (-s.kConstant) s.a001 s.a101 s.a201 s.a011 s.a111 s.a211
      s.a021 s.a121 s.a221 _ _ _ _ _ _ _ _ _ _ _ _ (conc j) hB0 hB1 hB2 hA0 hA1 hA2
    convert h using 1
    · funext t
      simp [combinationFluxStep, loadHeap, PSICluster.withConcentrations]
    · simp only [combinationPartialsStep, sub_hePartials, PartialBuffers.zero, loadHeap,
        PSICluster.withConcentrations, SuperCluster.withConcentrations,
        Function.update_eq_self]
      ring
  · have h := hasDerivAt_bilinear (-s.kConstant) s.a002 s.a102 s.a202 s.a012 s.a112 s.a212
      s.a022 s.a122 s.a222 _ _ _ _ _ _ _ _ _ _ _ _ (conc j) hB0 hB1 hB2 hA0 hA1 hA2
    convert h using 1
    · funext t
      simp [combinationFluxStep, loadHeap, PSICluster.withConcentrations]
    · simp only [combinationPartialsStep, sub_vPartials, PartialBuffers.zero, loadHeap,
        PSICluster.withConcentrations, SuperCluster.withConcentrations,
        Function.update_eq_self]
      ring

/-- One dissociation super pair. -/
theorem dissociation_record_deriv (heap : ClusterPtr → PSICluster ℝ) (conc : Int → ℝ)
    (j : Int) (s : SuperClusterDissociationPair ℝ) :
    HasDerivAt
        (fun t => (dissociationFluxStep (loadHeap heap (Function.update conc j t))
          (0, 0, 0) s).1)
        ((dissociationPartialsStep (loadHeap heap conc) PartialBuffers.zero s).partials j)
        (conc j)
    ∧ HasDerivAt
        (fun t => (dissociationFluxStep (loadHeap heap (Function.update conc j t))
          (0, 0, 0) s).2.1)
        ((dissociationPartialsStep (loadHeap heap conc)
          PartialBuffers.zero s).heMomentumPartials j)
        (conc j)
    ∧ HasDerivAt
        (fun t => (dissociationFluxStep (loadHeap heap (Function.update conc j t))
          (0, 0, 0) s).2.2)
        ((dissociationPartialsStep (loadHeap heap conc)
          PartialBuffers.zero s).vMomentumPartials j)
        (conc j) := by
  have hA0 := hasDerivAt_update conc j ((heap s.first).id - 1) (conc j)
  have hA1 := hasDerivAt_update conc j ((heap s.first).heMomId - 1) (conc j)
  have hA2 := hasDerivAt_update conc j ((heap s.first).vMomId - 1) (conc j)
  refine ⟨?_, ?_, ?_⟩
  · have h := hasDerivAt_linear s.kConstant s.a00 s.a10 s.a20 _ _ _ _ _ _ (conc j)
      hA0 hA1 hA2
    convert h using 1
    · funext t
      simp [dissociationFluxStep, loadHeap, PSICluster.withConcentrations]
    · simp only [dissociationPartialsStep, add_partials, PartialBuffers.zero, loadHeap,
        PSICluster.withConcentrations]
      ring
  · have h := hasDerivAt_linear s.kConstant s.a01 s.a11 s.a21 _ _ _ _ _ _ (conc j)
      hA0 hA1 hA2
    convert h using 1
    · funext t
      simp [dissociationFluxStep, loadHeap, PSICluster.withConcentrations]
    · simp only [dissociationPartialsStep, add_hePartials, PartialBuffers.zero, loadHeap,
        PSICluster.withConcentrations]
      ring
  · have h := hasDerivAt_linear s.kConstant s.a02 s.a12 s.a22 _ _ _ _ _ _ (conc j)
      hA0 hA1 hA2
    convert h using 1
    · funext t
      simp [dissociationFluxStep, loadHeap, PSICluster.withConcentrations]
    · simp only [dissociationPartialsStep, add_vPartials, PartialBuffers.zero, loadHeap,
        PSICluster.withConcentrations]
      ring

/-- One emission super pair: the flux is subtracted from the total. -/
theorem emission_record_deriv (sc : SuperCluster ℝ) (conc : Int → ℝ)
    (j : Int) (s : SuperClusterDissociationPair ℝ) :
    HasDerivAt
        (fun t => -(emissionFluxStep
          (Function.update conc j t (sc.id - 1)) (Function.update conc j t (sc.heMomId - 1))
          (Function.update conc j t (sc.vMomId - 1)) (0, 0, 0) s).1)
        ((emissionPartialsStep (sc.withConcentrations conc)
          PartialBuffers.zero s).partials j)
        (conc j)
    ∧ HasDerivAt
        (fun t => (emissionFluxStep
          (Function.update conc j t (sc.id - 1)) (Function.update conc j t (sc.heMomId - 1))
          (Function.update conc j t (sc.vMomId - 1)) (0, 0, 0) s).2.1)
        ((emissionPartialsStep (sc.withConcentrations conc)
          PartialBuffers.zero s).heMomentumPartials j)
        (conc j)
    ∧ HasDerivAt
        (fun t => (emissionFluxStep
          (Function.update conc j t (sc.id - 1)) (Function.update conc j t (sc.heMomId - 1))
          (Function.update conc j t (sc.vMomId - 1)) (0, 0, 0) s).2.2)
        ((emissionPartialsStep (sc.withConcentrations conc)
          PartialBuffers.zero s).vMomentumPartials j)
        (conc j) := by
  have hA0 := hasDerivAt_update conc j (sc.id - 1) (conc j)
  have hA1 := hasDerivAt_update conc j (sc.heMomId - 1) (conc j)
  have hA2 := hasDerivAt_update conc j (sc.vMomId - 1) (conc j)
  refine ⟨?_, ?_, ?_⟩
  · have h := hasDerivAt_linear (-s.kConstant) s.a00 s.a10 s.a20 _ _ _ _ _ _ (conc j)
      hA0 hA1 hA2
    convert h using 1
    · funext t
      simp [emissionFluxStep]
    · simp only [emissionPartialsStep, sub_partials, PartialBuffers.zero,
        SuperCluster.withConcentrations]
      ring
  · have h := hasDerivAt_linear (-s.kConstant) s.a01 s.a11 s.a21 _ _ _ _ _ _ (conc j)
      hA0 hA1 hA2
    convert h using 1
    · funext t
      simp [emissionFluxStep]
    · simp only [emissionPartialsStep, sub_hePartials, PartialBuffers.zero,
        SuperCluster.withConcentrations]
      ring
  · have h := hasDerivAt_linear (-s.kConstant) s.a02 s.a12 s.a22 _ _ _ _ _ _ (conc j)
      hA0 hA1 hA2
    convert h using 1
    · funext t
      simp [emissionFluxStep]
    · simp only [emissionPartialsStep, sub_vPartials, PartialBuffers.zero,
        SuperCluster.withConcentrations]
      ring

theorem combinationFluxStep_add (heap : ClusterPtr → PSICluster ℝ) (l0 l1He l1V : ℝ)
    (acc : ℝ × ℝ × ℝ) (s : SuperClusterProductionPair ℝ) :
    combinationFluxStep heap l0 l1He l1V acc s
      = (acc.1 + (combinationFluxStep heap l0 l1He l1V (0, 0, 0) s).1,
         acc.2.1 + (combinationFluxStep heap l0 l1He l1V (0, 0, 0) s).2.1,
         acc.2.2 + (combinationFluxStep heap l0 l1He l1V (0, 0, 0) s).2.2) := by
  simp [combinationFluxStep, sub_eq_add_neg]

theorem emissionFluxStep_add (l0 l1He l1V : ℝ)
    (acc : ℝ × ℝ × ℝ) (s : SuperClusterDissociationPair ℝ) :
    emissionFluxStep l0 l1He l1V acc s
      = (acc.1 + (emissionFluxStep l0 l1He l1V (0, 0, 0) s).1,
         acc.2.1 + (emissionFluxStep l0 l1He l1V (0, 0, 0) s).2.1,
         acc.2.2 + (emissionFluxStep l0 l1He l1V (0, 0, 0) s).2.2) := by
  simp [emissionFluxStep, sub_eq_add_neg]

/-- The entry `j` of each of the three buffers after `getPartialDerivatives`
started on a zeroed `partials`: the sums of what each record adds. -/
theorem getPartialDerivatives_entries (heap : ClusterPtr → PSICluster ℝ)
    (sc : SuperCluster ℝ) (hePrior vPrior : Int → ℝ) (j : Int) :
    (sc.getPartialDerivatives heap
        { partials := fun _ => 0, heMomentumPartials := hePrior,
          vMomentumPartials := vPrior }).partials j
      = (sc.effReactingList.map
          (fun s => (productionPartialsStep heap PartialBuffers.zero s).partials j)).sum
        + (sc.effCombiningList.map
          (fun s => (combinationPartialsStep heap sc PartialBuffers.zero s).partials j)).sum
        + (sc.effDissociatingList.map
          (fun s => (dissociationPartialsStep heap PartialBuffers.zero s).partials j)).sum
        + (sc.effEmissionList.map
          (fun s => (emissionPartialsStep sc PartialBuffers.zero s).partials j)).sum
    ∧ (sc.getPartialDerivatives heap
        { partials := fun _ => 0, heMomentumPartials := hePrior,
          vMomentumPartials := vPrior }).heMomentumPartials j
      = (sc.effReactingList.map (fun s =>
          (productionPartialsStep heap PartialBuffers.zero s).heMomentumPartials j)).sum
        + (sc.effCombiningList.map (fun s =>
          (combinationPartialsStep heap sc PartialBuffers.zero s).heMomentumPartials j)).sum
        + (sc.effDissociatingList.map (fun s =>
          (dissociationPartialsStep heap PartialBuffers.zero s).heMomentumPartials j)).sum
        + (sc.effEmissionList.map (fun s =>
          (emissionPartialsStep sc PartialBuffers.zero s).heMomentumPartials j)).sum
    ∧ (sc.getPartialDerivatives heap
        { partials := fun _ => 0, heMomentumPartials := hePrior,
          vMomentumPartials := vPrior }).vMomentumPartials j
      = (sc.effReactingList.map (fun s =>
          (productionPartialsStep heap PartialBuffers.zero s).vMomentumPartials j)).sum
        + (sc.effCombiningList.map (fun s =>
          (combinationPartialsStep heap sc PartialBuffers.zero s).vMomentumPartials j)).sum
        + (sc.effDissociatingList.map (fun s =>
          (dissociationPartialsStep heap PartialBuffers.zero s).vMomentumPartials j)).sum
        + (sc.effEmissionList.map (fun s =>
          (emissionPartialsStep sc PartialBuffers.zero s).vMomentumPartials j)).sum := by
  refine ⟨?_, ?_, ?_⟩
  · simp only [SuperCluster.getPartialDerivatives,
      SuperCluster.getProductionPartialDerivatives,
      SuperCluster.getCombinationPartialDerivatives,
      SuperCluster.getDissociationPartialDerivatives,
      SuperCluster.getEmissionPartialDerivatives]
    rw [foldl_entry _ (fun b => b.partials j)
        (fun b s => (emissionPartialsStep_entry sc j b s).1),
      foldl_entry _ (fun b => b.partials j)
        (fun b s => (dissociationPartialsStep_entry heap j b s).1),
      foldl_entry _ (fun b => b.partials j)
        (fun b s => (combinationPartialsStep_entry heap sc j b s).1),
      foldl_entry _ (fun b => b.partials j)
        (fun b s => (productionPartialsStep_entry heap j b s).1)]
    simp only [zero_add]
  · simp only [SuperCluster.getPartialDerivatives,
      SuperCluster.getProductionPartialDerivatives,
      SuperCluster.getCombinationPartialDerivatives,
      SuperCluster.getDissociationPartialDerivatives,
      SuperCluster.getEmissionPartialDerivatives]
    rw [foldl_entry _ (fun b => b.heMomentumPartials j)
        (fun b s => (emissionPartialsStep_entry sc j b s).2.1),
      foldl_entry _ (fun b => b.heMomentumPartials j)
        (fun b s => (dissociationPartialsStep_entry heap j b s).2.1),
      foldl_entry _ (fun b => b.heMomentumPartials j)
        (fun b s => (combinationPartialsStep_entry heap sc j b s).2.1),
      foldl_entry _ (fun b => b.heMomentumPartials j)
        (fun b s => (productionPartialsStep_entry heap j b s).2.1)]
    simp only [zero_add]
  · simp only [SuperCluster.getPartialDerivatives,
      SuperCluster.getProductionPartialDerivatives,
      SuperCluster.getCombinationPartialDerivatives,
      SuperCluster.getDissociationPartialDerivatives,
      SuperCluster.getEmissionPartialDerivatives]
    rw [foldl_entry _ (fun b => b.vMomentumPartials j)
        (fun b s => (emissionPartialsStep_entry sc j b s).2.2),
      foldl_entry _ (fun b => b.vMomentumPartials j)
        (fun b s => (dissociationPartialsStep_entry heap j b s).2.2),
      foldl_entry _ (fun b => b.vMomentumPartials j)
        (fun b s => (combinationPartialsStep_entry heap sc j b s).2.2),
      foldl_entry _ (fun b => b.vMomentumPartials j)
        (fun b s => (productionPartialsStep_entry heap j b s).2.2)]
    simp only [zero_add]

end RecordDerivatives

section DerivativeClaim

/-- C10 (the partials are the exact derivatives of the fluxes).  Every
reactant's `l0`, `l1He`, `l1V` being the entries `id - 1`, `heMomId - 1`,
`vMomId - 1` of the concentration array, for all aggregated lists, every
concentration array and every index `j`: starting from a zeroed `partials`
(and any prior content of the moment buffers), the entry `j` that
`getPartialDerivatives` leaves in `partials` is the derivative with respect
to entry `j` of production flux - combination flux + dissociation flux
- emission flux, and the entries `j` of the He-moment and V-moment buffers
are the derivatives of the He-moment and V-moment fluxes.  Indices may
coincide, for instance when both members of a reacting pair are the same
reactant. -/
theorem partials_are_derivatives (heap : ClusterPtr → PSICluster ℝ) (sc : SuperCluster ℝ)
    (conc hePrior vPrior : Int → ℝ) (j : Int) :
    HasDerivAt
        (fun t => (sc.withConcentrations (Function.update conc j t)).totalFlux
          (loadHeap heap (Function.update conc j t)))
        (((sc.withConcentrations conc).getPartialDerivatives (loadHeap heap conc)
          { partials := fun _ => 0, heMomentumPartials := hePrior,
            vMomentumPartials := vPrior }).partials j)
        (conc j)
    ∧ HasDerivAt
        (fun t => ((sc.withConcentrations (Function.update conc j t)).momentFluxes
          (loadHeap heap (Function.update conc j t))).1)
        (((sc.withConcentrations conc).getPartialDerivatives (loadHeap heap conc)
          { partials := fun _ => 0, heMomentumPartials := hePrior,
            vMomentumPartials := vPrior }).heMomentumPartials j)
        (conc j)
    ∧ HasDerivAt
        (fun t => ((sc.withConcentrations (Function.update conc j t)).momentFluxes
          (loadHeap heap (Function.update conc j t))).2)
        (((sc.withConcentrations conc).getPartialDerivatives (loadHeap heap conc)
          { partials := fun _ => 0, heMomentumPartials := hePrior,
            vMomentumPartials := vPrior }).vMomentumPartials j)
        (conc j) := by
  obtain ⟨e1, e2, e3⟩ := getPartialDerivatives_entries (loadHeap heap conc)
    (sc.withConcentrations conc) hePrior vPrior j
  rw [e1, e2, e3]
  refine ⟨?_, ?_, ?_⟩
  · have hP := hasDerivAt_list_sum
      (fun t s => (productionFluxStep (loadHeap heap (Function.update conc j t))
        (0, 0, 0) s).1) _ (conc j) sc.effReactingList
      (fun s _ => (production_record_deriv heap conc j s).1)
    have hC := hasDerivAt_list_sum
      (fun t s => -(combinationFluxStep (loadHeap heap (Function.update conc j t))
        (Function.update conc j t (sc.id - 1)) (Function.update conc j t (sc.heMomId - 1))
        (Function.update conc j t (sc.vMomId - 1)) (0, 0, 0) s).1) _ (conc j)
      sc.effCombiningList (fun s _ => (combination_record_deriv heap sc conc j s).1)
    have hD := hasDerivAt_list_sum
      (fun t s => (dissociationFluxStep (loadHeap heap (Function.update conc j t))
        (0, 0, 0) s).1) _ (conc j) sc.effDissociatingList
      (fun s _ => (dissociation_record_deriv heap conc j s).1)
    have hE := hasDerivAt_list_sum
      (fun t s => -(emissionFluxStep
        (Function.update conc j t (sc.id - 1)) (Function.update conc j t (sc.heMomId - 1))
        (Function.update conc j t (sc.vMomId - 1)) (0, 0, 0) s).1) _ (conc j)
      sc.effEmissionList (fun s _ => (emission_record_deriv sc conc j s).1)
    have h := ((hP.add hC).add hD).add hE
    convert h using 1
    funext t
    simp only [SuperCluster.totalFlux, SuperCluster.getProductionFlux,
      SuperCluster.getCombinationFlux, SuperCluster.getDissociationFlux,
      SuperCluster.getEmissionFlux, SuperCluster.withConcentrations,
      foldl_triple _ (productionFluxStep_acc _),
      foldl_triple _ (combinationFluxStep_add _ _ _ _),
      foldl_triple _ (dissociationFluxStep_acc _),
      foldl_triple _ (emissionFluxStep_add _ _ _), sum_map_neg]
    ring
  · have hP := hasDerivAt_list_sum
      (fun t s => (productionFluxStep (loadHeap heap (Function.update conc j t))
        (0, 0, 0) s).2.1) _ (conc j) sc.effReactingList
      (fun s _ => (production_record_deriv heap conc j s).2.1)
    have hC := hasDerivAt_list_sum
      (fun t s => (combinationFluxStep (loadHeap heap (Function.update conc j t))
        (Function.update conc j t (sc.id - 1)) (Function.update conc j t (sc.heMomId - 1))
        (Function.update conc j t (sc.vMomId - 1)) (0, 0, 0) s).2.1) _ (conc j)
      sc.effCombiningList (fun s _ => (combination_record_deriv heap sc conc j s).2.1)
    have hD := hasDerivAt_list_sum
      (fun t s => (dissociationFluxStep (loadHeap heap (Function.update conc j t))
        (0, 0, 0) s).2.1) _ (conc j) sc.effDissociatingList
      (fun s _ => (dissociation_record_deriv heap conc j s).2.1)
    have hE := hasDerivAt_list_sum
      (fun t s => (emissionFluxStep
        (Function.update conc j t (sc.id - 1)) (Function.update conc j t (sc.heMomId - 1))
        (Function.update conc j t (sc.vMomId - 1)) (0, 0, 0) s).2.1) _ (conc j)
      sc.effEmissionList (fun s _ => (emission_record_deriv sc conc j s).2.1)
    have h := ((((hasDerivAt_const (conc j) sc.heMomentumFlux).add hP).add hC).add hD).add hE
    convert h using 1
    · funext t
      simp only [SuperCluster.momentFluxes, SuperCluster.getProductionFlux,
        SuperCluster.getCombinationFlux, SuperCluster.getDissociationFlux,
        SuperCluster.getEmissionFlux, SuperCluster.withConcentrations,
        foldl_triple _ (productionFluxStep_acc _),
        foldl_triple _ (combinationFluxStep_add _ _ _ _),
        foldl_triple _ (dissociationFluxStep_acc _),
        foldl_triple _ (emissionFluxStep_add _ _ _)]
    · simp only [zero_add]
      rfl
  · have hP := hasDerivAt_list_sum
      (fun t s => (productionFluxStep (loadHeap heap (Function.update conc j t))
        (0, 0, 0) s).2.2) _ (conc j) sc.effReactingList
      (fun s _ => (production_record_deriv heap conc j s).2.2)
    have hC := hasDerivAt_list_sum
      (fun t s => (combinationFluxStep (loadHeap heap (Function.update conc j t))
        (Function.update conc j t (sc.id - 1)) (Function.update conc j t (sc.heMomId - 1))
        (Function.update conc j t (sc.vMomId - 1)) (0, 0, 0) s).2.2) _ (conc j)
      sc.effCombiningList (fun s _ => (combination_record_deriv heap sc conc j s).2.2)
    have hD := hasDerivAt_list_sum
      (fun t s => (dissociationFluxStep (loadHeap heap (Function.update conc j t))
        (0, 0, 0) s).2.2) _ (conc j) sc.effDissociatingList
      (fun s _ => (dissociation_record_deriv heap conc j s).2.2)
    have hE := hasDerivAt_list_sum
      (fun t s => (emissionFluxStep
        (Function.update conc j t (sc.id - 1)) (Function.update conc j t (sc.heMomId - 1))
        (Function.update conc j t (sc.vMomId - 1)) (0, 0, 0) s).2.2) _ (conc j)
      sc.effEmissionList (fun s _ => (emission_record_deriv sc conc j s).2.2)
    have h := ((((hasDerivAt_const (conc j) sc.vMomentumFlux).add hP).add hC).add hD).add hE
    convert h using 1
    · funext t
      simp only [SuperCluster.momentFluxes, SuperCluster.getProductionFlux,
        SuperCluster.getCombinationFlux, SuperCluster.getDissociationFlux,
        SuperCluster.getEmissionFlux, SuperCluster.withConcentrations,
        foldl_triple _ (productionFluxStep_acc _),
        foldl_triple _ (combinationFluxStep_add _ _ _ _),
        foldl_triple _ (dissociationFluxStep_acc _),
        foldl_triple _ (emissionFluxStep_add _ _ _)]
    · simp only [zero_add]
      rfl

end DerivativeClaim

section Claims

variable {K : Type} [Field K]

/-- C1 (grouping correctness for production).  Let the aggregated reacting
list be empty, as the constructor leaves it, and let micro entries with the
same `(first, second)` identity carry the same rate constant.  Then, after
`optimizeReactions`, `getProductionFlux` returns the brute-force sum of
`k * C_A * C_B` over every micro entry of every cell, and it adds to the He
and V moment fluxes the same sum with each term weighted by
`(heIndex - numHe) / dispersionHe`, respectively
`(vIndex - numV) / dispersionV`, of the entry's cell. -/
theorem production_grouping_correct (heap : ClusterPtr → PSICluster K)
    (sc : SuperCluster K) (hlist : sc.effReactingList = [])
    (hk : ∀ c ∈ sc.effReactingMap, ∀ e ∈ c.2, ∀ c' ∈ sc.effReactingMap, ∀ e' ∈ c'.2,
      e'.first = e.first → e'.second = e.second → e'.kConstant = e.kConstant) :
    (sc.optimizeReactions.getProductionFlux heap).1 = bruteProductionFlux heap sc
    ∧ (sc.optimizeReactions.getProductionFlux heap).2.heMomentumFlux
        = sc.heMomentumFlux + bruteProductionHeFlux heap sc
    ∧ (sc.optimizeReactions.getProductionFlux heap).2.vMomentumFlux
        = sc.vMomentumFlux + bruteProductionVFlux heap sc := by
  obtain ⟨h0, h1, h2⟩ := optimizeReacting_sums heap sc hk
  simp only [hlist, List.map_nil, List.sum_nil, zero_add] at h0 h1 h2
  simp only [SuperCluster.getProductionFlux, SuperCluster.optimizeReactions,
    foldl_triple _ (productionFluxStep_acc heap), h0, h1, h2, zero_add]
  exact ⟨trivial, trivial, trivial⟩

/-- C1 exercised on `sampleSuper`. -/
theorem production_grouping_correct_witness :
    (sampleSuper.optimizeReactions.getProductionFlux sampleHeap).1
        = bruteProductionFlux sampleHeap sampleSuper
    ∧ (sampleSuper.optimizeReactions.getProductionFlux sampleHeap).2.heMomentumFlux
        = sampleSuper.heMomentumFlux + bruteProductionHeFlux sampleHeap sampleSuper
    ∧ (sampleSuper.optimizeReactions.getProductionFlux sampleHeap).2.vMomentumFlux
        = sampleSuper.vMomentumFlux + bruteProductionVFlux sampleHeap sampleSuper :=
  production_grouping_correct sampleHeap sampleSuper rfl (by decide)

/-- C2 (grouping correctness for combination).  Let the aggregated combining
list be empty and let micro entries with the same combining partner carry
the same rate constant.  Then, after `optimizeReactions`,
`getCombinationFlux` returns the brute-force sum over every micro entry of
every cell `(he, v)` of `k * C_this(he, v) * C_B`, and it subtracts from the
He and V moment fluxes the same sum weighted by `(he - numHe) / dispersionHe`,
respectively `(v - numV) / dispersionV`. -/
theorem combination_grouping_correct (heap : ClusterPtr → PSICluster K)
    (sc : SuperCluster K) (hlist : sc.effCombiningList = [])
    (hk : ∀ c ∈ sc.effCombiningMap, ∀ e ∈ c.2, ∀ c' ∈ sc.effCombiningMap, ∀ e' ∈ c'.2,
      e'.combining = e.combining → e'.kConstant = e.kConstant) :
    (sc.optimizeReactions.getCombinationFlux heap).1 = bruteCombinationFlux heap sc
    ∧ (sc.optimizeReactions.getCombinationFlux heap).2.heMomentumFlux
        = sc.heMomentumFlux - bruteCombinationHeFlux heap sc
    ∧ (sc.optimizeReactions.getCombinationFlux heap).2.vMomentumFlux
        = sc.vMomentumFlux - bruteCombinationVFlux heap sc := by
  obtain ⟨h0, h1, h2⟩ := optimizeCombining_sums heap sc hk
  simp only [hlist, List.map_nil, List.sum_nil, zero_add] at h0 h1 h2
  simp only [SuperCluster.getCombinationFlux, SuperCluster.optimizeReactions,
    foldl_triple_sub _ (combinationFluxStep_acc heap sc.l0 sc.l1He sc.l1V), h0, h1, h2,
    zero_add]
  exact ⟨trivial, trivial, trivial⟩

/-- C2 exercised on `sampleSuper`. -/
theorem combination_grouping_correct_witness :
    (sampleSuper.optimizeReactions.getCombinationFlux sampleHeap).1
        = bruteCombinationFlux sampleHeap sampleSuper
    ∧ (sampleSuper.optimizeReactions.getCombinationFlux sampleHeap).2.heMomentumFlux
        = sampleSuper.heMomentumFlux - bruteCombinationHeFlux sampleHeap sampleSuper
    ∧ (sampleSuper.optimizeReactions.getCombinationFlux sampleHeap).2.vMomentumFlux
        = sampleSuper.vMomentumFlux - bruteCombinationVFlux sampleHeap sampleSuper :=
  combination_grouping_correct sampleHeap sampleSuper rfl (by decide)

/-- C3 (grouping correctness for dissociation and emission).  Let the
aggregated dissociating and emission lists be empty and let micro entries
with the same `(first, second)` identity carry the same rate constant, as
`computeRateConstants` sets them.  Then, after `optimizeReactions`,
`getDissociationFlux` returns the sum over every micro dissociating entry of
`k * C_A` and adds to the He and V moment fluxes that sum weighted by
`(he - numHe) / dispersionHe`, `(v - numV) / dispersionV` of the cell;
`getEmissionFlux` returns the sum over every micro emission entry of cell
`(he, v)` of `k * C_this(he, v)` and subtracts from the He and V moment
fluxes that sum with the same weights. -/
theorem dissociation_emission_grouping_correct (heap : ClusterPtr → PSICluster K)
    (sc : SuperCluster K)
    (hdlist : sc.effDissociatingList = []) (helist : sc.effEmissionList = [])
    (hkd : ∀ c ∈ sc.effDissociatingMap, ∀ e ∈ c.2, ∀ c' ∈ sc.effDissociatingMap,
      ∀ e' ∈ c'.2,
      e'.first = e.first → e'.second = e.second → e'.kConstant = e.kConstant)
    (hke : ∀ c ∈ sc.effEmissionMap, ∀ e ∈ c.2, ∀ c' ∈ sc.effEmissionMap, ∀ e' ∈ c'.2,
      e'.first = e.first → e'.second = e.second → e'.kConstant = e.kConstant) :
    ((sc.optimizeReactions.getDissociationFlux heap).1 = bruteDissociationFlux heap sc
      ∧ (sc.optimizeReactions.getDissociationFlux heap).2.heMomentumFlux
          = sc.heMomentumFlux + bruteDissociationHeFlux heap sc
      ∧ (sc.optimizeReactions.getDissociationFlux heap).2.vMomentumFlux
          = sc.vMomentumFlux + bruteDissociationVFlux heap sc)
    ∧ (sc.optimizeReactions.getEmissionFlux.1 = bruteEmissionFlux sc
      ∧ sc.optimizeReactions.getEmissionFlux.2.heMomentumFlux
          = sc.heMomentumFlux - bruteEmissionHeFlux sc
      ∧ sc.optimizeReactions.getEmissionFlux.2.vMomentumFlux
          = sc.vMomentumFlux - bruteEmissionVFlux sc) := by
  obtain ⟨d0, d1, d2⟩ := optimizeDissociating_sums heap sc hkd
  obtain ⟨e0, e1, e2⟩ := optimizeEmission_sums sc hke
  simp only [hdlist, List.map_nil, List.sum_nil, zero_add] at d0 d1 d2
  simp only [helist, List.map_nil, List.sum_nil, zero_add] at e0 e1 e2
  simp only [SuperCluster.getDissociationFlux, SuperCluster.getEmissionFlux,
    SuperCluster.optimizeReactions,
    foldl_triple _ (dissociationFluxStep_acc heap),
    foldl_triple_sub _ (emissionFluxStep_acc sc.l0 sc.l1He sc.l1V),
    d0, d1, d2, e0, e1, e2, zero_add]
  exact ⟨⟨trivial, trivial, trivial⟩, ⟨trivial, trivial, trivial⟩⟩

/-- C3 exercised on `sampleSuper`. -/
theorem dissociation_emission_grouping_correct_witness :
    ((sampleSuper.optimizeReactions.getDissociationFlux sampleHeap).1
        = bruteDissociationFlux sampleHeap sampleSuper
      ∧ (sampleSuper.optimizeReactions.getDissociationFlux sampleHeap).2.heMomentumFlux
          = sampleSuper.heMomentumFlux + bruteDissociationHeFlux sampleHeap sampleSuper
      ∧ (sampleSuper.optimizeReactions.getDissociationFlux sampleHeap).2.vMomentumFlux
          = sampleSuper.vMomentumFlux + bruteDissociationVFlux sampleHeap sampleSuper)
    ∧ (sampleSuper.optimizeReactions.getEmissionFlux.1 = bruteEmissionFlux sampleSuper
      ∧ sampleSuper.optimizeReactions.getEmissionFlux.2.heMomentumFlux
          = sampleSuper.heMomentumFlux - bruteEmissionHeFlux sampleSuper
      ∧ sampleSuper.optimizeReactions.getEmissionFlux.2.vMomentumFlux
          = sampleSuper.vMomentumFlux - bruteEmissionVFlux sampleSuper) :=
  dissociation_emission_grouping_correct sampleHeap sampleSuper rfl rfl
    (by decide) (by decide)

/-- C4 (degeneracy equivalence).  Take a super cluster of width 1 on both
axes whose dispersions are those computed by `computeRateConstants`, whose
only cell is the centroid `(numHe, numV)`, whose aggregated lists are empty
and whose micro entries carry one rate constant per identity.  Then both
dispersions are 1 and, after `optimizeReactions`, the four fluxes are those
of an ordinary single-composition reactant of concentration `l0`
(`sum k * C_A * C_B`, `sum k * l0 * C_B`, `sum k * C_A`, `sum k * l0`), the
He and V moment fluxes are left unchanged by each flux function, and the two
moment partial buffers left by `getPartialDerivatives` are zero. -/
theorem degenerate_equivalence (heap : ClusterPtr → PSICluster K) (sc : SuperCluster K)
    (b : PartialBuffers K) (nHeSquare nVSquare compositionHe compositionV : Int)
    (hwHe : sc.sectionHeWidth = 1) (hwV : sc.sectionVWidth = 1)
    (hdHe : sc.dispersionHe
      = computeDispersion sc.sectionHeWidth nHeSquare compositionHe sc.nTot)
    (hdV : sc.dispersionV
      = computeDispersion sc.sectionVWidth nVSquare compositionV sc.nTot)
    (hlists : sc.effReactingList = [] ∧ sc.effCombiningList = []
      ∧ sc.effDissociatingList = [] ∧ sc.effEmissionList = [])
    (hcell : (∀ c ∈ sc.effReactingMap, (c.1.1 : K) = sc.numHe ∧ (c.1.2 : K) = sc.numV)
      ∧ (∀ c ∈ sc.effCombiningMap, (c.1.1 : K) = sc.numHe ∧ (c.1.2 : K) = sc.numV)
      ∧ (∀ c ∈ sc.effDissociatingMap, (c.1.1 : K) = sc.numHe ∧ (c.1.2 : K) = sc.numV)
      ∧ (∀ c ∈ sc.effEmissionMap, (c.1.1 : K) = sc.numHe ∧ (c.1.2 : K) = sc.numV))
    (hkr : ∀ c ∈ sc.effReactingMap, ∀ e ∈ c.2, ∀ c' ∈ sc.effReactingMap, ∀ e' ∈ c'.2,
      e'.first = e.first → e'.second = e.second → e'.kConstant = e.kConstant)
    (hkc : ∀ c ∈ sc.effCombiningMap, ∀ e ∈ c.2, ∀ c' ∈ sc.effCombiningMap, ∀ e' ∈ c'.2,
      e'.combining = e.combining → e'.kConstant = e.kConstant)
    (hkd : ∀ c ∈ sc.effDissociatingMap, ∀ e ∈ c.2, ∀ c' ∈ sc.effDissociatingMap,
      ∀ e' ∈ c'.2,
      e'.first = e.first → e'.second = e.second → e'.kConstant = e.kConstant)
    (hke : ∀ c ∈ sc.effEmissionMap, ∀ e ∈ c.2, ∀ c' ∈ sc.effEmissionMap, ∀ e' ∈ c'.2,
      e'.first = e.first → e'.second = e.second → e'.kConstant = e.kConstant) :
    (sc.dispersionHe = 1 ∧ sc.dispersionV = 1)
    ∧ ((sc.optimizeReactions.getProductionFlux heap).1 = bruteProductionFlux heap sc
      ∧ (sc.optimizeReactions.getProductionFlux heap).2.heMomentumFlux = sc.heMomentumFlux
      ∧ (sc.optimizeReactions.getProductionFlux heap).2.vMomentumFlux = sc.vMomentumFlux)
    ∧ ((sc.optimizeReactions.getCombinationFlux heap).1 = ordinaryCombinationFlux heap sc
      ∧ (sc.optimizeReactions.getCombinationFlux heap).2.heMomentumFlux = sc.heMomentumFlux
      ∧ (sc.optimizeReactions.getCombinationFlux heap).2.vMomentumFlux = sc.vMomentumFlux)
    ∧ ((sc.optimizeReactions.getDissociationFlux heap).1 = bruteDissociationFlux heap sc
      ∧ (sc.optimizeReactions.getDissociationFlux heap).2.heMomentumFlux
          = sc.heMomentumFlux
      ∧ (sc.optimizeReactions.getDissociationFlux heap).2.vMomentumFlux
          = sc.vMomentumFlux)
    ∧ (sc.optimizeReactions.getEmissionFlux.1 = ordinaryEmissionFlux sc
      ∧ sc.optimizeReactions.getEmissionFlux.2.heMomentumFlux = sc.heMomentumFlux
      ∧ sc.optimizeReactions.getEmissionFlux.2.vMomentumFlux = sc.vMomentumFlux)
    ∧ ((sc.optimizeReactions.getPartialDerivatives heap b).heMomentumPartials
          = (fun _ => 0)
      ∧ (sc.optimizeReactions.getPartialDerivatives heap b).vMomentumPartials
          = (fun _ => 0)) := by
  obtain ⟨r0, r1, r2⟩ := optimizeReacting_sums heap sc hkr
  obtain ⟨c0, c1, c2⟩ := optimizeCombining_sums heap sc hkc
  obtain ⟨d0, d1, d2⟩ := optimizeDissociating_sums heap sc hkd
  obtain ⟨e0, e1, e2⟩ := optimizeEmission_sums sc hke
  obtain ⟨m1, m2, m3, m4⟩ := optimizeReactions_momentFree sc hlists hcell
  obtain ⟨l1, l2, l3, l4⟩ := hlists
  obtain ⟨k1, k2, k3, k4⟩ := hcell
  have z1 : bruteProductionHeFlux heap sc = 0 := by
    unfold bruteProductionHeFlux
    rw [cellSum_congr _ (fun _ _ => 0) _ (by intro c hc e _; simp [(k1 c hc).1])]
    exact cellSum_zero _
  have z2 : bruteProductionVFlux heap sc = 0 := by
    unfold bruteProductionVFlux
    rw [cellSum_congr _ (fun _ _ => 0) _ (by intro c hc e _; simp [(k1 c hc).2])]
    exact cellSum_zero _
  have z3 : bruteCombinationHeFlux heap sc = 0 := by
    unfold bruteCombinationHeFlux
    rw [cellSum_congr _ (fun _ _ => 0) _ (by intro c hc e _; simp [(k2 c hc).1])]
    exact cellSum_zero _
  have z4 : bruteCombinationVFlux heap sc = 0 := by
    unfold bruteCombinationVFlux
    rw [cellSum_congr _ (fun _ _ => 0) _ (by intro c hc e _; simp [(k2 c hc).2])]
    exact cellSum_zero _
  have z5 : bruteDissociationHeFlux heap sc = 0 := by
    unfold bruteDissociationHeFlux
    rw [cellSum_congr _ (fun _ _ => 0) _ (by intro c hc e _; simp [(k3 c hc).1])]
    exact cellSum_zero _
  have z6 : bruteDissociationVFlux heap sc = 0 := by
    unfold bruteDissociationVFlux
    rw [cellSum_congr _ (fun _ _ => 0) _ (by intro c hc e _; simp [(k3 c hc).2])]
    exact cellSum_zero _
  have z7 : bruteEmissionHeFlux sc = 0 := by
    unfold bruteEmissionHeFlux
    rw [cellSum_congr _ (fun _ _ => 0) _ (by intro c hc e _; simp [(k4 c hc).1])]
    exact cellSum_zero _
  have z8 : bruteEmissionVFlux sc = 0 := by
    unfold bruteEmissionVFlux
    rw [cellSum_congr _ (fun _ _ => 0) _ (by intro c hc e _; simp [(k4 c hc).2])]
    exact cellSum_zero _
  have o1 : bruteCombinationFlux heap sc = ordinaryCombinationFlux heap sc := by
    unfold bruteCombinationFlux ordinaryCombinationFlux
    apply cellSum_congr
    intro c _ e _
    simp [microCombination, SuperCluster.getConcentration, SuperCluster.getHeDistance,
      SuperCluster.getVDistance, hwHe, hwV]
  have o2 : bruteEmissionFlux sc = ordinaryEmissionFlux sc := by
    unfold bruteEmissionFlux ordinaryEmissionFlux
    apply cellSum_congr
    intro c _ e _
    simp [microEmission, SuperCluster.getConcentration, SuperCluster.getHeDistance,
      SuperCluster.getVDistance, hwHe, hwV]
  simp only [l1, List.map_nil, List.sum_nil, zero_add, z1, z2] at r0 r1 r2
  simp only [l2, List.map_nil, List.sum_nil, zero_add, z3, z4, o1] at c0 c1 c2
  simp only [l3, List.map_nil, List.sum_nil, zero_add, z5, z6] at d0 d1 d2
  simp only [l4, List.map_nil, List.sum_nil, zero_add, z7, z8, o2] at e0 e1 e2
  refine ⟨⟨?_, ?_⟩, ?_, ?_, ?_, ?_, ?_⟩
  · rw [hdHe, hwHe]; simp [computeDispersion]
  · rw [hdV, hwV]; simp [computeDispersion]
  · simp only [SuperCluster.getProductionFlux, SuperCluster.optimizeReactions,
      foldl_triple _ (productionFluxStep_acc heap), r0, r1, r2, zero_add, add_zero]
    exact ⟨trivial, trivial, trivial⟩
  · simp only [SuperCluster.getCombinationFlux, SuperCluster.optimizeReactions,
      foldl_triple_sub _ (combinationFluxStep_acc heap sc.l0 sc.l1He sc.l1V), c0, c1, c2,
      zero_add, sub_zero]
    exact ⟨trivial, trivial, trivial⟩
  · simp only [SuperCluster.getDissociationFlux, SuperCluster.optimizeReactions,
      foldl_triple _ (dissociationFluxStep_acc heap), d0, d1, d2, zero_add, add_zero]
    exact ⟨trivial, trivial, trivial⟩
  · simp only [SuperCluster.getEmissionFlux, SuperCluster.optimizeReactions,
      foldl_triple_sub _ (emissionFluxStep_acc sc.l0 sc.l1He sc.l1V), e0, e1, e2,
      zero_add, sub_zero]
    exact ⟨trivial, trivial, trivial⟩
  · simp only [SuperCluster.getPartialDerivatives,
      SuperCluster.getProductionPartialDerivatives,
      SuperCluster.getCombinationPartialDerivatives,
      SuperCluster.getDissociationPartialDerivatives,
      SuperCluster.getEmissionPartialDerivatives]
    rw [(emission_partials_momentFree _ _ _ m4).1, (emission_partials_momentFree _ _ _ m4).2,
      (dissociation_partials_momentFree heap _ _ m3).1,
      (dissociation_partials_momentFree heap _ _ m3).2,
      (combination_partials_momentFree heap _ _ _ m2).1,
      (combination_partials_momentFree heap _ _ _ m2).2,
      (production_partials_momentFree heap _ _ m1).1,
      (production_partials_momentFree heap _ _ m1).2]
    exact ⟨rfl, rfl⟩

/-- C4 exercised on `sampleDegenerate`: the production flux is the plain sum
and the moment buffers come out zero. -/
theorem degenerate_equivalence_witness :
    (sampleDegenerate.optimizeReactions.getProductionFlux sampleHeap).1
        = bruteProductionFlux sampleHeap sampleDegenerate
    ∧ (sampleDegenerate.optimizeReactions.getPartialDerivatives sampleHeap
          sampleBuffers).heMomentumPartials = (fun _ => 0) :=
  have h := degenerate_equivalence sampleHeap sampleDegenerate sampleBuffers 4 9 2 3
    rfl rfl (by simp [computeDispersion, sampleDegenerate])
    (by simp [computeDispersion, sampleDegenerate])
    ⟨rfl, rfl, rfl, rfl⟩
    (by simp [sampleDegenerate]) (by decide) (by decide) (by decide) (by decide)
  ⟨h.2.1.1, h.2.2.2.2.2.1⟩

/-- C5 (rate symmetry).  For every pair of reactants `A`, `B` and every grid
index `i`, `calculateReactionRateConstant` on the production reaction
`(A, B)` equals its value on the production reaction `(B, A)`, whatever the
cached constants of the two reaction objects are. -/
theorem rate_symmetry (cst : Constants K) (A B : Reactant K) (kAB kBA : Int → K)
    (i : Int) :
    calculateReactionRateConstant cst { first := A, second := B, kConstant := kAB } i
      = calculateReactionRateConstant cst { first := B, second := A, kConstant := kBA } i := by
  simp only [calculateReactionRateConstant]
  ring

/-- C6 (production rate formula).  For every production reaction and grid
index `i`, `calculateReactionRateConstant` returns
`4 * pi * (r_first + r_second + alloyCoreRadius) * (D_first(i) + D_second(i))`,
and it is `0` whenever both diffusion coefficients at `i` are `0`. -/
theorem production_rate_formula (cst : Constants K) (reaction : ProductionReaction K)
    (i : Int) :
    calculateReactionRateConstant cst reaction i
        = 4 * cst.pi
          * (reaction.first.reactionRadius + reaction.second.reactionRadius
              + cst.alloyCoreRadius)
          * (reaction.first.diffusionCoefficient i + reaction.second.diffusionCoefficient i)
    ∧ (reaction.first.diffusionCoefficient i = 0 →
        reaction.second.diffusionCoefficient i = 0 →
        calculateReactionRateConstant cst reaction i = 0) := by
  refine ⟨rfl, ?_⟩
  intro h1 h2
  simp [calculateReactionRateConstant, h1, h2]

/-- C7 (dissociation rate).  `calculateDissociationConstant` returns `0` when
the dissociations are disabled and otherwise
`(1 / V_atomic) * kPlus * exp(-E_b / (kBoltzmann * T))` with
`V_atomic = 0.25 * alloyLatticeConstant ^ 3`, `kPlus` the reverse reaction's
cached rate constant at index `i`, `E_b` the (corrected) binding energy and
`T` the network temperature; a freshly constructed network has the
dissociations enabled. -/
theorem dissociation_rate_formula (cst : Constants K) (exp : K → K) (pow : K → K → K)
    (computeBindingEnergy : DissociationReaction K → K)
    (net : AlloyClusterReactionNetwork K) (reaction : DissociationReaction K) (i : Int) :
    calculateDissociationConstant cst exp pow computeBindingEnergy net reaction i
        = (if net.dissociationsEnabled = true then
            (1 / (1 / 4 * cst.alloyLatticeConstant ^ 3))
              * reaction.reverseReaction.kConstant i
              * exp (-(correctedBindingEnergy pow computeBindingEnergy net reaction)
                  / (cst.kBoltzmann * net.temperature))
          else 0)
    ∧ (AlloyClusterReactionNetwork.new : AlloyClusterReactionNetwork K).dissociationsEnabled
        = true := by
  refine ⟨?_, rfl⟩
  have hvol : 1 / 4 * cst.alloyLatticeConstant * cst.alloyLatticeConstant
      * cst.alloyLatticeConstant = 1 / 4 * cst.alloyLatticeConstant ^ 3 := by ring
  cases hen : net.dissociationsEnabled
  · simp [calculateDissociationConstant, hen]
  · simp only [calculateDissociationConstant, hen, Bool.not_true, Bool.false_eq_true,
      if_false, if_true, hvol, neg_one_mul]

/-- C6 exercised on two immobile reactants: the rate constant is `0`. -/
theorem production_rate_formula_witness :
    calculateReactionRateConstant (sampleConstants ℚ)
      { first := sampleImmobile ℚ, second := sampleImmobile ℚ, kConstant := fun _ => 0 } 3
      = 0 :=
  (production_rate_formula (sampleConstants ℚ)
    { first := sampleImmobile ℚ, second := sampleImmobile ℚ, kConstant := fun _ => 0 }
    3).2 rfl rfl

/-- C8 as stated fails in two ways.  On a network whose dissociations are
disabled, a reaction with binding energy `1` and reverse rate constant `7`
has the same dissociation rate at the two positive temperatures `500` and
`1000`.  And with the dissociations enabled, the Boltzmann constant
`8.617e-5` and an exponential that, like the `exp` of double arithmetic,
returns `0` below `-745`, the same reaction has the rate `0` at the two
temperatures `10` and `11`, where the arguments of `exp` are about `-1160`
and `-1055`. -/
theorem temperature_change_counterexample :
    correctedBindingEnergy (fun x y : ℝ => x ^ y) (fun _ => 1)
        (sampleNetwork ℝ false 500) (sampleDissociation ℝ) ≠ 0
    ∧ (sampleDissociation ℝ).reverseReaction.kConstant 0 ≠ 0
    ∧ (0 : ℝ) < 500 ∧ (0 : ℝ) < 1000 ∧ (500 : ℝ) ≠ 1000
    ∧ calculateDissociationConstant (sampleConstants ℝ) Real.exp (fun x y : ℝ => x ^ y)
          (fun _ => 1) (sampleNetwork ℝ false 500) (sampleDissociation ℝ) 0
        = calculateDissociationConstant (sampleConstants ℝ) Real.exp (fun x y : ℝ => x ^ y)
          (fun _ => 1) (sampleNetwork ℝ false 1000) (sampleDissociation ℝ) 0
    ∧ correctedBindingEnergy (fun x y : ℝ => x ^ y) (fun _ => 1)
        (sampleNetwork ℝ true 10) (sampleDissociation ℝ) ≠ 0
    ∧ (sampleNetwork ℝ true 10).dissociationsEnabled = true
    ∧ (0 : ℝ) < 10 ∧ (0 : ℝ) < 11 ∧ (10 : ℝ) ≠ 11
    ∧ calculateDissociationConstant
          { sampleConstants ℝ with kBoltzmann := 8617 / 100000000 }
          (fun x : ℝ => if x < -745 then 0 else Real.exp x) (fun x y : ℝ => x ^ y)
          (fun _ => 1) (sampleNetwork ℝ true 10) (sampleDissociation ℝ) 0
        = calculateDissociationConstant
          { sampleConstants ℝ with kBoltzmann := 8617 / 100000000 }
          (fun x : ℝ => if x < -745 then 0 else Real.exp x) (fun x y : ℝ => x ^ y)
          (fun _ => 1) (sampleNetwork ℝ true 11) (sampleDissociation ℝ) 0 := by
  have hE : ∀ (b : Bool) (t : ℝ), correctedBindingEnergy (fun x y : ℝ => x ^ y) (fun _ => 1)
      (sampleNetwork ℝ b t) (sampleDissociation ℝ) = 1 := by
    intro b t
    simp [correctedBindingEnergy, sampleNetwork, sampleDissociation, sampleImmobile]
  refine ⟨?_, ?_, by norm_num, by norm_num, by norm_num, ?_, ?_, rfl, by norm_num,
    by norm_num, by norm_num, ?_⟩
  · rw [hE]
    exact one_ne_zero
  · simp [sampleDissociation]
  · simp [calculateDissociationConstant, sampleNetwork]
  · rw [hE]
    exact one_ne_zero
  · have h10 : (-1 * (1 : ℝ) / (8617 / 100000000 * 10)) < -745 := by norm_num
    have h11 : (-1 * (1 : ℝ) / (8617 / 100000000 * 11)) < -745 := by norm_num
    have e10 : calculateDissociationConstant
          { sampleConstants ℝ with kBoltzmann := 8617 / 100000000 }
          (fun x : ℝ => if x < -745 then 0 else Real.exp x) (fun x y : ℝ => x ^ y)
          (fun _ => 1) (sampleNetwork ℝ true 10) (sampleDissociation ℝ) 0 = 0 := by
      simp only [calculateDissociationConstant, hE]
      have ht : (sampleNetwork ℝ true 10).temperature = 10 := rfl
      have hen : (sampleNetwork ℝ true 10).dissociationsEnabled = true := rfl
      rw [ht, hen]
      simp only [Bool.not_true, Bool.false_eq_true, if_false, if_pos h10, mul_zero]
    have e11 : calculateDissociationConstant
          { sampleConstants ℝ with kBoltzmann := 8617 / 100000000 }
          (fun x : ℝ => if x < -745 then 0 else Real.exp x) (fun x y : ℝ => x ^ y)
          (fun _ => 1) (sampleNetwork ℝ true 11) (sampleDissociation ℝ) 0 = 0 := by
      simp only [calculateDissociationConstant, hE]
      have ht : (sampleNetwork ℝ true 11).temperature = 11 := rfl
      have hen : (sampleNetwork ℝ true 11).dissociationsEnabled = true := rfl
      rw [ht, hen]
      simp only [Bool.not_true, Bool.false_eq_true, if_false, if_pos h11, mul_zero]
    rw [e10, e11]

/-- C8, amended (temperature-change invalidation).  When the dissociations
are enabled and the arithmetic is exact (real numbers with an injective
exponential, as the real exponential is), with nonzero Boltzmann and lattice
constants, a dissociation reaction whose (corrected) binding energy and
reverse rate constant are nonzero has different dissociation rates at two
different positive temperatures.  Evaluating the rate twice at the same
temperature gives the same value, whatever the exponential: the rate depends
on the network only through the flag, the temperature and the two quantities
that fix the smallest faulted size.  And when the dissociations are disabled
the rate is `0` at every temperature. -/
theorem temperature_change_invalidation (cst : Constants ℝ) (exp : ℝ → ℝ) (pow : ℝ → ℝ → ℝ)
    (computeBindingEnergy : DissociationReaction ℝ → ℝ)
    (net : AlloyClusterReactionNetwork ℝ) (reaction : DissociationReaction ℝ) (i : Int) :
    (net.dissociationsEnabled = true → Function.Injective exp →
      cst.kBoltzmann ≠ 0 → cst.alloyLatticeConstant ≠ 0 →
      correctedBindingEnergy pow computeBindingEnergy net reaction ≠ 0 →
      reaction.reverseReaction.kConstant i ≠ 0 →
      ∀ T1 T2 : ℝ, 0 < T1 → 0 < T2 → T1 ≠ T2 →
      calculateDissociationConstant cst exp pow computeBindingEnergy
          { net with temperature := T1 } reaction i
        ≠ calculateDissociationConstant cst exp pow computeBindingEnergy
          { net with temperature := T2 } reaction i)
    ∧ (∀ (T : ℝ) (net2 : AlloyClusterReactionNetwork ℝ),
        net2.dissociationsEnabled = net.dissociationsEnabled →
        net2.temperature = T →
        net2.maxClusterSizeMap ReactantType.Faulted
          = net.maxClusterSizeMap ReactantType.Faulted →
        net2.clusterTypeCount ReactantType.Faulted
          = net.clusterTypeCount ReactantType.Faulted →
        calculateDissociationConstant cst exp pow computeBindingEnergy net2 reaction i
          = calculateDissociationConstant cst exp pow computeBindingEnergy
            { net with temperature := T } reaction i)
    ∧ (net.dissociationsEnabled = false → ∀ T : ℝ,
        calculateDissociationConstant cst exp pow computeBindingEnergy
          { net with temperature := T } reaction i = 0) := by
  refine ⟨?_, ?_, ?_⟩
  · intro hen hinj hkB ha hE hk T1 T2 hT1 hT2 hne
    have hE1 : correctedBindingEnergy pow computeBindingEnergy
        { net with temperature := T1 } reaction
        = correctedBindingEnergy pow computeBindingEnergy net reaction := rfl
    have hE2 : correctedBindingEnergy pow computeBindingEnergy
        { net with temperature := T2 } reaction
        = correctedBindingEnergy pow computeBindingEnergy net reaction := rfl
    simp only [calculateDissociationConstant, hen, Bool.not_true, Bool.false_eq_true,
      if_false, hE1, hE2]
    intro heq
    have hvol : 1 / 4 * cst.alloyLatticeConstant * cst.alloyLatticeConstant
        * cst.alloyLatticeConstant ≠ 0 := by
      simp [ha]
    have hfac : 1 / (1 / 4 * cst.alloyLatticeConstant * cst.alloyLatticeConstant
        * cst.alloyLatticeConstant) * reaction.reverseReaction.kConstant i ≠ 0 :=
      mul_ne_zero (one_div_ne_zero hvol) hk
    have hexp := hinj (mul_left_cancel₀ hfac heq)
    have hT1' : cst.kBoltzmann * T1 ≠ 0 := mul_ne_zero hkB (ne_of_gt hT1)
    have hT2' : cst.kBoltzmann * T2 ≠ 0 := mul_ne_zero hkB (ne_of_gt hT2)
    rw [div_eq_div_iff hT1' hT2'] at hexp
    have h3 : cst.kBoltzmann * T2 = cst.kBoltzmann * T1 :=
      mul_left_cancel₀ (by simpa using hE) hexp
    exact hne (mul_left_cancel₀ hkB h3).symm
  · intro T net2 h1 h2 h3 h4
    have hE2 : correctedBindingEnergy pow computeBindingEnergy net2 reaction
        = correctedBindingEnergy pow computeBindingEnergy
            { net with temperature := T } reaction := by
      simp only [correctedBindingEnergy, h3, h4]
    simp only [calculateDissociationConstant, h1, h2, hE2]
  · intro hdis T
    simp [calculateDissociationConstant, hdis]

/-- C8 (amended) exercised with the exact exponential at the temperatures
`500` and `1000` on the enabled sample network, and at every temperature on
the disabled one. -/
theorem temperature_change_invalidation_witness :
    calculateDissociationConstant (sampleConstants ℝ) Real.exp (fun x y : ℝ => x ^ y)
        (fun _ => 1) { sampleNetwork ℝ true 0 with temperature := 500 }
        (sampleDissociation ℝ) 0
      ≠ calculateDissociationConstant (sampleConstants ℝ) Real.exp (fun x y : ℝ => x ^ y)
        (fun _ => 1) { sampleNetwork ℝ true 0 with temperature := 1000 }
        (sampleDissociation ℝ) 0
    ∧ ∀ T : ℝ, calculateDissociationConstant (sampleConstants ℝ) Real.exp
        (fun x y : ℝ => x ^ y) (fun _ => 1) { sampleNetwork ℝ false 0 with temperature := T }
        (sampleDissociation ℝ) 0 = 0 :=
  ⟨(temperature_change_invalidation (sampleConstants ℝ) Real.exp (fun x y : ℝ => x ^ y)
      (fun _ => 1) (sampleNetwork ℝ true 0) (sampleDissociation ℝ) 0).1 rfl
      Real.exp_injective (by simp [sampleConstants]) (by simp [sampleConstants])
      (by simp [correctedBindingEnergy, sampleNetwork, sampleDissociation, sampleImmobile])
      (by simp [sampleDissociation]) 500 1000 (by norm_num) (by norm_num) (by norm_num),
    (temperature_change_invalidation (sampleConstants ℝ) Real.exp (fun x y : ℝ => x ^ y)
      (fun _ => 1) (sampleNetwork ℝ false 0) (sampleDissociation ℝ) 0).2.2 rfl⟩

end Claims

section TotalsLemmas

variable {K : Type} [Field K]

/-- A loop that adds `g x` for the elements passing the test and skips the
others adds the sum of `g` over the elements passing the test. -/
theorem foldl_skip_sum {A : Type} (occ : A → Bool) (g : A → K) :
    ∀ (l : List A) (acc : K),
      l.foldl (fun conc x => if !occ x then conc else conc + g x) acc
        = acc + ((l.filter occ).map g).sum := by
  intro l
  induction l with
  | nil => intro acc; simp
  | cons x l ih =>
    intro acc
    rw [List.foldl_cons, ih]
    cases h : occ x
    · simp [h]
    · simp [h, add_assoc]

theorem foldl_grid_sum (occ : CellKey → Bool) (g : CellKey → K) (hes : List Int) :
    ∀ (vs : List Int) (acc : K),
      vs.foldl
        (fun conc v => hes.foldl
          (fun conc he => if !occ (he, v) then conc else conc + g (he, v)) conc) acc
        = acc + (((cellGrid hes vs).filter occ).map g).sum := by
  intro vs
  induction vs with
  | nil => intro acc; simp [cellGrid]
  | cons v vs ih =>
    intro acc
    rw [List.foldl_cons, ih]
    have h := foldl_skip_sum (fun he => occ (he, v)) (fun he => g (he, v)) hes acc
    rw [h]
    simp only [cellGrid, List.foldr_cons, List.filter_append, List.map_append,
      List.sum_append, List.filter_map, List.map_map, add_assoc]
    rfl

/-- C11 (width-1 edge policy).  For a super cluster whose He (resp. V) width
is 1, `getHeDistance` (resp. `getVDistance`) returns 0 for every index and
the dispersion set by `computeRateConstants` is exactly 1, whatever the sums
over the occupied cells are; for a width `w > 1` the distance of index `n`
is `2 * (n - num) / (w - 1)`. -/
theorem width_one_edge_policy (sc : SuperCluster K)
    (nHeSquare nVSquare compositionHe compositionV n : Int) :
    (sc.sectionHeWidth = 1 →
      sc.getHeDistance n = 0
      ∧ (sc.setDispersions nHeSquare nVSquare compositionHe compositionV).dispersionHe = 1)
    ∧ (sc.sectionVWidth = 1 →
      sc.getVDistance n = 0
      ∧ (sc.setDispersions nHeSquare nVSquare compositionHe compositionV).dispersionV = 1)
    ∧ (1 < sc.sectionHeWidth →
      sc.getHeDistance n = 2 * ((n : K) - sc.numHe) / ((sc.sectionHeWidth : K) - 1))
    ∧ (1 < sc.sectionVWidth →
      sc.getVDistance n = 2 * ((n : K) - sc.numV) / ((sc.sectionVWidth : K) - 1)) := by
  refine ⟨?_, ?_, ?_, ?_⟩
  · intro h
    simp [SuperCluster.getHeDistance, SuperCluster.setDispersions, computeDispersion, h]
  · intro h
    simp [SuperCluster.getVDistance, SuperCluster.setDispersions, computeDispersion, h]
  · intro h
    have h1 : sc.sectionHeWidth ≠ 1 := ne_of_gt h
    simp [SuperCluster.getHeDistance, h1]
  · intro h
    have h1 : sc.sectionVWidth ≠ 1 := ne_of_gt h
    simp [SuperCluster.getVDistance, h1]

/-- C11 exercised on `sampleDegenerate` (both widths 1) and on `sampleSuper`
(He width 2). -/
theorem width_one_edge_policy_witness :
    (sampleDegenerate.getHeDistance 5 = 0
      ∧ (sampleDegenerate.setDispersions 4 9 2 3).dispersionHe = 1)
    ∧ (sampleDegenerate.getVDistance 5 = 0
      ∧ (sampleDegenerate.setDispersions 4 9 2 3).dispersionV = 1)
    ∧ sampleSuper.getHeDistance 5
        = 2 * (((5 : Int) : ℚ) - sampleSuper.numHe) / ((sampleSuper.sectionHeWidth : ℚ) - 1) :=
  ⟨(width_one_edge_policy sampleDegenerate 4 9 2 3 5).1 rfl,
   (width_one_edge_policy sampleDegenerate 4 9 2 3 5).2.1 rfl,
   (width_one_edge_policy sampleSuper 4 9 2 3 5).2.2.1 (by decide)⟩

end TotalsLemmas

section TotalsClaims

variable {K : Type} [LinearOrderedField K] [FloorRing K]

/-- C12 (affine model and skipped cells).  `getConcentration(dHe, dV)` is
`l0 + dHe * l1He + dV * l1V`; `getTotalConcentration` is the sum of
`getConcentration(getHeDistance(he), getVDistance(v))` over exactly those
cells `(he, v)` of the width rectangle that are keys of the effective
reacting map, the other cells contributing nothing; and
`getTotalHeliumConcentration` is the same sum with each term multiplied by
`he`. -/
theorem total_concentration_sum (sc : SuperCluster K) (dHe dV : K) :
    sc.getConcentration dHe dV = sc.l0 + dHe * sc.l1He + dV * sc.l1V
    ∧ sc.getTotalConcentration
        = ((sc.rectangle.filter sc.isReactingKey).map
            (fun c => sc.getConcentration (sc.getHeDistance c.1) (sc.getVDistance c.2))).sum
    ∧ sc.getTotalHeliumConcentration
        = ((sc.rectangle.filter sc.isReactingKey).map
            (fun c => sc.getConcentration (sc.getHeDistance c.1) (sc.getVDistance c.2)
              * (c.1 : K))).sum := by
  refine ⟨rfl, ?_, ?_⟩
  · have h := foldl_grid_sum sc.isReactingKey
      (fun c => sc.getConcentration (sc.getHeDistance c.1) (sc.getVDistance c.2))
      ((List.range sc.sectionHeWidth.toNat).map sc.heIndexAt)
      ((List.range sc.sectionVWidth.toNat).map sc.vIndexAt) 0
    simp only [List.foldl_map, zero_add] at h
    exact h
  · have h := foldl_grid_sum sc.isReactingKey
      (fun c => sc.getConcentration (sc.getHeDistance c.1) (sc.getVDistance c.2)
        * (c.1 : K))
      ((List.range sc.sectionHeWidth.toNat).map sc.heIndexAt)
      ((List.range sc.sectionVWidth.toNat).map sc.vIndexAt) 0
    simp only [List.foldl_map, zero_add] at h
    exact h

end TotalsClaims

section ClosedFormLemmas

variable {K : Type} [Field K]

theorem ap1_zero (s01 s02 s03 w1 w2 w3 : K) (x1 x2 : Int) (h : ¬ x1 > x2) :
    ap1 0 s01 s02 s03 w1 w2 w3 x1 x2
      = -((-1 + (x1 : K) - (x2 : K))
          * (2 + 2 * w2 + 2 * w3 + (x1 : K) + (x2 : K) + 2 * s02 - 2 * s03)) / 2 := by
  unfold ap1
  rw [if_neg h]
  exact if_pos rfl

theorem ap2_zero (s01 s02 s03 w1 w2 w3 : K) (x1 x2 : Int) (h : ¬ x1 > x2) :
    ap2 0 s01 s02 s03 w1 w2 w3 x1 x2 = (1 + 2 * w2) * (1 - (x1 : K) + (x2 : K)) := by
  unfold ap2
  rw [if_neg h]
  exact if_pos rfl

theorem ap3_zero (s01 s02 s03 w1 w2 w3 : K) (x1 x2 : Int) (h : ¬ x1 > x2) :
    ap3 0 s01 s02 s03 w1 w2 w3 x1 x2 = (1 + 2 * w3) * (1 - (x1 : K) + (x2 : K)) := by
  unfold ap3
  rw [if_neg h]
  exact if_pos rfl

theorem ap4_zero (s01 s02 s03 w1 w2 w3 : K) (x1 x2 : Int) (h : ¬ x1 > x2) :
    ap4 0 s01 s02 s03 w1 w2 w3 x1 x2
      = ((-1 + (x1 : K) - (x2 : K))
          * (-2 - 2 * w2 - 2 * w3 + (x1 : K) + (x2 : K) + 2 * s02 - 2 * s03)) / 2 := by
  unfold ap4
  rw [if_neg h]
  exact if_pos rfl

theorem ap1_empty (p : Int) (s01 s02 s03 w1 w2 w3 : K) (x1 x2 : Int) (h : x1 > x2) :
    ap1 p s01 s02 s03 w1 w2 w3 x1 x2 = 0 := by
  unfold ap1
  exact if_pos h

theorem ap2_empty (p : Int) (s01 s02 s03 w1 w2 w3 : K) (x1 x2 : Int) (h : x1 > x2) :
    ap2 p s01 s02 s03 w1 w2 w3 x1 x2 = 0 := by
  unfold ap2
  exact if_pos h

theorem ap3_empty (p : Int) (s01 s02 s03 w1 w2 w3 : K) (x1 x2 : Int) (h : x1 > x2) :
    ap3 p s01 s02 s03 w1 w2 w3 x1 x2 = 0 := by
  unfold ap3
  exact if_pos h

theorem ap4_empty (p : Int) (s01 s02 s03 w1 w2 w3 : K) (x1 x2 : Int) (h : x1 > x2) :
    ap4 p s01 s02 s03 w1 w2 w3 x1 x2 = 0 := by
  unfold ap4
  exact if_pos h

/-- With the moment selector `(0, 0, 0)` the product factor does not depend
on the bounds: each of the two calls of `analyticProduct` reads the zeroed
vectors and returns `4`. -/
theorem productGainFactor_zero (h2 : (2 : K) ≠ 0) (bounds : List Int) (active : Int) :
    productGainFactor (K := K) bounds [0, 0, 0] active = 16 := by
  have h0 : ¬ ((0 : Int) > 0) := by decide
  have e1 := ap1_zero (0 : K) 0 0 0 0 0 0 0 h0
  have e2 := ap2_zero (0 : K) 0 0 0 0 0 0 0 h0
  have e3 := ap3_zero (0 : K) 0 0 0 0 0 0 0 h0
  have e4 := ap4_zero (0 : K) 0 0 0 0 0 0 0 h0
  have hp1 : computeIndex 0 0 0 1 = 0 := by decide
  have hp2 : computeIndex 0 0 0 2 = 0 := by decide
  simp only [productGainFactor, analyticProduct, List.getD_cons_zero, List.getD_cons_succ,
    hp1, hp2, e1, e2, e3, e4]
  norm_num
  field_simp
  ring

end ClosedFormLemmas

section ClosedFormClaims

/-- C13, evaluated on the code: for the three one-cell groups `A = {(1, 1)}`,
`B = {(1, 1)}`, `C = {(2, 2)}` exactly one pair `(a, b)` has `a + b` in `C`,
so the aggregated coefficient `a000` is `1`, while
`productGainFactor(bounds, (0, 0, 0), active)` returns `16`.  On the limits
and group values that the body of `setReactLimits` computes for one axis of
this geometry, `analyticProduct` does return the count `1`. -/
theorem productGainFactor_ignores_bounds :
    aggregatedCount [1, 1, 1, 1, 1, 1, 1, 1, 2, 2, 2, 2] = 1
    ∧ productGainFactor (K := ℚ) [1, 1, 1, 1, 1, 1, 1, 1, 2, 2, 2, 2] [0, 0, 0] 0 = 16
    ∧ productGainFactor (K := ℚ) [1, 1, 1, 1, 1, 1, 1, 1, 2, 2, 2, 2] [0, 0, 0] 1 = 16
    ∧ setReactLimits (K := ℚ) 1 1 1 1 2 2 [0, 0, 0, 0, 0, 0, 0, 0] [0, 0, 0, 0, 0, 0]
        = ([1, 1, 1, 2, 0, 1, 0, 1], [1, 1, 2, 0, 0, 0])
    ∧ analyticProduct (K := ℚ) 0 1 1 2 0 0 0 [1, 1, 1, 2, 0, 1, 0, 1] 0 = 1 := by
  refine ⟨by decide, productGainFactor_zero (by norm_num) _ _,
    productGainFactor_zero (by norm_num) _ _, ?_, ?_⟩
  · have hl : (setReactLimits (K := ℚ) 1 1 1 1 2 2 [0, 0, 0, 0, 0, 0, 0, 0]
        [0, 0, 0, 0, 0, 0]).1 = [1, 1, 1, 2, 0, 1, 0, 1] := by decide
    have hg : (setReactLimits (K := ℚ) 1 1 1 1 2 2 [0, 0, 0, 0, 0, 0, 0, 0]
        [0, 0, 0, 0, 0, 0]).2 = [1, 1, 2, 0, 0, 0] := by
      simp only [setReactLimits, List.set_cons_zero, List.set_cons_succ]
      norm_num
    exact Prod.ext hl hg
  · simp only [analyticProduct, List.getD_cons_zero, List.getD_cons_succ]
    rw [ap1_empty _ _ _ _ _ _ _ _ _ (by decide), ap3_empty _ _ _ _ _ _ _ _ _ (by decide),
      ap4_empty _ _ _ _ _ _ _ _ _ (by decide), ap2_zero _ _ _ _ _ _ _ _ (by decide)]
    norm_num

end ClosedFormClaims

theorem typeSwitch_sq (t : ReactantType) : typeSwitch t * typeSwitch t = 1 := by
  cases t <;> decide

theorem get_some {K : Type} (net : AlloyClusterReactionNetwork K) (t : ReactantType) (n : Int)
    (r : Reactant K) (h : net.get t n = some r) :
    r ∈ net.allReactants ∧ r.type = t ∧ r.size = n := by
  unfold AlloyClusterReactionNetwork.get at h
  have h1 := List.find?_some h
  simp only [decide_eq_true_eq] at h1
  exact ⟨List.mem_of_find?_eq_some h, h1.1, h1.2⟩

/-- Either no accepted type has a reactant of the looked-up size, or the
list of accepted types splits at the first one that has. -/
theorem get_first_cases {K : Type} (net : AlloyClusterReactionNetwork K) (s : Int) :
    ∀ products : List ReactantType,
      (∀ t ∈ products, net.get t (s * typeSwitch t) = none)
      ∨ ∃ pre t post product, products = pre ++ t :: post
          ∧ (∀ t' ∈ pre, net.get t' (s * typeSwitch t') = none)
          ∧ net.get t (s * typeSwitch t) = some product := by
  intro products
  induction products with
  | nil => left; intro t ht; cases ht
  | cons t rest ih =>
    cases hget : net.get t (s * typeSwitch t) with
    | some product =>
      right
      refine ⟨[], t, rest, product, rfl, ?_, hget⟩
      intro x hx
      cases hx
    | none =>
      rcases ih with hnone | ⟨pre, t2, post, product, h1, h2, h3⟩
      · left
        intro t' ht'
        rcases List.mem_cons.1 ht' with rfl | ht'
        · exact hget
        · exact hnone t' ht'
      · right
        refine ⟨t :: pre, t2, post, product, by rw [h1]; rfl, ?_, h3⟩
        intro t' ht'
        rcases List.mem_cons.1 ht' with rfl | ht'
        · exact hget
        · exact h2 t' ht'

section ConnectivityLemmas

variable {K : Type} [Field K]

/-- The product loop on a nonzero signed size: no call when no accepted type
has a reactant. -/
theorem productLoop_none (net : AlloyClusterReactionNetwork K) (c1 c2 : Reactant K)
    (s : Int) (hs : s ≠ 0) :
    ∀ products : List ReactantType,
      (∀ t ∈ products, net.get t (s * typeSwitch t) = none) →
      productLoop net c1 c2 s products = [] := by
  intro products
  induction products with
  | nil => intro _; rfl
  | cons t rest ih =>
    intro h
    have ht := h t (List.mem_cons_self _ _)
    simp only [productLoop, hs, if_false, ht]
    exact ih (fun t' ht' => h t' (List.mem_cons_of_mem _ ht'))

/-- The product loop on a nonzero signed size: the first accepted type that
has a reactant decides. -/
theorem productLoop_first (net : AlloyClusterReactionNetwork K) (c1 c2 : Reactant K)
    (s : Int) (hs : s ≠ 0) (t : ReactantType) (product : Reactant K)
    (post : List ReactantType) (ht : net.get t (s * typeSwitch t) = some product) :
    ∀ pre : List ReactantType,
      (∀ t' ∈ pre, net.get t' (s * typeSwitch t') = none) →
      productLoop net c1 c2 s (pre ++ t :: post)
        = [ConnectivityCall.participateIn c1 (ProductionReaction.new c1 c2),
           ConnectivityCall.participateIn c2 (ProductionReaction.new c1 c2),
           ConnectivityCall.resultFrom product (ProductionReaction.new c1 c2)] := by
  intro pre
  induction pre with
  | nil => intro _; simp only [List.nil_append, productLoop, hs, if_false, ht]
  | cons t' pre ih =>
    intro h
    have h' := h t' (List.mem_cons_self _ _)
    simp only [List.cons_append, productLoop, hs, if_false, h']
    exact ih (fun x hx => h x (List.mem_cons_of_mem _ hx))

end ConnectivityLemmas

section ForwardLemmas

variable {K : Type} [Field K] [DecidableEq K]

theorem forwardPair_pass (net : AlloyClusterReactionNetwork K) (fr : ForwardReaction)
    (c1 c2 : Reactant K)
    (h1 : ¬(c1.type = c2.type ∧ c2.size > c1.size))
    (h2 : ¬(c1.diffusionFactor = 0 ∧ c2.diffusionFactor = 0)) :
    forwardPair net fr c1 c2
      = productLoop net c1 c2
          (c1.size * typeSwitch c1.type + c2.size * typeSwitch c2.type) fr.products := by
  simp only [forwardPair, h1, h2, if_false]

theorem forwardPair_ne_nil (net : AlloyClusterReactionNetwork K) (fr : ForwardReaction)
    (c1 c2 : Reactant K) (h : forwardPair net fr c1 c2 ≠ []) :
    ¬(c1.type = c2.type ∧ c2.size > c1.size)
    ∧ ¬(c1.diffusionFactor = 0 ∧ c2.diffusionFactor = 0) := by
  constructor
  · intro h1
    exact h (by simp only [forwardPair, h1, and_self, if_true])
  · intro h2
    apply h
    unfold forwardPair
    split
    · rfl
    · simp only [h2, and_self, if_true]

end ForwardLemmas

section ConnectivityLemmasBis

variable {K : Type} [Field K]

/-- Every call of the product loop passes the reaction of the pair. -/
theorem productLoop_reaction (net : AlloyClusterReactionNetwork K) (c1 c2 : Reactant K)
    (s : Int) :
    ∀ (products : List ReactantType) (call : ConnectivityCall K),
      call ∈ productLoop net c1 c2 s products →
      (∃ c, call = ConnectivityCall.participateIn c (ProductionReaction.new c1 c2))
      ∨ (∃ c, call = ConnectivityCall.resultFrom c (ProductionReaction.new c1 c2)) := by
  intro products
  induction products with
  | nil => intro call h; cases h
  | cons t rest ih =>
    intro call h
    by_cases hs : s = 0
    · simp only [productLoop, hs, if_true, List.mem_cons, List.mem_singleton,
        List.not_mem_nil, or_false] at h
      rcases h with rfl | rfl
      · exact Or.inl ⟨_, rfl⟩
      · exact Or.inl ⟨_, rfl⟩
    · cases hget : net.get t (s * typeSwitch t) with
      | some product =>
        simp only [productLoop, hs, if_false, hget, List.mem_cons, List.mem_singleton,
          List.not_mem_nil, or_false] at h
        rcases h with rfl | rfl | rfl
        · exact Or.inl ⟨_, rfl⟩
        · exact Or.inl ⟨_, rfl⟩
        · exact Or.inr ⟨_, rfl⟩
      | none =>
        simp only [productLoop, hs, if_false, hget] at h
        exact ih call h

end ConnectivityLemmasBis

section BackwardLemmas

variable {K : Type} [Field K]

theorem backwardProductLoop_none (net : AlloyClusterReactionNetwork K)
    (parentCluster monomer : Reactant K) (s : Int) :
    ∀ products : List ReactantType,
      (∀ t ∈ products, net.get t (s * typeSwitch t) = none) →
      backwardProductLoop net parentCluster monomer s products = [] := by
  intro products
  induction products with
  | nil => intro _; rfl
  | cons t rest ih =>
    intro h
    have ht := h t (List.mem_cons_self _ _)
    simp only [backwardProductLoop, ht]
    exact ih (fun x hx => h x (List.mem_cons_of_mem _ hx))

theorem backwardProductLoop_first (net : AlloyClusterReactionNetwork K)
    (parentCluster monomer : Reactant K) (s : Int) (t : ReactantType)
    (product : Reactant K) (post : List ReactantType)
    (ht : net.get t (s * typeSwitch t) = some product) :
    ∀ pre : List ReactantType,
      (∀ x ∈ pre, net.get x (s * typeSwitch x) = none) →
      backwardProductLoop net parentCluster monomer s (pre ++ t :: post)
        = [ConnectivityCall.participateInDissociation monomer
             (DissociationReaction.new parentCluster monomer product),
           ConnectivityCall.participateInDissociation product
             (DissociationReaction.new parentCluster monomer product),
           ConnectivityCall.emitFrom parentCluster
             (DissociationReaction.new parentCluster monomer product)] := by
  intro pre
  induction pre with
  | nil => intro _; simp only [List.nil_append, backwardProductLoop, ht]
  | cons x pre ih =>
    intro h
    have hx := h x (List.mem_cons_self _ _)
    simp only [List.cons_append, backwardProductLoop, hx]
    exact ih (fun y hy => h y (List.mem_cons_of_mem _ hy))

end BackwardLemmas

section ConnectivityClaims

variable {K : Type} [Field K] [DecidableEq K]

theorem mem_forwardPass (net : AlloyClusterReactionNetwork K)
    (forwardReactions : List ForwardReaction) (call : ConnectivityCall K) :
    call ∈ forwardPass net forwardReactions ↔
      ∃ fr ∈ forwardReactions, ∃ c1 ∈ net.getAll fr.firstReactant,
        ∃ c2 ∈ net.getAll fr.secondReactant, call ∈ forwardPair net fr c1 c2 := by
  simp only [forwardPass, List.mem_flatMap]

/-- C14: every call of the forward pass comes from an ordered pair
`(cluster1, cluster2)` of a template that is not a same-type pair with
`size(cluster2) > size(cluster1)` and whose members are not both of
diffusion factor 0, and it passes the production reaction of that pair;
consequently two clusters of one type and of different sizes give calls in
at most one of the two orders. -/
theorem forward_skip_rules (net : AlloyClusterReactionNetwork K)
    (forwardReactions : List ForwardReaction) (call : ConnectivityCall K)
    (hcall : call ∈ forwardPass net forwardReactions) :
    (∃ fr ∈ forwardReactions, ∃ c1 ∈ net.getAll fr.firstReactant,
        ∃ c2 ∈ net.getAll fr.secondReactant,
          call ∈ forwardPair net fr c1 c2
          ∧ ¬(c1.type = c2.type ∧ c2.size > c1.size)
          ∧ ¬(c1.diffusionFactor = 0 ∧ c2.diffusionFactor = 0)
          ∧ ((∃ c, call = ConnectivityCall.participateIn c (ProductionReaction.new c1 c2))
            ∨ (∃ c, call = ConnectivityCall.resultFrom c (ProductionReaction.new c1 c2))))
    ∧ (∀ (fr : ForwardReaction) (c1 c2 : Reactant K),
        c1.type = c2.type → c1.size ≠ c2.size →
          forwardPair net fr c1 c2 = [] ∨ forwardPair net fr c2 c1 = []) := by
  constructor
  · obtain ⟨fr, hfr, c1, h1, c2, h2, hmem⟩ := (mem_forwardPass net forwardReactions call).1 hcall
    have hne : forwardPair net fr c1 c2 ≠ [] := by
      intro h0
      rw [h0] at hmem
      cases hmem
    have hskip := forwardPair_ne_nil net fr c1 c2 hne
    refine ⟨fr, hfr, c1, h1, c2, h2, hmem, hskip.1, hskip.2, ?_⟩
    rw [forwardPair_pass net fr c1 c2 hskip.1 hskip.2] at hmem
    exact productLoop_reaction net c1 c2 _ _ call hmem
  · intro fr c1 c2 ht hs
    rcases lt_or_gt_of_ne hs with hlt | hgt
    · left
      simp only [forwardPair, ht, gt_iff_lt, hlt, and_self, if_true]
    · right
      simp only [forwardPair, ht, gt_iff_lt, hgt, and_self, if_true]

/-- C15, amended (restricted to the templates that list at least one
product type): for such a forward template and a pair of its reactants that
passes the skip rules and whose signed sizes sum to zero, exactly one
production reaction of the pair is registered: both reactants participate in
it, and no reactant records it as a result.  The zero test is the first
statement of the loop over the accepted product types, which is why the
template has to list one. -/
theorem pure_annihilation (net : AlloyClusterReactionNetwork K) (fr : ForwardReaction)
    (c1 c2 : Reactant K)
    (h1 : ¬(c1.type = c2.type ∧ c2.size > c1.size))
    (h2 : ¬(c1.diffusionFactor = 0 ∧ c2.diffusionFactor = 0))
    (hsum : c1.size * typeSwitch c1.type + c2.size * typeSwitch c2.type = 0)
    (hproducts : fr.products ≠ []) :
    forwardPair net fr c1 c2
        = [ConnectivityCall.participateIn c1 (ProductionReaction.new c1 c2),
           ConnectivityCall.participateIn c2 (ProductionReaction.new c1 c2)]
    ∧ (ProductionReaction.new c1 c2).first = c1
    ∧ (ProductionReaction.new c1 c2).second = c2
    ∧ ∀ (c : Reactant K) (r : ProductionReaction K),
        ConnectivityCall.resultFrom c r ∉ forwardPair net fr c1 c2 := by
  have hpair : forwardPair net fr c1 c2
      = [ConnectivityCall.participateIn c1 (ProductionReaction.new c1 c2),
         ConnectivityCall.participateIn c2 (ProductionReaction.new c1 c2)] := by
    rw [forwardPair_pass net fr c1 c2 h1 h2, hsum]
    cases hp : fr.products with
    | nil => exact absurd hp hproducts
    | cons t rest => simp only [productLoop, if_true]
  refine ⟨hpair, rfl, rfl, ?_⟩
  intro c r hmem
  rw [hpair] at hmem
  simp only [List.mem_cons, List.mem_singleton, List.not_mem_nil, or_false,
    reduceCtorEq, or_self] at hmem

/-- C16: for a pair that passes the skip rules with nonzero signed sum `s`,
when no accepted product type `t` of the template has a reactant of size
`s * typeSwitch t`, the pass makes no call for the pair: no reaction, no
participation and no result is recorded, and the (total) function fails
nowhere. -/
theorem unresolved_products_dropped (net : AlloyClusterReactionNetwork K)
    (fr : ForwardReaction) (c1 c2 : Reactant K)
    (h1 : ¬(c1.type = c2.type ∧ c2.size > c1.size))
    (h2 : ¬(c1.diffusionFactor = 0 ∧ c2.diffusionFactor = 0))
    (hs : c1.size * typeSwitch c1.type + c2.size * typeSwitch c2.type ≠ 0)
    (hnone : ∀ t ∈ fr.products,
      net.get t ((c1.size * typeSwitch c1.type + c2.size * typeSwitch c2.type)
        * typeSwitch t) = none) :
    forwardPair net fr c1 c2 = [] := by
  rw [forwardPair_pass net fr c1 c2 h1 h2]
  exact productLoop_none net c1 c2 _ hs fr.products hnone

/-- C17: when the forward pass records a product for the pair
`(cluster1, cluster2)`, the product is the reactant found for the first
accepted type `t`, in template order, for which `get t (s * typeSwitch t)`
exists; the calls of the pair are the two participations and the one
`resultFrom` of the single reaction of the pair; and the signed size of the
product is the sum of the signed sizes of the pair, `typeSwitch` being -1
for V, Void and Faulted and +1 for every other type. -/
theorem resolved_products_conserve (net : AlloyClusterReactionNetwork K)
    (fr : ForwardReaction) (c1 c2 product : Reactant K) (reaction : ProductionReaction K)
    (hfound : ConnectivityCall.resultFrom product reaction ∈ forwardPair net fr c1 c2) :
    (∃ pre t post, fr.products = pre ++ t :: post
        ∧ (∀ x ∈ pre, net.get x ((c1.size * typeSwitch c1.type
              + c2.size * typeSwitch c2.type) * typeSwitch x) = none)
        ∧ net.get t ((c1.size * typeSwitch c1.type + c2.size * typeSwitch c2.type)
              * typeSwitch t) = some product
        ∧ product.type = t)
    ∧ reaction = ProductionReaction.new c1 c2
    ∧ forwardPair net fr c1 c2
        = [ConnectivityCall.participateIn c1 (ProductionReaction.new c1 c2),
           ConnectivityCall.participateIn c2 (ProductionReaction.new c1 c2),
           ConnectivityCall.resultFrom product (ProductionReaction.new c1 c2)]
    ∧ typeSwitch product.type * product.size
        = typeSwitch c1.type * c1.size + typeSwitch c2.type * c2.size
    ∧ (∀ t : ReactantType, typeSwitch t
        = if t = ReactantType.V ∨ t = ReactantType.Void ∨ t = ReactantType.Faulted
          then -1 else 1) := by
  have hne : forwardPair net fr c1 c2 ≠ [] := by
    intro h0
    rw [h0] at hfound
    cases hfound
  have hskip := forwardPair_ne_nil net fr c1 c2 hne
  have hpair := forwardPair_pass net fr c1 c2 hskip.1 hskip.2
  rw [hpair] at hfound hne
  generalize hsdef : c1.size * typeSwitch c1.type + c2.size * typeSwitch c2.type = s
    at hfound hne hpair
  have hs : s ≠ 0 := by
    intro h0
    rw [h0] at hfound
    cases hp : fr.products with
    | nil => rw [hp] at hfound; cases hfound
    | cons t rest =>
      rw [hp] at hfound
      simp only [productLoop, if_true, List.mem_cons, List.mem_singleton,
        List.not_mem_nil, or_false, reduceCtorEq, or_self] at hfound
  rcases get_first_cases net s fr.products with hnone | ⟨pre, t, post, p, hsplit, hpre, hget⟩
  · exact absurd (productLoop_none net c1 c2 s hs fr.products hnone) hne
  · have hloop := productLoop_first net c1 c2 s hs t p post hget pre hpre
    rw [← hsplit] at hloop
    rw [hloop] at hfound
    simp only [List.mem_cons, List.mem_singleton, List.not_mem_nil, or_false,
      reduceCtorEq, false_or, ConnectivityCall.resultFrom.injEq] at hfound
    obtain ⟨hp, hr⟩ := hfound
    subst hp
    have hprod := get_some net t (s * typeSwitch t) product hget
    refine ⟨⟨pre, t, post, hsplit, hpre, hget, hprod.2.1⟩, hr, ?_, ?_, fun t => rfl⟩
    · rw [hpair, hloop]
    · rw [hprod.2.1, hprod.2.2, ← hsdef]
      have hsq := typeSwitch_sq t
      calc typeSwitch t * ((c1.size * typeSwitch c1.type + c2.size * typeSwitch c2.type)
              * typeSwitch t)
          = (c1.size * typeSwitch c1.type + c2.size * typeSwitch c2.type)
              * (typeSwitch t * typeSwitch t) := by ring
        _ = typeSwitch c1.type * c1.size + typeSwitch c2.type * c2.size := by
              rw [hsq]; ring

end ConnectivityClaims

section BackwardClaims

variable {K : Type} [Field K]

/-- C18: a backward template whose size-1 monomer is absent yields no call;
when the monomer exists the template runs over the parents of its parent
type, and for a parent a dissociation is built iff some accepted product
type `t` has a reactant of size
`(signed(parent) - signed(monomer)) * typeSwitch t`; the first such type is
used, monomer and product record participation, the parent records the
emission, and the reverse reaction is the production reaction of
`(monomer, product)`. -/
theorem backward_pass (net : AlloyClusterReactionNetwork K) (br : BackwardReaction)
    (parentCluster : Reactant K) :
    (net.get br.monomer 1 = none → backwardTemplate net br = [])
    ∧ (∀ monomer : Reactant K, net.get br.monomer 1 = some monomer →
        backwardTemplate net br
            = (net.getAll br.parent).flatMap (backwardParent net br monomer)
        ∧ (backwardParent net br monomer parentCluster ≠ [] ↔
            ∃ t ∈ br.products, ∃ product,
              net.get t ((parentCluster.size * typeSwitch parentCluster.type
                - monomer.size * typeSwitch monomer.type) * typeSwitch t) = some product)
        ∧ (∀ pre t post product, br.products = pre ++ t :: post →
            (∀ x ∈ pre, net.get x ((parentCluster.size * typeSwitch parentCluster.type
                - monomer.size * typeSwitch monomer.type) * typeSwitch x) = none) →
            net.get t ((parentCluster.size * typeSwitch parentCluster.type
                - monomer.size * typeSwitch monomer.type) * typeSwitch t) = some product →
            backwardParent net br monomer parentCluster
              = [ConnectivityCall.participateInDissociation monomer
                   (DissociationReaction.new parentCluster monomer product),
                 ConnectivityCall.participateInDissociation product
                   (DissociationReaction.new parentCluster monomer product),
                 ConnectivityCall.emitFrom parentCluster
                   (DissociationReaction.new parentCluster monomer product)]))
    ∧ (∀ monomer product : Reactant K,
        (DissociationReaction.new parentCluster monomer product).dissociating = parentCluster
        ∧ (DissociationReaction.new parentCluster monomer product).first = monomer
        ∧ (DissociationReaction.new parentCluster monomer product).second = product
        ∧ (DissociationReaction.new parentCluster monomer product).reverseReaction
            = ProductionReaction.new monomer product
        ∧ (ProductionReaction.new monomer product).first = monomer
        ∧ (ProductionReaction.new monomer product).second = product) := by
  refine ⟨?_, ?_, fun _ _ => ⟨rfl, rfl, rfl, rfl, rfl, rfl⟩⟩
  · intro h
    simp only [backwardTemplate, h]
  · intro monomer hm
    refine ⟨by simp only [backwardTemplate, hm], ?_, ?_⟩
    · constructor
      · intro hne
        rcases get_first_cases net (parentCluster.size * typeSwitch parentCluster.type
            - monomer.size * typeSwitch monomer.type) br.products with
          hnone | ⟨pre, t, post, p, hsplit, _, hget⟩
        · exact absurd (backwardProductLoop_none net parentCluster monomer _ _ hnone) hne
        · exact ⟨t, by rw [hsplit]; exact List.mem_append_right _ (List.mem_cons_self _ _),
            p, hget⟩
      · rintro ⟨t, ht, p, hget⟩ h0
        rcases get_first_cases net (parentCluster.size * typeSwitch parentCluster.type
            - monomer.size * typeSwitch monomer.type) br.products with
          hnone | ⟨pre, t2, post, p2, hsplit, hpre, hget2⟩
        · rw [hnone t ht] at hget
          cases hget
        · have hloop := backwardProductLoop_first net parentCluster monomer _ t2 p2 post
            hget2 pre hpre
          rw [← hsplit] at hloop
          unfold backwardParent at h0
          rw [hloop] at h0
          cases h0
    · intro pre t post product hsplit hpre hget
      unfold backwardParent
      rw [hsplit]
      exact backwardProductLoop_first net parentCluster monomer _ t product post hget pre hpre

end BackwardClaims

theorem sample_get_void2 :
    (connectivityNetwork ℚ).get ReactantType.Void 2
      = some { sampleImmobile ℚ with size := 2 } := rfl

theorem sample_get_void3 :
    (connectivityNetwork ℚ).get ReactantType.Void (-3 * typeSwitch ReactantType.Void)
      = some (sampleImmobile ℚ) := by
  have h : -3 * typeSwitch ReactantType.Void = 3 := by decide
  rw [h]
  rfl

/-- C14 exercised on the network `V_1, I_1, Void_2, Void_3` with the
template `V + Void -> Faulted | Void`. -/
theorem forward_skip_rules_witness :
    ConnectivityCall.participateIn (sampleVacancy ℚ)
        (ProductionReaction.new (sampleVacancy ℚ) { sampleImmobile ℚ with size := 2 })
      ∈ forwardPass (connectivityNetwork ℚ) [sampleForward]
    ∧ ∀ (fr : ForwardReaction) (c1 c2 : Reactant ℚ),
        c1.type = c2.type → c1.size ≠ c2.size →
          forwardPair (connectivityNetwork ℚ) fr c1 c2 = []
          ∨ forwardPair (connectivityNetwork ℚ) fr c2 c1 = [] :=
  have h : ConnectivityCall.participateIn (sampleVacancy ℚ)
        (ProductionReaction.new (sampleVacancy ℚ) { sampleImmobile ℚ with size := 2 })
      ∈ forwardPass (connectivityNetwork ℚ) [sampleForward] := by
    rw [mem_forwardPass]
    refine ⟨sampleForward, List.mem_singleton_self _, sampleVacancy ℚ, ?_,
      { sampleImmobile ℚ with size := 2 }, ?_, ?_⟩
    · simp [AlloyClusterReactionNetwork.getAll, connectivityNetwork, sampleForward,
        sampleVacancy, sampleInterstitial, sampleImmobile]
    · simp [AlloyClusterReactionNetwork.getAll, connectivityNetwork, sampleForward,
        sampleVacancy, sampleInterstitial, sampleImmobile]
    · rw [forwardPair_pass _ _ _ _ (by simp [sampleVacancy, sampleImmobile])
        (by simp [sampleVacancy, sampleImmobile])]
      have h3 := productLoop_first (connectivityNetwork ℚ) (sampleVacancy ℚ)
        { sampleImmobile ℚ with size := 2 } (-3) (by decide) ReactantType.Void
        (sampleImmobile ℚ) [] sample_get_void3 [ReactantType.Faulted]
        (by intro x hx; rw [List.mem_singleton] at hx; subst hx; rfl)
      have hs : (sampleVacancy ℚ).size * typeSwitch (sampleVacancy ℚ).type
          + ({ sampleImmobile ℚ with size := 2 } : Reactant ℚ).size
            * typeSwitch ({ sampleImmobile ℚ with size := 2 } : Reactant ℚ).type = -3 := by
        decide
      rw [hs]
      show _ ∈ productLoop _ _ _ _ ([ReactantType.Faulted] ++ [ReactantType.Void])
      rw [h3]
      exact List.mem_cons_self _ _
  ⟨h, (forward_skip_rules (connectivityNetwork ℚ) [sampleForward] _ h).2⟩

theorem forwardPair_no_products {K : Type} [Field K] [DecidableEq K]
    (net : AlloyClusterReactionNetwork K) (fr : ForwardReaction) (c1 c2 : Reactant K)
    (h : fr.products = []) : forwardPair net fr c1 c2 = [] := by
  unfold forwardPair
  split
  · rfl
  · split
    · rfl
    · rw [h]; rfl

theorem sample_sum_annihilation :
    (sampleVacancy ℚ).size * typeSwitch (sampleVacancy ℚ).type
      + (sampleInterstitial ℚ).size * typeSwitch (sampleInterstitial ℚ).type = 0 := by
  decide

theorem sample_mobile (c : Reactant ℚ) :
    ¬((sampleVacancy ℚ).diffusionFactor = 0 ∧ c.diffusionFactor = 0) := by
  simp [sampleVacancy]

/-- C15 as stated fails on a forward template without any product type.
The zero test sits inside the loop over the product types: on the network
`V_1, I_1, Void_2, Void_3` the pair `(V_1, I_1)` of the template `V + I`
passes the skip rules and its signed sizes sum to zero, and yet no call is
made for it, so no production reaction is registered. -/
theorem annihilation_needs_product_type :
    sampleVacancy ℚ ∈ (connectivityNetwork ℚ).getAll ReactantType.V
    ∧ sampleInterstitial ℚ ∈ (connectivityNetwork ℚ).getAll ReactantType.I
    ∧ ¬((sampleVacancy ℚ).type = (sampleInterstitial ℚ).type
        ∧ (sampleInterstitial ℚ).size > (sampleVacancy ℚ).size)
    ∧ ¬((sampleVacancy ℚ).diffusionFactor = 0 ∧ (sampleInterstitial ℚ).diffusionFactor = 0)
    ∧ (sampleVacancy ℚ).size * typeSwitch (sampleVacancy ℚ).type
        + (sampleInterstitial ℚ).size * typeSwitch (sampleInterstitial ℚ).type = 0
    ∧ forwardPair (connectivityNetwork ℚ)
        { firstReactant := ReactantType.V, secondReactant := ReactantType.I, products := [] }
        (sampleVacancy ℚ) (sampleInterstitial ℚ) = []
    ∧ forwardPass (connectivityNetwork ℚ)
        [{ firstReactant := ReactantType.V, secondReactant := ReactantType.I,
           products := [] }] = [] := by
  refine ⟨?_, ?_, ?_, sample_mobile _, sample_sum_annihilation,
    forwardPair_no_products _ _ _ _ rfl, ?_⟩
  · simp [AlloyClusterReactionNetwork.getAll, connectivityNetwork, sampleVacancy,
      sampleInterstitial, sampleImmobile]
  · simp [AlloyClusterReactionNetwork.getAll, connectivityNetwork, sampleVacancy,
      sampleInterstitial, sampleImmobile]
  · simp [sampleVacancy, sampleInterstitial]
  · simp only [forwardPass, List.flatMap_cons, List.flatMap_nil, List.append_nil,
      List.flatMap_eq_nil_iff]
    intro c1 _ c2 _
    exact forwardPair_no_products _ _ _ _ rfl

/-- C15 (amended) exercised on the pair `(V_1, I_1)` with the template
`V + I -> V | I`. -/
theorem pure_annihilation_witness :
    forwardPair (connectivityNetwork ℚ)
        { firstReactant := ReactantType.V, secondReactant := ReactantType.I,
          products := [ReactantType.V, ReactantType.I] }
        (sampleVacancy ℚ) (sampleInterstitial ℚ)
      = [ConnectivityCall.participateIn (sampleVacancy ℚ)
           (ProductionReaction.new (sampleVacancy ℚ) (sampleInterstitial ℚ)),
         ConnectivityCall.participateIn (sampleInterstitial ℚ)
           (ProductionReaction.new (sampleVacancy ℚ) (sampleInterstitial ℚ))] :=
  (pure_annihilation (connectivityNetwork ℚ)
    { firstReactant := ReactantType.V, secondReactant := ReactantType.I,
      products := [ReactantType.V, ReactantType.I] }
    (sampleVacancy ℚ) (sampleInterstitial ℚ)
    (by simp [sampleVacancy, sampleInterstitial]) (sample_mobile _)
    sample_sum_annihilation (by simp)).1

/-- C16 exercised on the pair `(V_1, Void_3)`: neither `Faulted_4` nor
`Void_4` exists. -/
theorem unresolved_products_dropped_witness :
    forwardPair (connectivityNetwork ℚ) sampleForward (sampleVacancy ℚ) (sampleImmobile ℚ)
      = [] :=
  unresolved_products_dropped (connectivityNetwork ℚ) sampleForward (sampleVacancy ℚ)
    (sampleImmobile ℚ) (by simp [sampleVacancy, sampleImmobile]) (sample_mobile _)
    (by decide)
    (by
      have hs : (sampleVacancy ℚ).size * typeSwitch (sampleVacancy ℚ).type
          + (sampleImmobile ℚ).size * typeSwitch (sampleImmobile ℚ).type = -4 := by decide
      rw [hs]
      intro t ht
      simp only [sampleForward, List.mem_cons, List.mem_singleton, List.not_mem_nil,
        or_false] at ht
      rcases ht with rfl | rfl
      · have h : -4 * typeSwitch ReactantType.Faulted = 4 := by decide
        rw [h]; rfl
      · have h : -4 * typeSwitch ReactantType.Void = 4 := by decide
        rw [h]; rfl)

theorem sample_forward_calls :
    forwardPair (connectivityNetwork ℚ) sampleForward (sampleVacancy ℚ)
        { sampleImmobile ℚ with size := 2 }
      = [ConnectivityCall.participateIn (sampleVacancy ℚ)
           (ProductionReaction.new (sampleVacancy ℚ) { sampleImmobile ℚ with size := 2 }),
         ConnectivityCall.participateIn { sampleImmobile ℚ with size := 2 }
           (ProductionReaction.new (sampleVacancy ℚ) { sampleImmobile ℚ with size := 2 }),
         ConnectivityCall.resultFrom (sampleImmobile ℚ)
           (ProductionReaction.new (sampleVacancy ℚ)
             { sampleImmobile ℚ with size := 2 })] := by
  rw [forwardPair_pass _ _ _ _ (by simp [sampleVacancy, sampleImmobile]) (sample_mobile _)]
  have hs : (sampleVacancy ℚ).size * typeSwitch (sampleVacancy ℚ).type
      + ({ sampleImmobile ℚ with size := 2 } : Reactant ℚ).size
        * typeSwitch ({ sampleImmobile ℚ with size := 2 } : Reactant ℚ).type = -3 := by
    decide
  rw [hs]
  exact productLoop_first (connectivityNetwork ℚ) (sampleVacancy ℚ)
    { sampleImmobile ℚ with size := 2 } (-3) (by decide) ReactantType.Void
    (sampleImmobile ℚ) [] sample_get_void3 [ReactantType.Faulted]
    (by intro x hx; rw [List.mem_singleton] at hx; subst hx; rfl)

/-- C17 exercised on the pair `(V_1, Void_2)`, whose product is `Void_3`:
`(-1) * 3 = (-1) * 1 + (-1) * 2`. -/
theorem resolved_products_conserve_witness :
    ConnectivityCall.resultFrom (sampleImmobile ℚ)
        (ProductionReaction.new (sampleVacancy ℚ) { sampleImmobile ℚ with size := 2 })
      ∈ forwardPair (connectivityNetwork ℚ) sampleForward (sampleVacancy ℚ)
          { sampleImmobile ℚ with size := 2 }
    ∧ typeSwitch (sampleImmobile ℚ).type * (sampleImmobile ℚ).size
        = typeSwitch (sampleVacancy ℚ).type * (sampleVacancy ℚ).size
          + typeSwitch ({ sampleImmobile ℚ with size := 2 } : Reactant ℚ).type
            * ({ sampleImmobile ℚ with size := 2 } : Reactant ℚ).size :=
  have h : ConnectivityCall.resultFrom (sampleImmobile ℚ)
        (ProductionReaction.new (sampleVacancy ℚ) { sampleImmobile ℚ with size := 2 })
      ∈ forwardPair (connectivityNetwork ℚ) sampleForward (sampleVacancy ℚ)
          { sampleImmobile ℚ with size := 2 } := by
    rw [sample_forward_calls]
    exact List.mem_cons_of_mem _ (List.mem_cons_of_mem _ (List.mem_cons_self _ _))
  ⟨h, (resolved_products_conserve (connectivityNetwork ℚ) sampleForward (sampleVacancy ℚ)
    { sampleImmobile ℚ with size := 2 } (sampleImmobile ℚ) _ h).2.2.2.1⟩

/-- C18 exercised on the template `Void -> V + (Faulted | Void)` and the
parent `Void_3`: the monomer `V_1` exists, `Faulted_2` does not, and the
product is `Void_2`. -/
theorem backward_pass_witness :
    (connectivityNetwork ℚ).get sampleBackward.monomer 1 = some (sampleVacancy ℚ)
    ∧ backwardParent (connectivityNetwork ℚ) sampleBackward (sampleVacancy ℚ)
          (sampleImmobile ℚ)
        = [ConnectivityCall.participateInDissociation (sampleVacancy ℚ)
             (DissociationReaction.new (sampleImmobile ℚ) (sampleVacancy ℚ)
               { sampleImmobile ℚ with size := 2 }),
           ConnectivityCall.participateInDissociation { sampleImmobile ℚ with size := 2 }
             (DissociationReaction.new (sampleImmobile ℚ) (sampleVacancy ℚ)
               { sampleImmobile ℚ with size := 2 }),
           ConnectivityCall.emitFrom (sampleImmobile ℚ)
             (DissociationReaction.new (sampleImmobile ℚ) (sampleVacancy ℚ)
               { sampleImmobile ℚ with size := 2 })] :=
  have hs : (sampleImmobile ℚ).size * typeSwitch (sampleImmobile ℚ).type
      - (sampleVacancy ℚ).size * typeSwitch (sampleVacancy ℚ).type = -2 := by decide
  ⟨rfl, ((backward_pass (connectivityNetwork ℚ) sampleBackward (sampleImmobile ℚ)).2.1
    (sampleVacancy ℚ) rfl).2.2 [ReactantType.Faulted] ReactantType.Void []
    { sampleImmobile ℚ with size := 2 } rfl
    (by
      rw [hs]
      intro x hx
      rw [List.mem_singleton] at hx
      subst hx
      rfl)
    (by
      rw [hs]
      have h : -2 * typeSwitch ReactantType.Void = 2 := by decide
      rw [h]
      exact sample_get_void2)⟩

section AlloyArrayLemmas

variable {K : Type}

theorem updateConcentrationStep_spec (c : Int → K) (r : Reactant K) :
    (updateConcentrationStep c r).type = r.type
    ∧ (updateConcentrationStep c r).id = r.id
    ∧ (updateConcentrationStep c r).momId = r.momId
    ∧ (updateConcentrationStep c r).size = r.size
    ∧ (updateConcentrationStep c r).concentration = c (r.id - 1)
    ∧ (r.type.isSuper = true →
        (updateConcentrationStep c r).zerothMoment = c (r.id - 1)
        ∧ (updateConcentrationStep c r).moment = c (r.momId - 1))
    ∧ (r.type.isSuper = false →
        (updateConcentrationStep c r).zerothMoment = r.zerothMoment
        ∧ (updateConcentrationStep c r).moment = r.moment) := by
  unfold updateConcentrationStep
  cases ht : r.type <;> simp [ReactantType.isSuper, ht]

/-- C19: after `updateConcentrationsFromArray` on the array `c`, every
reactant has concentration `c[id - 1]`, every reactant of a super type has
moreover zeroth moment `c[id - 1]` and moment `c[momentId - 1]`; types, ids
and moment ids are those of before, and the array is unchanged. -/
theorem update_concentrations_from_array (net : AlloyClusterReactionNetwork K)
    (c : Int → K) :
    (∀ r ∈ (net.updateConcentrationsFromArray c).1.allReactants,
        r.concentration = c (r.id - 1)
        ∧ ((r.type = ReactantType.VoidSuper ∨ r.type = ReactantType.FaultedSuper
            ∨ r.type = ReactantType.FrankSuper ∨ r.type = ReactantType.PerfectSuper) →
          r.zerothMoment = c (r.id - 1) ∧ r.moment = c (r.momId - 1)))
    ∧ (net.updateConcentrationsFromArray c).1.allReactants.map
          (fun r => (r.type, r.id, r.momId, r.size))
        = net.allReactants.map (fun r => (r.type, r.id, r.momId, r.size))
    ∧ (net.updateConcentrationsFromArray c).2 = c := by
  refine ⟨?_, ?_, rfl⟩
  · intro r hr
    simp only [AlloyClusterReactionNetwork.updateConcentrationsFromArray,
      List.mem_map] at hr
    obtain ⟨r0, _, rfl⟩ := hr
    obtain ⟨h1, h2, h3, _, h5, h6, _⟩ := updateConcentrationStep_spec c r0
    rw [h1, h2, h3]
    refine ⟨h5, ?_⟩
    intro hsup
    apply h6
    rcases hsup with h | h | h | h <;> simp [ReactantType.isSuper, h]
  · simp only [AlloyClusterReactionNetwork.updateConcentrationsFromArray, List.map_map]
    apply List.map_congr_left
    intro r _
    obtain ⟨h1, h2, h3, h4, _⟩ := updateConcentrationStep_spec c r
    simp only [Function.comp, h1, h2, h3, h4]

end AlloyArrayLemmas

/-- The columns collected from a list of indices. -/
theorem fillColumn_foldl (connectivity : List Int) (id : Int) :
    ∀ (l : List Nat) (fm : Int → Option (List Int)) (acc : List Int),
      (l.foldl (fillColumnStep connectivity id) (fm, acc)).2
          = acc ++ (l.filter (fun j => decide (connectivity.getD j 0 = 1))).map
              (fun (j : Nat) => (j : Int))
      ∧ ((l.foldl (fillColumnStep connectivity id) (fm, acc)).1 id).getD []
          = (fm id).getD [] ++ (l.filter (fun j => decide (connectivity.getD j 0 = 1))).map
              (fun (j : Nat) => (j : Int))
      ∧ ((l.filter (fun j => decide (connectivity.getD j 0 = 1))) ≠ [] →
          ((l.foldl (fillColumnStep connectivity id) (fm, acc)).1 id).isSome = true)
      ∧ ∀ i, i ≠ id → (l.foldl (fillColumnStep connectivity id) (fm, acc)).1 i = fm i := by
  intro l
  induction l with
  | nil =>
    intro fm acc
    refine ⟨by simp, by simp, fun h => absurd rfl h, fun _ _ => rfl⟩
  | cons j rest ih =>
    intro fm acc
    by_cases hj : connectivity.getD j 0 = 1
    · have hstep : fillColumnStep connectivity id (fm, acc) j
          = (Function.update fm id (some ((fm id).getD [] ++ [(j : Int)])),
              acc ++ [(j : Int)]) := by
        simp only [fillColumnStep, hj, if_true]
      obtain ⟨i1, i2, i3, i4⟩ := ih (Function.update fm id
        (some ((fm id).getD [] ++ [(j : Int)]))) (acc ++ [(j : Int)])
      simp only [List.foldl_cons, hstep, List.filter_cons, hj, decide_True, if_true,
        List.map_cons]
      refine ⟨?_, ?_, ?_, ?_⟩
      · rw [i1]; simp
      · rw [i2]; simp
      · intro _
        by_cases hrest : rest.filter (fun j => decide (connectivity.getD j 0 = 1)) = []
        · have h2 := i2
          rw [hrest] at h2
          simp only [List.map_nil, List.append_nil, Function.update_same,
            Option.getD_some] at h2
          cases hopt : (List.foldl (fillColumnStep connectivity id)
              (Function.update fm id (some ((fm id).getD [] ++ [(j : Int)])),
                acc ++ [(j : Int)]) rest).1 id with
          | some v => rfl
          | none =>
            rw [hopt] at h2
            simp at h2
        · exact i3 hrest
      · intro i hi
        rw [i4 i hi, Function.update_noteq hi]
    · have hstep : fillColumnStep connectivity id (fm, acc) j = (fm, acc) := by
        simp only [fillColumnStep, hj, if_false]
      simp only [List.foldl_cons, hstep, List.filter_cons, hj, decide_False]
      exact ih fm acc

theorem fillRow_spec (connectivity : List Int) (id : Int) (maps : FillMaps) :
    (fillRow connectivity id maps).dFillMap id = some (connectedColumns connectivity)
    ∧ ((fillRow connectivity id maps).fillMap id).getD []
        = (maps.fillMap id).getD [] ++ connectedColumns connectivity
    ∧ (connectedColumns connectivity ≠ [] →
        ((fillRow connectivity id maps).fillMap id).isSome = true)
    ∧ ∀ i, i ≠ id → (fillRow connectivity id maps).fillMap i = maps.fillMap i
        ∧ (fillRow connectivity id maps).dFillMap i = maps.dFillMap i := by
  obtain ⟨h1, h2, h3, h4⟩ := fillColumn_foldl connectivity id
    (List.range connectivity.length) maps.fillMap []
  refine ⟨?_, ?_, ?_, ?_⟩
  · simp only [fillRow, Function.update_same, h1, List.nil_append, connectedColumns]
  · simp only [fillRow, h2, connectedColumns]
  · intro hne
    apply h3
    intro h0
    apply hne
    simp only [connectedColumns, h0, List.map_nil]
  · intro i hi
    exact ⟨h4 i hi, by simp only [fillRow, Function.update_noteq hi]⟩

/-- Rows written once: with pairwise different row ids, every row holds the
columns of its own connectivity, appended to what the fill map held. -/
theorem fillRows_foldl :
    ∀ (rows : List (List Int × Int)) (maps : FillMaps),
      (rows.map Prod.snd).Nodup →
      (∀ p ∈ rows,
        (rows.foldl (fun m p => fillRow p.1 p.2 m) maps).dFillMap p.2
            = some (connectedColumns p.1)
        ∧ ((rows.foldl (fun m p => fillRow p.1 p.2 m) maps).fillMap p.2).getD []
            = (maps.fillMap p.2).getD [] ++ connectedColumns p.1
        ∧ (connectedColumns p.1 ≠ [] →
            ((rows.foldl (fun m p => fillRow p.1 p.2 m) maps).fillMap p.2).isSome = true))
      ∧ ∀ i, i ∉ rows.map Prod.snd →
          (rows.foldl (fun m p => fillRow p.1 p.2 m) maps).fillMap i = maps.fillMap i
          ∧ (rows.foldl (fun m p => fillRow p.1 p.2 m) maps).dFillMap i
              = maps.dFillMap i := by
  intro rows
  induction rows with
  | nil =>
    intro maps _
    exact ⟨fun p hp => (by cases hp), fun _ _ => ⟨rfl, rfl⟩⟩
  | cons q rest ih =>
    intro maps hnd
    rw [List.map_cons, List.nodup_cons] at hnd
    obtain ⟨hq, hrest⟩ := hnd
    obtain ⟨ihin, ihout⟩ := ih (fillRow q.1 q.2 maps) hrest
    obtain ⟨f1, f2, f3, f4⟩ := fillRow_spec q.1 q.2 maps
    simp only [List.foldl_cons]
    constructor
    · intro p hp
      rcases List.mem_cons.1 hp with rfl | hp
      · obtain ⟨o1, o2⟩ := ihout p.2 hq
        rw [o1, o2]
        exact ⟨f1, f2, f3⟩
      · obtain ⟨i1, i2, i3⟩ := ihin p hp
        have hne : p.2 ≠ q.2 := by
          intro h
          apply hq
          rw [← h]
          exact List.mem_map_of_mem Prod.snd hp
        refine ⟨i1, ?_, i3⟩
        rw [i2, (f4 p.2 hne).1]
    · intro i hi
      rw [List.map_cons, List.mem_cons, not_or] at hi
      obtain ⟨o1, o2⟩ := ihout i hi.2
      rw [o1, o2]
      exact f4 i hi.1

theorem connectedColumns_spec (connectivity : List Int) :
    (connectedColumns connectivity).Pairwise (fun a b => a < b)
    ∧ (connectedColumns connectivity).Nodup
    ∧ ∀ j : Int, j ∈ connectedColumns connectivity ↔
        ∃ n : Nat, j = (n : Int) ∧ n < connectivity.length ∧ connectivity.getD n 0 = 1 := by
  have hp : (connectedColumns connectivity).Pairwise (fun a b => a < b) := by
    unfold connectedColumns
    rw [List.pairwise_map]
    apply List.Pairwise.filter
    exact (List.pairwise_lt_range connectivity.length).imp
      (fun h => Int.ofNat_lt.2 h)
  refine ⟨hp, hp.imp (fun h => ne_of_lt h), ?_⟩
  intro j
  simp only [connectedColumns, List.mem_map, List.mem_filter, List.mem_range,
    decide_eq_true_eq]
  constructor
  · rintro ⟨n, ⟨h1, h2⟩, rfl⟩
    exact ⟨n, rfl, h1, h2⟩
  · rintro ⟨n, rfl, h1, h2⟩
    exact ⟨n, ⟨h1, h2⟩, rfl⟩

section DiagonalFill

variable {K : Type}

theorem getDiagonalFill_rows (net : AlloyClusterReactionNetwork K) (maps : FillMaps) :
    net.getDiagonalFill maps
      = net.fillRows.foldl (fun m p => fillRow p.1 p.2 m) maps := by
  simp only [AlloyClusterReactionNetwork.getDiagonalFill,
    AlloyClusterReactionNetwork.fillRows, List.foldl_append, List.foldl_map,
    List.foldl_cons, List.foldl_nil, List.flatMap_cons, List.flatMap_nil, List.append_nil]

theorem mem_fillRows_id (net : AlloyClusterReactionNetwork K) (r : Reactant K)
    (hr : r ∈ net.allReactants) : (r.connectivity, r.id - 1) ∈ net.fillRows := by
  unfold AlloyClusterReactionNetwork.fillRows
  exact List.mem_append_left _ (List.mem_map_of_mem _ hr)

theorem mem_fillRows_momId (net : AlloyClusterReactionNetwork K) (r : Reactant K)
    (hr : r ∈ net.allReactants)
    (hsup : r.type = ReactantType.VoidSuper ∨ r.type = ReactantType.FaultedSuper
      ∨ r.type = ReactantType.FrankSuper ∨ r.type = ReactantType.PerfectSuper) :
    (r.connectivity, r.momId - 1) ∈ net.fillRows := by
  unfold AlloyClusterReactionNetwork.fillRows
  apply List.mem_append_right
  rw [List.mem_flatMap]
  refine ⟨r.type, ?_, ?_⟩
  · rcases hsup with h | h | h | h <;> simp [h]
  · apply List.mem_map_of_mem (fun r : Reactant K => (r.connectivity, r.momId - 1))
    simp only [AlloyClusterReactionNetwork.getAll, List.mem_filter, decide_True, and_true]
    exact hr

end DiagonalFill

theorem option_eq_of_getD {α : Type} (o : Option (List α)) (l : List α)
    (h1 : o.getD [] = l) (h2 : o.isSome = true) : o = some l := by
  cases o with
  | none => cases h2
  | some v => simpa using h1

section DiagonalFillClaim

variable {K : Type}

/-- C20: `getDiagonalFill` called with an empty fill map, on a network whose
row indices (`id - 1` of every reactant, `momentId - 1` of every super
reactant) are pairwise different, leaves in the row `id - 1` of every
reactant exactly the column indices `j` with connectivity entry 1, in
strictly increasing order and without repeats, leaves in the row
`momentId - 1` of every super reactant the same list built from that
reactant's connectivity, and stores the identical rows in `dFillMap`. -/
theorem diagonal_fill_rows (net : AlloyClusterReactionNetwork K) (maps : FillMaps)
    (hempty : ∀ i, maps.fillMap i = none)
    (hrows : (net.fillRows.map Prod.snd).Nodup) :
    (∀ r ∈ net.allReactants,
        ((net.getDiagonalFill maps).fillMap (r.id - 1)).getD []
            = connectedColumns r.connectivity
        ∧ (connectedColumns r.connectivity ≠ [] →
            (net.getDiagonalFill maps).fillMap (r.id - 1)
              = some (connectedColumns r.connectivity))
        ∧ (net.getDiagonalFill maps).dFillMap (r.id - 1)
            = some (connectedColumns r.connectivity))
    ∧ (∀ r ∈ net.allReactants,
        (r.type = ReactantType.VoidSuper ∨ r.type = ReactantType.FaultedSuper
          ∨ r.type = ReactantType.FrankSuper ∨ r.type = ReactantType.PerfectSuper) →
        ((net.getDiagonalFill maps).fillMap (r.momId - 1)).getD []
            = connectedColumns r.connectivity
        ∧ (connectedColumns r.connectivity ≠ [] →
            (net.getDiagonalFill maps).fillMap (r.momId - 1)
              = some (connectedColumns r.connectivity))
        ∧ (net.getDiagonalFill maps).dFillMap (r.momId - 1)
            = some (connectedColumns r.connectivity))
    ∧ (∀ connectivity : List Int,
        (connectedColumns connectivity).Pairwise (fun a b => a < b)
        ∧ (connectedColumns connectivity).Nodup
        ∧ ∀ j : Int, j ∈ connectedColumns connectivity ↔
            ∃ n : Nat, j = (n : Int) ∧ n < connectivity.length
              ∧ connectivity.getD n 0 = 1) := by
  obtain ⟨hin, _⟩ := fillRows_foldl net.fillRows maps hrows
  have key : ∀ p ∈ net.fillRows,
      ((net.getDiagonalFill maps).fillMap p.2).getD [] = connectedColumns p.1
      ∧ (connectedColumns p.1 ≠ [] →
          (net.getDiagonalFill maps).fillMap p.2 = some (connectedColumns p.1))
      ∧ (net.getDiagonalFill maps).dFillMap p.2 = some (connectedColumns p.1) := by
    intro p hp
    obtain ⟨h1, h2, h3⟩ := hin p hp
    rw [getDiagonalFill_rows]
    have h2b : ((net.fillRows.foldl (fun m p => fillRow p.1 p.2 m) maps).fillMap p.2).getD []
        = connectedColumns p.1 := by
      rw [h2, hempty]
      rfl
    exact ⟨h2b, fun hne => option_eq_of_getD _ _ h2b (h3 hne), h1⟩
  refine ⟨?_, ?_, connectedColumns_spec⟩
  · intro r hr
    exact key _ (mem_fillRows_id net r hr)
  · intro r hr hsup
    exact key _ (mem_fillRows_momId net r hr hsup)

end DiagonalFillClaim

section FillRowsNodup

variable {K : Type}

theorem superTypes_perm (l : List (Reactant K)) :
    List.Perm
      (l.filter (fun r => decide (r.type = ReactantType.PerfectSuper))
        ++ (l.filter (fun r => decide (r.type = ReactantType.FaultedSuper))
        ++ (l.filter (fun r => decide (r.type = ReactantType.FrankSuper))
        ++ l.filter (fun r => decide (r.type = ReactantType.VoidSuper)))))
      (l.filter (fun r => r.type.isSuper)) := by
  induction l with
  | nil => exact List.Perm.refl _
  | cons r rest ih =>
    cases ht : r.type
    case PerfectSuper =>
      simp only [List.filter_cons, ht, ReactantType.isSuper, decide_True, decide_False,
        Bool.or_true, Bool.or_false, Bool.false_or, if_true, if_false, List.cons_append,
        reduceCtorEq, Bool.false_eq_true]
      exact List.Perm.cons _ ih
    case FaultedSuper =>
      simp only [List.filter_cons, ht, ReactantType.isSuper, decide_True, decide_False,
        Bool.or_true, Bool.or_false, Bool.false_or, Bool.true_or, if_true, if_false,
        List.cons_append, reduceCtorEq, Bool.false_eq_true]
      exact List.perm_middle.trans (List.Perm.cons _ ih)
    case FrankSuper =>
      simp only [List.filter_cons, ht, ReactantType.isSuper, decide_True, decide_False,
        Bool.or_true, Bool.or_false, Bool.false_or, Bool.true_or, if_true, if_false,
        List.cons_append, reduceCtorEq, Bool.false_eq_true]
      rw [← List.append_assoc]
      refine List.perm_middle.trans (List.Perm.cons _ ?_)
      rw [List.append_assoc]
      exact ih
    case VoidSuper =>
      simp only [List.filter_cons, ht, ReactantType.isSuper, decide_True, decide_False,
        Bool.or_true, Bool.or_false, Bool.false_or, Bool.true_or, if_true, if_false,
        List.cons_append, reduceCtorEq, Bool.false_eq_true]
      rw [← List.append_assoc, ← List.append_assoc]
      refine List.perm_middle.trans (List.Perm.cons _ ?_)
      rw [List.append_assoc, List.append_assoc]
      exact ih
    all_goals
      simp only [List.filter_cons, ht, ReactantType.isSuper, decide_True, decide_False,
        Bool.or_true, Bool.or_false, Bool.false_or, if_true, if_false, List.cons_append,
        reduceCtorEq, Bool.false_eq_true]
      exact ih

theorem fillRows_ids (net : AlloyClusterReactionNetwork K) :
    net.fillRows.map Prod.snd
      = (net.allReactants.map (fun r => r.id)).map (fun i => i - 1)
        ++ ((net.allReactants.filter (fun r => decide (r.type = ReactantType.PerfectSuper))
          ++ (net.allReactants.filter (fun r => decide (r.type = ReactantType.FaultedSuper))
          ++ (net.allReactants.filter (fun r => decide (r.type = ReactantType.FrankSuper))
          ++ net.allReactants.filter
              (fun r => decide (r.type = ReactantType.VoidSuper))))).map
            (fun r => r.momId)).map (fun i => i - 1) := by
  simp only [AlloyClusterReactionNetwork.fillRows, AlloyClusterReactionNetwork.getAll,
    List.map_append, List.map_map, List.flatMap_cons, List.flatMap_nil, List.append_nil]
  rfl

/-- After `reinitializeNetwork` the rows written by `getDiagonalFill` are
pairwise different: the ids are `1, ..., N` and the moment ids of the super
reactants `N + 1, ..., N + M`. -/
theorem fillRows_nodup_after_reinit (net : AlloyClusterReactionNetwork K) :
    (net.reinitializeNetwork.fillRows.map Prod.snd).Nodup := by
  obtain ⟨a1, a2, a3, _⟩ := assignIds_spec net.allReactants 0
  obtain ⟨m1, _, _, m4⟩ :=
    assignMomentIds_spec (assignIds 0 net.allReactants).2 (assignIds 0 net.allReactants).1
  have hL : net.reinitializeNetwork.allReactants
      = (assignMomentIds (assignIds 0 net.allReactants).1
          (assignIds 0 net.allReactants).2).2 := rfl
  have hfilter : ((assignIds 0 net.allReactants).2.filter (fun r => r.type.isSuper)).length
      = (net.allReactants.filter (fun r => r.type.isSuper)).length := by
    have h := congrArg (fun l => (l.filter ReactantType.isSuper).length) a3
    simpa [List.filter_map, Function.comp] using h
  rw [fillRows_ids, hL]
  have hperm := ((superTypes_perm (assignMomentIds (assignIds 0 net.allReactants).1
      (assignIds 0 net.allReactants).2).2).map (fun r => r.momId)).map (fun i : Int => i - 1)
  refine ((List.Perm.append_left _ hperm).nodup_iff).2 ?_
  rw [m1, a2, m4, hfilter, a1]
  have hrange : (List.map (fun i : Int => i - 1)
        (List.map (fun (k : Nat) => (0 : Int) + 1 + (k : Int))
          (List.range net.allReactants.length))
      ++ List.map (fun i : Int => i - 1)
        (List.map (fun (k : Nat) => (0 : Int) + (net.allReactants.length : Int) + 1 + (k : Int))
          (List.range (net.allReactants.filter (fun r => r.type.isSuper)).length)))
      = (List.range (net.allReactants.length
          + (net.allReactants.filter (fun r => r.type.isSuper)).length)).map
            (fun (k : Nat) => (k : Int)) := by
    rw [List.range_add, List.map_append, List.map_map, List.map_map, List.map_map]
    congr 1
    · apply List.map_congr_left
      intro k _
      simp only [Function.comp]
      ring
    · apply List.map_congr_left
      intro k _
      simp only [Function.comp]
      push_cast
      ring
  rw [hrange]
  exact (List.nodup_range _).map Nat.cast_injective

end FillRowsNodup

/-- C19 exercised on the sample network after `reinitializeNetwork` with the
array `c[i] = i + 10`. -/
theorem update_concentrations_from_array_witness :
    (∀ r ∈ ((sampleFillNetwork ℚ).updateConcentrationsFromArray
          (fun (i : Int) => (i : ℚ) + 10)).1.allReactants,
        r.concentration = ((r.id - 1 : Int) : ℚ) + 10
        ∧ ((r.type = ReactantType.VoidSuper ∨ r.type = ReactantType.FaultedSuper
            ∨ r.type = ReactantType.FrankSuper ∨ r.type = ReactantType.PerfectSuper) →
          r.zerothMoment = ((r.id - 1 : Int) : ℚ) + 10
          ∧ r.moment = ((r.momId - 1 : Int) : ℚ) + 10))
    ∧ ((sampleFillNetwork ℚ).updateConcentrationsFromArray
        (fun (i : Int) => (i : ℚ) + 10)).1.allReactants.map
          (fun r => (r.type, r.id, r.momId, r.size))
      = (sampleFillNetwork ℚ).allReactants.map (fun r => (r.type, r.id, r.momId, r.size))
    ∧ ((sampleFillNetwork ℚ).updateConcentrationsFromArray
        (fun (i : Int) => (i : ℚ) + 10)).2 = (fun (i : Int) => (i : ℚ) + 10) :=
  update_concentrations_from_array (sampleFillNetwork ℚ) (fun (i : Int) => (i : ℚ) + 10)

theorem sample_fill_mem :
    ({ sampleImmobile ℚ with type := ReactantType.VoidSuper, id := 2, momId := 5 }
        : Reactant ℚ) ∈ (sampleFillNetwork ℚ).allReactants := by
  have h : (sampleFillNetwork ℚ).allReactants
      = [{ sampleVacancy ℚ with id := 1, momId := 1 },
         { sampleImmobile ℚ with type := ReactantType.VoidSuper, id := 2, momId := 5 },
         { sampleImmobile ℚ with id := 3, momId := 3 },
         { sampleImmobile ℚ with type := ReactantType.FrankSuper, id := 4, momId := 6 }] :=
    rfl
  rw [h]
  exact List.mem_cons_of_mem _ (List.mem_cons_self _ _)

/-- C20 exercised on the sample network after `reinitializeNetwork`: the
rows are `0, 1, 2, 3` for the ids and `5, 4` for the moment ids, and the
super reactant of id 2 and moment id 5, of connectivity `1, 0, 1, 1`, gets
the columns `0, 2, 3` in the rows 1 and 4. -/
theorem diagonal_fill_rows_witness :
    (sampleFillNetwork ℚ).fillRows.map Prod.snd = [0, 1, 2, 3, 5, 4]
    ∧ ((sampleFillNetwork ℚ).getDiagonalFill emptyFillMaps).fillMap 1 = some [0, 2, 3]
    ∧ ((sampleFillNetwork ℚ).getDiagonalFill emptyFillMaps).fillMap 4 = some [0, 2, 3]
    ∧ ((sampleFillNetwork ℚ).getDiagonalFill emptyFillMaps).dFillMap 4 = some [0, 2, 3] :=
  have hrows : (sampleFillNetwork ℚ).fillRows.map Prod.snd = [0, 1, 2, 3, 5, 4] := rfl
  have h := diagonal_fill_rows (sampleFillNetwork ℚ) emptyFillMaps (fun _ => rfl)
    (fillRows_nodup_after_reinit (sampleNetwork ℚ true 0))
  ⟨hrows, (h.1 _ sample_fill_mem).2.1 (by decide),
    (h.2.1 _ sample_fill_mem (Or.inl rfl)).2.1 (by decide),
    (h.2.1 _ sample_fill_mem (Or.inl rfl)).2.2⟩

/-- Whether `initialize` returns normally depends on the registry type and on
`HAVE_PAPI` only. -/
theorem initializeSucceeds_iff (havePapi : Bool) (rtype : RegistryType) (s : PerfState) :
    initializeSucceeds havePapi rtype s ↔
      (rtype = RegistryType.dummy ∨ rtype = RegistryType.std ∨ rtype = RegistryType.os
        ∨ (rtype = RegistryType.papi ∧ havePapi = true)) := by
  cases rtype <;> cases havePapi <;> simp [initializeSucceeds, initializeRegistry]

theorem initialize_fails (havePapi : Bool) (rtype : RegistryType) (s : PerfState)
    (h : ¬initializeSucceeds havePapi rtype s) :
    initializeRegistry havePapi rtype s = (Except.error PerfError.invalid_argument, s) := by
  cases rtype <;> cases havePapi <;>
    simp [initializeSucceeds, initializeRegistry] at h ⊢

theorem initialize_succeeds_state (havePapi : Bool) (rtype : RegistryType) (s : PerfState)
    (h : initializeSucceeds havePapi rtype s) :
    ∃ c, (initializeRegistry havePapi rtype s).2 = s.makeShared c
      ∧ (rtype = RegistryType.dummy → c = RegistryClass.DummyHandlerRegistry)
      ∧ (rtype = RegistryType.std → c = RegistryClass.OSHandlerRegistry)
      ∧ (rtype = RegistryType.os → c = RegistryClass.OSHandlerRegistry) := by
  cases rtype <;> cases havePapi <;>
    simp [initializeSucceeds, initializeRegistry] at h ⊢

theorem initializeAll_append (havePapi : Bool) (pre post : List RegistryType)
    (s : PerfState) :
    initializeAll havePapi (pre ++ post) s
      = initializeAll havePapi post (initializeAll havePapi pre s) := by
  simp only [initializeAll, List.foldl_append]

/-- A sequence of failing calls leaves the state as it was. -/
theorem initializeAll_failing (havePapi : Bool) :
    ∀ (calls : List RegistryType) (s : PerfState),
      (∀ c ∈ calls, ∀ st, ¬initializeSucceeds havePapi c st) →
      initializeAll havePapi calls s = s := by
  intro calls
  induction calls with
  | nil => intro s _; rfl
  | cons c rest ih =>
    intro s h
    have hc := initialize_fails havePapi c s (h c (List.mem_cons_self _ _) s)
    simp only [initializeAll, List.foldl_cons, hc]
    exact ih s (fun x hx => h x (List.mem_cons_of_mem _ hx))

/-- The pointer is null after a sequence of calls iff it was null before and
no call succeeded. -/
theorem initializeAll_null (havePapi : Bool) :
    ∀ (calls : List RegistryType) (s : PerfState),
      (initializeAll havePapi calls s).theHandlerRegistry = none ↔
        (s.theHandlerRegistry = none
          ∧ ∀ c ∈ calls, ∀ st, ¬initializeSucceeds havePapi c st) := by
  intro calls
  induction calls using List.reverseRecOn with
  | nil => intro s; simp [initializeAll]
  | append_singleton rest c ih =>
    intro s
    rw [initializeAll_append]
    by_cases hc : initializeSucceeds havePapi c (initializeAll havePapi rest s)
    · obtain ⟨cl, hcl, _⟩ := initialize_succeeds_state havePapi c _ hc
      constructor
      · intro h
        simp only [initializeAll, List.foldl_cons, List.foldl_nil] at h
        simp only [initializeAll] at hcl
        rw [hcl] at h
        simp [PerfState.makeShared] at h
      · rintro ⟨_, h⟩
        exact absurd hc (h c (List.mem_append_right _ (List.mem_singleton_self _)) _)
    · have hf := initialize_fails havePapi c _ hc
      have hstep : initializeAll havePapi [c] (initializeAll havePapi rest s)
          = initializeAll havePapi rest s := by
        simp only [initializeAll, List.foldl_cons, List.foldl_nil] at hf ⊢
        rw [hf]
      rw [hstep, ih s]
      constructor
      · rintro ⟨h1, h2⟩
        refine ⟨h1, ?_⟩
        intro x hx st
        rcases List.mem_append.1 hx with hx | hx
        · exact h2 x hx st
        · rw [List.mem_singleton] at hx
          subst hx
          intro hs
          exact hc (((initializeSucceeds_iff havePapi x _).2)
            ((initializeSucceeds_iff havePapi x st).1 hs))
      · rintro ⟨h1, h2⟩
        exact ⟨h1, fun x hx st => h2 x (List.mem_append_left _ hx) st⟩

/-- C23: `getHandlerRegistry` throws `runtime_error` iff no call of
`initialize` made since program start has succeeded; and when the call
`initialize(rtype)` with `rtype` one of `dummy`, `std`, `os` succeeds and
every later call fails, `getHandlerRegistry` returns the registry created by
that call, a `DummyHandlerRegistry` for `dummy` and an `OSHandlerRegistry`
for `std` and for `os`. -/
theorem use_before_initialization (havePapi : Bool) (calls : List RegistryType) :
    (getHandlerRegistry (initializeAll havePapi calls PerfState.start)
        = Except.error PerfError.runtime_error ↔
      ∀ c ∈ calls, ∀ st, ¬initializeSucceeds havePapi c st)
    ∧ (∀ (pre post : List RegistryType) (rtype : RegistryType),
        calls = pre ++ rtype :: post →
        (rtype = RegistryType.dummy ∨ rtype = RegistryType.std
          ∨ rtype = RegistryType.os) →
        (∀ c ∈ post, ∀ st, ¬initializeSucceeds havePapi c st) →
        initializeSucceeds havePapi rtype (initializeAll havePapi pre PerfState.start)
        ∧ getHandlerRegistry (initializeAll havePapi calls PerfState.start)
            = Except.ok
                { registryClass :=
                    if rtype = RegistryType.dummy then RegistryClass.DummyHandlerRegistry
                    else RegistryClass.OSHandlerRegistry
                  serial := (initializeAll havePapi pre PerfState.start).created }
        ∧ (initializeRegistry havePapi rtype
              (initializeAll havePapi pre PerfState.start)).2.theHandlerRegistry
            = some
                { registryClass :=
                    if rtype = RegistryType.dummy then RegistryClass.DummyHandlerRegistry
                    else RegistryClass.OSHandlerRegistry
                  serial := (initializeAll havePapi pre PerfState.start).created }) := by
  constructor
  · have h := initializeAll_null havePapi calls PerfState.start
    constructor
    · intro hget
      apply (h.1 _).2
      cases hopt : (initializeAll havePapi calls PerfState.start).theHandlerRegistry with
      | none => rfl
      | some r => simp [getHandlerRegistry, hopt] at hget
    · intro hall
      have hnone := h.2 ⟨rfl, hall⟩
      simp [getHandlerRegistry, hnone]
  · intro pre post rtype hcalls hr hpost
    have hsplit : calls = pre ++ ([rtype] ++ post) := by rw [hcalls]; rfl
    have hstate : (initializeRegistry havePapi rtype
          (initializeAll havePapi pre PerfState.start)).2.theHandlerRegistry
        = some
            { registryClass :=
                if rtype = RegistryType.dummy then RegistryClass.DummyHandlerRegistry
                else RegistryClass.OSHandlerRegistry
              serial := (initializeAll havePapi pre PerfState.start).created } := by
      rcases hr with h | h | h <;> subst h <;>
        simp [initializeRegistry, PerfState.makeShared]
    refine ⟨(initializeSucceeds_iff havePapi rtype _).2 ?_, ?_, hstate⟩
    · rcases hr with h | h | h
      · exact Or.inl h
      · exact Or.inr (Or.inl h)
      · exact Or.inr (Or.inr (Or.inl h))
    · rw [hsplit, initializeAll_append, initializeAll_append,
        initializeAll_failing havePapi post _ hpost]
      simp only [initializeAll, List.foldl_cons, List.foldl_nil] at hstate ⊢
      simp only [getHandlerRegistry, hstate]

/-- C24: `initialize` called with a registry type other than `dummy`, `std`,
`os` and `papi`, or with `papi` when `HAVE_PAPI` is not defined, throws
`invalid_argument` and leaves the state as it was, so that
`getHandlerRegistry` gives afterwards what it gave before the call. -/
theorem unrecognized_registry_type (havePapi : Bool) (rtype : RegistryType)
    (s : PerfState)
    (hr : (rtype ≠ RegistryType.dummy ∧ rtype ≠ RegistryType.std
        ∧ rtype ≠ RegistryType.os ∧ rtype ≠ RegistryType.papi)
      ∨ (rtype = RegistryType.papi ∧ havePapi = false)) :
    (initializeRegistry havePapi rtype s).1 = Except.error PerfError.invalid_argument
    ∧ (initializeRegistry havePapi rtype s).2 = s
    ∧ getHandlerRegistry (initializeRegistry havePapi rtype s).2 = getHandlerRegistry s
    ∧ initializeAll havePapi [rtype] s = s := by
  have hfail : ¬initializeSucceeds havePapi rtype s := by
    rw [initializeSucceeds_iff]
    rcases hr with ⟨h1, h2, h3, h4⟩ | ⟨h1, h2⟩
    · simp [h1, h2, h3, h4]
    · subst h1
      simp [h2]
  have h := initialize_fails havePapi rtype s hfail
  refine ⟨by rw [h], by rw [h], by rw [h], ?_⟩
  simp only [initializeAll, List.foldl_cons, List.foldl_nil, h]

/-- C23 exercised on the calls `papi` (without PAPI support), `dummy`, `os`,
an unrecognized type: the registry returned is the one created by `os`,
the second object created. -/
theorem use_before_initialization_witness :
    getHandlerRegistry (initializeAll false
        [RegistryType.papi, RegistryType.dummy, RegistryType.os,
          RegistryType.unrecognized 7] PerfState.start)
      = Except.ok { registryClass := RegistryClass.OSHandlerRegistry, serial := 1 } :=
  ((use_before_initialization false
      [RegistryType.papi, RegistryType.dummy, RegistryType.os,
        RegistryType.unrecognized 7]).2
    [RegistryType.papi, RegistryType.dummy] [RegistryType.unrecognized 7] RegistryType.os
    rfl (Or.inr (Or.inr rfl))
    (by
      intro c hc st
      rw [List.mem_singleton] at hc
      subst hc
      rw [initializeSucceeds_iff]
      decide)).2.1

/-- C24 exercised on an unrecognized type after a successful `dummy`. -/
theorem unrecognized_registry_type_witness :
    (initializeRegistry false (RegistryType.unrecognized 7)
        (initializeAll false [RegistryType.dummy] PerfState.start)).1
      = Except.error PerfError.invalid_argument
    ∧ getHandlerRegistry (initializeRegistry false (RegistryType.unrecognized 7)
        (initializeAll false [RegistryType.dummy] PerfState.start)).2
      = Except.ok { registryClass := RegistryClass.DummyHandlerRegistry, serial := 0 } :=
  have h := unrecognized_registry_type false (RegistryType.unrecognized 7)
    (initializeAll false [RegistryType.dummy] PerfState.start)
    (Or.inl ⟨by decide, by decide, by decide, by decide⟩)
  ⟨h.1, h.2.2.1.trans rfl⟩

theorem samePair_refl {K : Type} (e : ClusterPair K) : samePair e e = true := by
  simp [samePair]

theorem sameCombining_refl {K : Type} (e : CombiningCluster K) :
    sameCombining e e = true := by
  simp [sameCombining]

/-- One loop of `optimizeReactions` empties every cell and keeps the keys. -/
theorem coalesceMap_cells {E S : Type} (same : E → E → Bool) (init : E → S)
    (add : CellKey → S → E → S) (hrefl : ∀ e, same e e = true)
    (cells : List (CellKey × List E)) (superList : List S) :
    (coalesceMap same init add cells superList).1 = cells.map (fun c => (c.1, [])) :=
  (coalesceMap_spec same init add (fun _ => (0 : Nat)) (fun _ _ => (0 : Nat))
    (fun _ _ => True) (fun _ _ => True) hrefl (fun _ => ⟨trivial, rfl⟩)
    (fun _ _ _ _ _ _ _ => ⟨trivial, rfl⟩) cells superList
    (fun _ _ _ _ _ _ _ _ => trivial)).1

section DiscardClaims

variable {K : Type} [Field K]

/-- C27: after `optimizeReactions` the list stored under every key of the
effective reacting, combining, dissociating and emission maps is empty, and
the keys of each map are those of before, in the same order. -/
theorem per_cell_lists_discarded (sc : SuperCluster K) :
    sc.optimizeReactions.effReactingMap = sc.effReactingMap.map (fun c => (c.1, []))
    ∧ sc.optimizeReactions.effCombiningMap = sc.effCombiningMap.map (fun c => (c.1, []))
    ∧ sc.optimizeReactions.effDissociatingMap
        = sc.effDissociatingMap.map (fun c => (c.1, []))
    ∧ sc.optimizeReactions.effEmissionMap = sc.effEmissionMap.map (fun c => (c.1, []))
    ∧ sc.optimizeReactions.effReactingMap.map Prod.fst = sc.effReactingMap.map Prod.fst
    ∧ sc.optimizeReactions.effCombiningMap.map Prod.fst = sc.effCombiningMap.map Prod.fst
    ∧ sc.optimizeReactions.effDissociatingMap.map Prod.fst
        = sc.effDissociatingMap.map Prod.fst
    ∧ sc.optimizeReactions.effEmissionMap.map Prod.fst = sc.effEmissionMap.map Prod.fst := by
  have h1 : sc.optimizeReactions.effReactingMap
      = sc.effReactingMap.map (fun c => (c.1, [])) :=
    coalesceMap_cells samePair _ _ samePair_refl _ _
  have h2 : sc.optimizeReactions.effCombiningMap
      = sc.effCombiningMap.map (fun c => (c.1, [])) :=
    coalesceMap_cells sameCombining _ _ sameCombining_refl _ _
  have h3 : sc.optimizeReactions.effDissociatingMap
      = sc.effDissociatingMap.map (fun c => (c.1, [])) :=
    coalesceMap_cells samePair _ _ samePair_refl _ _
  have h4 : sc.optimizeReactions.effEmissionMap
      = sc.effEmissionMap.map (fun c => (c.1, [])) :=
    coalesceMap_cells samePair _ _ samePair_refl _ _
  refine ⟨h1, h2, h3, h4, ?_, ?_, ?_, ?_⟩
  · rw [h1, List.map_map]; rfl
  · rw [h2, List.map_map]; rfl
  · rw [h3, List.map_map]; rfl
  · rw [h4, List.map_map]; rfl

/-- The entry `j` of the two moment buffers after `getPartialDerivatives`:
the sums of what each record adds to a zero buffer. -/
theorem getPartialDerivatives_moments (heap : ClusterPtr → PSICluster K)
    (sc : SuperCluster K) (b : PartialBuffers K) (j : Int) :
    (sc.getPartialDerivatives heap b).heMomentumPartials j
      = (sc.effReactingList.map (fun s =>
          (productionPartialsStep heap PartialBuffers.zero s).heMomentumPartials j)).sum
        + (sc.effCombiningList.map (fun s =>
          (combinationPartialsStep heap sc PartialBuffers.zero s).heMomentumPartials j)).sum
        + (sc.effDissociatingList.map (fun s =>
          (dissociationPartialsStep heap PartialBuffers.zero s).heMomentumPartials j)).sum
        + (sc.effEmissionList.map (fun s =>
          (emissionPartialsStep sc PartialBuffers.zero s).heMomentumPartials j)).sum
    ∧ (sc.getPartialDerivatives heap b).vMomentumPartials j
      = (sc.effReactingList.map (fun s =>
          (productionPartialsStep heap PartialBuffers.zero s).vMomentumPartials j)).sum
        + (sc.effCombiningList.map (fun s =>
          (combinationPartialsStep heap sc PartialBuffers.zero s).vMomentumPartials j)).sum
        + (sc.effDissociatingList.map (fun s =>
          (dissociationPartialsStep heap PartialBuffers.zero s).vMomentumPartials j)).sum
        + (sc.effEmissionList.map (fun s =>
          (emissionPartialsStep sc PartialBuffers.zero s).vMomentumPartials j)).sum := by
  refine ⟨?_, ?_⟩
  · simp only [SuperCluster.getPartialDerivatives,
      SuperCluster.getProductionPartialDerivatives,
      SuperCluster.getCombinationPartialDerivatives,
      SuperCluster.getDissociationPartialDerivatives,
      SuperCluster.getEmissionPartialDerivatives]
    rw [foldl_entry _ (fun b => b.heMomentumPartials j)
        (fun b s => (emissionPartialsStep_entry sc j b s).2.1),
      foldl_entry _ (fun b => b.heMomentumPartials j)
        (fun b s => (dissociationPartialsStep_entry heap j b s).2.1),
      foldl_entry _ (fun b => b.heMomentumPartials j)
        (fun b s => (combinationPartialsStep_entry heap sc j b s).2.1),
      foldl_entry _ (fun b => b.heMomentumPartials j)
        (fun b s => (productionPartialsStep_entry heap j b s).2.1)]
    simp only [zero_add]
  · simp only [SuperCluster.getPartialDerivatives,
      SuperCluster.getProductionPartialDerivatives,
      SuperCluster.getCombinationPartialDerivatives,
      SuperCluster.getDissociationPartialDerivatives,
      SuperCluster.getEmissionPartialDerivatives]
    rw [foldl_entry _ (fun b => b.vMomentumPartials j)
        (fun b s => (emissionPartialsStep_entry sc j b s).2.2),
      foldl_entry _ (fun b => b.vMomentumPartials j)
        (fun b s => (dissociationPartialsStep_entry heap j b s).2.2),
      foldl_entry _ (fun b => b.vMomentumPartials j)
        (fun b s => (combinationPartialsStep_entry heap sc j b s).2.2),
      foldl_entry _ (fun b => b.vMomentumPartials j)
        (fun b s => (productionPartialsStep_entry heap j b s).2.2)]
    simp only [zero_add]

/-- C29: the He-moment and V-moment buffers left by `getPartialDerivatives`
do not depend on what the three buffers held before the call: two calls on
the same super cluster and the same reactants, started from any two prior
contents, leave identical moment partials, namely those of a call started
from zero buffers. -/
theorem moment_buffers_zeroed (heap : ClusterPtr → PSICluster K) (sc : SuperCluster K)
    (b b' : PartialBuffers K) :
    (sc.getPartialDerivatives heap b).heMomentumPartials
        = (sc.getPartialDerivatives heap b').heMomentumPartials
    ∧ (sc.getPartialDerivatives heap b).vMomentumPartials
        = (sc.getPartialDerivatives heap b').vMomentumPartials
    ∧ (sc.getPartialDerivatives heap b).heMomentumPartials
        = (sc.getPartialDerivatives heap PartialBuffers.zero).heMomentumPartials
    ∧ (sc.getPartialDerivatives heap b).vMomentumPartials
        = (sc.getPartialDerivatives heap PartialBuffers.zero).vMomentumPartials := by
  have key : ∀ c c' : PartialBuffers K,
      (sc.getPartialDerivatives heap c).heMomentumPartials
          = (sc.getPartialDerivatives heap c').heMomentumPartials
      ∧ (sc.getPartialDerivatives heap c).vMomentumPartials
          = (sc.getPartialDerivatives heap c').vMomentumPartials := by
    intro c c'
    constructor
    · funext j
      rw [(getPartialDerivatives_moments heap sc c j).1,
        (getPartialDerivatives_moments heap sc c' j).1]
    · funext j
      rw [(getPartialDerivatives_moments heap sc c j).2,
        (getPartialDerivatives_moments heap sc c' j).2]
  exact ⟨(key b b').1, (key b b').2, (key b _).1, (key b _).2⟩

end DiscardClaims

section BindingEnergyClaim

variable {K : Type} [Field K]

/-- C30: the binding energy used by `calculateDissociationConstant` is
`1.5 - 2.05211 * (n^(2/3) - (n-1)^(2/3))` when the dissociating reactant has
type Faulted and size `n = maxClusterSize(Faulted) + 1 - (number of Faulted
clusters)`, and the value of `computeBindingEnergy` for every other
dissociating reactant; when the sizes of the Faulted reactants are
`m, m + 1, ...` up to the maximum, each once, `n` is the smallest of them,
`m`. -/
theorem binding_energy_correction (cst : Constants K) (exp : K → K) (pow : K → K → K)
    (computeBindingEnergy : DissociationReaction K → K)
    (net : AlloyClusterReactionNetwork K) (reaction : DissociationReaction K) (i : Int) :
    ((reaction.dissociating.type = ReactantType.Faulted
        ∧ reaction.dissociating.size = net.maxClusterSizeMap ReactantType.Faulted + 1
            - (net.clusterTypeCount ReactantType.Faulted : Int)) →
      correctedBindingEnergy pow computeBindingEnergy net reaction
        = 3 / 2 - 205211 / 100000
          * (pow (reaction.dissociating.size : K) (2 / 3)
            - pow ((reaction.dissociating.size : K) - 1) (2 / 3)))
    ∧ (¬(reaction.dissociating.type = ReactantType.Faulted
        ∧ reaction.dissociating.size = net.maxClusterSizeMap ReactantType.Faulted + 1
            - (net.clusterTypeCount ReactantType.Faulted : Int)) →
      correctedBindingEnergy pow computeBindingEnergy net reaction
        = computeBindingEnergy reaction)
    ∧ (net.dissociationsEnabled = true →
      calculateDissociationConstant cst exp pow computeBindingEnergy net reaction i
        = 1 / (1 / 4 * cst.alloyLatticeConstant * cst.alloyLatticeConstant
              * cst.alloyLatticeConstant)
          * reaction.reverseReaction.kConstant i
          * exp (-1 * correctedBindingEnergy pow computeBindingEnergy net reaction
              / (cst.kBoltzmann * net.temperature)))
    ∧ (∀ m : Int,
        ((net.getAll ReactantType.Faulted).map (fun r => r.size)).Perm
            ((List.range (net.getAll ReactantType.Faulted).length).map
              (fun (k : Nat) => m + (k : Int))) →
        net.clusterTypeCount ReactantType.Faulted
            = (net.getAll ReactantType.Faulted).length →
        net.maxClusterSizeMap ReactantType.Faulted
            = m + ((net.getAll ReactantType.Faulted).length : Int) - 1 →
        net.maxClusterSizeMap ReactantType.Faulted + 1
              - (net.clusterTypeCount ReactantType.Faulted : Int) = m
          ∧ (∀ r ∈ net.getAll ReactantType.Faulted, m ≤ r.size)
          ∧ (net.getAll ReactantType.Faulted ≠ [] →
              ∃ r ∈ net.getAll ReactantType.Faulted, r.size = m)) := by
  refine ⟨?_, ?_, ?_, ?_⟩
  · intro h
    simp only [correctedBindingEnergy, h.1, ← h.2, true_and, if_true]
    push_cast
    rfl
  · intro h
    simp only [correctedBindingEnergy, h, if_false]
  · intro h
    simp only [calculateDissociationConstant, h, Bool.not_true, Bool.false_eq_true,
      if_false]
  · intro m hperm hcount hmax
    refine ⟨by rw [hmax, hcount]; ring, ?_, ?_⟩
    · intro r hr
      have hmem : r.size ∈ (net.getAll ReactantType.Faulted).map (fun r => r.size) :=
        List.mem_map_of_mem _ hr
      rw [hperm.mem_iff, List.mem_map] at hmem
      obtain ⟨k, _, hk⟩ := hmem
      rw [← hk]
      have : (0 : Int) ≤ (k : Int) := Int.ofNat_nonneg k
      linarith
    · intro hne
      have hlen : 0 < (net.getAll ReactantType.Faulted).length :=
        List.length_pos.2 hne
      have hmem : m ∈ (List.range (net.getAll ReactantType.Faulted).length).map
          (fun (k : Nat) => m + (k : Int)) := by
        rw [List.mem_map]
        exact ⟨0, List.mem_range.2 hlen, by simp⟩
      rw [← hperm.mem_iff, List.mem_map] at hmem
      obtain ⟨r, hr, hsize⟩ := hmem
      exact ⟨r, hr, hsize⟩

/-- C30 exercised on `faultedNetwork`: the loop `Faulted_3` is the smallest
one and gets the corrected energy, the reactant `Void_3` keeps the energy of
`computeBindingEnergy`. -/
theorem binding_energy_correction_witness :
    correctedBindingEnergy (fun x _ => x) (fun _ => (7 : ℚ)) (faultedNetwork ℚ)
        (faultedDissociation ℚ)
      = 3 / 2 - 205211 / 100000 * (((3 : Int) : ℚ) - (((3 : Int) : ℚ) - 1))
    ∧ correctedBindingEnergy (fun x _ => x) (fun _ => (7 : ℚ)) (faultedNetwork ℚ)
        (sampleDissociation ℚ) = 7
    ∧ (faultedNetwork ℚ).maxClusterSizeMap ReactantType.Faulted + 1
          - ((faultedNetwork ℚ).clusterTypeCount ReactantType.Faulted : Int) = 3 :=
  have h := binding_energy_correction (sampleConstants ℚ) (fun x => x) (fun x _ => x)
    (fun _ => (7 : ℚ)) (faultedNetwork ℚ)
  ⟨(h (faultedDissociation ℚ) 0).1 ⟨rfl, by decide⟩,
   (h (sampleDissociation ℚ) 0).2.1 (by simp [sampleDissociation, sampleImmobile]),
   ((h (sampleDissociation ℚ) 0).2.2.2 3
      (by
        have hl : ((faultedNetwork ℚ).getAll ReactantType.Faulted).map (fun r => r.size)
            = [4, 3] := rfl
        have hn : ((faultedNetwork ℚ).getAll ReactantType.Faulted).length = 2 := rfl
        rw [hl, hn]
        decide)
      rfl (by decide)).1⟩

end BindingEnergyClaim

section AccumulateLemmas

variable {K : Type} [Field K]

theorem accumulate_append (c1 c2 : List (Int × K)) (a : Int → K) :
    accumulate (c1 ++ c2) a = accumulate c2 (accumulate c1 a) := by
  simp only [accumulate, List.foldl_append]

/-- Every entry is increased by the sum of the amounts addressed to it. -/
theorem accumulate_entry : ∀ (c : List (Int × K)) (a : Int → K) (j : Int),
    accumulate c a j
      = a j + ((c.filter (fun p => decide (p.1 = j))).map Prod.snd).sum := by
  intro c
  induction c with
  | nil => intro a j; simp [accumulate]
  | cons p rest ih =>
    intro a j
    have hstep : accumulate (p :: rest) a
        = accumulate rest (Function.update a p.1 (a p.1 + p.2)) := rfl
    rw [hstep, ih]
    by_cases h : p.1 = j
    · subst h
      simp [List.filter_cons, add_assoc]
    · have h2 : j ≠ p.1 := fun e => h e.symm
      simp [List.filter_cons, h, Function.update_noteq h2]

theorem totalFluxStep_foldl (getTotalFlux : Reactant K → Int → K × Reactant K) (i : Int) :
    ∀ (l visited : List (Reactant K)) (a : Int → K),
      l.foldl (totalFluxStep getTotalFlux i) (visited, a)
        = (visited ++ l.map (fun r => (getTotalFlux r i).2),
           accumulate
             (l.map (fun r => ((getTotalFlux r i).2.id - 1, (getTotalFlux r i).1))) a) := by
  intro l
  induction l with
  | nil => intro visited a; simp [accumulate]
  | cons r rest ih =>
    intro visited a
    rw [List.foldl_cons]
    have hstep : totalFluxStep getTotalFlux i (visited, a) r
        = (visited ++ [(getTotalFlux r i).2],
           Function.update a ((getTotalFlux r i).2.id - 1)
             (a ((getTotalFlux r i).2.id - 1) + (getTotalFlux r i).1)) := rfl
    rw [hstep, ih]
    simp [accumulate]

theorem momentFluxStep_foldl (getMomentFlux : Reactant K → K) :
    ∀ (l : List (Reactant K)) (a : Int → K),
      l.foldl (momentFluxStep getMomentFlux) a
        = accumulate (l.map (fun r => (r.momId - 1, getMomentFlux r))) a := by
  intro l
  induction l with
  | nil => intro a; rfl
  | cons r rest ih =>
    intro a
    rw [List.foldl_cons, ih]
    rfl

/-- The array left by `computeAllFluxes` is the array of before with the
contributions accumulated, and the clusters are those left by
`getTotalFlux`. -/
theorem computeAllFluxes_eq (net : AlloyClusterReactionNetwork K)
    (getTotalFlux : Reactant K → Int → K × Reactant K)
    (getMomentFlux : Reactant K → K) (conc : Int → K) (i : Int) :
    (net.computeAllFluxes getTotalFlux getMomentFlux conc i).2
        = accumulate (net.fluxContributions getTotalFlux getMomentFlux i) conc
    ∧ (net.computeAllFluxes getTotalFlux getMomentFlux conc i).1.allReactants
        = net.allReactants.map (fun r => (getTotalFlux r i).2) := by
  have h := totalFluxStep_foldl getTotalFlux i net.allReactants [] conc
  constructor
  · simp only [AlloyClusterReactionNetwork.computeAllFluxes,
      AlloyClusterReactionNetwork.fluxContributions, AlloyClusterReactionNetwork.getAll, h,
      List.nil_append, List.foldl_cons, List.foldl_nil, momentFluxStep_foldl,
      List.flatMap_cons, List.flatMap_nil, List.append_nil, accumulate_append]
  · simp only [AlloyClusterReactionNetwork.computeAllFluxes, h, List.nil_append]

end AccumulateLemmas

/-- In a list whose keys are pairwise different the elements with the key of
a member are that member alone. -/
theorem filter_key_singleton {A B : Type} [DecidableEq B] (f : A → B) :
    ∀ (l : List A), (l.map f).Nodup → ∀ p ∈ l,
      l.filter (fun q => decide (f q = f p)) = [p] := by
  intro l
  induction l with
  | nil => intro _ p hp; cases hp
  | cons q rest ih =>
    intro hnd p hp
    rw [List.map_cons, List.nodup_cons] at hnd
    obtain ⟨hq, hrest⟩ := hnd
    rcases List.mem_cons.1 hp with rfl | hp
    · have hnone : rest.filter (fun q => decide (f q = f p)) = [] := by
        rw [List.filter_eq_nil_iff]
        intro x hx
        simp only [decide_eq_true_eq]
        intro hfx
        apply hq
        rw [← hfx]
        exact List.mem_map_of_mem f hx
      simp [List.filter_cons, hnone]
    · have hne : f q ≠ f p := by
        intro h
        apply hq
        rw [h]
        exact List.mem_map_of_mem f hp
      simp [List.filter_cons, hne, ih hrest p hp]

section AccumulateNodup

variable {K : Type} [Field K]

theorem accumulate_nodup (c : List (Int × K)) (a : Int → K)
    (hnd : (c.map Prod.fst).Nodup) (p : Int × K) (hp : p ∈ c) :
    accumulate c a p.1 = a p.1 + p.2 := by
  rw [accumulate_entry, filter_key_singleton Prod.fst c hnd p hp]
  simp

theorem accumulate_other (c : List (Int × K)) (a : Int → K) (j : Int)
    (hj : j ∉ c.map Prod.fst) : accumulate c a j = a j := by
  rw [accumulate_entry]
  have hnone : c.filter (fun p => decide (p.1 = j)) = [] := by
    rw [List.filter_eq_nil_iff]
    intro x hx
    simp only [decide_eq_true_eq]
    intro hxj
    apply hj
    rw [← hxj]
    exact List.mem_map_of_mem Prod.fst hx
  simp [hnone]

end AccumulateNodup

section FluxRows

variable {K : Type}

/-- When `getTotalFlux` changes neither the id, the moment id nor the type of
a cluster, the rows written by `computeAllFluxes` are those written by
`getDiagonalFill`, in the same order. -/
theorem fluxContributions_rows (net : AlloyClusterReactionNetwork K)
    (getTotalFlux : Reactant K → Int → K × Reactant K)
    (getMomentFlux : Reactant K → K) (i : Int)
    (hframe : ∀ r, (getTotalFlux r i).2.id = r.id
      ∧ (getTotalFlux r i).2.momId = r.momId ∧ (getTotalFlux r i).2.type = r.type) :
    (net.fluxContributions getTotalFlux getMomentFlux i).map Prod.fst
      = net.fillRows.map Prod.snd := by
  have e2 : ∀ t : ReactantType,
      ((fun r : Reactant K => decide (r.type = t)) ∘ fun r => (getTotalFlux r i).2)
        = fun r => decide (r.type = t) := by
    intro t
    funext r
    simp only [Function.comp, (hframe r).2.2]
  have e3 : (Prod.fst ∘ (fun r : Reactant K => (r.momId - 1, getMomentFlux r))
        ∘ fun r => (getTotalFlux r i).2)
      = ((fun i : Int => i - 1) ∘ fun r : Reactant K => r.momId) := by
    funext r
    simp only [Function.comp, (hframe r).2.1]
  have e1 : (Prod.fst ∘ fun r : Reactant K => ((getTotalFlux r i).2.id - 1,
        (getTotalFlux r i).1))
      = ((fun i : Int => i - 1) ∘ fun r : Reactant K => r.id) := by
    funext r
    simp only [Function.comp, (hframe r).1]
  rw [fillRows_ids]
  simp only [AlloyClusterReactionNetwork.fluxContributions, List.map_append, List.map_map,
    List.flatMap_cons, List.flatMap_nil, List.append_nil, List.filter_map, e1, e2, e3]

end FluxRows

section ReinitRows

variable {K : Type}

/-- After `reinitializeNetwork` the rows are the indices `0, ..., N + M - 1`,
each once. -/
theorem fillRows_perm_after_reinit (net : AlloyClusterReactionNetwork K) :
    (net.reinitializeNetwork.fillRows.map Prod.snd).Perm
      ((List.range (net.allReactants.length
          + (net.allReactants.filter (fun r => r.type.isSuper)).length)).map
        (fun (k : Nat) => (k : Int))) := by
  obtain ⟨a1, a2, a3, _⟩ := assignIds_spec net.allReactants 0
  obtain ⟨m1, _, _, m4⟩ :=
    assignMomentIds_spec (assignIds 0 net.allReactants).2 (assignIds 0 net.allReactants).1
  have hL : net.reinitializeNetwork.allReactants
      = (assignMomentIds (assignIds 0 net.allReactants).1
          (assignIds 0 net.allReactants).2).2 := rfl
  have hfilter : ((assignIds 0 net.allReactants).2.filter (fun r => r.type.isSuper)).length
      = (net.allReactants.filter (fun r => r.type.isSuper)).length := by
    have h := congrArg (fun l => (l.filter ReactantType.isSuper).length) a3
    simpa [List.filter_map, Function.comp] using h
  rw [fillRows_ids, hL]
  have hperm := ((superTypes_perm (assignMomentIds (assignIds 0 net.allReactants).1
      (assignIds 0 net.allReactants).2).2).map (fun r => r.momId)).map (fun i : Int => i - 1)
  refine (List.Perm.append_left _ hperm).trans ?_
  rw [m1, a2, m4, hfilter, a1]
  have hrange : (List.map (fun i : Int => i - 1)
        (List.map (fun (k : Nat) => (0 : Int) + 1 + (k : Int))
          (List.range net.allReactants.length))
      ++ List.map (fun i : Int => i - 1)
        (List.map (fun (k : Nat) => (0 : Int) + (net.allReactants.length : Int) + 1 + (k : Int))
          (List.range (net.allReactants.filter (fun r => r.type.isSuper)).length)))
      = (List.range (net.allReactants.length
          + (net.allReactants.filter (fun r => r.type.isSuper)).length)).map
            (fun (k : Nat) => (k : Int)) := by
    rw [List.range_add, List.map_append, List.map_map, List.map_map, List.map_map]
    congr 1
    · apply List.map_congr_left
      intro k _
      simp only [Function.comp]
      ring
    · apply List.map_congr_left
      intro k _
      simp only [Function.comp]
      push_cast
      ring
  rw [hrange]

end ReinitRows

theorem count_range_cast (n : Nat) (j : Int) :
    ((List.range n).map (fun (k : Nat) => (k : Int))).count j
      = if 0 ≤ j ∧ j < (n : Int) then 1 else 0 := by
  have hnd : ((List.range n).map (fun (k : Nat) => (k : Int))).Nodup :=
    (List.nodup_range n).map Nat.cast_injective
  have hmem : j ∈ (List.range n).map (fun (k : Nat) => (k : Int))
      ↔ (0 ≤ j ∧ j < (n : Int)) := by
    simp only [List.mem_map, List.mem_range]
    constructor
    · rintro ⟨k, hk, rfl⟩
      exact ⟨Int.ofNat_nonneg k, Int.ofNat_lt.2 hk⟩
    · rintro ⟨h0, h1⟩
      refine ⟨j.toNat, ?_, Int.toNat_of_nonneg h0⟩
      omega
  by_cases h : 0 ≤ j ∧ j < (n : Int)
  · rw [if_pos h]
    exact List.count_eq_one_of_mem hnd (hmem.2 h)
  · rw [if_neg h]
    exact List.count_eq_zero_of_not_mem (fun hm => h (hmem.1 hm))

section FluxClaim

variable {K : Type} [Field K]

/-- C21: `computeAllFluxes` accumulates.  Every entry `j` of the output array
is increased by the sum of the contributions addressed to it, the
contributions being the total flux of every reactant at its row `id - 1` and
the moment flux of every super cluster at its row `momentId - 1`; an entry
that is no such row is unchanged; when the rows are pairwise different the
row of a reactant is increased by exactly its total flux and the moment row
of a super cluster by exactly its moment flux; and with the ids assigned by
`reinitializeNetwork` to `N` reactants of which `M` are super clusters each
of the entries `0, ..., N + M - 1` receives exactly one contribution and no
other entry receives any. -/
theorem compute_all_fluxes_accumulates (net : AlloyClusterReactionNetwork K)
    (getTotalFlux : Reactant K → Int → K × Reactant K)
    (getMomentFlux : Reactant K → K) (conc : Int → K) (i : Int)
    (hframe : ∀ r j, (getTotalFlux r j).2.id = r.id
      ∧ (getTotalFlux r j).2.momId = r.momId ∧ (getTotalFlux r j).2.type = r.type) :
    (∀ j, (net.computeAllFluxes getTotalFlux getMomentFlux conc i).2 j
        = conc j + (((net.fluxContributions getTotalFlux getMomentFlux i).filter
            (fun p => decide (p.1 = j))).map Prod.snd).sum)
    ∧ (∀ j, j ∉ net.fillRows.map Prod.snd →
        (net.computeAllFluxes getTotalFlux getMomentFlux conc i).2 j = conc j)
    ∧ ((net.fillRows.map Prod.snd).Nodup →
        (∀ r ∈ net.allReactants,
          (net.computeAllFluxes getTotalFlux getMomentFlux conc i).2 (r.id - 1)
            = conc (r.id - 1) + (getTotalFlux r i).1)
        ∧ (∀ r ∈ (net.computeAllFluxes getTotalFlux getMomentFlux conc i).1.allReactants,
          (r.type = ReactantType.VoidSuper ∨ r.type = ReactantType.FaultedSuper
            ∨ r.type = ReactantType.FrankSuper ∨ r.type = ReactantType.PerfectSuper) →
          (net.computeAllFluxes getTotalFlux getMomentFlux conc i).2 (r.momId - 1)
            = conc (r.momId - 1) + getMomentFlux r))
    ∧ (∀ j : Int,
        ((net.reinitializeNetwork.fluxContributions getTotalFlux getMomentFlux i).map
            Prod.fst).count j
          = if 0 ≤ j ∧ j < ((net.allReactants.length
              + (net.allReactants.filter (fun r => r.type.isSuper)).length : Nat) : Int)
            then 1 else 0) := by
  have hout := (computeAllFluxes_eq net getTotalFlux getMomentFlux conc i).1
  have hnet := (computeAllFluxes_eq net getTotalFlux getMomentFlux conc i).2
  have hrows := fluxContributions_rows net getTotalFlux getMomentFlux i (fun r => hframe r i)
  refine ⟨?_, ?_, ?_, ?_⟩
  · intro j
    rw [hout, accumulate_entry]
  · intro j hj
    rw [hout]
    exact accumulate_other _ _ _ (by rw [hrows]; exact hj)
  · intro hnd
    rw [← hrows] at hnd
    constructor
    · intro r hr
      have hmem : ((getTotalFlux r i).2.id - 1, (getTotalFlux r i).1)
          ∈ net.fluxContributions getTotalFlux getMomentFlux i := by
        unfold AlloyClusterReactionNetwork.fluxContributions
        exact List.mem_append_left _
          (List.mem_map_of_mem
            (fun r => ((getTotalFlux r i).2.id - 1, (getTotalFlux r i).1)) hr)
      have h := accumulate_nodup _ conc hnd _ hmem
      rw [hout]
      simpa only [(hframe r i).1] using h
    · intro r hr hsup
      rw [hnet] at hr
      have hmem : (r.momId - 1, getMomentFlux r)
          ∈ net.fluxContributions getTotalFlux getMomentFlux i := by
        unfold AlloyClusterReactionNetwork.fluxContributions
        apply List.mem_append_right
        rw [List.mem_flatMap]
        refine ⟨r.type, ?_, ?_⟩
        · rcases hsup with h | h | h | h <;> simp [h]
        · apply List.mem_map_of_mem (fun r : Reactant K => (r.momId - 1, getMomentFlux r))
          simp only [List.mem_filter, decide_True, and_true]
          exact hr
      have h := accumulate_nodup _ conc hnd _ hmem
      rw [hout]
      exact h
  · intro j
    rw [fluxContributions_rows net.reinitializeNetwork getTotalFlux getMomentFlux i
        (fun r => hframe r i),
      (fillRows_perm_after_reinit net).count_eq, count_range_cast]

end FluxClaim

/-- C21 exercised on the sample network after `reinitializeNetwork`, with
the id as total flux and ten times the moment id as moment flux: the rows 1
and 4 of the super cluster of id 2 and moment id 5 are increased by 2 and by
50. -/
theorem compute_all_fluxes_accumulates_witness :
    ((sampleFillNetwork ℚ).computeAllFluxes (fun r _ => ((r.id : ℚ), r))
        (fun r => 10 * (r.momId : ℚ)) (fun _ => 1) 0).2 1 = 1 + ((2 : Int) : ℚ)
    ∧ ((sampleFillNetwork ℚ).computeAllFluxes (fun r _ => ((r.id : ℚ), r))
        (fun r => 10 * (r.momId : ℚ)) (fun _ => 1) 0).2 4 = 1 + 10 * ((5 : Int) : ℚ)
    ∧ ((sampleFillNetwork ℚ).computeAllFluxes (fun r _ => ((r.id : ℚ), r))
        (fun r => 10 * (r.momId : ℚ)) (fun _ => 1) 0).2 6 = 1 :=
  have h := compute_all_fluxes_accumulates (sampleFillNetwork ℚ)
    (fun r _ => ((r.id : ℚ), r)) (fun r => 10 * (r.momId : ℚ)) (fun _ => 1) 0
    (fun _ _ => ⟨rfl, rfl, rfl⟩)
  have hnd := fillRows_nodup_after_reinit (sampleNetwork ℚ true 0)
  have hsame : ((sampleFillNetwork ℚ).computeAllFluxes (fun r _ => ((r.id : ℚ), r))
        (fun r => 10 * (r.momId : ℚ)) (fun _ => 1) 0).1.allReactants
      = (sampleFillNetwork ℚ).allReactants := by
    rw [(computeAllFluxes_eq _ _ _ _ _).2]
    exact List.map_id _
  ⟨(h.2.2.1 hnd).1
      { sampleImmobile ℚ with type := ReactantType.VoidSuper, id := 2, momId := 5 }
      sample_fill_mem,
   (h.2.2.1 hnd).2
      { sampleImmobile ℚ with type := ReactantType.VoidSuper, id := 2, momId := 5 }
      (by rw [hsame]; exact sample_fill_mem) (Or.inl rfl),
   h.2.1 6 (by
     have hrows : (sampleFillNetwork ℚ).fillRows.map Prod.snd = [0, 1, 2, 3, 5, 4] := rfl
     rw [hrows]
     decide)⟩

theorem foldOption_append {S A : Type} (f : S → A → Option S) :
    ∀ (l1 l2 : List A) (s : S),
      foldOption f (l1 ++ l2) s
        = match foldOption f l1 s with
          | none => none
          | some s' => foldOption f l2 s' := by
  intro l1
  induction l1 with
  | nil => intro l2 s; rfl
  | cons a l1 ih =>
    intro l2 s
    simp only [List.cons_append, foldOption]
    cases f s a with
    | none => rfl
    | some s' => exact ih l2 s'

theorem foldOption_flatMap {S A B : Type} (f : S → B → Option S) (g : A → List B) :
    ∀ (l : List A) (s : S),
      foldOption (fun st a => foldOption f (g a) st) l s = foldOption f (l.flatMap g) s := by
  intro l
  induction l with
  | nil => intro s; rfl
  | cons a l ih =>
    intro s
    rw [List.flatMap_cons, foldOption_append]
    simp only [foldOption]
    cases foldOption f (g a) s with
    | none => rfl
    | some s' => exact ih s'

section PartialsLemmas

variable {K : Type} [Field K]

/-- `computeAllPartials` runs its blocks in the order of `partialsTasks`. -/
theorem computeAllPartials_tasks (net : AlloyClusterReactionNetwork K)
    (getPartialDerivatives : Reactant K → (Int → K) → Int → (Int → K))
    (getMomentPartialDerivatives : Reactant K → (Int → K) → (Int → K))
    (dFillMap : Int → Option (List Int)) (startingIdx : Int → Int)
    (vals : Int → K) (i : Int) :
    net.computeAllPartials getPartialDerivatives getMomentPartialDerivatives dFillMap
        startingIdx vals i
      = foldOption (partialsRow dFillMap startingIdx)
          (net.partialsTasks getPartialDerivatives getMomentPartialDerivatives i)
          (vals, fun _ => 0) := by
  unfold AlloyClusterReactionNetwork.computeAllPartials
    AlloyClusterReactionNetwork.partialsTasks
  have h1 : ∀ (g : Reactant K → List (((Int → K) → (Int → K)) × Int)),
      (fun (st : (Int → K) × (Int → K)) (currType : ReactantType) => foldOption
        (fun st reactant => foldOption (partialsRow dFillMap startingIdx) (g reactant) st)
        (net.getAll currType) st)
      = fun st currType => foldOption (partialsRow dFillMap startingIdx)
          ((net.getAll currType).flatMap g) st := by
    intro g
    funext st currType
    exact foldOption_flatMap _ g _ st
  have e1 : ∀ s, foldOption
        (fun st currType => foldOption (partialsRow dFillMap startingIdx)
          ((net.getAll currType).flatMap (ordinaryTasks getPartialDerivatives i)) st)
        [ReactantType.V, ReactantType.I, ReactantType.Void, ReactantType.Perfect,
          ReactantType.Faulted, ReactantType.Frank] s
      = foldOption (partialsRow dFillMap startingIdx)
          ([ReactantType.V, ReactantType.I, ReactantType.Void, ReactantType.Perfect,
            ReactantType.Faulted, ReactantType.Frank].flatMap
            (fun t => (net.getAll t).flatMap (ordinaryTasks getPartialDerivatives i))) s :=
    foldOption_flatMap _
      (fun t => (net.getAll t).flatMap (ordinaryTasks getPartialDerivatives i)) _
  have e2 : ∀ s, foldOption
        (fun st currType => foldOption (partialsRow dFillMap startingIdx)
          ((net.getAll currType).flatMap
            (superTasks getPartialDerivatives getMomentPartialDerivatives i)) st)
        [ReactantType.PerfectSuper, ReactantType.FaultedSuper, ReactantType.FrankSuper,
          ReactantType.VoidSuper] s
      = foldOption (partialsRow dFillMap startingIdx)
          ([ReactantType.PerfectSuper, ReactantType.FaultedSuper, ReactantType.FrankSuper,
            ReactantType.VoidSuper].flatMap
            (fun t => (net.getAll t).flatMap
              (superTasks getPartialDerivatives getMomentPartialDerivatives i))) s :=
    foldOption_flatMap _
      (fun t => (net.getAll t).flatMap
        (superTasks getPartialDerivatives getMomentPartialDerivatives i)) _
  rw [h1, h1, foldOption_append]
  simp only [e1, e2]
  cases foldOption (partialsRow dFillMap startingIdx)
      ([ReactantType.V, ReactantType.I, ReactantType.Void, ReactantType.Perfect,
        ReactantType.Faulted, ReactantType.Frank].flatMap
        (fun t => (net.getAll t).flatMap (ordinaryTasks getPartialDerivatives i)))
      (vals, fun _ => 0) <;> rfl

end PartialsLemmas

section AssignLemmas

variable {K : Type}

theorem assignAll_append (w1 w2 : List (Int × K)) (v : Int → K) :
    assignAll (w1 ++ w2) v = assignAll w2 (assignAll w1 v) := by
  simp only [assignAll, List.foldl_append]

theorem assignAll_other : ∀ (w : List (Int × K)) (v : Int → K) (k : Int),
    k ∉ w.map Prod.fst → assignAll w v k = v k := by
  intro w
  induction w with
  | nil => intro v k _; rfl
  | cons p rest ih =>
    intro v k hk
    rw [List.map_cons, List.mem_cons, not_or] at hk
    have hstep : assignAll (p :: rest) v = assignAll rest (Function.update v p.1 p.2) := rfl
    rw [hstep, ih _ k hk.2, Function.update_noteq hk.1]

theorem assignAll_nodup : ∀ (w : List (Int × K)) (v : Int → K),
    (w.map Prod.fst).Nodup → ∀ p ∈ w, assignAll w v p.1 = p.2 := by
  intro w
  induction w with
  | nil => intro v _ p hp; cases hp
  | cons q rest ih =>
    intro v hnd p hp
    rw [List.map_cons, List.nodup_cons] at hnd
    have hstep : assignAll (q :: rest) v = assignAll rest (Function.update v q.1 q.2) := rfl
    rw [hstep]
    rcases List.mem_cons.1 hp with rfl | hp
    · rw [assignAll_other rest _ p.1 hnd.1, Function.update_same]
    · exact ih _ hnd.2 p hp

end AssignLemmas

section PartialsLemmasBis

variable {K : Type} [Field K]

/-- Copying out a row without repeated column: the values are those of the
scratch vector at the start of the loop, and the scratch vector is left zero
on the columns of the row. -/
theorem writeRow_spec (myStartingIdx : Int) :
    ∀ (cols : List Int) (j : Nat) (vals cp : Int → K), cols.Nodup →
      writeRow myStartingIdx j cols (vals, cp)
        = (assignAll (rowWrites myStartingIdx cp j cols) vals,
           fun c => if c ∈ cols then 0 else cp c) := by
  intro cols
  induction cols with
  | nil => intro j vals cp _; simp [writeRow, rowWrites, assignAll]
  | cons col rest ih =>
    intro j vals cp hnd
    rw [List.nodup_cons] at hnd
    simp only [writeRow]
    rw [ih (j + 1) _ _ hnd.2]
    have hw : rowWrites myStartingIdx (Function.update cp col 0) (j + 1) rest
        = rowWrites myStartingIdx cp (j + 1) rest := by
      have hgen : ∀ (l : List Int) (n : Nat), col ∉ l →
          rowWrites myStartingIdx (Function.update cp col 0) n l
            = rowWrites myStartingIdx cp n l := by
        intro l
        induction l with
        | nil => intro n _; rfl
        | cons c l ihl =>
          intro n hc
          rw [List.mem_cons, not_or] at hc
          simp only [rowWrites]
          rw [ihl (n + 1) hc.2, Function.update_noteq (fun e => hc.1 e.symm)]
      exact hgen rest (j + 1) hnd.1
    rw [hw]
    refine Prod.ext rfl ?_
    funext c
    by_cases hc : c = col
    · subst hc
      simp [hnd.1]
    · simp [hc, Function.update_noteq hc]

end PartialsLemmasBis

section RowWrites

variable {K : Type}

theorem rowWrites_mem (myStartingIdx : Int) (cp : Int → K) :
    ∀ (cols : List Int) (j0 j : Nat), j < cols.length →
      (myStartingIdx + ((j0 + j : Nat) : Int), cp (cols.getD j 0))
        ∈ rowWrites myStartingIdx cp j0 cols := by
  intro cols
  induction cols with
  | nil => intro j0 j hj; cases hj
  | cons col rest ih =>
    intro j0 j hj
    cases j with
    | zero => exact List.mem_cons_self _ _
    | succ j =>
      have h := ih (j0 + 1) j (Nat.lt_of_succ_lt_succ hj)
      have e : j0 + 1 + j = j0 + (j + 1) := by omega
      rw [e] at h
      exact List.mem_cons_of_mem _ h

theorem rowWrites_index (myStartingIdx : Int) (cp : Int → K) :
    ∀ (cols : List Int) (j0 : Nat) (k : Int),
      k ∈ (rowWrites myStartingIdx cp j0 cols).map Prod.fst →
      ∃ j : Nat, j < cols.length ∧ k = myStartingIdx + ((j0 + j : Nat) : Int) := by
  intro cols
  induction cols with
  | nil => intro j0 k hk; cases hk
  | cons col rest ih =>
    intro j0 k hk
    simp only [rowWrites, List.map_cons, List.mem_cons] at hk
    rcases hk with rfl | hk
    · exact ⟨0, Nat.succ_pos _, rfl⟩
    · obtain ⟨j, hj, hkj⟩ := ih (j0 + 1) k hk
      refine ⟨j + 1, Nat.succ_lt_succ hj, ?_⟩
      have e : j0 + 1 + j = j0 + (j + 1) := by omega
      rw [hkj, e]

end RowWrites

section RunTasks

variable {K : Type} [Field K]

/-- The blocks run one after the other on rows that exist, have no repeated
column and hold every column that the block modifies: each block finds the
scratch vector zero and leaves it zero, and `vals` receives the writes of the
blocks in order. -/
theorem runTasks_spec (dFillMap : Int → Option (List Int)) (startingIdx : Int → Int) :
    ∀ (tasks : List (((Int → K) → (Int → K)) × Int)) (vals : Int → K),
      (∀ t ∈ tasks, ∃ cols, dFillMap t.2 = some cols ∧ cols.Nodup
        ∧ ∀ (cp : Int → K) (c : Int), c ∉ cols → t.1 cp c = cp c) →
      foldOption (partialsRow dFillMap startingIdx) tasks (vals, fun _ => 0)
        = some (assignAll (tasks.flatMap (taskWrites dFillMap startingIdx)) vals,
            fun _ => 0) := by
  intro tasks
  induction tasks with
  | nil => intro vals _; rfl
  | cons t rest ih =>
    intro vals h
    obtain ⟨cols, hcols, hnd, hsup⟩ := h t (List.mem_cons_self _ _)
    have hstep : partialsRow dFillMap startingIdx (vals, fun _ => 0) t
        = some (assignAll (taskWrites dFillMap startingIdx t) vals, fun _ => 0) := by
      simp only [partialsRow, hcols, taskWrites, Option.getD_some]
      rw [writeRow_spec _ cols 0 vals _ hnd]
      congr 2
      funext c
      by_cases hc : c ∈ cols
      · simp [hc]
      · simp [hc, hsup (fun _ => 0) c hc]
    simp only [foldOption, hstep, List.flatMap_cons, assignAll_append]
    exact ih _ (fun x hx => h x (List.mem_cons_of_mem _ hx))

end RunTasks

section TaskMembers

variable {K : Type}

theorem mem_partialsTasks (net : AlloyClusterReactionNetwork K)
    (getPartialDerivatives : Reactant K → (Int → K) → Int → (Int → K))
    (getMomentPartialDerivatives : Reactant K → (Int → K) → (Int → K)) (i : Int)
    (t : ((Int → K) → (Int → K)) × Int)
    (ht : t ∈ net.partialsTasks getPartialDerivatives getMomentPartialDerivatives i) :
    (∃ r ∈ net.allReactants, t = (fun cp => getPartialDerivatives r cp i, r.id - 1))
    ∨ (∃ r ∈ net.allReactants, r.type.isSuper = true
        ∧ t = (fun cp => getMomentPartialDerivatives r cp, r.momId - 1)) := by
  simp only [AlloyClusterReactionNetwork.partialsTasks, List.mem_append, List.mem_flatMap,
    AlloyClusterReactionNetwork.getAll, List.mem_filter, decide_eq_true_eq, ordinaryTasks,
    superTasks, List.mem_cons, List.mem_singleton, List.not_mem_nil, or_false] at ht
  rcases ht with ⟨_, _, r, ⟨hr, _⟩, rfl⟩ | ⟨ty, hty, r, ⟨hr, hrt⟩, rfl | rfl⟩
  · exact Or.inl ⟨r, hr, rfl⟩
  · exact Or.inl ⟨r, hr, rfl⟩
  · refine Or.inr ⟨r, hr, ?_, rfl⟩
    rcases hty with h | h | h | h <;> subst h <;> simp [ReactantType.isSuper, hrt]

theorem partialsTasks_cover (net : AlloyClusterReactionNetwork K)
    (getPartialDerivatives : Reactant K → (Int → K) → Int → (Int → K))
    (getMomentPartialDerivatives : Reactant K → (Int → K) → (Int → K)) (i : Int)
    (r : Reactant K) (hr : r ∈ net.allReactants) (hty : r.type ≠ ReactantType.He) :
    (fun cp => getPartialDerivatives r cp i, r.id - 1)
        ∈ net.partialsTasks getPartialDerivatives getMomentPartialDerivatives i
    ∧ (r.type.isSuper = true →
        (fun cp => getMomentPartialDerivatives r cp, r.momId - 1)
          ∈ net.partialsTasks getPartialDerivatives getMomentPartialDerivatives i) := by
  simp only [AlloyClusterReactionNetwork.partialsTasks, List.mem_append, List.mem_flatMap,
    AlloyClusterReactionNetwork.getAll, List.mem_filter, decide_eq_true_eq, ordinaryTasks,
    superTasks, List.mem_cons, List.mem_singleton, List.not_mem_nil, or_false]
  constructor
  · cases ht : r.type
    case He => exact absurd ht hty
    case PerfectSuper | FaultedSuper | FrankSuper | VoidSuper =>
      exact Or.inr ⟨r.type, by simp [ht], r, ⟨hr, rfl⟩, Or.inl rfl⟩
    all_goals exact Or.inl ⟨r.type, by simp [ht], r, ⟨hr, rfl⟩, rfl⟩
  · intro hsup
    refine Or.inr ⟨r.type, ?_, r, ⟨hr, rfl⟩, Or.inr rfl⟩
    cases ht : r.type <;> simp [ReactantType.isSuper, ht] at hsup ⊢

end TaskMembers

section PartialsClaim

variable {K : Type} [Field K]

/-- C22: `computeAllPartials` matches the sparsity query.  The blocks are the
row `id - 1` of every reactant of one of the ten types of the alloy network
and the row `momentId - 1` of every super cluster.  When `dFillMap` holds for each block a row without repeated column
and each partial-derivative routine modifies only the columns of its row, the
call returns; the scratch vector is zero before every block and at the
return; an entry of `vals` that is no `startingIdx[r] + j` with `j` below the
length of `dFillMap[r]` is unchanged; and, the written entries being pairwise
different, `vals[startingIdx[r] + j]` is the partial derivative of row `r`
with respect to column `dFillMap[r][j]` computed on a zeroed scratch
vector. -/
theorem compute_all_partials_rows (net : AlloyClusterReactionNetwork K)
    (getPartialDerivatives : Reactant K → (Int → K) → Int → (Int → K))
    (getMomentPartialDerivatives : Reactant K → (Int → K) → (Int → K))
    (dFillMap : Int → Option (List Int)) (startingIdx : Int → Int)
    (vals : Int → K) (i : Int)
    (hrows : ∀ t ∈ net.partialsTasks getPartialDerivatives getMomentPartialDerivatives i,
      ∃ cols, dFillMap t.2 = some cols ∧ cols.Nodup
        ∧ ∀ (cp : Int → K) (c : Int), c ∉ cols → t.1 cp c = cp c) :
    (∃ vals', net.computeAllPartials getPartialDerivatives getMomentPartialDerivatives
          dFillMap startingIdx vals i = some (vals', fun _ => 0)
      ∧ (∀ k : Int,
          (∀ t ∈ net.partialsTasks getPartialDerivatives getMomentPartialDerivatives i,
            ∀ j : Nat, j < ((dFillMap t.2).getD []).length →
              k ≠ startingIdx t.2 + (j : Int)) →
          vals' k = vals k)
      ∧ ((((net.partialsTasks getPartialDerivatives getMomentPartialDerivatives i).flatMap
              (taskWrites dFillMap startingIdx)).map Prod.fst).Nodup →
          ∀ t ∈ net.partialsTasks getPartialDerivatives getMomentPartialDerivatives i,
            ∀ j : Nat, j < ((dFillMap t.2).getD []).length →
              vals' (startingIdx t.2 + (j : Int))
                = t.1 (fun _ => 0) (((dFillMap t.2).getD []).getD j 0)))
    ∧ (∀ pre post,
        net.partialsTasks getPartialDerivatives getMomentPartialDerivatives i = pre ++ post →
        ∃ v, foldOption (partialsRow dFillMap startingIdx) pre (vals, fun _ => 0)
          = some (v, fun _ => 0))
    ∧ (∀ r ∈ net.allReactants, r.type ≠ ReactantType.He →
        (fun cp => getPartialDerivatives r cp i, r.id - 1)
            ∈ net.partialsTasks getPartialDerivatives getMomentPartialDerivatives i
        ∧ (r.type.isSuper = true →
            (fun cp => getMomentPartialDerivatives r cp, r.momId - 1)
              ∈ net.partialsTasks getPartialDerivatives getMomentPartialDerivatives i))
    ∧ (∀ t ∈ net.partialsTasks getPartialDerivatives getMomentPartialDerivatives i,
        (∃ r ∈ net.allReactants, t = (fun cp => getPartialDerivatives r cp i, r.id - 1))
        ∨ (∃ r ∈ net.allReactants, r.type.isSuper = true
            ∧ t = (fun cp => getMomentPartialDerivatives r cp, r.momId - 1))) := by
  refine ⟨⟨assignAll
      ((net.partialsTasks getPartialDerivatives getMomentPartialDerivatives i).flatMap
        (taskWrites dFillMap startingIdx)) vals, ?_, ?_, ?_⟩, ?_, ?_, ?_⟩
  · rw [computeAllPartials_tasks]
    exact runTasks_spec dFillMap startingIdx _ vals hrows
  · intro k hk
    apply assignAll_other
    intro hmem
    rw [List.mem_map] at hmem
    obtain ⟨p, hp, hpk⟩ := hmem
    rw [List.mem_flatMap] at hp
    obtain ⟨t, ht, hpt⟩ := hp
    have hidx := rowWrites_index (startingIdx t.2) (t.1 (fun _ => 0))
      ((dFillMap t.2).getD []) 0 p.1 (List.mem_map_of_mem Prod.fst hpt)
    obtain ⟨j, hj, hpj⟩ := hidx
    apply hk t ht j hj
    rw [← hpk, hpj, Nat.zero_add]
  · intro hnd t ht j hj
    have hmem := rowWrites_mem (startingIdx t.2) (t.1 (fun _ => 0))
      ((dFillMap t.2).getD []) 0 j hj
    rw [Nat.zero_add] at hmem
    have hin : (startingIdx t.2 + (j : Int),
          t.1 (fun _ => 0) (((dFillMap t.2).getD []).getD j 0))
        ∈ (net.partialsTasks getPartialDerivatives getMomentPartialDerivatives i).flatMap
            (taskWrites dFillMap startingIdx) :=
      List.mem_flatMap.2 ⟨t, ht, hmem⟩
    exact assignAll_nodup _ vals hnd _ hin
  · intro pre post hsplit
    refine ⟨_, runTasks_spec dFillMap startingIdx pre vals ?_⟩
    intro t ht
    exact hrows t (by rw [hsplit]; exact List.mem_append_left _ ht)
  · intro r hr hty
    exact partialsTasks_cover net getPartialDerivatives getMomentPartialDerivatives i r hr hty
  · intro t ht
    exact mem_partialsTasks net getPartialDerivatives getMomentPartialDerivatives i t ht

end PartialsClaim

/-- C22 exercised on the sample network after `reinitializeNetwork`, every
row holding the columns 0 and 2, the routines adding the id (the moment id)
to column 0, and row `r` starting at `2 r`: the call returns with a zero
scratch vector, and entry 2 of `vals`, the first of row 1, is the id 2 of
the super cluster of that row. -/
theorem compute_all_partials_rows_witness :
    ∃ vals', (sampleFillNetwork ℚ).computeAllPartials
        (fun r cp _ => Function.update cp 0 (cp 0 + (r.id : ℚ)))
        (fun r cp => Function.update cp 0 (cp 0 + (r.momId : ℚ)))
        (fun _ => some [0, 2]) (fun row => 2 * row) (fun _ => 7) 0
      = some (vals', fun _ => 0) :=
  (compute_all_partials_rows (sampleFillNetwork ℚ)
    (fun r cp _ => Function.update cp 0 (cp 0 + (r.id : ℚ)))
    (fun r cp => Function.update cp 0 (cp 0 + (r.momId : ℚ)))
    (fun _ => some [0, 2]) (fun row => 2 * row) (fun _ => 7) 0
    (by
      intro t ht
      refine ⟨[0, 2], rfl, by decide, ?_⟩
      intro cp c hc
      have hc0 : c ≠ 0 := by
        intro h
        apply hc
        rw [h]
        exact List.mem_cons_self _ _
      rcases mem_partialsTasks _ _ _ _ t ht with ⟨r, _, rfl⟩ | ⟨r, _, _, rfl⟩
      · exact Function.update_noteq hc0 _ _
      · exact Function.update_noteq hc0 _ _)).1.imp (fun _ h => h.1)

theorem foldl_cellGrid {S : Type} (f : S → CellKey → S) (hes : List Int) :
    ∀ (vs : List Int) (s : S),
      vs.foldl (fun st v => hes.foldl (fun st he => f st (he, v)) st) s
        = (cellGrid hes vs).foldl f s := by
  intro vs
  induction vs with
  | nil => intro s; rfl
  | cons v vs ih =>
    intro s
    rw [List.foldl_cons, ih]
    simp only [cellGrid, List.foldr_cons, List.foldl_append, List.foldl_map]

section MapLemmas

variable {V : Type}

theorem mapAssign_skip (key k : CellKey) (value v : V) (rest : List (CellKey × V))
    (h1 : k ≠ key) (h2 : ¬keyLt key k = true) :
    mapAssign key value ((k, v) :: rest) = (k, v) :: mapAssign key value rest := by
  rw [Bool.not_eq_true] at h2
  simp [mapAssign, h1, h2]

theorem mapGet_assign_same (key : CellKey) (value : List V) :
    ∀ cells : List (CellKey × List V), mapGet key (mapAssign key value cells) = value := by
  intro cells
  induction cells with
  | nil => simp [mapAssign, mapGet]
  | cons c rest ih =>
    obtain ⟨k, v⟩ := c
    by_cases h1 : k = key
    · simp [mapAssign, h1, mapGet]
    · by_cases h2 : keyLt key k = true
      · simp [mapAssign, h1, h2, mapGet]
      · rw [mapAssign_skip key k value v rest h1 h2]
        simp only [mapGet, List.find?_cons, h1, decide_False] at ih ⊢
        exact ih

theorem mapGet_assign_other (key other : CellKey) (value : List V) (h : other ≠ key) :
    ∀ cells : List (CellKey × List V),
      mapGet other (mapAssign key value cells) = mapGet other cells := by
  intro cells
  have h' : key ≠ other := fun e => h e.symm
  induction cells with
  | nil => simp [mapAssign, mapGet, h']
  | cons c rest ih =>
    obtain ⟨k, v⟩ := c
    by_cases h1 : k = key
    · subst h1
      simp [mapAssign, mapGet, h']
    · by_cases h2 : keyLt key k = true
      · simp [mapAssign, h1, h2, mapGet, h']
      · rw [mapAssign_skip key k value v rest h1 h2]
        by_cases h3 : k = other
        · simp [mapGet, h3]
        · simp only [mapGet, List.find?_cons, h3, decide_False] at ih ⊢
          exact ih

theorem mapHas_assign (key other : CellKey) (value : V) :
    ∀ cells : List (CellKey × V),
      mapHas other (mapAssign key value cells)
        = (decide (key = other) || mapHas other cells) := by
  intro cells
  induction cells with
  | nil => simp [mapAssign, mapHas]
  | cons c rest ih =>
    obtain ⟨k, v⟩ := c
    by_cases h1 : k = key
    · subst h1
      simp [mapAssign, mapHas]
    · by_cases h2 : keyLt key k = true
      · simp [mapAssign, h1, h2, mapHas]
      · rw [mapAssign_skip key k value v rest h1 h2]
        simp only [mapHas, List.any_cons] at ih ⊢
        rw [ih]
        cases decide (k = other) <;> cases decide (key = other) <;> simp

end MapLemmas

section RateLoops

variable {K : Type} [LinearOrderedField K]

theorem biggestOf_append (r1 r2 : List K) (b : K) :
    biggestOf (r1 ++ r2) b = biggestOf r2 (biggestOf r1 b) := by
  simp only [biggestOf, List.foldl_append]

theorem reactingRateLoop_spec (kPlus : ClusterPtr → ClusterPtr → K) (equal : K → K → Bool)
    (nTot : Int) :
    ∀ (l : List (ClusterPair K)) (b : K),
      reactingRateLoop kPlus equal nTot l b
        = (l.map (fun p => { p with kConstant := kPlus p.first p.second / (nTot : K) }),
           (l.map (fun p => { p with kConstant := kPlus p.first p.second / (nTot : K) })).filter
             (fun p => !equal (kPlus p.first p.second) 0),
           biggestOf (effectiveRates kPlus equal l) b) := by
  intro l
  induction l with
  | nil => intro b; rfl
  | cons p rest ih =>
    intro b
    cases h : equal (kPlus p.first p.second) 0
    · simp only [reactingRateLoop, h, Bool.not_false, if_true, ih, List.map_cons,
        List.filter_cons, effectiveRates, biggestOf, List.foldl_cons]
    · simp only [reactingRateLoop, h, Bool.not_true, Bool.false_eq_true, if_false, ih,
        List.map_cons, List.filter_cons, effectiveRates]

theorem combiningRateLoop_spec (kPlus : ClusterPtr → ClusterPtr → K) (equal : K → K → Bool)
    (heap : ClusterPtr → PSICluster K) (self : ClusterPtr) (id nTot : Int) :
    ∀ l : List (CombiningCluster K),
      combiningRateLoop kPlus equal heap self id nTot l
        = (l.map (fun c => { c with kConstant := kPlus self c.combining / (nTot : K) }),
           (l.map (fun c => { c with kConstant := kPlus self c.combining / (nTot : K) })).flatMap
             (fun c => if equal (kPlus self c.combining) 0 then []
               else if id = (heap c.combining).id then [c, c] else [c])) := by
  intro l
  induction l with
  | nil => rfl
  | cons c rest ih =>
    cases h : equal (kPlus self c.combining) 0
    · simp only [combiningRateLoop, h, ih, Bool.not_false, if_true, List.map_cons,
        List.flatMap_cons, Bool.false_eq_true, if_false]
      by_cases hid : id = (heap c.combining).id
      · rw [if_pos hid, if_pos hid]; rfl
      · rw [if_neg hid, if_neg hid]; rfl
    · simp [combiningRateLoop, h, ih]

theorem dissociatingRateLoop_spec (kMinus : ClusterPtr → ClusterPtr → ClusterPtr → K)
    (equal : K → K → Bool) (heap : ClusterPtr → PSICluster K) (self : ClusterPtr)
    (id nTot : Int) :
    ∀ l : List (ClusterPair K),
      dissociatingRateLoop kMinus equal heap self id nTot l
        = (l.map (fun p => { p with kConstant := kMinus p.first p.second self / (nTot : K) }),
           (l.map (fun p =>
              { p with kConstant := kMinus p.first p.second self / (nTot : K) })).flatMap
             (fun p => if equal (kMinus p.first p.second self) 0 then []
               else if id = (heap p.second).id then [p, p] else [p])) := by
  intro l
  induction l with
  | nil => rfl
  | cons p rest ih =>
    cases h : equal (kMinus p.first p.second self) 0
    · simp only [dissociatingRateLoop, h, ih, Bool.not_false, if_true, List.map_cons,
        List.flatMap_cons, Bool.false_eq_true, if_false]
      by_cases hid : id = (heap p.second).id
      · rw [if_pos hid, if_pos hid]; rfl
      · rw [if_neg hid, if_neg hid]; rfl
    · simp [dissociatingRateLoop, h, ih]

theorem emissionRateLoop_spec (kMinus : ClusterPtr → ClusterPtr → ClusterPtr → K)
    (equal : K → K → Bool) (self : ClusterPtr) (nTot : Int) :
    ∀ l : List (ClusterPair K),
      emissionRateLoop kMinus equal self nTot l
        = (l.map (fun p => { p with kConstant := kMinus self p.first p.second / (nTot : K) }),
           (l.map (fun p =>
              { p with kConstant := kMinus self p.first p.second / (nTot : K) })).filter
             (fun p => !equal (kMinus self p.first p.second) 0)) := by
  intro l
  induction l with
  | nil => rfl
  | cons p rest ih =>
    cases h : equal (kMinus self p.first p.second) 0
    · simp [emissionRateLoop, h, ih]
    · simp [emissionRateLoop, h, ih]

end RateLoops

section RateCell

variable {K : Type} [LinearOrderedField K]

theorem effectiveRates_rated (kPlus : ClusterPtr → ClusterPtr → K) (equal : K → K → Bool)
    (nTot : Int) (l : List (ClusterPair K)) :
    effectiveRates kPlus equal
        (l.map (fun p => { p with kConstant := kPlus p.first p.second / (nTot : K) }))
      = effectiveRates kPlus equal l := by
  simp only [effectiveRates, List.map_map]
  rfl

theorem ratedCell_idem (kPlus : ClusterPtr → ClusterPtr → K)
    (kMinus : ClusterPtr → ClusterPtr → ClusterPtr → K) (equal : K → K → Bool)
    (heap : ClusterPtr → PSICluster K) (self : ClusterPtr) (id nTot : Int)
    (v : CellView K) :
    ratedCell kPlus kMinus equal heap self id nTot
        (ratedCell kPlus kMinus equal heap self id nTot v)
      = ratedCell kPlus kMinus equal heap self id nTot v := by
  simp only [ratedCell, List.map_map]
  rfl

/-- The cell of `key` after the body of the loops has run for the cell `k`. -/
theorem rateCellStep_view (kPlus : ClusterPtr → ClusterPtr → K)
    (kMinus : ClusterPtr → ClusterPtr → ClusterPtr → K) (equal : K → K → Bool)
    (heap : ClusterPtr → PSICluster K) (self : ClusterPtr)
    (st : RateLoopState K) (k key : CellKey) :
    cellView (rateCellStep kPlus kMinus equal heap self st k).sc
        (rateCellStep kPlus kMinus equal heap self st k).maps key
      = (if key = k ∧ mapHas k st.maps.reactingMap = true then
          ratedCell kPlus kMinus equal heap self st.sc.id st.sc.nTot
            (cellView st.sc st.maps k)
        else cellView st.sc st.maps key) := by
  cases hk : mapHas k st.maps.reactingMap
  · simp [rateCellStep, hk]
  · by_cases hkey : key = k
    · subst hkey
      simp only [rateCellStep, hk, Bool.not_true, Bool.false_eq_true, if_false, rateCell,
        cellView, mapGet_assign_same, reactingRateLoop_spec, combiningRateLoop_spec,
        dissociatingRateLoop_spec, emissionRateLoop_spec, ratedCell, true_and, if_true]
    · simp only [rateCellStep, hk, Bool.not_true, Bool.false_eq_true, if_false, rateCell,
        cellView, mapGet_assign_other _ _ _ hkey, hkey, false_and]

theorem rateCellStep_frame (kPlus : ClusterPtr → ClusterPtr → K)
    (kMinus : ClusterPtr → ClusterPtr → ClusterPtr → K) (equal : K → K → Bool)
    (heap : ClusterPtr → PSICluster K) (self : ClusterPtr)
    (st : RateLoopState K) (k : CellKey) :
    (rateCellStep kPlus kMinus equal heap self st k).sc.id = st.sc.id
    ∧ (rateCellStep kPlus kMinus equal heap self st k).sc.nTot = st.sc.nTot
    ∧ (∀ key, mapHas key (rateCellStep kPlus kMinus equal heap self st k).maps.reactingMap
        = mapHas key st.maps.reactingMap)
    ∧ (rateCellStep kPlus kMinus equal heap self st k).biggestProductionRate
        = (if mapHas k st.maps.reactingMap = true then
            biggestOf (effectiveRates kPlus equal (mapGet k st.maps.reactingMap))
              st.biggestProductionRate
          else st.biggestProductionRate) := by
  cases hk : mapHas k st.maps.reactingMap
  · simp [rateCellStep, hk]
  · refine ⟨by simp [rateCellStep, hk, rateCell], by simp [rateCellStep, hk, rateCell],
      ?_, ?_⟩
    · intro key
      simp only [rateCellStep, hk, Bool.not_true, Bool.false_eq_true, if_false, rateCell,
        mapHas_assign]
      by_cases hkey : k = key
      · subst hkey
        simp [hk]
      · simp [hkey]
    · simp only [rateCellStep, hk, Bool.not_true, Bool.false_eq_true, if_false, rateCell,
        reactingRateLoop_spec, if_true]

/-- The cells after the loops have run over the list of cells `ks`. -/
theorem rateCells_view (kPlus : ClusterPtr → ClusterPtr → K)
    (kMinus : ClusterPtr → ClusterPtr → ClusterPtr → K) (equal : K → K → Bool)
    (heap : ClusterPtr → PSICluster K) (self : ClusterPtr) :
    ∀ (ks : List CellKey) (st : RateLoopState K),
      (∀ key,
        cellView (ks.foldl (rateCellStep kPlus kMinus equal heap self) st).sc
            (ks.foldl (rateCellStep kPlus kMinus equal heap self) st).maps key
          = (if key ∈ ks ∧ mapHas key st.maps.reactingMap = true then
              ratedCell kPlus kMinus equal heap self st.sc.id st.sc.nTot
                (cellView st.sc st.maps key)
            else cellView st.sc st.maps key))
      ∧ (ks.foldl (rateCellStep kPlus kMinus equal heap self) st).biggestProductionRate
          = biggestOf
              ((ks.filter (fun key => mapHas key st.maps.reactingMap)).flatMap
                (fun key => effectiveRates kPlus equal (mapGet key st.maps.reactingMap)))
              st.biggestProductionRate := by
  intro ks
  induction ks with
  | nil => intro st; simp [biggestOf]
  | cons k ks ih =>
    intro st
    obtain ⟨f1, f2, f3, f4⟩ := rateCellStep_frame kPlus kMinus equal heap self st k
    obtain ⟨i1, i2⟩ := ih (rateCellStep kPlus kMinus equal heap self st k)
    have hview := rateCellStep_view kPlus kMinus equal heap self st k
    rw [List.foldl_cons]
    constructor
    · intro key
      have e := i1 key
      rw [f1, f2, f3 key] at e
      rw [e]
      have hv := hview key
      by_cases hks : key ∈ ks ∧ mapHas key st.maps.reactingMap = true
      · have hB : key ∈ k :: ks ∧ mapHas key st.maps.reactingMap = true :=
          ⟨List.mem_cons_of_mem _ hks.1, hks.2⟩
        rw [if_pos hks, if_pos hB, hv]
        by_cases hk : key = k ∧ mapHas k st.maps.reactingMap = true
        · rw [if_pos hk, ratedCell_idem, hk.1]
        · rw [if_neg hk]
      · rw [if_neg hks, hv]
        by_cases hk : key = k ∧ mapHas k st.maps.reactingMap = true
        · have hB : key ∈ k :: ks ∧ mapHas key st.maps.reactingMap = true :=
            ⟨by rw [hk.1]; exact List.mem_cons_self _ _, by rw [hk.1]; exact hk.2⟩
          rw [if_pos hk, if_pos hB, hk.1]
        · have hB : ¬(key ∈ k :: ks ∧ mapHas key st.maps.reactingMap = true) := by
            rintro ⟨hmem, hhas⟩
            rcases List.mem_cons.1 hmem with h | h
            · exact hk ⟨h, by rw [← h]; exact hhas⟩
            · exact hks ⟨h, hhas⟩
          rw [if_neg hk, if_neg hB]
    · rw [i2, f4]
      have hrates : ∀ key,
          effectiveRates kPlus equal
              (mapGet key (rateCellStep kPlus kMinus equal heap self st k).maps.reactingMap)
            = effectiveRates kPlus equal (mapGet key st.maps.reactingMap) := by
        intro key
        have h := congrArg CellView.reacting (hview key)
        simp only [cellView] at h
        rw [h]
        by_cases hk : key = k ∧ mapHas k st.maps.reactingMap = true
        · rw [if_pos hk]
          simp only [ratedCell, effectiveRates_rated, hk.1]
        · rw [if_neg hk]
      have hfilter : (fun key =>
            mapHas key (rateCellStep kPlus kMinus equal heap self st k).maps.reactingMap)
          = fun key => mapHas key st.maps.reactingMap := funext f3
      have hfun : (fun key => effectiveRates kPlus equal
            (mapGet key (rateCellStep kPlus kMinus equal heap self st k).maps.reactingMap))
          = fun key => effectiveRates kPlus equal (mapGet key st.maps.reactingMap) :=
        funext hrates
      rw [hfilter, hfun]
      cases hk : mapHas k st.maps.reactingMap
      · simp [List.filter_cons, hk]
      · simp [List.filter_cons, hk, biggestOf_append]

end RateCell

section BiggestLemmas

variable {K : Type} [LinearOrderedField K]

theorem biggestOf_spec : ∀ (rates : List K) (b : K),
    b ≤ biggestOf rates b
    ∧ (∀ x ∈ rates, x ≤ biggestOf rates b)
    ∧ (biggestOf rates b = b ∨ biggestOf rates b ∈ rates) := by
  intro rates
  induction rates with
  | nil => intro b; exact ⟨le_refl _, fun x hx => (by cases hx), Or.inl rfl⟩
  | cons r rest ih =>
    intro b
    have hstep : biggestOf (r :: rest) b = biggestOf rest (if r > b then r else b) := rfl
    rw [hstep]
    obtain ⟨h1, h2, h3⟩ := ih (if r > b then r else b)
    have hb : b ≤ (if r > b then r else b) := by
      split
      · exact le_of_lt (by assumption)
      · exact le_refl _
    have hr : r ≤ (if r > b then r else b) := by
      split
      · exact le_refl _
      · exact not_lt.1 (by assumption)
    refine ⟨le_trans hb h1, ?_, ?_⟩
    · intro x hx
      rcases List.mem_cons.1 hx with rfl | hx
      · exact le_trans hr h1
      · exact h2 x hx
    · rcases h3 with h | h
      · by_cases hrb : r > b
        · right
          rw [h, if_pos hrb]
          exact List.mem_cons_self _ _
        · left
          rw [h, if_neg hrb]
      · exact Or.inr (List.mem_cons_of_mem _ h)

end BiggestLemmas

section RateClaim

variable {K : Type} [LinearOrderedField K] [FloorRing K]

/-- The two loops over the widths run the body over the cells of the
rectangle. -/
theorem computeRates_fold (kPlus : ClusterPtr → ClusterPtr → K)
    (kMinus : ClusterPtr → ClusterPtr → ClusterPtr → K) (equal : K → K → Bool)
    (heap : ClusterPtr → PSICluster K) (self : ClusterPtr)
    (sc : SuperCluster K) (maps : SuperClusterMaps K) :
    ∃ st : RateLoopState K,
      st = sc.rectangle.foldl (rateCellStep kPlus kMinus equal heap self)
          { sc := sc, maps := maps, biggestProductionRate := 0, nHeSquare := 0,
            nVSquare := 0 }
      ∧ sc.computeRates kPlus kMinus equal heap self maps
        = (st.sc.setDispersions st.nHeSquare st.nVSquare st.maps.compositionHe
            st.maps.compositionV,
           { st.maps with biggestRate := st.biggestProductionRate }) := by
  have h := foldl_cellGrid (rateCellStep kPlus kMinus equal heap self)
    ((List.range sc.sectionHeWidth.toNat).map sc.heIndexAt)
    ((List.range sc.sectionVWidth.toNat).map sc.vIndexAt)
    { sc := sc, maps := maps, biggestProductionRate := 0, nHeSquare := 0, nVSquare := 0 }
  simp only [List.foldl_map] at h
  refine ⟨_, rfl, ?_⟩
  rw [SuperCluster.rectangle, ← h]
  rfl

end RateClaim

section RateClaimBis

variable {K : Type} [LinearOrderedField K] [FloorRing K]

/-- C28: `computeRateConstants` visits exactly the cells of the width
rectangle that are keys of the reacting map.  In a visited cell every micro
entry of the four maps holds `kConstant = rate / nTot` afterwards and the
effective vectors built by the loops hold exactly the entries whose rate is
not numerically equal to 0; the vectors of every other key are unchanged.
`biggestRate` is the result of `if (rate > biggest) biggest = rate` started at
0 over the un-normalised rates of the effective reacting pairs of the visited
cells: an upper bound of these rates, 0 when there are none, and the maximum
of them when one of them is not negative. -/
theorem rate_computation_per_cell (kPlus : ClusterPtr → ClusterPtr → K)
    (kMinus : ClusterPtr → ClusterPtr → ClusterPtr → K) (equal : K → K → Bool)
    (heap : ClusterPtr → PSICluster K) (self : ClusterPtr)
    (sc : SuperCluster K) (maps : SuperClusterMaps K) :
    (∀ key, key ∈ sc.rectangle → mapHas key maps.reactingMap = true →
        cellView (sc.computeRates kPlus kMinus equal heap self maps).1
            (sc.computeRates kPlus kMinus equal heap self maps).2 key
          = ratedCell kPlus kMinus equal heap self sc.id sc.nTot (cellView sc maps key))
    ∧ (∀ key, ¬(key ∈ sc.rectangle ∧ mapHas key maps.reactingMap = true) →
        cellView (sc.computeRates kPlus kMinus equal heap self maps).1
            (sc.computeRates kPlus kMinus equal heap self maps).2 key
          = cellView sc maps key)
    ∧ (∀ (v : CellView K),
        (∀ e ∈ (ratedCell kPlus kMinus equal heap self sc.id sc.nTot v).reacting,
          e.kConstant = kPlus e.first e.second / (sc.nTot : K))
        ∧ (∀ e, e ∈ (ratedCell kPlus kMinus equal heap self sc.id sc.nTot v).effReacting ↔
            e ∈ (ratedCell kPlus kMinus equal heap self sc.id sc.nTot v).reacting
              ∧ equal (kPlus e.first e.second) 0 = false)
        ∧ (∀ e ∈ (ratedCell kPlus kMinus equal heap self sc.id sc.nTot v).combining,
          e.kConstant = kPlus self e.combining / (sc.nTot : K))
        ∧ (∀ e, e ∈ (ratedCell kPlus kMinus equal heap self sc.id sc.nTot v).effCombining ↔
            e ∈ (ratedCell kPlus kMinus equal heap self sc.id sc.nTot v).combining
              ∧ equal (kPlus self e.combining) 0 = false)
        ∧ (∀ e ∈ (ratedCell kPlus kMinus equal heap self sc.id sc.nTot v).dissociating,
          e.kConstant = kMinus e.first e.second self / (sc.nTot : K))
        ∧ (∀ e, e ∈ (ratedCell kPlus kMinus equal heap self sc.id sc.nTot v).effDissociating ↔
            e ∈ (ratedCell kPlus kMinus equal heap self sc.id sc.nTot v).dissociating
              ∧ equal (kMinus e.first e.second self) 0 = false)
        ∧ (∀ e ∈ (ratedCell kPlus kMinus equal heap self sc.id sc.nTot v).emission,
          e.kConstant = kMinus self e.first e.second / (sc.nTot : K))
        ∧ (∀ e, e ∈ (ratedCell kPlus kMinus equal heap self sc.id sc.nTot v).effEmission ↔
            e ∈ (ratedCell kPlus kMinus equal heap self sc.id sc.nTot v).emission
              ∧ equal (kMinus self e.first e.second) 0 = false))
    ∧ (sc.computeRateConstants kPlus kMinus equal heap self maps).2.biggestRate
        = biggestOf
            ((sc.rectangle.filter (fun key => mapHas key maps.reactingMap)).flatMap
              (fun key => effectiveRates kPlus equal (mapGet key maps.reactingMap))) 0
    ∧ (∀ x ∈ (sc.rectangle.filter (fun key => mapHas key maps.reactingMap)).flatMap
          (fun key => effectiveRates kPlus equal (mapGet key maps.reactingMap)),
        x ≤ (sc.computeRateConstants kPlus kMinus equal heap self maps).2.biggestRate)
    ∧ ((sc.rectangle.filter (fun key => mapHas key maps.reactingMap)).flatMap
          (fun key => effectiveRates kPlus equal (mapGet key maps.reactingMap)) = [] →
        (sc.computeRateConstants kPlus kMinus equal heap self maps).2.biggestRate = 0)
    ∧ ((∃ x ∈ (sc.rectangle.filter (fun key => mapHas key maps.reactingMap)).flatMap
          (fun key => effectiveRates kPlus equal (mapGet key maps.reactingMap)), 0 ≤ x) →
        (sc.computeRateConstants kPlus kMinus equal heap self maps).2.biggestRate
          ∈ (sc.rectangle.filter (fun key => mapHas key maps.reactingMap)).flatMap
            (fun key => effectiveRates kPlus equal (mapGet key maps.reactingMap))) := by
  obtain ⟨st, hst, hr⟩ := computeRates_fold kPlus kMinus equal heap self sc maps
  obtain ⟨hview, hbig⟩ := rateCells_view kPlus kMinus equal heap self sc.rectangle
    { sc := sc, maps := maps, biggestProductionRate := 0, nHeSquare := 0, nVSquare := 0 }
  rw [← hst] at hview hbig
  have hcell : ∀ key, cellView (sc.computeRates kPlus kMinus equal heap self maps).1
      (sc.computeRates kPlus kMinus equal heap self maps).2 key
        = cellView st.sc st.maps key := by
    intro key
    rw [hr]
    rfl
  have hB : (sc.computeRateConstants kPlus kMinus equal heap self maps).2.biggestRate
      = biggestOf
          ((sc.rectangle.filter (fun key => mapHas key maps.reactingMap)).flatMap
            (fun key => effectiveRates kPlus equal (mapGet key maps.reactingMap))) 0 := by
    simp only [SuperCluster.computeRateConstants, hr]
    exact hbig
  obtain ⟨b1, b2, b3⟩ := biggestOf_spec
    ((sc.rectangle.filter (fun key => mapHas key maps.reactingMap)).flatMap
      (fun key => effectiveRates kPlus equal (mapGet key maps.reactingMap))) 0
  refine ⟨?_, ?_, ?_, hB, ?_, ?_, ?_⟩
  · intro key hmem hhas
    rw [hcell, hview key, if_pos ⟨hmem, hhas⟩]
  · intro key hnot
    rw [hcell, hview key, if_neg hnot]
  · intro v
    refine ⟨?_, ?_, ?_, ?_, ?_, ?_, ?_, ?_⟩
    · intro e he
      simp only [ratedCell, List.mem_map] at he
      obtain ⟨p, _, rfl⟩ := he
      rfl
    · intro e
      simp only [ratedCell, List.mem_filter, Bool.not_eq_true']
    · intro e he
      simp only [ratedCell, List.mem_map] at he
      obtain ⟨p, _, rfl⟩ := he
      rfl
    · intro e
      simp only [ratedCell, List.mem_flatMap]
      constructor
      · rintro ⟨c, hc, hec⟩
        cases h : equal (kPlus self c.combining) 0
        · rw [h] at hec
          simp only [Bool.false_eq_true, if_false] at hec
          have hce : e = c := by
            split at hec
            · simpa using hec
            · simpa using hec
          rw [hce]
          exact ⟨hc, h⟩
        · rw [h] at hec
          simp at hec
      · rintro ⟨hc, h⟩
        refine ⟨e, hc, ?_⟩
        rw [h]
        simp only [Bool.false_eq_true, if_false]
        split
        · exact List.mem_cons_self _ _
        · exact List.mem_cons_self _ _
    · intro e he
      simp only [ratedCell, List.mem_map] at he
      obtain ⟨p, _, rfl⟩ := he
      rfl
    · intro e
      simp only [ratedCell, List.mem_flatMap]
      constructor
      · rintro ⟨c, hc, hec⟩
        cases h : equal (kMinus c.first c.second self) 0
        · rw [h] at hec
          simp only [Bool.false_eq_true, if_false] at hec
          have hce : e = c := by
            split at hec
            · simpa using hec
            · simpa using hec
          rw [hce]
          exact ⟨hc, h⟩
        · rw [h] at hec
          simp at hec
      · rintro ⟨hc, h⟩
        refine ⟨e, hc, ?_⟩
        rw [h]
        simp only [Bool.false_eq_true, if_false]
        split
        · exact List.mem_cons_self _ _
        · exact List.mem_cons_self _ _
    · intro e he
      simp only [ratedCell, List.mem_map] at he
      obtain ⟨p, _, rfl⟩ := he
      rfl
    · intro e
      simp only [ratedCell, List.mem_filter, Bool.not_eq_true']
  · intro x hx
    rw [hB]
    exact b2 x hx
  · intro hnil
    rw [hB, hnil]
    rfl
  · rintro ⟨x, hx, hx0⟩
    rw [hB]
    rcases b3 with h | h
    · have hle := b2 x hx
      rw [h] at hle
      have hxe : x = 0 := le_antisymm hle hx0
      rw [h, ← hxe]
      exact hx
    · exact h

end RateClaimBis

theorem castInt_three_halves : castInt ((2 : ℚ) - ((1 : Int) : ℚ) / 2) = 1 := by
  have h0 : (0 : ℚ) ≤ (2 : ℚ) - ((1 : Int) : ℚ) / 2 := by norm_num
  rw [castInt, if_pos h0, Int.floor_eq_iff]
  norm_num

theorem castInt_five_halves : castInt ((3 : ℚ) - ((1 : Int) : ℚ) / 2) = 2 := by
  have h0 : (0 : ℚ) ≤ (3 : ℚ) - ((1 : Int) : ℚ) / 2 := by norm_num
  rw [castInt, if_pos h0, Int.floor_eq_iff]
  norm_num

theorem rateSuper_rectangle : rateSuper.rectangle = [(2, 3)] := by
  have h1 : rateSuper.heIndexAt 0 = 2 := by
    show castInt ((2 : ℚ) - ((1 : Int) : ℚ) / 2) + ((0 : Nat) : Int) + 1 = 2
    rw [castInt_three_halves]
    rfl
  have h2 : rateSuper.vIndexAt 0 = 3 := by
    show castInt ((3 : ℚ) - ((1 : Int) : ℚ) / 2) + ((0 : Nat) : Int) + 1 = 3
    rw [castInt_five_halves]
    rfl
  have hw1 : rateSuper.sectionHeWidth.toNat = 1 := rfl
  have hw2 : rateSuper.sectionVWidth.toNat = 1 := rfl
  have hr : List.range 1 = [0] := rfl
  simp only [SuperCluster.rectangle, hw1, hw2, hr, List.map_cons, List.map_nil,
    h1, h2, cellGrid, List.foldr_cons, List.foldr_nil, List.append_nil]

/-- C28 exercised on `rateSuper` with the rates `kPlus = 6` and `kMinus = 0`
and exact equality as `equal`: the cell `(2, 3)` is visited, its reacting
pair holds `kConstant = 6 / 1` and is effective, and `biggestRate` is 6. -/
theorem rate_computation_per_cell_witness :
    cellView (rateSuper.computeRates (fun _ _ => 6) (fun _ _ _ => 0)
          (fun a b => decide (a = b)) rateHeap 4 rateMaps).1
        (rateSuper.computeRates (fun _ _ => 6) (fun _ _ _ => 0)
          (fun a b => decide (a = b)) rateHeap 4 rateMaps).2 (2, 3)
      = ratedCell (fun _ _ => 6) (fun _ _ _ => 0) (fun a b => decide (a = b)) rateHeap 4
          rateSuper.id rateSuper.nTot (cellView rateSuper rateMaps (2, 3))
    ∧ (6 : ℚ) ≤ (rateSuper.computeRateConstants (fun _ _ => 6) (fun _ _ _ => 0)
          (fun a b => decide (a = b)) rateHeap 4 rateMaps).2.biggestRate :=
  have h := rate_computation_per_cell (fun _ _ => (6 : ℚ)) (fun _ _ _ => 0)
    (fun a b => decide (a = b)) rateHeap 4 rateSuper rateMaps
  ⟨h.1 (2, 3) (by rw [rateSuper_rectangle]; exact List.mem_cons_self _ _) rfl,
   h.2.2.2.2.1 6 (by
     rw [rateSuper_rectangle]
     simp [rateMaps, mapHas, mapGet, effectiveRates])⟩

theorem rateSuper_rates :
    (rateSuper.computeRates (fun _ _ => 6) (fun _ _ _ => 0)
        (fun a b => decide (a = b)) rateHeap 4 rateMaps).1.effCombiningMap
      = [((2, 3), [⟨4, 0, 0, 6⟩, ⟨4, 0, 0, 6⟩])]
    ∧ (rateSuper.computeRates (fun _ _ => 6) (fun _ _ _ => 0)
        (fun a b => decide (a = b)) rateHeap 4 rateMaps).1.effCombiningList = [] := by
  obtain ⟨st, hst, hr⟩ := computeRates_fold (fun _ _ => (6 : ℚ)) (fun _ _ _ => 0)
    (fun a b => decide (a = b)) rateHeap 4 rateSuper rateMaps
  rw [hr, hst, rateSuper_rectangle]
  constructor
  · simp [rateCellStep, rateCell, mapHas, mapGet, rateMaps, rateSuper, sampleDegenerate,
      combiningRateLoop, mapAssign, SuperCluster.setDispersions, rateHeap]
  · rfl

section IdentityLemmas

variable {E S I : Type} [DecidableEq I]

end IdentityLemmas

section OneRecord

variable {K : Type} [Field K]

end OneRecord

theorem resetRange_spec {R : Type} (z : BinData R) :
    ∀ (cnt start : Nat) (bins : List (BinData R)),
      ((List.range' start cnt).foldl (fun bins i => bins.set i z) bins).length = bins.length
      ∧ ∀ i, ((List.range' start cnt).foldl (fun bins i => bins.set i z) bins)[i]?
          = if start ≤ i ∧ i < start + cnt ∧ i < bins.length then some z else bins[i]? := by
  intro cnt
  induction cnt with
  | zero =>
    intro start bins
    refine ⟨rfl, fun i => ?_⟩
    rw [if_neg (by omega)]
    rfl
  | succ cnt ih =>
    intro start bins
    have hr : List.range' start (cnt + 1) = start :: List.range' (start + 1) cnt := rfl
    rw [hr, List.foldl_cons]
    obtain ⟨l1, l2⟩ := ih (start + 1) (bins.set start z)
    refine ⟨by rw [l1, List.length_set], fun i => ?_⟩
    rw [l2 i, List.length_set]
    by_cases hi : i = start
    · subst hi
      by_cases hlen : i < bins.length
      · rw [if_neg (by omega), if_pos (by omega)]
        simp [List.getElem?_set, hlen]
      · rw [if_neg (by omega), if_neg (by omega)]
        simp [List.getElem?_set, hlen]
        omega
    · rw [List.getElem?_set_ne (Ne.symm hi)]
      by_cases hc : start + 1 ≤ i ∧ i < start + 1 + cnt ∧ i < bins.length
      · rw [if_pos hc, if_pos (by omega)]
      · rw [if_neg hc, if_neg (by omega)]

section HistogramLemmas

variable {R : Type} [AddCommMonoid R]

theorem combineLoop_two (bins : List (BinData R)) (k c1 c2 : Nat) (me a b : BinData R)
    (hme : bins[k]? = some me) (ha : bins[c1]? = some a) (hb : bins[c2]? = some b)
    (h2 : c2 ≠ k) :
    combineLoop k [c1, c2] bins
      = Except.ok (bins.set k
          ⟨me.runningValue + a.runningValue + b.runningValue,
            me.nSamples + a.nSamples + b.nSamples⟩) := by
  have hk : k < bins.length := by
    rcases List.getElem?_eq_some_iff.1 hme with ⟨h, _⟩
    exact h
  simp only [combineLoop, hme, ha]
  have e1 : (bins.set k ⟨me.runningValue + a.runningValue, me.nSamples + a.nSamples⟩)[k]?
      = some ⟨me.runningValue + a.runningValue, me.nSamples + a.nSamples⟩ := by
    simp [List.getElem?_set, hk]
  have e2 : (bins.set k ⟨me.runningValue + a.runningValue, me.nSamples + a.nSamples⟩)[c2]?
      = some b := by
    rw [List.getElem?_set_ne (Ne.symm h2)]
    exact hb
  simp only [e1, e2, List.set_set]

theorem combineLoop_one (bins : List (BinData R)) (k c1 : Nat) (me a : BinData R)
    (hme : bins[k]? = some me) (ha : bins[c1]? = some a) :
    combineLoop k [c1] bins
      = Except.ok (bins.set k
          ⟨me.runningValue + a.runningValue, me.nSamples + a.nSamples⟩) := by
  simp only [combineLoop, hme, ha]

/-- The call of `SetToCombinationOf` made by `Fold` for the output bin `k`:
the bin receives the sum of the bins `2 k` and `2 k + 1`. -/
theorem SetToCombinationOf_pair (bins : List (BinData R)) (k : Nat) (a b : BinData R)
    (ha : bins[2 * k]? = some a) (hb : bins[2 * k + 1]? = some b) :
    SetToCombinationOf bins k (2 * k) (2 * k + 2)
      = Except.ok (bins.set k
          ⟨a.runningValue + b.runningValue, a.nSamples + b.nSamples⟩) := by
  have hlen : 2 * k < bins.length := (List.getElem?_eq_some_iff.1 ha).1
  have hk : k < bins.length := by omega
  rcases Nat.eq_zero_or_pos k with h0 | hpos
  · subst h0
    simp only [Nat.mul_zero, Nat.zero_add] at ha hb ⊢
    simp only [SetToCombinationOf, ha, decide_True, Bool.not_true, Bool.false_eq_true,
      if_false, if_true]
    have hr : List.range' (0 + 1) (2 - (0 + 1)) = [1] := rfl
    rw [hr]
    exact combineLoop_one bins 0 1 a b ha hb
  · have hne : 2 * k ≠ k := by omega
    have hme : bins[k]? = some (bins.get ⟨k, hk⟩) := List.getElem?_eq_getElem hk
    simp only [SetToCombinationOf, hme, ha, hne, decide_False, Bool.not_false, if_true,
      Bool.false_eq_true, if_false]
    have hr : List.range' (2 * k) (2 * k + 2 - 2 * k) = [2 * k, 2 * k + 1] := by
      have : 2 * k + 2 - 2 * k = 2 := by omega
      rw [this]
      rfl
    rw [hr]
    have e0 : (bins.set k (bins.get ⟨k, hk⟩).Reset)[k]? = some (bins.get ⟨k, hk⟩).Reset := by
      simp [List.getElem?_set, hk]
    have e1 : (bins.set k (bins.get ⟨k, hk⟩).Reset)[2 * k]? = some a := by
      rw [List.getElem?_set_ne (Ne.symm hne)]
      exact ha
    have e2 : (bins.set k (bins.get ⟨k, hk⟩).Reset)[2 * k + 1]? = some b := by
      rw [List.getElem?_set_ne (by omega)]
      exact hb
    rw [combineLoop_two _ k (2 * k) (2 * k + 1) _ a b e0 e1 e2 (by omega)]
    simp [BinData.Reset, List.set_set]

/-- The first loop of `Fold` from the state reached after `newBinIter`
iterations on a vector `orig` of `2 m` bins. -/
theorem foldPairs_spec (orig : List (BinData R)) (m : Nat) (hlen : orig.length = 2 * m) :
    ∀ (fuel newBinIter : Nat) (cur : List (BinData R)),
      newBinIter ≤ m → m ≤ newBinIter + fuel → cur.length = 2 * m →
      (∀ i, cur[i]? = if i < newBinIter then some (pairOf orig i) else orig[i]?) →
      ∃ res, foldPairs fuel (2 * newBinIter) newBinIter cur = Except.ok (m, res)
        ∧ res.length = 2 * m
        ∧ ∀ i, res[i]? = if i < m then some (pairOf orig i) else orig[i]? := by
  intro fuel
  induction fuel with
  | zero =>
    intro nb cur h1 h2 h3 h4
    have e : nb = m := by omega
    subst e
    refine ⟨cur, ?_, h3, h4⟩
    simp [foldPairs, h3]
  | succ fuel ih =>
    intro nb cur h1 h2 h3 h4
    by_cases e : nb = m
    · subst e
      refine ⟨cur, ?_, h3, h4⟩
      simp [foldPairs, h3]
    · have hlt : nb < m := by omega
      have hne : 2 * nb ≠ cur.length := by omega
      have i1 : 2 * nb < orig.length := by omega
      have i2 : 2 * nb + 1 < orig.length := by omega
      have ha : cur[2 * nb]? = some (orig.get ⟨2 * nb, i1⟩) := by
        rw [h4, if_neg (by omega)]
        exact List.getElem?_eq_getElem i1
      have hb : cur[2 * nb + 1]? = some (orig.get ⟨2 * nb + 1, i2⟩) := by
        rw [h4, if_neg (by omega)]
        exact List.getElem?_eq_getElem i2
      have hset := SetToCombinationOf_pair cur nb _ _ ha hb
      have hpair : (⟨(orig.get ⟨2 * nb, i1⟩).runningValue
            + (orig.get ⟨2 * nb + 1, i2⟩).runningValue,
          (orig.get ⟨2 * nb, i1⟩).nSamples + (orig.get ⟨2 * nb + 1, i2⟩).nSamples⟩ : BinData R)
          = pairOf orig nb := by
        simp [pairOf, List.getD_eq_getElem?_getD, List.getElem?_eq_getElem i1,
          List.getElem?_eq_getElem i2]
      rw [hpair] at hset
      have hstep : foldPairs (fuel + 1) (2 * nb) nb cur
          = foldPairs fuel (2 * (nb + 1)) (nb + 1) (cur.set nb (pairOf orig nb)) := by
        have h22 : 2 * (nb + 1) = 2 * nb + 2 := by ring
        rw [h22]
        simp only [foldPairs, hne, if_false, hset]
      rw [hstep]
      apply ih (nb + 1) (cur.set nb (pairOf orig nb)) (by omega) (by omega)
        (by rw [List.length_set]; exact h3)
      intro i
      by_cases hi : i = nb
      · subst hi
        have : i < cur.length := by omega
        simp [List.getElem?_set, this]
      · rw [List.getElem?_set_ne (Ne.symm hi), h4]
        by_cases hlt2 : i < nb
        · rw [if_pos hlt2, if_pos (by omega)]
        · rw [if_neg hlt2, if_neg (by omega)]

/-- What `Fold` does to a histogram of `2 m` bins: the call returns, the
first `m` bins hold the pairwise combinations, the last `m` bins are reset,
the width is doubled and the other members are kept. -/
theorem Fold_spec {K : Type} [Mul K] [OfNat K 2] (h : TimeHistogram K R) (m : Nat)
    (hlen : h.bins.length = 2 * m) :
    ∃ h2 : TimeHistogram K R, h.Fold = Except.ok h2
      ∧ h2.nBins = h.nBins ∧ h2.startTimestamp = h.startTimestamp
      ∧ h2.binWidth = h.binWidth * 2
      ∧ h2.bins.length = 2 * m
      ∧ ∀ i, h2.bins[i]?
          = if i < m then some (pairOf h.bins i)
            else if i < 2 * m then some ⟨0, 0⟩ else none := by
  obtain ⟨res, r1, r2, r3⟩ := foldPairs_spec h.bins m hlen h.bins.length 0 h.bins
    (Nat.zero_le _) (by omega) hlen (fun i => by rw [if_neg (Nat.not_lt_zero _)])
  obtain ⟨l1, l2⟩ := resetRange_spec (⟨0, 0⟩ : BinData R) (res.length - m) m res
  refine ⟨{ h with bins := resetFrom m res, binWidth := h.binWidth * 2 }, ?_, rfl, rfl, rfl,
    ?_, ?_⟩
  · simp only [TimeHistogram.Fold]
    rw [Nat.mul_zero] at r1
    rw [r1]
  · show (resetFrom m res).length = 2 * m
    rw [resetFrom, l1, r2]
  · intro i
    show (resetFrom m res)[i]? = _
    rw [resetFrom, l2 i, r3 i, r2]
    by_cases h1 : i < m
    · rw [if_neg (by omega), if_pos h1, if_pos h1]
    · rw [if_neg h1, if_neg h1]
      by_cases h2 : i < 2 * m
      · rw [if_pos (by omega), if_pos h2]
      · rw [if_neg (by omega), if_neg h2]
        rw [← hlen] at h2
        exact List.getElem?_eq_none (by omega)

theorem sum_pairwise {M : Type} [AddCommMonoid M] (d : M) :
    ∀ (m : Nat) (l : List M), l.length = 2 * m →
      l.sum = ((List.range m).map (fun k => l.getD (2 * k) d + l.getD (2 * k + 1) d)).sum := by
  intro m
  induction m with
  | zero =>
    intro l hl
    have : l = [] := List.length_eq_zero.1 (by omega)
    subst this
    rfl
  | succ m ih =>
    intro l hl
    match l, hl with
    | a :: b :: rest, hl =>
      have hrest : rest.length = 2 * m := by
        simp only [List.length_cons] at hl
        omega
      rw [List.range_succ_eq_map, List.map_cons, List.map_map]
      have hfun : ((fun k => (a :: b :: rest).getD (2 * k) d + (a :: b :: rest).getD (2 * k + 1) d)
            ∘ Nat.succ)
          = fun k => rest.getD (2 * k) d + rest.getD (2 * k + 1) d := by
        funext k
        have e1 : 2 * (k + 1) = 2 * k + 1 + 1 := by ring
        have e2 : 2 * (k + 1) + 1 = 2 * k + 1 + 1 + 1 := by ring
        simp only [Function.comp, Nat.succ_eq_add_one]
        rw [e2, e1]
        simp only [List.getD_cons_succ]
      rw [hfun]
      simp only [List.sum_cons]
      rw [← ih rest hrest]
      simp [add_assoc]

/-- The bins of a histogram of `2 m` bins after `Fold`, as a list. -/
theorem Fold_bins {K : Type} [Mul K] [OfNat K 2] (h h2 : TimeHistogram K R) (m : Nat)
    (hlen : h.bins.length = 2 * m) (hfold : h.Fold = Except.ok h2) :
    h2.bins = (List.range m).map (pairOf h.bins) ++ List.replicate m ⟨0, 0⟩ := by
  obtain ⟨h3, e, _, _, _, _, hb⟩ := Fold_spec h m hlen
  rw [hfold] at e
  cases e
  apply List.ext_getElem?
  intro i
  rw [hb i]
  by_cases h1 : i < m
  · rw [if_pos h1, List.getElem?_append_left (by simpa using h1)]
    simp [List.getElem?_map, List.getElem?_range h1]
  · rw [if_neg h1, List.getElem?_append_right (by simpa using h1)]
    simp only [List.length_map, List.length_range]
    by_cases h2 : i < 2 * m
    · rw [if_pos h2, List.getElem?_replicate, if_pos (by omega)]
    · rw [if_neg h2, List.getElem?_replicate, if_neg (by omega)]

/-- A call of `Fold` keeps the number of samples and the sum of the running
values. -/
theorem Fold_totals {K : Type} [Mul K] [OfNat K 2] (h h2 : TimeHistogram K R) (m : Nat)
    (hlen : h.bins.length = 2 * m) (hfold : h.Fold = Except.ok h2) :
    h2.totalSamples = h.totalSamples ∧ h2.totalValue = h.totalValue := by
  have hb := Fold_bins h h2 m hlen hfold
  constructor
  · have hs := sum_pairwise (0 : Nat) m (h.bins.map (fun b => b.nSamples))
      (by rw [List.length_map]; exact hlen)
    simp only [TimeHistogram.totalSamples]
    rw [hs, hb]
    simp only [List.map_append, List.map_map, List.sum_append, List.map_replicate,
      List.sum_replicate, smul_zero, add_zero]
    congr 1
    apply List.map_congr_left
    intro k _
    simp only [pairOf, List.getD_eq_getElem?_getD, List.getElem?_map, Function.comp]
    cases h.bins[2 * k]? <;> cases h.bins[2 * k + 1]? <;> rfl
  · have hs := sum_pairwise (0 : R) m (h.bins.map (fun b => b.runningValue))
      (by rw [List.length_map]; exact hlen)
    simp only [TimeHistogram.totalValue]
    rw [hs, hb]
    simp only [List.map_append, List.map_map, List.sum_append, List.map_replicate,
      List.sum_replicate, smul_zero, add_zero]
    congr 1
    apply List.map_congr_left
    intro k _
    simp only [pairOf, List.getD_eq_getElem?_getD, List.getElem?_map, Function.comp]
    cases h.bins[2 * k]? <;> cases h.bins[2 * k + 1]? <;> rfl

end HistogramLemmas

section HistogramTime

variable {K R : Type} [LinearOrderedField K] [FloorRing K]

/-- The bin of a time stamp when the width is multiplied by `2 ^ j`. -/
theorem FindBin_pow (h : TimeHistogram K R) (t : K) (j : Nat) :
    (⌊(t - h.startTimestamp) / (h.binWidth * 2 ^ j)⌋).toNat = h.FindBin t / 2 ^ j := by
  have e : (t - h.startTimestamp) / (h.binWidth * 2 ^ j)
      = (t - h.startTimestamp) / h.binWidth / ((2 ^ j : Nat) : K) := by
    rw [div_div]
    push_cast
    rfl
  rw [TimeHistogram.FindBin, Int.floor_toNat, Int.floor_toNat, e, Nat.floor_div_nat]

theorem floor_nonneg_toNat (x : K) (hx : 0 ≤ x) : ((⌊x⌋.toNat : Nat) : Int) = ⌊x⌋ :=
  Int.toNat_of_nonneg (Int.floor_nonneg.2 hx)

end HistogramTime

section HistogramFolds

variable {K R : Type} [Field K] [AddCommMonoid R]

/-- The histogram after `j` calls of `Fold`. -/
theorem foldTimes_spec (j : Nat) :
    ∀ (h : TimeHistogram K R) (m : Nat), h.bins.length = 2 * m →
      ∃ hj : TimeHistogram K R, foldTimes j h = Except.ok hj
        ∧ hj.nBins = h.nBins ∧ hj.startTimestamp = h.startTimestamp
        ∧ hj.binWidth = h.binWidth * 2 ^ j
        ∧ hj.bins.length = 2 * m
        ∧ hj.totalSamples = h.totalSamples ∧ hj.totalValue = h.totalValue := by
  induction j with
  | zero =>
    intro h m hlen
    exact ⟨h, rfl, rfl, rfl, by simp, hlen, rfl, rfl⟩
  | succ j ih =>
    intro h m hlen
    obtain ⟨h1, e1, n1, s1, w1, l1, _⟩ := Fold_spec h m hlen
    obtain ⟨t1, t2⟩ := Fold_totals h h1 m hlen e1
    obtain ⟨hj, e2, n2, s2, w2, l2, t3, t4⟩ := ih h1 m l1
    refine ⟨hj, ?_, by rw [n2, n1], by rw [s2, s1], ?_, l2, by rw [t3, t1], by rw [t4, t2]⟩
    · simp only [foldTimes, e1]
      exact e2
    · rw [w2, w1, pow_succ]
      ring

end HistogramFolds

section HistogramLoop

variable {K R : Type} [LinearOrderedField K] [FloorRing K] [AddCommMonoid R]

/-- The loop of `HandleSample` leaves after `k` calls of `Fold` when `k` is
the first number of calls after which the bin of the time stamp exists. -/
theorem handleSampleLoop_spec (t : K) (k : Nat) :
    ∀ (h : TimeHistogram K R) (m : Nat), h.bins.length = 2 * m →
      (∀ j, j < k → h.nBins ≤ (⌊(t - h.startTimestamp) / (h.binWidth * 2 ^ j)⌋).toNat) →
      (⌊(t - h.startTimestamp) / (h.binWidth * 2 ^ k)⌋).toNat < h.nBins →
      ∀ fuel, k ≤ fuel →
        ∃ hk : TimeHistogram K R, foldTimes k h = Except.ok hk
          ∧ handleSampleLoop fuel h t = Except.ok (hk, hk.FindBin t) := by
  induction k with
  | zero =>
    intro h m _ _ hlt fuel _
    refine ⟨h, rfl, ?_⟩
    have hb : h.FindBin t < h.nBins := by
      simpa [TimeHistogram.FindBin] using hlt
    unfold handleSampleLoop
    simp only [ge_iff_le, if_neg (not_le.2 hb)]
  | succ k ih =>
    intro h m hlen hge hlt fuel hfuel
    obtain ⟨h1, e1, n1, s1, w1, l1, _⟩ := Fold_spec h m hlen
    have hb : h.nBins ≤ h.FindBin t := by
      simpa [TimeHistogram.FindBin] using hge 0 (Nat.succ_pos _)
    have hw : ∀ j, h1.binWidth * 2 ^ j = h.binWidth * 2 ^ (j + 1) := by
      intro j
      rw [w1, pow_succ]
      ring
    obtain ⟨f, rfl⟩ : ∃ f, fuel = f + 1 := ⟨fuel - 1, by omega⟩
    obtain ⟨hk, e2, e3⟩ := ih h1 m l1
      (fun j hj => by rw [n1, s1, hw]; exact hge (j + 1) (by omega))
      (by rw [n1, s1, hw]; exact hlt) f (by omega)
    refine ⟨hk, ?_, ?_⟩
    · simp only [foldTimes, e1]
      exact e2
    · unfold handleSampleLoop
      simp only [ge_iff_le, if_pos hb, e1]
      exact e3

theorem sum_map_set {A M : Type} [AddCommMonoid M] (f : A → M) (x : A) (c : M) :
    ∀ (l : List A) (i : Nat) (a : A), l[i]? = some a → f x = f a + c →
      ((l.set i x).map f).sum = (l.map f).sum + c := by
  intro l
  induction l with
  | nil => intro i a h; simp at h
  | cons b l ih =>
    intro i a h hx
    cases i with
    | zero =>
      simp only [List.getElem?_cons_zero, Option.some.injEq] at h
      subst h
      simp only [List.set_cons_zero, List.map_cons, List.sum_cons]
      rw [hx, add_assoc, add_assoc, add_comm c]
    | succ i =>
      simp only [List.getElem?_cons_succ] at h
      simp only [List.set_cons_succ, List.map_cons, List.sum_cons]
      rw [ih i a h hx, add_assoc]

/-- Without any bin the loop of `HandleSample` does not leave, whatever the
number of calls of `Fold` granted to it. -/
theorem handleSampleLoop_no_bins (t : K) :
    ∀ (fuel : Nat) (w s : K),
      handleSampleLoop fuel ({ nBins := 0, binWidth := w, startTimestamp := s, bins := [] } :
          TimeHistogram K R) t
        = Except.error HistogramError.outOfFuel := by
  intro fuel
  induction fuel with
  | zero =>
    intro w s
    unfold handleSampleLoop
    simp
  | succ fuel ih =>
    intro w s
    unfold handleSampleLoop
    have hf : ({ nBins := 0, binWidth := w, startTimestamp := s, bins := [] } :
        TimeHistogram K R).Fold
        = Except.ok { nBins := 0, binWidth := w * 2, startTimestamp := s, bins := [] } := rfl
    simp only [ge_iff_le, Nat.zero_le, if_true, hf]
    exact ih (w * 2) s

end HistogramLoop

section HistogramClaims

variable {K R : Type} [AddCommMonoid R]

/-- C35: the constructor of `TimeHistogram` fails with a `runtime_error` for
every odd number of bins, and for every even number of bins, 0 included, it
yields a histogram with that many bins, each with running value 0 and no
sample, and with the given bin width and start time stamp. -/
theorem histogram_construction (nBins : Nat) (binWidth startTimestamp : K) :
    (nBins % 2 = 1 →
      TimeHistogram.new (R := R) nBins binWidth startTimestamp
        = Except.error HistogramError.runtime_error)
    ∧ (nBins % 2 = 0 →
      ∃ h : TimeHistogram K R,
        TimeHistogram.new nBins binWidth startTimestamp = Except.ok h
        ∧ h.nBins = nBins ∧ h.bins.length = nBins
        ∧ (∀ b ∈ h.bins, b.runningValue = 0 ∧ b.nSamples = 0)
        ∧ h.binWidth = binWidth ∧ h.startTimestamp = startTimestamp) := by
  constructor
  · intro hodd
    have h : nBins % 2 ≠ 0 := by omega
    simp [TimeHistogram.new, h]
  · intro heven
    refine ⟨⟨nBins, binWidth, startTimestamp, List.replicate nBins ⟨0, 0⟩⟩,
      by simp [TimeHistogram.new, heven], rfl, by simp, ?_, rfl, rfl⟩
    intro b hb
    rw [List.eq_of_mem_replicate hb]
    exact ⟨rfl, rfl⟩

/-- C36: on a histogram with an even number `n` of bins `Fold` returns
without reading or writing outside the vector; afterwards bin `k < n / 2`
holds the sums of the running values and of the sample counts of the old
bins `2 k` and `2 k + 1`, every bin `k >= n / 2` holds `(0, 0)`, the bin
width is doubled, and the total sample count and the total running value
over all bins are unchanged. -/
theorem fold_pairs_adjacent_bins [Mul K] [OfNat K 2] (h : TimeHistogram K R)
    (hlen : h.bins.length = h.nBins) (heven : h.nBins % 2 = 0) :
    ∃ h2 : TimeHistogram K R, h.Fold = Except.ok h2
      ∧ h2.nBins = h.nBins ∧ h2.startTimestamp = h.startTimestamp
      ∧ h2.bins.length = h.nBins
      ∧ (∀ k, k < h.nBins / 2 →
          ∃ a b r, h.bins[2 * k]? = some a ∧ h.bins[2 * k + 1]? = some b
            ∧ h2.bins[k]? = some r
            ∧ r.runningValue = a.runningValue + b.runningValue
            ∧ r.nSamples = a.nSamples + b.nSamples)
      ∧ (∀ k, h.nBins / 2 ≤ k → k < h.nBins → h2.bins[k]? = some ⟨0, 0⟩)
      ∧ h2.binWidth = h.binWidth * 2
      ∧ h2.totalSamples = h.totalSamples ∧ h2.totalValue = h.totalValue := by
  have hm : h.bins.length = 2 * (h.nBins / 2) := by omega
  obtain ⟨h2, e, n1, s1, w1, l1, hb⟩ := Fold_spec h (h.nBins / 2) hm
  obtain ⟨t1, t2⟩ := Fold_totals h h2 (h.nBins / 2) hm e
  refine ⟨h2, e, n1, s1, by omega, ?_, ?_, w1, t1, t2⟩
  · intro k hk
    have i1 : 2 * k < h.bins.length := by omega
    have i2 : 2 * k + 1 < h.bins.length := by omega
    refine ⟨h.bins.get ⟨2 * k, i1⟩, h.bins.get ⟨2 * k + 1, i2⟩, pairOf h.bins k,
      List.getElem?_eq_getElem i1, List.getElem?_eq_getElem i2, ?_, ?_, ?_⟩
    · rw [hb k, if_pos hk]
    · simp [pairOf, List.getD_eq_getElem?_getD, List.getElem?_eq_getElem i1,
        List.getElem?_eq_getElem i2]
    · simp [pairOf, List.getD_eq_getElem?_getD, List.getElem?_eq_getElem i1,
        List.getElem?_eq_getElem i2]
  · intro k hk1 hk2
    rw [hb k, if_neg (by omega), if_pos (by omega)]

end HistogramClaims

section HistogramTimeClaims

variable {K R : Type} [LinearOrderedField K] [FloorRing K] [AddCommMonoid R]

/-- C37: for a time stamp `t >= startTimestamp` and a bin width `w > 0`,
`floor((t - start) / (2 w)) = floor(floor((t - start) / w) / 2)`: the bin
that `FindBin` computes with the width `2 w` is the bin computed with the
width `w`, divided by 2 and rounded down.  After `Fold` on a histogram with
an even number of bins, `FindBin` therefore assigns to the time stamp of a
sample recorded in bin `b` the bin `b / 2`, which holds the combination of
the old bins `2 (b / 2)` and `2 (b / 2) + 1`, one of which is `b`. -/
theorem fold_keeps_samples_in_bin (h : TimeHistogram K R) (t : K)
    (hw : 0 < h.binWidth) (ht : h.startTimestamp ≤ t)
    (hlen : h.bins.length = h.nBins) (heven : h.nBins % 2 = 0) :
    ⌊(t - h.startTimestamp) / (2 * h.binWidth)⌋
        = ⌊((⌊(t - h.startTimestamp) / h.binWidth⌋ : Int) : K) / 2⌋
    ∧ ({ h with binWidth := 2 * h.binWidth } : TimeHistogram K R).FindBin t = h.FindBin t / 2
    ∧ ∃ h2 : TimeHistogram K R, h.Fold = Except.ok h2
        ∧ h2.FindBin t = h.FindBin t / 2
        ∧ (h.FindBin t < h.nBins →
            (h.FindBin t = 2 * (h.FindBin t / 2) ∨ h.FindBin t = 2 * (h.FindBin t / 2) + 1)
            ∧ ∃ a b r, h.bins[2 * (h.FindBin t / 2)]? = some a
              ∧ h.bins[2 * (h.FindBin t / 2) + 1]? = some b
              ∧ h2.bins[h2.FindBin t]? = some r
              ∧ r.runningValue = a.runningValue + b.runningValue
              ∧ r.nSamples = a.nSamples + b.nSamples) := by
  have hx : 0 ≤ (t - h.startTimestamp) / h.binWidth :=
    div_nonneg (sub_nonneg.2 ht) (le_of_lt hw)
  have hpow := FindBin_pow h t 1
  rw [pow_one, pow_one] at hpow
  have hcomm : h.binWidth * 2 = 2 * h.binWidth := mul_comm _ _
  have hm : h.bins.length = 2 * (h.nBins / 2) := by omega
  obtain ⟨h2, e, n1, s1, w1, l1, hb⟩ := Fold_spec h (h.nBins / 2) hm
  have hfind : h2.FindBin t = h.FindBin t / 2 := by
    rw [← hpow, TimeHistogram.FindBin, s1, w1]
  refine ⟨?_, ?_, h2, e, hfind, ?_⟩
  · have e1 : (t - h.startTimestamp) / (2 * h.binWidth)
        = (t - h.startTimestamp) / h.binWidth / 2 := by
      rw [div_div, hcomm]
    have hx2 : 0 ≤ (t - h.startTimestamp) / h.binWidth / 2 := div_nonneg hx (by norm_num)
    have hfl : 0 ≤ ⌊(t - h.startTimestamp) / h.binWidth⌋ := Int.floor_nonneg.2 hx
    have hc : 0 ≤ ((⌊(t - h.startTimestamp) / h.binWidth⌋ : Int) : K) / 2 :=
      div_nonneg (by exact_mod_cast hfl) (by norm_num)
    rw [e1, ← floor_nonneg_toNat _ hx2, ← floor_nonneg_toNat _ hc]
    congr 1
    rw [Int.floor_toNat, Int.floor_toNat]
    have e2 : (t - h.startTimestamp) / h.binWidth / 2
        = (t - h.startTimestamp) / h.binWidth / ((2 : Nat) : K) := by norm_num
    have e3 : ((⌊(t - h.startTimestamp) / h.binWidth⌋ : Int) : K) / 2
        = ((⌊(t - h.startTimestamp) / h.binWidth⌋₊ : Nat) : K) / ((2 : Nat) : K) := by
      rw [← Int.toNat_of_nonneg hfl, Int.floor_toNat]
      norm_num
    rw [e2, e3, Nat.floor_div_nat, Nat.floor_div_nat, Nat.floor_natCast]
  · rw [← hpow, TimeHistogram.FindBin, hcomm]
  · intro hlt
    have hk : h.FindBin t / 2 < h.nBins / 2 := by omega
    have i1 : 2 * (h.FindBin t / 2) < h.bins.length := by omega
    have i2 : 2 * (h.FindBin t / 2) + 1 < h.bins.length := by omega
    refine ⟨by omega, h.bins.get ⟨_, i1⟩, h.bins.get ⟨_, i2⟩, pairOf h.bins (h.FindBin t / 2),
      List.getElem?_eq_getElem i1, List.getElem?_eq_getElem i2, ?_, ?_, ?_⟩
    · rw [hfind, hb _, if_pos hk]
    · simp [pairOf, List.getD_eq_getElem?_getD, List.getElem?_eq_getElem i1,
        List.getElem?_eq_getElem i2]
    · simp [pairOf, List.getD_eq_getElem?_getD, List.getElem?_eq_getElem i1,
        List.getElem?_eq_getElem i2]

end HistogramTimeClaims

section HistogramSampleClaims

variable {K R : Type} [LinearOrderedField K] [FloorRing K] [AddCommMonoid R]

/-- C38, with the restriction to histograms that have at least one bin: for
a histogram with a positive even number of bins and a positive bin width and
for every time stamp `t >= startTimestamp`, `HandleSample` returns after
exactly `k` calls of `Fold`, where `k` is the least number with
`floor((t - start) / (2 ^ k * w)) < nBins`; the sample is then added to the
bin `FindBin(t) < nBins` of the folded histogram, whose sample count grows by
1 and whose running value grows by the sample, so that the total sample count
over all bins grows by exactly 1 (and the total running value by the
sample). -/
theorem handle_sample_terminates (h : TimeHistogram K R) (t : K) (sample : R)
    (hlen : h.bins.length = h.nBins) (heven : h.nBins % 2 = 0) (hpos : 0 < h.nBins)
    (hw : 0 < h.binWidth) (ht : h.startTimestamp ≤ t) :
    ∃ (k : Nat) (hk h2 : TimeHistogram K R) (bin : BinData R),
      ⌊(t - h.startTimestamp) / (2 ^ k * h.binWidth)⌋ < (h.nBins : Int)
      ∧ (∀ j, j < k →
          (h.nBins : Int) ≤ ⌊(t - h.startTimestamp) / (2 ^ j * h.binWidth)⌋)
      ∧ foldTimes k h = Except.ok hk
      ∧ hk.binWidth = h.binWidth * 2 ^ k
      ∧ hk.FindBin t < h.nBins
      ∧ hk.bins[hk.FindBin t]? = some bin
      ∧ h2 = { hk with
          bins := hk.bins.set (hk.FindBin t) ⟨bin.runningValue + sample, bin.nSamples + 1⟩ }
      ∧ (∀ fuel, k ≤ fuel → h.HandleSample fuel t sample = Except.ok h2)
      ∧ h2.totalSamples = h.totalSamples + 1
      ∧ h2.totalValue = h.totalValue + sample := by
  have hfloor : ∀ j : Nat, ⌊(t - h.startTimestamp) / (2 ^ j * h.binWidth)⌋
      = ((h.FindBin t / 2 ^ j : Nat) : Int) := by
    intro j
    have hx : 0 ≤ (t - h.startTimestamp) / (h.binWidth * 2 ^ j) :=
      div_nonneg (sub_nonneg.2 ht) (le_of_lt (mul_pos hw (pow_pos (by norm_num) j)))
    rw [mul_comm, ← FindBin_pow h t j, floor_nonneg_toNat _ hx]
  have hex : ∃ j, h.FindBin t / 2 ^ j < h.nBins :=
    ⟨h.FindBin t, by rw [Nat.div_eq_of_lt (Nat.lt_two_pow _)]; exact hpos⟩
  have hm : h.bins.length = 2 * (h.nBins / 2) := by omega
  obtain ⟨hk, e1, e2⟩ := handleSampleLoop_spec t (Nat.find hex) h (h.nBins / 2) hm
    (fun j hj => by rw [FindBin_pow]; exact not_lt.1 (Nat.find_min hex hj))
    (by rw [FindBin_pow]; exact Nat.find_spec hex) (Nat.find hex) (le_refl _)
  obtain ⟨hk2, f1, n1, s1, w1, l1, t1, t2⟩ := foldTimes_spec (Nat.find hex) h (h.nBins / 2) hm
  rw [e1] at f1
  cases f1
  have hidx : hk.FindBin t < h.nBins := by
    have := Nat.find_spec hex
    rw [← FindBin_pow, ← w1, ← s1] at this
    exact this
  have hin : hk.FindBin t < hk.bins.length := by omega
  refine ⟨Nat.find hex, hk, _, hk.bins.get ⟨_, hin⟩, ?_, ?_, e1, w1, hidx,
    List.getElem?_eq_getElem hin, rfl, ?_, ?_, ?_⟩
  · rw [hfloor]
    exact_mod_cast Nat.find_spec hex
  · intro j hj
    rw [hfloor]
    exact_mod_cast not_lt.1 (Nat.find_min hex hj)
  · intro fuel hfuel
    obtain ⟨hk3, g1, g2⟩ := handleSampleLoop_spec t (Nat.find hex) h (h.nBins / 2) hm
      (fun j hj => by rw [FindBin_pow]; exact not_lt.1 (Nat.find_min hex hj))
      (by rw [FindBin_pow]; exact Nat.find_spec hex) fuel hfuel
    rw [e1] at g1
    cases g1
    simp only [TimeHistogram.HandleSample, ge_iff_le, not_le, if_neg (not_lt.2 ht), g2,
      List.getElem?_eq_getElem hin, BinData.HandleSample]
    rfl
  · simp only [TimeHistogram.totalSamples]
    rw [sum_map_set (fun b => b.nSamples) _ 1 hk.bins _ _ (List.getElem?_eq_getElem hin) rfl]
    exact congrArg (· + 1) t1
  · simp only [TimeHistogram.totalValue]
    rw [sum_map_set (fun b => b.runningValue) _ sample hk.bins _ _
      (List.getElem?_eq_getElem hin) rfl]
    exact congrArg (· + sample) t2

end HistogramSampleClaims

/-- C38 as stated fails on the histogram without bins, which the constructor
accepts (`0` is even): `FindBin` never returns an index below `nBins = 0`,
so the loop of `HandleSample` has not left after any number of calls of
`Fold`. -/
theorem handle_sample_without_bins :
    TimeHistogram.new (R := Int) 0 (1 : ℚ) 0 = Except.ok emptyHistogram
    ∧ (0 : ℚ) < emptyHistogram.binWidth
    ∧ emptyHistogram.startTimestamp ≤ (0 : ℚ)
    ∧ ∀ fuel, emptyHistogram.HandleSample fuel 0 5
        = Except.error HistogramError.outOfFuel := by
  refine ⟨rfl, by norm_num [emptyHistogram], by norm_num [emptyHistogram], ?_⟩
  intro fuel
  have hl := handleSampleLoop_no_bins (R := Int) (0 : ℚ) fuel 1 0
  have hs : ¬ ¬ ((0 : ℚ) ≥ emptyHistogram.startTimestamp) := by
    norm_num [emptyHistogram]
  simp only [TimeHistogram.HandleSample, if_neg hs]
  rw [show emptyHistogram = ({ nBins := 0, binWidth := 1, startTimestamp := 0, bins := [] } :
    TimeHistogram ℚ Int) from rfl, hl]

/-- C35 on three and on four bins. -/
theorem histogram_construction_witness :
    TimeHistogram.new (R := Int) 3 (1 : ℚ) 0 = Except.error HistogramError.runtime_error
    ∧ ∃ h : TimeHistogram ℚ Int,
        TimeHistogram.new 4 1 0 = Except.ok h
        ∧ h.nBins = 4 ∧ h.bins.length = 4
        ∧ (∀ b ∈ h.bins, b.runningValue = 0 ∧ b.nSamples = 0)
        ∧ h.binWidth = 1 ∧ h.startTimestamp = 0 :=
  ⟨(histogram_construction 3 1 0).1 rfl, (histogram_construction 4 1 0).2 rfl⟩

/-- C36 on `sampleHistogram`. -/
theorem fold_pairs_adjacent_bins_witness :
    sampleHistogram.bins.length = sampleHistogram.nBins ∧ sampleHistogram.nBins % 2 = 0
    ∧ ∃ h2 : TimeHistogram ℚ Int, sampleHistogram.Fold = Except.ok h2
      ∧ h2.nBins = sampleHistogram.nBins
      ∧ h2.startTimestamp = sampleHistogram.startTimestamp
      ∧ h2.bins.length = sampleHistogram.nBins
      ∧ (∀ k, k < sampleHistogram.nBins / 2 →
          ∃ a b r, sampleHistogram.bins[2 * k]? = some a
            ∧ sampleHistogram.bins[2 * k + 1]? = some b
            ∧ h2.bins[k]? = some r
            ∧ r.runningValue = a.runningValue + b.runningValue
            ∧ r.nSamples = a.nSamples + b.nSamples)
      ∧ (∀ k, sampleHistogram.nBins / 2 ≤ k → k < sampleHistogram.nBins →
          h2.bins[k]? = some ⟨0, 0⟩)
      ∧ h2.binWidth = sampleHistogram.binWidth * 2
      ∧ h2.totalSamples = sampleHistogram.totalSamples
      ∧ h2.totalValue = sampleHistogram.totalValue :=
  ⟨rfl, rfl, fold_pairs_adjacent_bins sampleHistogram rfl rfl⟩

/-- C37 on `sampleHistogram` and the time stamp `5 / 2`, which lies in bin 2
before the call of `Fold` and in bin 1 after it. -/
theorem fold_keeps_samples_in_bin_witness :
    (0 : ℚ) < sampleHistogram.binWidth ∧ sampleHistogram.startTimestamp ≤ (5 / 2 : ℚ)
    ∧ ⌊((5 / 2 : ℚ) - sampleHistogram.startTimestamp) / (2 * sampleHistogram.binWidth)⌋
        = ⌊((⌊((5 / 2 : ℚ) - sampleHistogram.startTimestamp) / sampleHistogram.binWidth⌋ : Int) : ℚ)
            / 2⌋
    ∧ ∃ h2 : TimeHistogram ℚ Int, sampleHistogram.Fold = Except.ok h2
        ∧ h2.FindBin (5 / 2) = sampleHistogram.FindBin (5 / 2) / 2 :=
  ⟨by norm_num [sampleHistogram], by norm_num [sampleHistogram],
    (fold_keeps_samples_in_bin sampleHistogram (5 / 2) (by norm_num [sampleHistogram])
      (by norm_num [sampleHistogram]) rfl rfl).1,
    (fold_keeps_samples_in_bin sampleHistogram (5 / 2) (by norm_num [sampleHistogram])
      (by norm_num [sampleHistogram]) rfl rfl).2.2.imp (fun _ hx => ⟨hx.1, hx.2.1⟩)⟩

/-- C38 on `sampleHistogram` and the time stamp `9`, beyond the last bin. -/
theorem handle_sample_terminates_witness :
    sampleHistogram.bins.length = sampleHistogram.nBins ∧ sampleHistogram.nBins % 2 = 0
    ∧ 0 < sampleHistogram.nBins ∧ (0 : ℚ) < sampleHistogram.binWidth
    ∧ sampleHistogram.startTimestamp ≤ (9 : ℚ)
    ∧ ∃ (k : Nat) (h2 : TimeHistogram ℚ Int),
        (∀ fuel, k ≤ fuel → sampleHistogram.HandleSample fuel 9 7 = Except.ok h2)
        ∧ h2.totalSamples = sampleHistogram.totalSamples + 1
        ∧ h2.totalValue = sampleHistogram.totalValue + 7 :=
  ⟨rfl, rfl, by decide, by norm_num [sampleHistogram], by norm_num [sampleHistogram],
    (handle_sample_terminates sampleHistogram 9 7 rfl rfl (by decide)
      (by norm_num [sampleHistogram]) (by norm_num [sampleHistogram])).imp
      (fun _ hx => hx.elim (fun _ hy => hy.elim (fun h2 hz => hz.elim
        (fun _ hh => ⟨h2, hh.2.2.2.2.2.2.2.1, hh.2.2.2.2.2.2.2.2.1, hh.2.2.2.2.2.2.2.2.2⟩))))⟩

section HeliumCluster

/-- The radius set by the constructor over the reals, `pow` being the real
power function: `0.3 + c * (nHe ^ (1/3) - 1)`. -/
theorem HeCluster_radius (pi a : ℝ) (hpi : 0 < pi) (ha : 0 < a) (nHe : Int) (hn : 1 ≤ nHe) :
    (HeCluster.new (fun x y : ℝ => x ^ y) pi a nHe).reactionRadius
      = 3 / 10 + ((3 / (4 * pi)) * (1 / 10) * a ^ (3 : ℝ)) ^ ((1 : ℝ) / 3)
          * ((nHe : ℝ) ^ ((1 : ℝ) / 3) - 1) := by
  have hc0 : 0 ≤ (3 / (4 * pi)) * (1 / 10) * a ^ (3 : ℝ) := by
    have h3 : 0 < a ^ (3 : ℝ) := Real.rpow_pos_of_pos ha _
    positivity
  have hnn : (0 : ℝ) ≤ (nHe : ℝ) := by
    have : (1 : ℝ) ≤ (nHe : ℝ) := by exact_mod_cast hn
    linarith
  simp only [HeCluster.new]
  rw [Real.mul_rpow hc0 hnn]
  ring

/-- C39: for every `nHe >= 1` the constructor of `HeCluster` sets the size
and the helium composition to `nHe`, the type to `He` and the reaction
radius to `0.3 + c * (nHe ^ (1/3) - 1)` with
`c = ((3 / (4 pi)) * (1 / 10) * tungstenLatticeConstant ^ 3) ^ (1/3)`; the
radius of `He_1` is exactly `0.3`, and the radius is strictly increasing in
`nHe`.  Stated over the reals, for positive constants `pi` and
`tungstenLatticeConstant`. -/
theorem he_cluster_reaction_radius (pi a : ℝ) (hpi : 0 < pi) (ha : 0 < a) (nHe : Int)
    (hn : 1 ≤ nHe) :
    (HeCluster.new (fun x y : ℝ => x ^ y) pi a nHe).size = nHe
    ∧ (HeCluster.new (fun x y : ℝ => x ^ y) pi a nHe).compositionHe = nHe
    ∧ (HeCluster.new (fun x y : ℝ => x ^ y) pi a nHe).type = ReactantType.He
    ∧ (HeCluster.new (fun x y : ℝ => x ^ y) pi a nHe).reactionRadius
        = 3 / 10 + ((3 / (4 * pi)) * (1 / 10) * a ^ (3 : ℝ)) ^ ((1 : ℝ) / 3)
            * ((nHe : ℝ) ^ ((1 : ℝ) / 3) - 1)
    ∧ (HeCluster.new (fun x y : ℝ => x ^ y) pi a 1).reactionRadius = 3 / 10
    ∧ ∀ m : Int, nHe < m →
        (HeCluster.new (fun x y : ℝ => x ^ y) pi a nHe).reactionRadius
          < (HeCluster.new (fun x y : ℝ => x ^ y) pi a m).reactionRadius := by
  refine ⟨rfl, rfl, rfl, HeCluster_radius pi a hpi ha nHe hn, ?_, ?_⟩
  · rw [HeCluster_radius pi a hpi ha 1 (le_refl _)]
    simp
  · intro m hm
    rw [HeCluster_radius pi a hpi ha nHe hn, HeCluster_radius pi a hpi ha m (by omega)]
    have hc : 0 < ((3 / (4 * pi)) * (1 / 10) * a ^ (3 : ℝ)) ^ ((1 : ℝ) / 3) := by
      apply Real.rpow_pos_of_pos
      have h3 : 0 < a ^ (3 : ℝ) := Real.rpow_pos_of_pos ha _
      positivity
    have hnn : (0 : ℝ) ≤ (nHe : ℝ) := by
      have : (1 : ℝ) ≤ (nHe : ℝ) := by exact_mod_cast hn
      linarith
    have hlt : (nHe : ℝ) < (m : ℝ) := by exact_mod_cast hm
    have hpow : (nHe : ℝ) ^ ((1 : ℝ) / 3) < (m : ℝ) ^ ((1 : ℝ) / 3) :=
      Real.rpow_lt_rpow hnn hlt (by norm_num)
    have := mul_lt_mul_of_pos_left (sub_lt_sub_right hpow 1) hc
    linarith

/-- C39 for the constants `pi` and lattice constant 1 and for `He_8`. -/
theorem he_cluster_reaction_radius_witness :
    (HeCluster.new (fun x y : ℝ => x ^ y) Real.pi 1 8).size = 8
    ∧ (HeCluster.new (fun x y : ℝ => x ^ y) Real.pi 1 1).reactionRadius = 3 / 10
    ∧ ∀ m : Int, 8 < m →
        (HeCluster.new (fun x y : ℝ => x ^ y) Real.pi 1 8).reactionRadius
          < (HeCluster.new (fun x y : ℝ => x ^ y) Real.pi 1 m).reactionRadius :=
  ⟨(he_cluster_reaction_radius Real.pi 1 Real.pi_pos one_pos 8 (by decide)).1,
   (he_cluster_reaction_radius Real.pi 1 Real.pi_pos one_pos 8 (by decide)).2.2.2.2.1,
   (he_cluster_reaction_radius Real.pi 1 Real.pi_pos one_pos 8 (by decide)).2.2.2.2.2⟩

end HeliumCluster

section IndexEnumeration

variable {K : Type} [LinearOrderedField K] [FloorRing K]

/-- The truncation `(int) (num - width / 2.0)` on an axis `[lo, hi]` with
`lo >= 1` is `lo - 1`. -/
theorem castInt_axis (lo hi : Int) (hlo : 1 ≤ lo) :
    castInt ((((lo + hi : Int) : K) / 2) - (((hi - lo + 1 : Int) : K)) / 2) = lo - 1 := by
  have e : (((lo + hi : Int) : K) / 2) - (((hi - lo + 1 : Int) : K)) / 2
      = ((lo - 1 : Int) : K) + 1 / 2 := by
    push_cast
    ring
  have h1 : (1 : K) ≤ (lo : K) := by exact_mod_cast hlo
  have h0 : (0 : K) ≤ ((lo - 1 : Int) : K) + 1 / 2 := by
    push_cast
    linarith
  rw [e, castInt, if_pos h0, Int.floor_eq_iff]
  constructor
  · linarith
  · linarith

/-- The rectangle of a super cluster whose axes are the ranges `[loHe, hiHe]`
and `[loV, hiV]` of positive integers. -/
theorem rectangle_of_axes (sc : SuperCluster K) (loHe hiHe loV hiV : Int)
    (h1 : 1 ≤ loHe) (h3 : 1 ≤ loV)
    (hwHe : sc.sectionHeWidth = hiHe - loHe + 1)
    (hnHe : sc.numHe = ((loHe + hiHe : Int) : K) / 2)
    (hwV : sc.sectionVWidth = hiV - loV + 1)
    (hnV : sc.numV = ((loV + hiV : Int) : K) / 2) :
    (List.range sc.sectionHeWidth.toNat).map sc.heIndexAt = intRange loHe hiHe
    ∧ (List.range sc.sectionVWidth.toNat).map sc.vIndexAt = intRange loV hiV
    ∧ sc.rectangle = cellGrid (intRange loHe hiHe) (intRange loV hiV) := by
  have eHe : (List.range sc.sectionHeWidth.toNat).map sc.heIndexAt = intRange loHe hiHe := by
    rw [intRange, ← hwHe]
    apply List.map_congr_left
    intro j _
    rw [SuperCluster.heIndexAt, hnHe, hwHe, castInt_axis loHe hiHe h1]
    ring
  have eV : (List.range sc.sectionVWidth.toNat).map sc.vIndexAt = intRange loV hiV := by
    rw [intRange, ← hwV]
    apply List.map_congr_left
    intro j _
    rw [SuperCluster.vIndexAt, hnV, hwV, castInt_axis loV hiV h3]
    ring
  exact ⟨eHe, eV, by rw [SuperCluster.rectangle, eHe, eV]⟩

end IndexEnumeration

section IndexEnumerationClaim

variable {K : Type} [LinearOrderedField K] [FloorRing K]

/-- C32, with the axis ranges restricted to positive integers: for axis
ranges `[min, max]` with `1 <= min <= max`, width `max - min + 1` and
centroid `(min + max) / 2`, the indices `(int) (num - width / 2.0) + j + 1`,
`j = 0 .. width - 1`, are exactly `min, min + 1, ..., max`; the loops of
`computeRateConstants`, `getTotalConcentration` and
`getTotalHeliumConcentration` therefore run over the cells of the two ranges;
the distances `2 (index - num) / (width - 1)` are symmetric about 0, and for
a width above 1 the distances of `min` and `max` are `-1` and `+1`. -/
theorem contiguous_index_enumeration (sc : SuperCluster K) (loHe hiHe loV hiV : Int)
    (h1 : 1 ≤ loHe) (h2 : loHe ≤ hiHe) (h3 : 1 ≤ loV) (h4 : loV ≤ hiV)
    (hwHe : sc.sectionHeWidth = hiHe - loHe + 1)
    (hnHe : sc.numHe = ((loHe + hiHe : Int) : K) / 2)
    (hwV : sc.sectionVWidth = hiV - loV + 1)
    (hnV : sc.numV = ((loV + hiV : Int) : K) / 2) :
    (List.range sc.sectionHeWidth.toNat).map sc.heIndexAt = intRange loHe hiHe
    ∧ (List.range sc.sectionVWidth.toNat).map sc.vIndexAt = intRange loV hiV
    ∧ sc.getTotalConcentration
        = (((cellGrid (intRange loHe hiHe) (intRange loV hiV)).filter sc.isReactingKey).map
            (fun c => sc.getConcentration (sc.getHeDistance c.1) (sc.getVDistance c.2))).sum
    ∧ sc.getTotalHeliumConcentration
        = (((cellGrid (intRange loHe hiHe) (intRange loV hiV)).filter sc.isReactingKey).map
            (fun c => sc.getConcentration (sc.getHeDistance c.1) (sc.getVDistance c.2)
              * (c.1 : K))).sum
    ∧ (∀ (kPlus : ClusterPtr → ClusterPtr → K)
        (kMinus : ClusterPtr → ClusterPtr → ClusterPtr → K) (equal : K → K → Bool)
        (heap : ClusterPtr → PSICluster K) (self : ClusterPtr) (maps : SuperClusterMaps K),
        ∃ st : RateLoopState K,
          st = (cellGrid (intRange loHe hiHe) (intRange loV hiV)).foldl
              (rateCellStep kPlus kMinus equal heap self)
              { sc := sc, maps := maps, biggestProductionRate := 0, nHeSquare := 0,
                nVSquare := 0 }
          ∧ sc.computeRates kPlus kMinus equal heap self maps
            = (st.sc.setDispersions st.nHeSquare st.nVSquare st.maps.compositionHe
                st.maps.compositionV,
               { st.maps with biggestRate := st.biggestProductionRate }))
    ∧ (∀ j : Int, sc.getHeDistance (loHe + j) = -sc.getHeDistance (hiHe - j))
    ∧ (∀ j : Int, sc.getVDistance (loV + j) = -sc.getVDistance (hiV - j))
    ∧ (1 < sc.sectionHeWidth → sc.getHeDistance loHe = -1 ∧ sc.getHeDistance hiHe = 1)
    ∧ (1 < sc.sectionVWidth → sc.getVDistance loV = -1 ∧ sc.getVDistance hiV = 1) := by
  obtain ⟨eHe, eV, eRect⟩ := rectangle_of_axes sc loHe hiHe loV hiV h1 h3 hwHe hnHe hwV hnV
  have dHe : ∀ n : Int, 1 < sc.sectionHeWidth →
      sc.getHeDistance n = 2 * ((n : K) - ((loHe + hiHe : Int) : K) / 2)
        / ((hiHe - loHe : Int) : K) := by
    intro n hw
    have hne : sc.sectionHeWidth ≠ 1 := ne_of_gt hw
    rw [SuperCluster.getHeDistance, if_neg hne, hnHe, hwHe]
    push_cast
    ring_nf
  have dV : ∀ n : Int, 1 < sc.sectionVWidth →
      sc.getVDistance n = 2 * ((n : K) - ((loV + hiV : Int) : K) / 2)
        / ((hiV - loV : Int) : K) := by
    intro n hw
    have hne : sc.sectionVWidth ≠ 1 := ne_of_gt hw
    rw [SuperCluster.getVDistance, if_neg hne, hnV, hwV]
    push_cast
    ring_nf
  refine ⟨eHe, eV, ?_, ?_, ?_, ?_, ?_, ?_, ?_⟩
  · have h := foldl_grid_sum sc.isReactingKey
      (fun c => sc.getConcentration (sc.getHeDistance c.1) (sc.getVDistance c.2))
      ((List.range sc.sectionHeWidth.toNat).map sc.heIndexAt)
      ((List.range sc.sectionVWidth.toNat).map sc.vIndexAt) 0
    simp only [List.foldl_map, zero_add] at h
    rw [← eHe, ← eV]
    exact h
  · have h := foldl_grid_sum sc.isReactingKey
      (fun c => sc.getConcentration (sc.getHeDistance c.1) (sc.getVDistance c.2)
        * (c.1 : K))
      ((List.range sc.sectionHeWidth.toNat).map sc.heIndexAt)
      ((List.range sc.sectionVWidth.toNat).map sc.vIndexAt) 0
    simp only [List.foldl_map, zero_add] at h
    rw [← eHe, ← eV]
    exact h
  · intro kPlus kMinus equal heap self maps
    rw [← eRect]
    exact computeRates_fold kPlus kMinus equal heap self sc maps
  · intro j
    by_cases hw : 1 < sc.sectionHeWidth
    · rw [dHe _ hw, dHe _ hw]
      push_cast
      ring
    · have hone : sc.sectionHeWidth = 1 := by omega
      simp [SuperCluster.getHeDistance, hone]
  · intro j
    by_cases hw : 1 < sc.sectionVWidth
    · rw [dV _ hw, dV _ hw]
      push_cast
      ring
    · have hone : sc.sectionVWidth = 1 := by omega
      simp [SuperCluster.getVDistance, hone]
  · intro hw
    have hpos : (0 : K) < ((hiHe - loHe : Int) : K) := by
      have : 0 < hiHe - loHe := by omega
      exact_mod_cast this
    have hne : ((hiHe - loHe : Int) : K) ≠ 0 := ne_of_gt hpos
    rw [dHe _ hw, dHe _ hw]
    constructor
    · rw [div_eq_iff hne]
      push_cast
      ring
    · rw [div_eq_iff hne]
      push_cast
      ring
  · intro hw
    have hpos : (0 : K) < ((hiV - loV : Int) : K) := by
      have : 0 < hiV - loV := by omega
      exact_mod_cast this
    have hne : ((hiV - loV : Int) : K) ≠ 0 := ne_of_gt hpos
    rw [dV _ hw, dV _ hw]
    constructor
    · rw [div_eq_iff hne]
      push_cast
      ring
    · rw [div_eq_iff hne]
      push_cast
      ring

end IndexEnumerationClaim

/-- C32 as stated fails on an axis that starts at 0: for the range `[0, 1]`
(width 2, centroid `1 / 2`) the conversion `(int) (0.5 - 1.0)` truncates
`-0.5` to `0`, and the enumerated indices are `1, 2` instead of `0, 1`. -/
theorem index_enumeration_from_zero :
    zeroAxisSuper.sectionHeWidth = 1 - 0 + 1
    ∧ zeroAxisSuper.numHe = (((0 : Int) + 1 : Int) : ℚ) / 2
    ∧ (List.range zeroAxisSuper.sectionHeWidth.toNat).map zeroAxisSuper.heIndexAt = [1, 2]
    ∧ intRange 0 1 = [0, 1] := by
  refine ⟨rfl, by norm_num [zeroAxisSuper], ?_, by decide⟩
  have hc : castInt ((1 / 2 : ℚ) - ((2 : Int) : ℚ) / 2) = 0 := by
    have h0 : ¬ (0 : ℚ) ≤ (1 / 2 : ℚ) - ((2 : Int) : ℚ) / 2 := by norm_num
    rw [castInt, if_neg h0, Int.ceil_eq_iff]
    norm_num
  have hr : List.range (zeroAxisSuper.sectionHeWidth).toNat = [0, 1] := by decide
  have e0 : zeroAxisSuper.heIndexAt 0 = 1 := by
    show castInt ((1 / 2 : ℚ) - ((2 : Int) : ℚ) / 2) + ((0 : Nat) : Int) + 1 = 1
    rw [hc]
    rfl
  have e1 : zeroAxisSuper.heIndexAt 1 = 2 := by
    show castInt ((1 / 2 : ℚ) - ((2 : Int) : ℚ) / 2) + ((1 : Nat) : Int) + 1 = 2
    rw [hc]
    rfl
  rw [hr, List.map_cons, List.map_cons, List.map_nil, e0, e1]

/-- C32 on `sampleSuper`, whose helium axis is `[1, 2]` and whose vacancy
axis is `[1, 1]`. -/
theorem contiguous_index_enumeration_witness :
    (List.range sampleSuper.sectionHeWidth.toNat).map sampleSuper.heIndexAt = intRange 1 2
    ∧ (List.range sampleSuper.sectionVWidth.toNat).map sampleSuper.vIndexAt = intRange 1 1
    ∧ (∀ j : Int, sampleSuper.getHeDistance (1 + j) = -sampleSuper.getHeDistance (2 - j))
    ∧ (1 < sampleSuper.sectionHeWidth →
        sampleSuper.getHeDistance 1 = -1 ∧ sampleSuper.getHeDistance 2 = 1) :=
  have h := contiguous_index_enumeration sampleSuper 1 2 1 1 (by decide) (by decide)
    (by decide) (by decide) rfl (by norm_num [sampleSuper]) rfl (by norm_num [sampleSuper])
  ⟨h.1, h.2.1, h.2.2.2.2.2.1, h.2.2.2.2.2.2.2.1⟩

section Variance

/-- The sum of the squares `(a x - b)^2` over a list. -/
theorem sum_sq_affine (a b : Int) : ∀ xs : List Int,
    (xs.map (fun x => (a * x - b) * (a * x - b))).sum
      = a * a * (xs.map (fun x => x * x)).sum - 2 * a * b * xs.sum
        + (xs.length : Int) * (b * b) := by
  intro xs
  induction xs with
  | nil => simp
  | cons x xs ih =>
    simp only [List.map_cons, List.sum_cons, List.length_cons, ih]
    push_cast
    ring

/-- The square of the sum of a list of integers that are not all equal is
below the length times the sum of the squares. -/
theorem sum_sq_lt (xs : List Int) (h : ∃ a ∈ xs, ∃ b ∈ xs, a ≠ b) :
    xs.sum * xs.sum < (xs.length : Int) * (xs.map (fun x => x * x)).sum := by
  obtain ⟨a, ha, b, hb, hab⟩ := h
  have hn : (0 : Int) < (xs.length : Int) := by
    have : 0 < xs.length := List.length_pos_of_mem ha
    exact_mod_cast this
  have hid := sum_sq_affine (xs.length : Int) xs.sum xs
  have hnonneg : ∀ y ∈ xs.map (fun x => ((xs.length : Int) * x - xs.sum)
      * ((xs.length : Int) * x - xs.sum)), 0 ≤ y := by
    intro y hy
    obtain ⟨x, _, rfl⟩ := List.mem_map.1 hy
    exact mul_self_nonneg _
  have hex : ∃ c ∈ xs, (xs.length : Int) * c - xs.sum ≠ 0 := by
    by_contra hcon
    push_neg at hcon
    have e1 := hcon a ha
    have e2 := hcon b hb
    have e3 : (xs.length : Int) * a = (xs.length : Int) * b := by linarith
    exact hab (mul_left_cancel₀ (ne_of_gt hn) e3)
  obtain ⟨c, hc, hcne⟩ := hex
  have hterm : 0 < ((xs.length : Int) * c - xs.sum) * ((xs.length : Int) * c - xs.sum) :=
    mul_self_pos.2 hcne
  have hle := List.single_le_sum hnonneg _
    (List.mem_map.2 ⟨c, hc, rfl⟩)
  have hpos : 0 < (xs.length : Int)
      * ((xs.length : Int) * (xs.map (fun x => x * x)).sum - xs.sum * xs.sum) := by
    have : (xs.length : Int)
        * ((xs.length : Int) * (xs.map (fun x => x * x)).sum - xs.sum * xs.sum)
        = (xs.map (fun x => ((xs.length : Int) * x - xs.sum)
            * ((xs.length : Int) * x - xs.sum))).sum := by
      rw [hid]
      ring
    rw [this]
    exact lt_of_lt_of_le hterm hle
  have := (mul_pos_iff_of_pos_left hn).1 hpos
  linarith

end Variance

section DispersionLemmas

variable {K : Type} [LinearOrderedField K]

/-- What the body of the loops does to the sums of squares and to the
members read by the dispersions. -/
theorem rateCellStep_squares (kPlus : ClusterPtr → ClusterPtr → K)
    (kMinus : ClusterPtr → ClusterPtr → ClusterPtr → K) (equal : K → K → Bool)
    (heap : ClusterPtr → PSICluster K) (self : ClusterPtr)
    (st : RateLoopState K) (k : CellKey) :
    (rateCellStep kPlus kMinus equal heap self st k).nHeSquare
        = st.nHeSquare + (if mapHas k st.maps.reactingMap = true then k.1 * k.1 else 0)
    ∧ (rateCellStep kPlus kMinus equal heap self st k).nVSquare
        = st.nVSquare + (if mapHas k st.maps.reactingMap = true then k.2 * k.2 else 0)
    ∧ (rateCellStep kPlus kMinus equal heap self st k).sc.sectionHeWidth
        = st.sc.sectionHeWidth
    ∧ (rateCellStep kPlus kMinus equal heap self st k).sc.sectionVWidth
        = st.sc.sectionVWidth
    ∧ (rateCellStep kPlus kMinus equal heap self st k).maps.compositionHe
        = st.maps.compositionHe
    ∧ (rateCellStep kPlus kMinus equal heap self st k).maps.compositionV
        = st.maps.compositionV := by
  cases hk : mapHas k st.maps.reactingMap
  · simp [rateCellStep, hk]
  · simp [rateCellStep, hk, rateCell]

theorem rateCells_squares (kPlus : ClusterPtr → ClusterPtr → K)
    (kMinus : ClusterPtr → ClusterPtr → ClusterPtr → K) (equal : K → K → Bool)
    (heap : ClusterPtr → PSICluster K) (self : ClusterPtr) :
    ∀ (ks : List CellKey) (st : RateLoopState K),
      (ks.foldl (rateCellStep kPlus kMinus equal heap self) st).nHeSquare
          = st.nHeSquare
            + (((ks.filter (fun key => mapHas key st.maps.reactingMap)).map
                (fun c => c.1)).map (fun x => x * x)).sum
      ∧ (ks.foldl (rateCellStep kPlus kMinus equal heap self) st).nVSquare
          = st.nVSquare
            + (((ks.filter (fun key => mapHas key st.maps.reactingMap)).map
                (fun c => c.2)).map (fun x => x * x)).sum
      ∧ (ks.foldl (rateCellStep kPlus kMinus equal heap self) st).sc.sectionHeWidth
          = st.sc.sectionHeWidth
      ∧ (ks.foldl (rateCellStep kPlus kMinus equal heap self) st).sc.sectionVWidth
          = st.sc.sectionVWidth
      ∧ (ks.foldl (rateCellStep kPlus kMinus equal heap self) st).sc.nTot = st.sc.nTot
      ∧ (ks.foldl (rateCellStep kPlus kMinus equal heap self) st).maps.compositionHe
          = st.maps.compositionHe
      ∧ (ks.foldl (rateCellStep kPlus kMinus equal heap self) st).maps.compositionV
          = st.maps.compositionV := by
  intro ks
  induction ks with
  | nil => intro st; simp
  | cons k ks ih =>
    intro st
    obtain ⟨_, f2, f3, _⟩ := rateCellStep_frame kPlus kMinus equal heap self st k
    obtain ⟨s1, s2, s3, s4, s5, s6⟩ := rateCellStep_squares kPlus kMinus equal heap self st k
    obtain ⟨i1, i2, i3, i4, i5, i6, i7⟩ := ih (rateCellStep kPlus kMinus equal heap self st k)
    have hfilter : (fun key =>
          mapHas key (rateCellStep kPlus kMinus equal heap self st k).maps.reactingMap)
        = fun key => mapHas key st.maps.reactingMap := funext f3
    rw [hfilter] at i1 i2
    rw [List.foldl_cons]
    refine ⟨?_, ?_, by rw [i3, s3], by rw [i4, s4], by rw [i5, f2], by rw [i6, s5],
      by rw [i7, s6]⟩
    · rw [i1, s1]
      cases hk : mapHas k st.maps.reactingMap
      · simp [List.filter_cons, hk]
      · simp [List.filter_cons, hk, add_assoc]
    · rw [i2, s2]
      cases hk : mapHas k st.maps.reactingMap
      · simp [List.filter_cons, hk]
      · simp [List.filter_cons, hk, add_assoc]

/-- The dispersion of an axis whose occupied indices are `xs`: the formula,
and its sign when the indices are not all equal. -/
theorem computeDispersion_pos (w : Int) (xs : List Int) (hw : 1 < w)
    (h : ∃ a ∈ xs, ∃ b ∈ xs, a ≠ b) :
    (0 : K) < computeDispersion w (xs.map (fun x => x * x)).sum xs.sum (xs.length : Int) := by
  have hlt := sum_sq_lt xs h
  obtain ⟨a, ha, _⟩ := h
  have hn : (0 : Int) < (xs.length : Int) := by
    have : 0 < xs.length := List.length_pos_of_mem ha
    exact_mod_cast this
  have hnK : (0 : K) < ((xs.length : Int) : K) := by exact_mod_cast hn
  have hltK : ((xs.sum : Int) : K) * ((xs.sum : Int) : K)
      < ((xs.length : Int) : K) * (((xs.map (fun x => x * x)).sum : Int) : K) := by
    exact_mod_cast hlt
  have hden : (0 : K) < (((xs.length : Int) * (w - 1) : Int) : K) := by
    have : 0 < (xs.length : Int) * (w - 1) := mul_pos hn (by omega)
    exact_mod_cast this
  have hnum : (0 : K) < (((xs.map (fun x => x * x)).sum : Int) : K)
      - ((xs.sum : Int) : K) * (((xs.sum : Int) : K) / ((xs.length : Int) : K)) := by
    have e : ((xs.sum : Int) : K) * (((xs.sum : Int) : K) / ((xs.length : Int) : K))
        = ((xs.sum : Int) : K) * ((xs.sum : Int) : K) / ((xs.length : Int) : K) := by
      rw [mul_div_assoc]
    rw [e, sub_pos, div_lt_iff₀ hnK]
    linarith
  rw [computeDispersion, if_neg (by omega)]
  exact div_pos (mul_pos (by norm_num) hnum) hden

theorem computeDispersion_formula (w nSquare composition nTot : Int) (hw : w ≠ 1) :
    (computeDispersion w nSquare composition nTot : K)
      = 2 * ((nSquare : K) - (composition : K) ^ 2 / (nTot : K))
          / ((nTot : K) * ((w : K) - 1)) := by
  rw [computeDispersion, if_neg hw]
  push_cast
  ring

end DispersionLemmas

section DispersionClaim

variable {K : Type} [LinearOrderedField K] [FloorRing K]

/-- The dispersions left by `computeRateConstants`, in terms of the occupied
cells of the rectangle. -/
theorem computeRateConstants_dispersions (kPlus : ClusterPtr → ClusterPtr → K)
    (kMinus : ClusterPtr → ClusterPtr → ClusterPtr → K) (equal : K → K → Bool)
    (heap : ClusterPtr → PSICluster K) (self : ClusterPtr)
    (sc : SuperCluster K) (maps : SuperClusterMaps K) :
    (sc.computeRateConstants kPlus kMinus equal heap self maps).1.dispersionHe
        = computeDispersion sc.sectionHeWidth
            (((sc.rectangle.filter (fun key => mapHas key maps.reactingMap)).map
              (fun c => c.1)).map (fun x => x * x)).sum
            maps.compositionHe sc.nTot
    ∧ (sc.computeRateConstants kPlus kMinus equal heap self maps).1.dispersionV
        = computeDispersion sc.sectionVWidth
            (((sc.rectangle.filter (fun key => mapHas key maps.reactingMap)).map
              (fun c => c.2)).map (fun x => x * x)).sum
            maps.compositionV sc.nTot := by
  obtain ⟨st, hst, hrates⟩ := computeRates_fold kPlus kMinus equal heap self sc maps
  obtain ⟨s1, s2, s3, s4, s5, s6, s7⟩ := rateCells_squares kPlus kMinus equal heap self
    sc.rectangle
    { sc := sc, maps := maps, biggestProductionRate := 0, nHeSquare := 0, nVSquare := 0 }
  rw [← hst] at s1 s2 s3 s4 s5 s6 s7
  simp only [zero_add] at s1 s2
  simp only [SuperCluster.computeRateConstants, hrates, SuperCluster.optimizeReactions,
    SuperCluster.setDispersions, s1, s2, s3, s4, s5, s6, s7]
  exact ⟨trivial, trivial⟩

/-- C31, with the restriction that on an axis of width above 1 the occupied
cells do not all share one index: for a super cluster whose `nTot` is the
number of occupied cells of its rectangle and whose stored He (resp. V)
composition is the sum of the occupied He (resp. V) indices, the dispersion
left by `computeRateConstants` is 1 for width 1 and
`2 (sum of squared occupied indices - (sum of occupied indices)^2 / nTot)
/ (nTot (width - 1))` for a width above 1, and it is strictly positive, so
the divisions by the dispersions in `optimizeReactions` are defined. -/
theorem dispersion_positive (kPlus : ClusterPtr → ClusterPtr → K)
    (kMinus : ClusterPtr → ClusterPtr → ClusterPtr → K) (equal : K → K → Bool)
    (heap : ClusterPtr → PSICluster K) (self : ClusterPtr)
    (sc : SuperCluster K) (maps : SuperClusterMaps K)
    (hwHe : 1 ≤ sc.sectionHeWidth) (hwV : 1 ≤ sc.sectionVWidth)
    (hnTot : sc.nTot
      = ((sc.rectangle.filter (fun key => mapHas key maps.reactingMap)).length : Int))
    (hHe : maps.compositionHe
      = ((sc.rectangle.filter (fun key => mapHas key maps.reactingMap)).map
          (fun c => c.1)).sum)
    (hV : maps.compositionV
      = ((sc.rectangle.filter (fun key => mapHas key maps.reactingMap)).map
          (fun c => c.2)).sum)
    (hspreadHe : 1 < sc.sectionHeWidth →
      ∃ c ∈ sc.rectangle.filter (fun key => mapHas key maps.reactingMap),
        ∃ d ∈ sc.rectangle.filter (fun key => mapHas key maps.reactingMap), c.1 ≠ d.1)
    (hspreadV : 1 < sc.sectionVWidth →
      ∃ c ∈ sc.rectangle.filter (fun key => mapHas key maps.reactingMap),
        ∃ d ∈ sc.rectangle.filter (fun key => mapHas key maps.reactingMap), c.2 ≠ d.2) :
    (sc.sectionHeWidth = 1 →
      (sc.computeRateConstants kPlus kMinus equal heap self maps).1.dispersionHe = 1)
    ∧ (1 < sc.sectionHeWidth →
      (sc.computeRateConstants kPlus kMinus equal heap self maps).1.dispersionHe
        = 2 * (((((sc.rectangle.filter (fun key => mapHas key maps.reactingMap)).map
                  (fun c => c.1 * c.1)).sum : Int) : K)
              - ((((sc.rectangle.filter (fun key => mapHas key maps.reactingMap)).map
                  (fun c => c.1)).sum : Int) : K) ^ 2 / (sc.nTot : K))
            / ((sc.nTot : K) * ((sc.sectionHeWidth : K) - 1)))
    ∧ 0 < (sc.computeRateConstants kPlus kMinus equal heap self maps).1.dispersionHe
    ∧ (sc.sectionVWidth = 1 →
      (sc.computeRateConstants kPlus kMinus equal heap self maps).1.dispersionV = 1)
    ∧ (1 < sc.sectionVWidth →
      (sc.computeRateConstants kPlus kMinus equal heap self maps).1.dispersionV
        = 2 * (((((sc.rectangle.filter (fun key => mapHas key maps.reactingMap)).map
                  (fun c => c.2 * c.2)).sum : Int) : K)
              - ((((sc.rectangle.filter (fun key => mapHas key maps.reactingMap)).map
                  (fun c => c.2)).sum : Int) : K) ^ 2 / (sc.nTot : K))
            / ((sc.nTot : K) * ((sc.sectionVWidth : K) - 1)))
    ∧ 0 < (sc.computeRateConstants kPlus kMinus equal heap self maps).1.dispersionV := by
  obtain ⟨dHe, dV⟩ := computeRateConstants_dispersions kPlus kMinus equal heap self sc maps
  refine ⟨?_, ?_, ?_, ?_, ?_, ?_⟩
  · intro h1
    rw [dHe, computeDispersion, if_pos h1]
  · intro h1
    rw [dHe, hHe, List.map_map, computeDispersion_formula _ _ _ _ (by omega)]
    rfl
  · rw [dHe]
    by_cases h1 : sc.sectionHeWidth = 1
    · rw [computeDispersion, if_pos h1]
      exact one_pos
    · have hlt : 1 < sc.sectionHeWidth := by omega
      obtain ⟨c, hc, d, hd, hcd⟩ := hspreadHe hlt
      have hlen : sc.nTot
          = ((((sc.rectangle.filter (fun key => mapHas key maps.reactingMap)).map
              (fun c => c.1)).length : Nat) : Int) := by
        rw [List.length_map]
        exact hnTot
      rw [hHe, hlen]
      exact computeDispersion_pos sc.sectionHeWidth _ hlt
        ⟨c.1, List.mem_map.2 ⟨c, hc, rfl⟩, d.1, List.mem_map.2 ⟨d, hd, rfl⟩, hcd⟩
  · intro h1
    rw [dV, computeDispersion, if_pos h1]
  · intro h1
    rw [dV, hV, List.map_map, computeDispersion_formula _ _ _ _ (by omega)]
    rfl
  · rw [dV]
    by_cases h1 : sc.sectionVWidth = 1
    · rw [computeDispersion, if_pos h1]
      exact one_pos
    · have hlt : 1 < sc.sectionVWidth := by omega
      obtain ⟨c, hc, d, hd, hcd⟩ := hspreadV hlt
      have hlen : sc.nTot
          = ((((sc.rectangle.filter (fun key => mapHas key maps.reactingMap)).map
              (fun c => c.2)).length : Nat) : Int) := by
        rw [List.length_map]
        exact hnTot
      rw [hV, hlen]
      exact computeDispersion_pos sc.sectionVWidth _ hlt
        ⟨c.2, List.mem_map.2 ⟨c, hc, rfl⟩, d.2, List.mem_map.2 ⟨d, hd, rfl⟩, hcd⟩

end DispersionClaim

theorem singleColumnSuper_rectangle : singleColumnSuper.rectangle = [(2, 3), (3, 3)] := by
  have hc : castInt ((2 : ℚ) - ((2 : Int) : ℚ) / 2) = 1 := by
    have h0 : (0 : ℚ) ≤ (2 : ℚ) - ((2 : Int) : ℚ) / 2 := by norm_num
    rw [castInt, if_pos h0, Int.floor_eq_iff]
    norm_num
  have h1 : singleColumnSuper.heIndexAt 0 = 2 := by
    show castInt ((2 : ℚ) - ((2 : Int) : ℚ) / 2) + ((0 : Nat) : Int) + 1 = 2
    rw [hc]
    rfl
  have h2 : singleColumnSuper.heIndexAt 1 = 3 := by
    show castInt ((2 : ℚ) - ((2 : Int) : ℚ) / 2) + ((1 : Nat) : Int) + 1 = 3
    rw [hc]
    rfl
  have h3 : singleColumnSuper.vIndexAt 0 = 3 := by
    show castInt ((3 : ℚ) - ((1 : Int) : ℚ) / 2) + ((0 : Nat) : Int) + 1 = 3
    rw [castInt_five_halves]
    rfl
  have hw1 : singleColumnSuper.sectionHeWidth.toNat = 2 := rfl
  have hw2 : singleColumnSuper.sectionVWidth.toNat = 1 := rfl
  have hr1 : List.range 1 = [0] := rfl
  have hr2 : List.range 2 = [0, 1] := rfl
  simp only [SuperCluster.rectangle, hw1, hw2, hr1, hr2, List.map_cons, List.map_nil,
    h1, h2, h3, cellGrid, List.foldr_cons, List.foldr_nil, List.append_nil]

/-- C31 as stated fails on a super cluster of helium width 2 whose only
occupied cell is `(2, 3)`: `nTot = 1` is the number of occupied cells and
the stored compositions 2 and 3 are the sums of the occupied indices, yet
`computeRateConstants` leaves `dispersionHe = 2 (4 - 2 * 2 / 1) / (1 * 1) = 0`,
by which `optimizeReactions` divides. -/
theorem dispersion_zero_single_column :
    singleColumnSuper.nTot
      = ((singleColumnSuper.rectangle.filter
          (fun key => mapHas key rateMaps.reactingMap)).length : Int)
    ∧ rateMaps.compositionHe
      = ((singleColumnSuper.rectangle.filter
          (fun key => mapHas key rateMaps.reactingMap)).map (fun c => c.1)).sum
    ∧ rateMaps.compositionV
      = ((singleColumnSuper.rectangle.filter
          (fun key => mapHas key rateMaps.reactingMap)).map (fun c => c.2)).sum
    ∧ 1 < singleColumnSuper.sectionHeWidth
    ∧ (singleColumnSuper.computeRateConstants (fun _ _ => 6) (fun _ _ _ => 0)
        (fun a b => decide (a = b)) rateHeap 4 rateMaps).1.dispersionHe = 0 := by
  have hocc : singleColumnSuper.rectangle.filter (fun key => mapHas key rateMaps.reactingMap)
      = [(2, 3)] := by
    rw [singleColumnSuper_rectangle]
    decide
  refine ⟨by rw [hocc]; rfl, by rw [hocc]; rfl, by rw [hocc]; rfl, by decide, ?_⟩
  rw [(computeRateConstants_dispersions (fun _ _ => (6 : ℚ)) (fun _ _ _ => 0)
    (fun a b => decide (a = b)) rateHeap 4 singleColumnSuper rateMaps).1, hocc]
  have hw : singleColumnSuper.sectionHeWidth = 2 := rfl
  have hn : singleColumnSuper.nTot = 1 := rfl
  have hcomp : rateMaps.compositionHe = 2 := rfl
  rw [hw, hn, hcomp]
  simp only [List.map_cons, List.map_nil, List.sum_cons, List.sum_nil]
  rw [computeDispersion, if_neg (by decide)]
  norm_num

theorem sampleSuper_rectangle : sampleSuper.rectangle = [(1, 1), (2, 1)] := by
  rw [(rectangle_of_axes sampleSuper 1 2 1 1 (by decide) (by decide) rfl
    (by norm_num [sampleSuper]) rfl (by norm_num [sampleSuper])).2.2]
  decide

/-- C31 on `sampleSuper`, whose two occupied cells `(1, 1)` and `(2, 1)`
differ in the helium index: the helium dispersion is `1 / 2`. -/
theorem dispersion_positive_witness :
    (0 : ℚ) < (sampleSuper.computeRateConstants (fun _ _ => 6) (fun _ _ _ => 0)
        (fun a b => decide (a = b)) sampleHeap 4 spreadMaps).1.dispersionHe
    ∧ (0 : ℚ) < (sampleSuper.computeRateConstants (fun _ _ => 6) (fun _ _ _ => 0)
        (fun a b => decide (a = b)) sampleHeap 4 spreadMaps).1.dispersionV :=
  have hocc : sampleSuper.rectangle.filter (fun key => mapHas key spreadMaps.reactingMap)
      = [(1, 1), (2, 1)] := by
    rw [sampleSuper_rectangle]
    decide
  have h := dispersion_positive (fun _ _ => (6 : ℚ)) (fun _ _ _ => 0)
    (fun a b => decide (a = b)) sampleHeap 4 sampleSuper spreadMaps (by decide) (by decide)
    (by rw [hocc]; rfl) (by rw [hocc]; rfl) (by rw [hocc]; rfl)
    (fun _ => by
      rw [hocc]
      exact ⟨(1, 1), by simp, (2, 1), by simp, by decide⟩)
    (fun hv => absurd hv (by decide))
  ⟨h.2.2.1, h.2.2.2.2.2⟩

section ReactLemmas

variable {K : Type} [Field K]

theorem a1r1_zero (s01 s02 s03 w1 w2 w3 : K) (x1 x2 : Int) (h : ¬ x1 > x2) :
    a1r1 0 s01 s02 s03 w1 w2 w3 x1 x2
      = -((-1 + (x1 : K) - (x2 : K))
          * (2 + 2 * w2 + 2 * w3 + (x1 : K) + (x2 : K) + 2 * s02 - 2 * s03)) / 2 := by
  unfold a1r1
  rw [if_neg h]
  exact if_pos rfl

theorem a1r2_zero (s01 s02 s03 w1 w2 w3 : K) (x1 x2 : Int) (h : ¬ x1 > x2) :
    a1r2 0 s01 s02 s03 w1 w2 w3 x1 x2
      = (1 + 2 * w2) * (1 - (x1 : K) + (x2 : K)) := by
  unfold a1r2
  rw [if_neg h]
  exact if_pos rfl

theorem a1r3_zero (s01 s02 s03 w1 w2 w3 : K) (x1 x2 : Int) (h : ¬ x1 > x2) :
    a1r3 0 s01 s02 s03 w1 w2 w3 x1 x2
      = (1 + 2 * w3) * (1 - (x1 : K) + (x2 : K)) := by
  unfold a1r3
  rw [if_neg h]
  exact if_pos rfl

theorem a1r4_zero (s01 s02 s03 w1 w2 w3 : K) (x1 x2 : Int) (h : ¬ x1 > x2) :
    a1r4 0 s01 s02 s03 w1 w2 w3 x1 x2
      = ((-1 + (x1 : K) - (x2 : K))
          * (-2 - 2 * w2 - 2 * w3 + (x1 : K) + (x2 : K) + 2 * s02 - 2 * s03)) / 2 := by
  unfold a1r4
  rw [if_neg h]
  exact if_pos rfl

theorem a2r1_zero (s01 s02 s03 w1 w2 w3 : K) (x1 x2 : Int) (h : ¬ x1 > x2) :
    a2r1 0 s01 s02 s03 w1 w2 w3 x1 x2
      = -((-1 + (x1 : K) - (x2 : K))
          * (2 + 2 * w2 + 2 * w3 + (x1 : K) + (x2 : K) + 2 * s02 - 2 * s03)) / 2 := by
  unfold a2r1
  rw [if_neg h]
  exact if_pos rfl

theorem a2r2_zero (s01 s02 s03 w1 w2 w3 : K) (x1 x2 : Int) (h : ¬ x1 > x2) :
    a2r2 0 s01 s02 s03 w1 w2 w3 x1 x2
      = (1 + 2 * w2) * (1 - (x1 : K) + (x2 : K)) := by
  unfold a2r2
  rw [if_neg h]
  exact if_pos rfl

theorem a2r3_zero (s01 s02 s03 w1 w2 w3 : K) (x1 x2 : Int) (h : ¬ x1 > x2) :
    a2r3 0 s01 s02 s03 w1 w2 w3 x1 x2
      = (1 + 2 * w3) * (1 - (x1 : K) + (x2 : K)) := by
  unfold a2r3
  rw [if_neg h]
  exact if_pos rfl

theorem a2r4_zero (s01 s02 s03 w1 w2 w3 : K) (x1 x2 : Int) (h : ¬ x1 > x2) :
    a2r4 0 s01 s02 s03 w1 w2 w3 x1 x2
      = ((-1 + (x1 : K) - (x2 : K))
          * (-2 - 2 * w2 - 2 * w3 + (x1 : K) + (x2 : K) + 2 * s02 - 2 * s03)) / 2 := by
  unfold a2r4
  rw [if_neg h]
  exact if_pos rfl

theorem a1r1_empty (p : Int) (s01 s02 s03 w1 w2 w3 : K) (x1 x2 : Int) (h : x1 > x2) :
    a1r1 p s01 s02 s03 w1 w2 w3 x1 x2 = 0 := by
  unfold a1r1
  exact if_pos h

theorem a1r2_empty (p : Int) (s01 s02 s03 w1 w2 w3 : K) (x1 x2 : Int) (h : x1 > x2) :
    a1r2 p s01 s02 s03 w1 w2 w3 x1 x2 = 0 := by
  unfold a1r2
  exact if_pos h

theorem a1r3_empty (p : Int) (s01 s02 s03 w1 w2 w3 : K) (x1 x2 : Int) (h : x1 > x2) :
    a1r3 p s01 s02 s03 w1 w2 w3 x1 x2 = 0 := by
  unfold a1r3
  exact if_pos h

theorem a1r4_empty (p : Int) (s01 s02 s03 w1 w2 w3 : K) (x1 x2 : Int) (h : x1 > x2) :
    a1r4 p s01 s02 s03 w1 w2 w3 x1 x2 = 0 := by
  unfold a1r4
  exact if_pos h

theorem a2r1_empty (p : Int) (s01 s02 s03 w1 w2 w3 : K) (x1 x2 : Int) (h : x1 > x2) :
    a2r1 p s01 s02 s03 w1 w2 w3 x1 x2 = 0 := by
  unfold a2r1
  exact if_pos h

theorem a2r2_empty (p : Int) (s01 s02 s03 w1 w2 w3 : K) (x1 x2 : Int) (h : x1 > x2) :
    a2r2 p s01 s02 s03 w1 w2 w3 x1 x2 = 0 := by
  unfold a2r2
  exact if_pos h

theorem a2r3_empty (p : Int) (s01 s02 s03 w1 w2 w3 : K) (x1 x2 : Int) (h : x1 > x2) :
    a2r3 p s01 s02 s03 w1 w2 w3 x1 x2 = 0 := by
  unfold a2r3
  exact if_pos h

theorem a2r4_empty (p : Int) (s01 s02 s03 w1 w2 w3 : K) (x1 x2 : Int) (h : x1 > x2) :
    a2r4 p s01 s02 s03 w1 w2 w3 x1 x2 = 0 := by
  unfold a2r4
  exact if_pos h

theorem ae_empty (p : Int) (s01 s02 s03 w1 w2 w3 : K) (x1 x2 : Int) (h : x1 > x2) :
    ae p s01 s02 s03 w1 w2 w3 x1 x2 = 0 := by
  unfold ae
  exact if_pos h

theorem am_empty (p : Int) (s01 s02 s03 w1 w2 w3 : K) (x1 x2 : Int) (h : x1 > x2) :
    am p s01 s02 s03 w1 w2 w3 x1 x2 = 0 := by
  unfold am
  exact if_pos h

theorem ad_empty (p : Int) (s01 s02 s03 w1 w2 w3 : K) (x1 x2 : Int) (h : x1 > x2) :
    ad p s01 s02 s03 w1 w2 w3 x1 x2 = 0 := by
  unfold ad
  exact if_pos h

/-- With the moment selector `(0, 0, 0)` the loss factor does not depend on
the bounds: each of the two calls of `analyticReact` reads the zeroed vectors
and returns `4`. -/
theorem reactantLossFactor_zero (h2 : (2 : K) ≠ 0) (bounds : List Int) (active : Int) :
    reactantLossFactor (K := K) bounds [0, 0, 0] active = 16 := by
  have h0 : ¬ ((0 : Int) > 0) := by decide
  have hp1 : computeIndex 0 0 0 1 = 0 := by decide
  have hp2 : computeIndex 0 0 0 2 = 0 := by decide
  by_cases ha : active = 1
  · have e1 := a1r1_zero (0 : K) 0 0 0 0 0 0 0 h0
    have e2 := a1r2_zero (0 : K) 0 0 0 0 0 0 0 h0
    have e3 := a1r3_zero (0 : K) 0 0 0 0 0 0 0 h0
    have e4 := a1r4_zero (0 : K) 0 0 0 0 0 0 0 h0
    simp only [reactantLossFactor, analyticReact, List.getD_cons_zero, List.getD_cons_succ,
      hp1, hp2, if_pos ha, e1, e2, e3, e4]
    norm_num
    field_simp
    ring
  · have e1 := a2r1_zero (0 : K) 0 0 0 0 0 0 0 h0
    have e2 := a2r2_zero (0 : K) 0 0 0 0 0 0 0 h0
    have e3 := a2r3_zero (0 : K) 0 0 0 0 0 0 0 h0
    have e4 := a2r4_zero (0 : K) 0 0 0 0 0 0 0 h0
    simp only [reactantLossFactor, analyticReact, List.getD_cons_zero, List.getD_cons_succ,
      hp1, hp2, if_neg ha, e1, e2, e3, e4]
    norm_num
    field_simp
    ring

end ReactLemmas

section DiscreteSums

variable {K : Type} [Field K]

/-- Twice the sum of `a + k` for `k < n`. -/
theorem sum_range_affine (a : K) : ∀ n : Nat,
    ((List.range n).map (fun (k : Nat) => a + (k : K))).sum * 2
      = (n : K) * (2 * a + (n : K) - 1) := by
  intro n
  induction n with
  | zero => simp
  | succ n ih =>
    rw [List.range_succ, List.map_append, List.sum_append, add_mul, ih]
    simp only [List.map_cons, List.map_nil, List.sum_cons, List.sum_nil]
    push_cast
    ring

/-- Six times the sum of `(a + k)^2` for `k < n`. -/
theorem sum_range_sq (a : K) : ∀ n : Nat,
    ((List.range n).map (fun (k : Nat) => (a + (k : K)) ^ 2)).sum * 6
      = (n : K) * (6 * a ^ 2 + 6 * a * ((n : K) - 1) + ((n : K) - 1) * (2 * (n : K) - 1)) := by
  intro n
  induction n with
  | zero => simp
  | succ n ih =>
    rw [List.range_succ, List.map_append, List.sum_append, add_mul, ih]
    simp only [List.map_cons, List.map_nil, List.sum_cons, List.sum_nil]
    push_cast
    ring

theorem intRange_length (x1 x2 : Int) (h : x1 ≤ x2) :
    (((intRange x1 x2).length : Nat) : Int) = x2 - x1 + 1 := by
  rw [intRange, List.length_map, List.length_range]
  omega

theorem intRange_map (x1 x2 : Int) (g : K → K) :
    (intRange x1 x2).map (fun (x : Int) => g (x : K))
      = (List.range (x2 - x1 + 1).toNat).map (fun (k : Nat) => g ((x1 : K) + (k : K))) := by
  rw [intRange, List.map_map]
  apply List.map_congr_left
  intro k _
  simp only [Function.comp]
  push_cast
  rfl

end DiscreteSums

section EmissionClaims

variable {K : Type} [Field K] [CharZero K]

/-- C33: the reaction-factor functions ignore their geometry argument.
`setReactLimits` receives `luBounds` and `group` by value, so for every
moment selector `m`, every `active` and any two bounds vectors `b` and `b2`,
`productGainFactor(b, m, active) = productGainFactor(b2, m, active)` and
`reactantLossFactor(b, m, active) = reactantLossFactor(b2, m, active)`; for
`m = (0, 0, 0)` both return 16. -/
theorem reaction_factors_ignore_geometry (b b2 m : List Int) (active : Int) :
    productGainFactor (K := K) b m active = productGainFactor b2 m active
    ∧ reactantLossFactor (K := K) b m active = reactantLossFactor b2 m active
    ∧ productGainFactor (K := K) b [0, 0, 0] active = 16
    ∧ reactantLossFactor (K := K) b [0, 0, 0] active = 16 :=
  ⟨rfl, rfl, productGainFactor_zero two_ne_zero b active,
    reactantLossFactor_zero two_ne_zero b active⟩

/-- C40: the emission primitive is an exact discrete sum.  For integers
`x1 <= x2` and `w1 != -1`, `ae(0, ...)` is the number of integers in
`[x1, x2]`, `ae(2, ...)` is the sum over `x` in `[x1, x2]` of `x - s01`,
`ae(1, ...)` is that sum divided by `1 + w1`, and `ae(3, ...)` is the sum of
`(x - s01)^2` divided by `1 + w1`; for `x1 > x2` each of `ae`, `am`, `ad`,
`ap1` to `ap4`, `a1r1` to `a1r4` and `a2r1` to `a2r4` returns 0; and the
selector computed by `computeIndex` lies in `0 .. 7`. -/
theorem emission_primitive_exact_sum (s01 s02 s03 w1 w2 w3 : K) (x1 x2 : Int) :
    (x1 ≤ x2 → w1 ≠ -1 →
      ae 0 s01 s02 s03 w1 w2 w3 x1 x2 = ((intRange x1 x2).length : K)
      ∧ ae 2 s01 s02 s03 w1 w2 w3 x1 x2
          = ((intRange x1 x2).map (fun (x : Int) => (x : K) - s01)).sum
      ∧ ae 1 s01 s02 s03 w1 w2 w3 x1 x2
          = ((intRange x1 x2).map (fun (x : Int) => (x : K) - s01)).sum / (1 + w1)
      ∧ ae 3 s01 s02 s03 w1 w2 w3 x1 x2
          = ((intRange x1 x2).map (fun (x : Int) => ((x : K) - s01) ^ 2)).sum / (1 + w1))
    ∧ (x1 > x2 → ∀ p : Int,
      ae p s01 s02 s03 w1 w2 w3 x1 x2 = 0 ∧ am p s01 s02 s03 w1 w2 w3 x1 x2 = 0
      ∧ ad p s01 s02 s03 w1 w2 w3 x1 x2 = 0
      ∧ ap1 p s01 s02 s03 w1 w2 w3 x1 x2 = 0 ∧ ap2 p s01 s02 s03 w1 w2 w3 x1 x2 = 0
      ∧ ap3 p s01 s02 s03 w1 w2 w3 x1 x2 = 0 ∧ ap4 p s01 s02 s03 w1 w2 w3 x1 x2 = 0
      ∧ a1r1 p s01 s02 s03 w1 w2 w3 x1 x2 = 0 ∧ a1r2 p s01 s02 s03 w1 w2 w3 x1 x2 = 0
      ∧ a1r3 p s01 s02 s03 w1 w2 w3 x1 x2 = 0 ∧ a1r4 p s01 s02 s03 w1 w2 w3 x1 x2 = 0
      ∧ a2r1 p s01 s02 s03 w1 w2 w3 x1 x2 = 0 ∧ a2r2 p s01 s02 s03 w1 w2 w3 x1 x2 = 0
      ∧ a2r3 p s01 s02 s03 w1 w2 w3 x1 x2 = 0 ∧ a2r4 p s01 s02 s03 w1 w2 w3 x1 x2 = 0)
    ∧ (∀ m1 m2 m3 axisdir : Int,
      0 ≤ computeIndex m1 m2 m3 axisdir ∧ computeIndex m1 m2 m3 axisdir ≤ 7) := by
  refine ⟨?_, ?_, ?_⟩
  · intro hle _
    have hng : ¬ x1 > x2 := not_lt.2 hle
    have hlen := intRange_length x1 x2 hle
    have hn : (((x2 - x1 + 1).toNat : Nat) : K) = (x2 : K) - (x1 : K) + 1 := by
      have : (((x2 - x1 + 1).toNat : Nat) : Int) = x2 - x1 + 1 := Int.toNat_of_nonneg (by omega)
      have h2 : ((((x2 - x1 + 1).toNat : Nat) : Int) : K) = ((x2 - x1 + 1 : Int) : K) := by
        rw [this]
      push_cast at h2
      exact h2
    have h2 : (2 : K) ≠ 0 := two_ne_zero
    have h6 : (6 : K) ≠ 0 := by norm_num
    have s1 := sum_range_affine ((x1 : K) - s01) (x2 - x1 + 1).toNat
    have s2 := sum_range_sq ((x1 : K) - s01) (x2 - x1 + 1).toNat
    rw [hn] at s1 s2
    have m1 : (intRange x1 x2).map (fun (x : Int) => (x : K) - s01)
        = (List.range (x2 - x1 + 1).toNat).map (fun (k : Nat) => (x1 : K) - s01 + (k : K)) := by
      rw [intRange_map x1 x2 (fun y => y - s01)]
      apply List.map_congr_left
      intro k _
      ring
    have m2 : (intRange x1 x2).map (fun (x : Int) => ((x : K) - s01) ^ 2)
        = (List.range (x2 - x1 + 1).toNat).map
            (fun (k : Nat) => ((x1 : K) - s01 + (k : K)) ^ 2) := by
      rw [intRange_map x1 x2 (fun y => (y - s01) ^ 2)]
      apply List.map_congr_left
      intro k _
      ring
    have t1 : ((intRange x1 x2).map (fun (x : Int) => (x : K) - s01)).sum
        = -((-1 + (x1 : K) - (x2 : K)) * ((x1 : K) + (x2 : K) - 2 * s01)) / 2 := by
      rw [m1, eq_div_iff h2, s1]
      ring
    have t2 : ((intRange x1 x2).map (fun (x : Int) => ((x : K) - s01) ^ 2)).sum
        = -((-1 + (x1 : K) - (x2 : K)) * (-(x1 : K) + 2 * (x1 : K) * (x1 : K) + (x2 : K)
            + 2 * (x1 : K) * (x2 : K) + 2 * (x2 : K) * (x2 : K) - 6 * (x1 : K) * s01
            - 6 * (x2 : K) * s01 + 6 * s01 * s01)) / 6 := by
      rw [m2, eq_div_iff h6, s2]
      ring
    refine ⟨?_, ?_, ?_, ?_⟩
    · have e : ae 0 s01 s02 s03 w1 w2 w3 x1 x2 = 1 - (x1 : K) + (x2 : K) := by
        unfold ae
        rw [if_neg hng]
        exact if_pos rfl
      rw [e, intRange, List.length_map, List.length_range, hn]
      ring
    · have e : ae 2 s01 s02 s03 w1 w2 w3 x1 x2
          = -((-1 + (x1 : K) - (x2 : K)) * ((x1 : K) + (x2 : K) - 2 * s01)) / 2 := by
        unfold ae
        rw [if_neg hng]
        simp
      rw [e, t1]
    · have e : ae 1 s01 s02 s03 w1 w2 w3 x1 x2
          = -((-1 + (x1 : K) - (x2 : K)) * ((x1 : K) + (x2 : K) - 2 * s01))
              / (2 * (1 + w1)) := by
        unfold ae
        rw [if_neg hng]
        simp
      rw [e, t1, div_div]
    · have e : ae 3 s01 s02 s03 w1 w2 w3 x1 x2
          = -((-1 + (x1 : K) - (x2 : K)) * (-(x1 : K) + 2 * (x1 : K) * (x1 : K) + (x2 : K)
              + 2 * (x1 : K) * (x2 : K) + 2 * (x2 : K) * (x2 : K) - 6 * (x1 : K) * s01
              - 6 * (x2 : K) * s01 + 6 * s01 * s01)) / (6 * (1 + w1)) := by
        unfold ae
        rw [if_neg hng]
        simp
      rw [e, t2, div_div]
  · intro hgt p
    exact ⟨ae_empty p _ _ _ _ _ _ _ _ hgt, am_empty p _ _ _ _ _ _ _ _ hgt,
      ad_empty p _ _ _ _ _ _ _ _ hgt,
      ap1_empty p _ _ _ _ _ _ _ _ hgt, ap2_empty p _ _ _ _ _ _ _ _ hgt,
      ap3_empty p _ _ _ _ _ _ _ _ hgt, ap4_empty p _ _ _ _ _ _ _ _ hgt,
      a1r1_empty p _ _ _ _ _ _ _ _ hgt, a1r2_empty p _ _ _ _ _ _ _ _ hgt,
      a1r3_empty p _ _ _ _ _ _ _ _ hgt, a1r4_empty p _ _ _ _ _ _ _ _ hgt,
      a2r1_empty p _ _ _ _ _ _ _ _ hgt, a2r2_empty p _ _ _ _ _ _ _ _ hgt,
      a2r3_empty p _ _ _ _ _ _ _ _ hgt, a2r4_empty p _ _ _ _ _ _ _ _ hgt⟩
  · intro m1 m2 m3 axisdir
    simp only [computeIndex]
    constructor <;> (split_ifs <;> norm_num)

end EmissionClaims

/-- C33 over the rationals, on the bounds of two different geometries. -/
theorem reaction_factors_ignore_geometry_witness :
    productGainFactor (K := ℚ) [1, 1, 1, 1, 1, 1, 1, 1, 2, 2, 2, 2] [1, 0, 2] 1
      = productGainFactor [1, 4, 1, 4, 2, 3, 2, 3, 3, 7, 3, 7] [1, 0, 2] 1
    ∧ reactantLossFactor (K := ℚ) [1, 1, 1, 1, 1, 1, 1, 1, 2, 2, 2, 2] [1, 0, 2] 1
      = reactantLossFactor [1, 4, 1, 4, 2, 3, 2, 3, 3, 7, 3, 7] [1, 0, 2] 1
    ∧ productGainFactor (K := ℚ) [1, 4, 1, 4, 2, 3, 2, 3, 3, 7, 3, 7] [0, 0, 0] 1 = 16
    ∧ reactantLossFactor (K := ℚ) [1, 4, 1, 4, 2, 3, 2, 3, 3, 7, 3, 7] [0, 0, 0] 1 = 16 :=
  have h1 := reaction_factors_ignore_geometry (K := ℚ) [1, 1, 1, 1, 1, 1, 1, 1, 2, 2, 2, 2]
    [1, 4, 1, 4, 2, 3, 2, 3, 3, 7, 3, 7] [1, 0, 2] 1
  have h2 := reaction_factors_ignore_geometry (K := ℚ) [1, 4, 1, 4, 2, 3, 2, 3, 3, 7, 3, 7]
    [] [0, 0, 0] 1
  ⟨h1.1, h1.2.1, h2.2.2.1, h2.2.2.2⟩

/-- C40 on the range `[2, 4]` with `s01 = 1` and `w1 = 1`, and on the empty
range `[3, 2]`. -/
theorem emission_primitive_exact_sum_witness :
    ae (K := ℚ) 0 1 0 0 1 0 0 2 4 = ((intRange 2 4).length : ℚ)
    ∧ ae (K := ℚ) 3 1 0 0 1 0 0 2 4
        = ((intRange 2 4).map (fun (x : Int) => ((x : ℚ) - 1) ^ 2)).sum / (1 + 1)
    ∧ a2r4 (K := ℚ) 5 1 0 0 1 0 0 3 2 = 0 :=
  have h := emission_primitive_exact_sum (K := ℚ) 1 0 0 1 0 0
  ⟨((h 2 4).1 (by decide) (by norm_num)).1, ((h 2 4).1 (by decide) (by norm_num)).2.2.2,
    ((h 3 2).2.1 (by decide) 5).2.2.2.2.2.2.2.2.2.2.2.2.2.2⟩

theorem mem_foldl_append {A : Type} (g : A → List Int) (x : Int) :
    ∀ (l : List A) (r : List Int),
      x ∈ l.foldl (fun r it => r ++ g it) r ↔ x ∈ r ∨ ∃ it ∈ l, x ∈ g it := by
  intro l
  induction l with
  | nil => intro r; simp
  | cons a l ih =>
    intro r
    rw [List.foldl_cons, ih, List.mem_append]
    constructor
    · rintro ((h | h) | ⟨it, hit, h⟩)
      · exact Or.inl h
      · exact Or.inr ⟨a, List.mem_cons_self _ _, h⟩
      · exact Or.inr ⟨it, List.mem_cons_of_mem _ hit, h⟩
    · rintro (h | ⟨it, hit, h⟩)
      · exact Or.inl (Or.inl h)
      · rcases List.mem_cons.1 hit with rfl | hit
        · exact Or.inl (Or.inr h)
        · exact Or.inr ⟨it, hit, h⟩

/-- The members of the two sets built by `resetConnectivities`. -/
theorem mem_resetConnectivities {K : Type} (heap : ClusterPtr → PSICluster K) (sc : SuperCluster K)
    (x : Int) :
    (x ∈ (sc.resetConnectivities heap).reactionConnectivitySet ↔
      (x = sc.id ∨ x = sc.heMomId ∨ x = sc.vMomId)
      ∨ (∃ it ∈ sc.effReactingList,
          x = (heap it.first).id ∨ x = (heap it.first).heMomId ∨ x = (heap it.first).vMomId
          ∨ x = (heap it.second).id ∨ x = (heap it.second).heMomId
          ∨ x = (heap it.second).vMomId)
      ∨ (∃ it ∈ sc.effCombiningList,
          x = (heap it.first).id ∨ x = (heap it.first).heMomId
          ∨ x = (heap it.first).vMomId))
    ∧ (x ∈ (sc.resetConnectivities heap).dissociationConnectivitySet ↔
      (x = sc.id ∨ x = sc.heMomId ∨ x = sc.vMomId)
      ∨ (∃ it ∈ sc.effDissociatingList,
          x = (heap it.first).id ∨ x = (heap it.first).heMomId
          ∨ x = (heap it.first).vMomId)) := by
  simp only [SuperCluster.resetConnectivities, mem_foldl_append, List.nil_append,
    List.cons_append, List.mem_cons, List.mem_nil_iff, List.mem_singleton, or_false, or_assoc]
  exact ⟨trivial, trivial⟩

theorem foldl_entries {K A : Type} (f : PartialBuffers K → A → PartialBuffers K) (index : Int) :
    ∀ (l : List A) (b : PartialBuffers K),
      (∀ it ∈ l, ∀ b, (f b it).entries index = b.entries index) →
      (l.foldl f b).entries index = b.entries index := by
  intro l
  induction l with
  | nil => intro b _; rfl
  | cons a l ih =>
    intro b h
    rw [List.foldl_cons, ih _ (fun it hit => h it (List.mem_cons_of_mem _ hit)),
      h a (List.mem_cons_self _ _)]

section SparsityLemmas

variable {K : Type} [Field K]

theorem entries_add (b : PartialBuffers K) (index j : Int) (x y z : K) (h : index ≠ j) :
    (b.add j x y z).entries index = b.entries index := by
  simp [PartialBuffers.entries, PartialBuffers.add, Function.update_noteq h]

theorem entries_sub (b : PartialBuffers K) (index j : Int) (x y z : K) (h : index ≠ j) :
    (b.sub j x y z).entries index = b.entries index := by
  simp [PartialBuffers.entries, PartialBuffers.sub, Function.update_noteq h]

theorem productionPartialsStep_entries (heap : ClusterPtr → PSICluster K)
    (b : PartialBuffers K) (it : SuperClusterProductionPair K) (index : Int)
    (h1 : index + 1 ≠ (heap it.first).id) (h2 : index + 1 ≠ (heap it.first).heMomId)
    (h3 : index + 1 ≠ (heap it.first).vMomId) (h4 : index + 1 ≠ (heap it.second).id)
    (h5 : index + 1 ≠ (heap it.second).heMomId) (h6 : index + 1 ≠ (heap it.second).vMomId) :
    (productionPartialsStep heap b it).entries index = b.entries index := by
  simp only [productionPartialsStep]
  rw [entries_add _ _ _ _ _ _ (by omega), entries_add _ _ _ _ _ _ (by omega),
    entries_add _ _ _ _ _ _ (by omega), entries_add _ _ _ _ _ _ (by omega),
    entries_add _ _ _ _ _ _ (by omega), entries_add _ _ _ _ _ _ (by omega)]

theorem combinationPartialsStep_entries (heap : ClusterPtr → PSICluster K)
    (sc : SuperCluster K) (b : PartialBuffers K) (it : SuperClusterProductionPair K)
    (index : Int)
    (h1 : index + 1 ≠ (heap it.first).id) (h2 : index + 1 ≠ (heap it.first).heMomId)
    (h3 : index + 1 ≠ (heap it.first).vMomId) (h4 : index + 1 ≠ sc.id)
    (h5 : index + 1 ≠ sc.heMomId) (h6 : index + 1 ≠ sc.vMomId) :
    (combinationPartialsStep heap sc b it).entries index = b.entries index := by
  simp only [combinationPartialsStep]
  rw [entries_sub _ _ _ _ _ _ (by omega), entries_sub _ _ _ _ _ _ (by omega),
    entries_sub _ _ _ _ _ _ (by omega), entries_sub _ _ _ _ _ _ (by omega),
    entries_sub _ _ _ _ _ _ (by omega), entries_sub _ _ _ _ _ _ (by omega)]

theorem dissociationPartialsStep_entries (heap : ClusterPtr → PSICluster K)
    (b : PartialBuffers K) (it : SuperClusterDissociationPair K) (index : Int)
    (h1 : index + 1 ≠ (heap it.first).id) (h2 : index + 1 ≠ (heap it.first).heMomId)
    (h3 : index + 1 ≠ (heap it.first).vMomId) :
    (dissociationPartialsStep heap b it).entries index = b.entries index := by
  simp only [dissociationPartialsStep]
  rw [entries_add _ _ _ _ _ _ (by omega), entries_add _ _ _ _ _ _ (by omega),
    entries_add _ _ _ _ _ _ (by omega)]

theorem emissionPartialsStep_entries (sc : SuperCluster K)
    (b : PartialBuffers K) (it : SuperClusterDissociationPair K) (index : Int)
    (h4 : index + 1 ≠ sc.id) (h5 : index + 1 ≠ sc.heMomId) (h6 : index + 1 ≠ sc.vMomId) :
    (emissionPartialsStep sc b it).entries index = b.entries index := by
  simp only [emissionPartialsStep]
  rw [entries_sub _ _ _ _ _ _ (by omega), entries_sub _ _ _ _ _ _ (by omega),
    entries_sub _ _ _ _ _ _ (by omega)]

end SparsityLemmas

section SparsityClaim

variable {K : Type} [Field K]

/-- C34 (sparsity soundness): for every content of the four aggregated
lists, each id under which `getPartialDerivatives` accumulates into the
three buffers - the own id, `heMomId` and `vMomId`, and the id and the two
moment ids of each member of a reacting pair, of each combining partner and
of each dissociating cluster - is marked by `resetConnectivities` in the
reaction or the dissociation connectivity set; and at an index whose id
`index + 1` is in neither set nothing is accumulated: `partials` keeps its
value there and the two moment buffers hold the 0 of their
re-initialisation. -/
theorem sparsity_soundness (heap : ClusterPtr → PSICluster K) (sc : SuperCluster K)
    (b : PartialBuffers K) :
    (∀ x, x = sc.id ∨ x = sc.heMomId ∨ x = sc.vMomId →
      x ∈ (sc.resetConnectivities heap).reactionConnectivitySet
      ∧ x ∈ (sc.resetConnectivities heap).dissociationConnectivitySet)
    ∧ (∀ it ∈ sc.effReactingList, ∀ x,
        x = (heap it.first).id ∨ x = (heap it.first).heMomId ∨ x = (heap it.first).vMomId
          ∨ x = (heap it.second).id ∨ x = (heap it.second).heMomId
          ∨ x = (heap it.second).vMomId →
        x ∈ (sc.resetConnectivities heap).reactionConnectivitySet)
    ∧ (∀ it ∈ sc.effCombiningList, ∀ x,
        x = (heap it.first).id ∨ x = (heap it.first).heMomId ∨ x = (heap it.first).vMomId →
        x ∈ (sc.resetConnectivities heap).reactionConnectivitySet)
    ∧ (∀ it ∈ sc.effDissociatingList, ∀ x,
        x = (heap it.first).id ∨ x = (heap it.first).heMomId ∨ x = (heap it.first).vMomId →
        x ∈ (sc.resetConnectivities heap).dissociationConnectivitySet)
    ∧ (∀ index : Int,
        index + 1 ∉ (sc.resetConnectivities heap).reactionConnectivitySet →
        index + 1 ∉ (sc.resetConnectivities heap).dissociationConnectivitySet →
        (sc.getPartialDerivatives heap b).partials index = b.partials index
        ∧ (sc.getPartialDerivatives heap b).heMomentumPartials index = 0
        ∧ (sc.getPartialDerivatives heap b).vMomentumPartials index = 0) := by
  refine ⟨?_, ?_, ?_, ?_, ?_⟩
  · intro x hx
    exact ⟨(mem_resetConnectivities heap sc x).1.2 (Or.inl hx),
      (mem_resetConnectivities heap sc x).2.2 (Or.inl hx)⟩
  · intro it hit x hx
    exact (mem_resetConnectivities heap sc x).1.2 (Or.inr (Or.inl ⟨it, hit, hx⟩))
  · intro it hit x hx
    exact (mem_resetConnectivities heap sc x).1.2 (Or.inr (Or.inr ⟨it, hit, hx⟩))
  · intro it hit x hx
    exact (mem_resetConnectivities heap sc x).2.2 (Or.inr ⟨it, hit, hx⟩)
  · intro index hr hd
    have hr2 := fun h => hr ((mem_resetConnectivities heap sc (index + 1)).1.2 h)
    have hd2 := fun h => hd ((mem_resetConnectivities heap sc (index + 1)).2.2 h)
    have o1 : index + 1 ≠ sc.id := fun h => hr2 (Or.inl (Or.inl h))
    have o2 : index + 1 ≠ sc.heMomId := fun h => hr2 (Or.inl (Or.inr (Or.inl h)))
    have o3 : index + 1 ≠ sc.vMomId := fun h => hr2 (Or.inl (Or.inr (Or.inr h)))
    have hall : (sc.getPartialDerivatives heap b).entries index = (b.partials index, 0, 0) := by
      simp only [SuperCluster.getPartialDerivatives,
        SuperCluster.getProductionPartialDerivatives,
        SuperCluster.getCombinationPartialDerivatives,
        SuperCluster.getDissociationPartialDerivatives,
        SuperCluster.getEmissionPartialDerivatives]
      rw [foldl_entries _ index _ _ (fun it _ b =>
          emissionPartialsStep_entries sc b it index o1 o2 o3),
        foldl_entries _ index _ _ (fun it hit b =>
          dissociationPartialsStep_entries heap b it index
            (fun h => hd2 (Or.inr ⟨it, hit, Or.inl h⟩))
            (fun h => hd2 (Or.inr ⟨it, hit, Or.inr (Or.inl h)⟩))
            (fun h => hd2 (Or.inr ⟨it, hit, Or.inr (Or.inr h)⟩))),
        foldl_entries _ index _ _ (fun it hit b =>
          combinationPartialsStep_entries heap sc b it index
            (fun h => hr2 (Or.inr (Or.inr ⟨it, hit, Or.inl h⟩)))
            (fun h => hr2 (Or.inr (Or.inr ⟨it, hit, Or.inr (Or.inl h)⟩)))
            (fun h => hr2 (Or.inr (Or.inr ⟨it, hit, Or.inr (Or.inr h)⟩)))
            o1 o2 o3),
        foldl_entries _ index _ _ (fun it hit b =>
          productionPartialsStep_entries heap b it index
            (fun h => hr2 (Or.inr (Or.inl ⟨it, hit, Or.inl h⟩)))
            (fun h => hr2 (Or.inr (Or.inl ⟨it, hit, Or.inr (Or.inl h)⟩)))
            (fun h => hr2 (Or.inr (Or.inl ⟨it, hit, Or.inr (Or.inr (Or.inl h))⟩)))
            (fun h => hr2 (Or.inr (Or.inl ⟨it, hit, Or.inr (Or.inr (Or.inr (Or.inl h)))⟩)))
            (fun h => hr2 (Or.inr (Or.inl ⟨it, hit,
              Or.inr (Or.inr (Or.inr (Or.inr (Or.inl h))))⟩)))
            (fun h => hr2 (Or.inr (Or.inl ⟨it, hit,
              Or.inr (Or.inr (Or.inr (Or.inr (Or.inr h))))⟩))))]
      rfl
    simp only [PartialBuffers.entries, Prod.mk.injEq] at hall
    exact hall

end SparsityClaim

/-- C34 on `connectedSuper` and `sampleHeap`: the marked ids are
`4, 7, 8, 1, 2, 3, 5, 6`, and the buffers are not written at the index 99. -/
theorem sparsity_soundness_witness :
    (100 : Int) ∉ (connectedSuper.resetConnectivities sampleHeap).reactionConnectivitySet
    ∧ (100 : Int) ∉ (connectedSuper.resetConnectivities sampleHeap).dissociationConnectivitySet
    ∧ (3 : Int) ∈ (connectedSuper.resetConnectivities sampleHeap).reactionConnectivitySet
    ∧ (connectedSuper.getPartialDerivatives sampleHeap sampleBuffers).partials 99
        = sampleBuffers.partials 99
    ∧ (connectedSuper.getPartialDerivatives sampleHeap sampleBuffers).heMomentumPartials 99 = 0
    ∧ (connectedSuper.getPartialDerivatives sampleHeap sampleBuffers).vMomentumPartials 99
        = 0 :=
  have h := sparsity_soundness sampleHeap connectedSuper sampleBuffers
  have h1 : (100 : Int)
      ∉ (connectedSuper.resetConnectivities sampleHeap).reactionConnectivitySet := by decide
  have h2 : (100 : Int)
      ∉ (connectedSuper.resetConnectivities sampleHeap).dissociationConnectivitySet := by
    decide
  ⟨h1, h2, h.2.2.1 _ (List.mem_cons_self _ _) 3 (Or.inl rfl), h.2.2.2.2 99 h1 h2⟩

end Xolotl
